import Mathlib

/-! GEMM template and expression trees.

A shallow embedding of `lib/symbolic/expression.cpp` (namespace `atidlas`: the
expression tree, its constructors and `lhs_most`) and of
`lib/jit/generation/gemm.cpp` (namespace `isaac::templates`: validator,
resource estimators, kernel text and launch configuration of the GEMM template).

Machine integers are natural numbers.  The tuning knobs of the parameter record
`p_` are 32-bit unsigned values (`uint32_t bound1 = ... p_.kL ...`,
`uint32_t N = p_.mS * p_.nS + ...`), so every product and sum of knobs is
reduced modulo `2^32`; `size_t` arithmetic is reduced modulo `2^64`; a node
index is an `unsigned int`.  A division or modulus whose divisor is zero has no
defined value in C++: functions that may evaluate one return `Option`, with
`none` standing for that fault.
-/

namespace atidlas

/-! ## Expression trees (`lib/symbolic/expression.cpp`) -/

/-- Number of values of an `unsigned int`, the type of a node index. -/
def UINT_RANGE : Nat := 4294967296

/-- Modelled from the spec: the enumeration `numeric_type` is declared in a
header that is not among the sources; the two constants the sources name are
constructors, every other element type is `other`. -/
inductive numeric_type where
  | INVALID_NUMERIC_TYPE
  | INT_TYPE
  | other (code : Nat)
  deriving DecidableEq, Repr

/-- Modelled from the spec: the families of operators; only the unary family is
named in the sources. -/
inductive operation_node_type_family where
  | OPERATOR_UNARY_TYPE_FAMILY
  | other (code : Nat)
  deriving DecidableEq, Repr

/-- Modelled from the spec: the operators; only subtraction and negation are
named in the sources. -/
inductive operation_node_type where
  | OPERATOR_SUB_TYPE
  | OPERATOR_NEGATE_TYPE
  | other (code : Nat)
  deriving DecidableEq, Repr

/-- The operator of a node (`op_element`). -/
structure op_element where
  type_family : operation_node_type_family
  type : operation_node_type
  deriving DecidableEq, Repr

/-- What `fill` copies out of an `array`: element type, data handle, shape,
start, stride and leading dimension. -/
structure array where
  dtype : numeric_type
  data : Nat
  shape1 : Nat
  shape2 : Nat
  start1 : Nat
  start2 : Nat
  stride1 : Nat
  stride2 : Nat
  ld : Nat
  deriving DecidableEq, Repr

/-- What `fill` copies out of a `value_scalar`: element type and value. -/
structure value_scalar where
  dtype : numeric_type
  values : Int
  deriving DecidableEq, Repr

/-- The payload of a `repeat_infos` (its fields are declared outside the sources). -/
structure repeat_infos where
  tuple : Nat
  deriving DecidableEq, Repr

/-- An operand slot `lhs_rhs_element`, by the `type_family` its `fill` sets:
`INVALID_TYPE_FAMILY`, `COMPOSITE_OPERATOR_FAMILY` (the index of another node of
the tree), `ARRAY_TYPE_FAMILY`, `VALUE_TYPE_FAMILY`, `INFOS_TYPE_FAMILY`. -/
inductive lhs_rhs_element where
  | invalid
  | composite (node_index : Nat)
  | dense_array (a : array)
  | scalar (v : value_scalar)
  | infos (r : repeat_infos)
  deriving DecidableEq, Repr

/-- The test `x.type_family==COMPOSITE_OPERATOR_FAMILY`. -/
def lhs_rhs_element.is_composite : lhs_rhs_element → Bool
  | lhs_rhs_element.composite _ => true
  | _ => false

/-- A leaf argument of a constructor: the four types the constructor templates
are instantiated with (`value_scalar`, `invalid_node`, `array`, `repeat_infos`). -/
inductive leaf where
  | invalid_node
  | of_array (a : array)
  | of_value_scalar (v : value_scalar)
  | of_repeat_infos (r : repeat_infos)
  deriving DecidableEq, Repr

/-- The overloads `fill(x, invalid_node)`, `fill(x, array const &)`,
`fill(x, value_scalar const &)` and `fill(x, repeat_infos const &)`. -/
def fill : leaf → lhs_rhs_element
  | leaf.invalid_node => lhs_rhs_element.invalid
  | leaf.of_array a => lhs_rhs_element.dense_array a
  | leaf.of_value_scalar v => lhs_rhs_element.scalar v
  | leaf.of_repeat_infos r => lhs_rhs_element.infos r

/-- The overload `fill(x, unsigned int node_index)`; the argument, a `size_t`
at every call, is converted to `unsigned int`. -/
def fill_node_index (node_index : Nat) : lhs_rhs_element :=
  lhs_rhs_element.composite (node_index % UINT_RANGE)

/-- A node of the tree (`array_expression::node`). -/
structure node where
  lhs : lhs_rhs_element
  op : op_element
  rhs : lhs_rhs_element
  deriving DecidableEq, Repr

/-- The two-component shape of an expression (`size4(size1, size2)`). -/
structure size4 where
  dim1 : Nat
  dim2 : Nat
  deriving DecidableEq, Repr

/-- The class `array_expression`: the node container `tree_`, the index
`root_`, and the context, element type and shape it carries.  The members are
initialised in the order the constructors list them (`tree_` before `root_`). -/
structure array_expression where
  tree_ : List node
  root_ : Nat
  context_ : Nat
  dtype_ : numeric_type
  shape_ : size4
  deriving DecidableEq, Repr

/-- The constructor from two leaves (lines 68-75): one node, root 0. -/
def array_expression.leaf_leaf (lhs rhs : leaf) (op : op_element) (context : Nat)
    (dtype : numeric_type) (shape : size4) : array_expression :=
  { tree_ := [{ lhs := fill lhs, op := op, rhs := fill rhs }],
    root_ := 0, context_ := context, dtype_ := dtype, shape_ := shape }

/-- The constructor from an expression and a leaf (lines 77-85): the nodes of
`lhs` are copied and the new root is stored behind them. -/
def array_expression.expr_leaf (lhs : array_expression) (rhs : leaf) (op : op_element)
    (dtype : numeric_type) (shape : size4) : array_expression :=
  { tree_ := lhs.tree_ ++ [{ lhs := fill_node_index lhs.root_, op := op, rhs := fill rhs }],
    root_ := (lhs.tree_.length + 1) - 1,
    context_ := lhs.context_, dtype_ := dtype, shape_ := shape }

/-- The constructor from a leaf and an expression (lines 87-95): the nodes of
`rhs` are copied and the new root is stored behind them. -/
def array_expression.leaf_expr (lhs : leaf) (rhs : array_expression) (op : op_element)
    (dtype : numeric_type) (shape : size4) : array_expression :=
  { tree_ := rhs.tree_ ++ [{ lhs := fill lhs, op := op, rhs := fill_node_index rhs.root_ }],
    root_ := (rhs.tree_.length + 1) - 1,
    context_ := rhs.context_, dtype_ := dtype, shape_ := shape }

/-- The statement `x.node_index += lsize` on an operand of the composite
family (the sum is formed in `size_t` and stored as `unsigned int`); operands of
the other families are left alone. -/
def rebase_element (lsize : Nat) : lhs_rhs_element → lhs_rhs_element
  | lhs_rhs_element.composite node_index =>
      lhs_rhs_element.composite ((node_index + lsize) % UINT_RANGE)
  | x => x

/-- The body of the re-basing loop (lines 107-108) on one node. -/
def rebase_node (lsize : Nat) (n : node) : node :=
  { lhs := rebase_element lsize n.lhs, op := n.op, rhs := rebase_element lsize n.rhs }

/-- The constructor from two expressions (lines 97-111): both node sequences
are copied, the root is filled, and the loop from `begin() + lsize` to
`end() - 1` re-bases the nodes at the indices `lsize, ..., lsize + |rhs| - 1`
one after the other. -/
def array_expression.expr_expr (lhs rhs : array_expression) (op : op_element)
    (dtype : numeric_type) (shape : size4) : array_expression :=
  let lsize := lhs.tree_.length
  let root_node : node :=
    { lhs := fill_node_index lhs.root_, op := op, rhs := fill_node_index (lsize + rhs.root_) }
  let copied := lhs.tree_ ++ rhs.tree_ ++ [root_node]
  let rebased := (List.range' lsize rhs.tree_.length).foldl
    (fun tree it => tree.modify (rebase_node lsize) it) copied
  { tree_ := rebased,
    root_ := rebased.length - 1,
    context_ := lhs.context_, dtype_ := dtype, shape_ := shape }

/-- The unary `operator-` (line 172). -/
def array_expression.neg (e : array_expression) : array_expression :=
  array_expression.expr_leaf e leaf.invalid_node
    { type_family := operation_node_type_family.OPERATOR_UNARY_TYPE_FAMILY,
      type := operation_node_type.OPERATOR_SUB_TYPE } e.dtype_ e.shape_

/-- The unary `operator!` (line 175). -/
def array_expression.logical_not (e : array_expression) : array_expression :=
  array_expression.expr_leaf e leaf.invalid_node
    { type_family := operation_node_type_family.OPERATOR_UNARY_TYPE_FAMILY,
      type := operation_node_type.OPERATOR_NEGATE_TYPE } numeric_type.INT_TYPE e.shape_

/-- The loop of `lhs_most` (lines 209-212), run for at most `fuel` tests of the
loop condition.  `none` stands for a run that needs more tests, or that reads
`array` outside its bounds. -/
def lhs_most_from (array : List node) : Nat → node → Option node
  | 0, _ => none
  | fuel + 1, current =>
    match current.lhs with
    | lhs_rhs_element.composite node_index =>
      match array[node_index]? with
      | none => none
      | some next => lhs_most_from array fuel next
    | _ => some current

/-- The overload `lhs_most(array, root)` (lines 215-216): the loop started at
the node `array[root]`. -/
def lhs_most (array : List node) (fuel : Nat) (root : Nat) : Option node :=
  match array[root]? with
  | none => none
  | some init => lhs_most_from array fuel init

/-- The index stored in the left operand of node `i`, when that operand is of
the composite family. -/
def lhs_index (array : List node) (i : Nat) : Option Nat :=
  match array[i]? with
  | none => none
  | some n =>
    match n.lhs with
    | lhs_rhs_element.composite node_index => some node_index
    | _ => none

/-- The chain `i, lhs(i), lhs(lhs(i)), ...`: its `k`-th index, as long as every
earlier node has a left operand of the composite family. -/
def lhs_chain (array : List node) (i : Nat) : Nat → Option Nat
  | 0 => some i
  | k + 1 => (lhs_chain array i k).bind (lhs_index array)

/-- The indices stored in the operands of a node that are of the composite family. -/
def node.children (n : node) : List Nat :=
  (match n.lhs with
    | lhs_rhs_element.composite node_index => [node_index]
    | _ => []) ++
  (match n.rhs with
    | lhs_rhs_element.composite node_index => [node_index]
    | _ => [])

/-- Well-formedness in the words of the specification: `root = size - 1` (for
a non-empty tree) and every index stored in an operand of node `i` is below `i`. -/
def array_expression.well_formed (e : array_expression) : Prop :=
  e.root_ + 1 = e.tree_.length ∧
  ∀ (i : Nat) (n : node), e.tree_[i]? = some n → ∀ j ∈ n.children, j < i

/-- Node `i` reaches index `j` through operands of the composite family, in
one or more steps. -/
inductive reaches (array : List node) : Nat → Nat → Prop where
  | step {i j : Nat} {n : node} (hn : array[i]? = some n) (hj : j ∈ n.children) :
      reaches array i j
  | trans {i j k : Nat} (hij : reaches array i j) (hjk : reaches array j k) :
      reaches array i k

/-- An operand `y` is the operand `x` with its node index increased by `lsize`:
for an operand of the composite family the index is the `unsigned int` value of
the sum (the sum itself when it fits), any other operand is unchanged. -/
def operand_shifted (lsize : Nat) (x y : lhs_rhs_element) : Prop :=
  match x with
  | lhs_rhs_element.composite node_index =>
      y = lhs_rhs_element.composite ((node_index + lsize) % UINT_RANGE) ∧
      (node_index + lsize < UINT_RANGE → y = lhs_rhs_element.composite (node_index + lsize))
  | _ => y = x

/-- Three arrays used as test leaves. -/
def sample_array (data : Nat) : array :=
  { dtype := numeric_type.other 0, data := data, shape1 := 4, shape2 := 4,
    start1 := 0, start2 := 0, stride1 := 1, stride2 := 1, ld := 4 }

/-- An operator used in the test trees. -/
def sample_op (code : Nat) : op_element :=
  { type_family := operation_node_type_family.other 0, type := operation_node_type.other code }

/-- The one-node tree `a0 op a1`. -/
def sample_leaf_tree : array_expression :=
  array_expression.leaf_leaf (leaf.of_array (sample_array 0)) (leaf.of_array (sample_array 1))
    (sample_op 1) 0 (numeric_type.other 0) { dim1 := 4, dim2 := 4 }

/-- The two-node tree `(a0 op a1) op a2`. -/
def sample_left_tree : array_expression :=
  array_expression.expr_leaf sample_leaf_tree (leaf.of_array (sample_array 2))
    (sample_op 2) (numeric_type.other 0) { dim1 := 4, dim2 := 4 }

/-- The five-node tree `((a0 op a1) op a2) op ((a0 op a1) op a2)`. -/
def sample_concatenation : array_expression :=
  array_expression.expr_expr sample_left_tree sample_left_tree
    (sample_op 3) (numeric_type.other 0) { dim1 := 4, dim2 := 4 }

/-! ## The term denoted by a node -/

/-- The expansion of a node: an operand that is not of the composite family,
or an operator applied to the expansions of its two operands. -/
inductive term where
  | operand (x : lhs_rhs_element)
  | apply (op : op_element) (lhs rhs : term)
  deriving DecidableEq, Repr

/-- The expansion of one operand: an operand of the composite family is
replaced by the expansion `expand node_index` of the node it names, any other
operand stands for itself. -/
def expand_operand (expand : Nat → Option term) : lhs_rhs_element → Option term
  | lhs_rhs_element.composite node_index => expand node_index
  | x => some (term.operand x)

/-- The term obtained from node `i` by expanding operands of the composite
family recursively, with at most `fuel` nested expansions; `none` when the fuel
runs out or an index is outside the tree. -/
def denote_from (array : List node) : Nat → Nat → Option term
  | 0, _ => none
  | fuel + 1, i =>
    match array[i]? with
    | none => none
    | some n =>
      match expand_operand (fun j => denote_from array fuel j) n.lhs,
            expand_operand (fun j => denote_from array fuel j) n.rhs with
      | some l, some r => some (term.apply n.op l r)
      | _, _ => none

/-- The term `denote(t, i)` of node `i` of the tree `t`: in a well-formed tree
`i + 1` nested expansions suffice, since operands name lower indices. -/
def denote (t : array_expression) (i : Nat) : Option term := denote_from t.tree_ (i + 1) i

/-- The node `a0 op a1` of two array operands. -/
def first_node : node :=
  { lhs := lhs_rhs_element.dense_array (sample_array 0), op := sample_op 1,
    rhs := lhs_rhs_element.dense_array (sample_array 1) }

/-- The node `(node i) op a2`, as the expression/leaf constructor stores it
behind a tree whose root is `i`. -/
def chain_node (i : Nat) : node :=
  { lhs := lhs_rhs_element.composite i, op := sample_op 2,
    rhs := lhs_rhs_element.dense_array (sample_array 2) }

/-- The left-leaning chain `(((a0 op a1) op a2) op a2) ...` of `n + 1` nodes,
as `n` uses of the expression/leaf constructor build it: node 0 is `first_node`
and node `i + 1` is `chain_node i`. -/
def chain_tree (n : Nat) : array_expression :=
  { tree_ := first_node :: (List.range n).map chain_node,
    root_ := n, context_ := 0, dtype_ := numeric_type.other 0,
    shape_ := { dim1 := 4, dim2 := 4 } }

/-- The chain of `2^32` nodes. -/
def long_chain_tree : array_expression := chain_tree 4294967295

/-- The one-node tree `a3 op a4`. -/
def other_leaf_tree : array_expression :=
  array_expression.leaf_leaf (leaf.of_array (sample_array 3)) (leaf.of_array (sample_array 4))
    (sample_op 5) 0 (numeric_type.other 0) { dim1 := 4, dim2 := 4 }

/-- A one-node tree whose left operand names the node index `2^32 - 1`, the
largest value of an `unsigned int`. -/
def far_index_tree : array_expression :=
  { tree_ := [{ lhs := lhs_rhs_element.composite 4294967295, op := sample_op 4,
                rhs := lhs_rhs_element.dense_array (sample_array 1) }],
    root_ := 0, context_ := 0, dtype_ := numeric_type.other 0,
    shape_ := { dim1 := 4, dim2 := 4 } }

end atidlas

namespace isaac
namespace templates

/-- Number of values of a `uint32_t`. -/
def UINT32_RANGE : Nat := 4294967296

/-- Number of values of a 64-bit `size_t`. -/
def SIZE_T_RANGE : Nat := 18446744073709551616

/-- Product of two `uint32_t` values. -/
def mul32 (a b : Nat) : Nat := (a * b) % UINT32_RANGE

/-- Sum of two `uint32_t` values. -/
def add32 (a b : Nat) : Nat := (a + b) % UINT32_RANGE

/-- Product of two `size_t` values. -/
def mul_size_t (a b : Nat) : Nat := (a * b) % SIZE_T_RANGE

/-- The C++ expression `a % b` on unsigned operands: undefined for `b = 0`. -/
def umod (a b : Nat) : Option Nat := if b = 0 then none else some (a % b)

/-- Modelled from the spec: the enumeration `fetch_type` is declared in a header
that is not among the sources; the spec lists the two policies
direct-from-global and staged-through-local-memory. -/
inductive fetch_type where
  | FETCH_FROM_LOCAL
  | FETCH_FROM_GLOBAL
  deriving DecidableEq, Repr

/-- Transpose flag of an operand.  The constructor of `gemm` throws for every
character other than `'N'` and `'T'`, so a constructed template holds one of
these two. -/
inductive trans_flag where
  | N
  | T
  deriving DecidableEq, Repr

/-- The named result codes used by `gemm::is_invalid_impl`.  Their numeric
values are declared in a header that is not among the sources; each named
constant is one constructor. -/
inductive template_code where
  | TEMPLATE_VALID
  | TEMPLATE_INVALID_FETCHING_POLICY_TYPE
  | TEMPLATE_MS_NS_MUST_BE_SIMD_WIDTH_MULTIPLE
  | TEMPLATE_BLOCK_SIZE_TOO_LARGE
  | TEMPLATE_KS_MUST_BE_SMALLER_THAN_KL
  | TEMPLATE_LOCAL_FETCH_PRODUCT_MUST_MATCH_LOCAL_SIZE_PRODUCT
  | TEMPLATE_LOCAL_FETCH_0_MUST_BE_KL_MULTIPLE
  | TEMPLATE_LOCAL_FETCH_0_MUST_BE_NL_MULTIPLE
  | TEMPLATE_LOCAL_FETCH_1_MUST_BE_KL_MULTIPLE
  | TEMPLATE_LOCAL_FETCH_1_MUST_BE_ML_MULTIPLE
  deriving DecidableEq, Repr

open fetch_type trans_flag template_code

/-- The parameter record `p_` read by the template (the Parameter Set). -/
structure gemm_parameters where
  vwidth : Nat
  ls0 : Nat
  ls1 : Nat
  mL : Nat
  nL : Nat
  kL : Nat
  mS : Nat
  kS : Nat
  nS : Nat
  depth : Nat
  Afetch : fetch_type
  Bfetch : fetch_type
  lf0 : Nat
  lf1 : Nat
  deriving DecidableEq, Repr

/-- Every integer knob is a `uint32_t` value. -/
def gemm_parameters.in_range (p : gemm_parameters) : Prop :=
  p.vwidth < UINT32_RANGE ∧ p.ls0 < UINT32_RANGE ∧ p.ls1 < UINT32_RANGE ∧
  p.mL < UINT32_RANGE ∧ p.nL < UINT32_RANGE ∧ p.kL < UINT32_RANGE ∧
  p.mS < UINT32_RANGE ∧ p.kS < UINT32_RANGE ∧ p.nS < UINT32_RANGE ∧
  p.depth < UINT32_RANGE ∧ p.lf0 < UINT32_RANGE ∧ p.lf1 < UINT32_RANGE

instance (p : gemm_parameters) : Decidable p.in_range := by
  unfold gemm_parameters.in_range; infer_instance

/-- The template object: the parameter record and the two transpose flags. -/
structure gemm where
  p_ : gemm_parameters
  A_trans_ : trans_flag
  B_trans_ : trans_flag
  deriving DecidableEq, Repr

/-- Embedding of `gemm::is_invalid_impl` (the device and the tree are unused). -/
def gemm.is_invalid_impl (g : gemm) : Option template_code :=
  let p_ := g.p_
  if p_.Afetch ≠ FETCH_FROM_LOCAL ∨ p_.Bfetch ≠ FETCH_FROM_LOCAL then
    some TEMPLATE_INVALID_FETCHING_POLICY_TYPE
  else
  match umod p_.mS p_.vwidth with
  | none => none
  | some rm =>
  if rm > 0 then some TEMPLATE_MS_NS_MUST_BE_SIMD_WIDTH_MULTIPLE else
  match umod p_.nS p_.vwidth with
  | none => none
  | some rn =>
  if rn > 0 then some TEMPLATE_MS_NS_MUST_BE_SIMD_WIDTH_MULTIPLE else
  if p_.mL > 256 ∨ p_.nL > 256 then some TEMPLATE_BLOCK_SIZE_TOO_LARGE else
  match umod p_.kS p_.kL with
  | none => none
  | some rk =>
  if rk = 0 then some TEMPLATE_KS_MUST_BE_SMALLER_THAN_KL else
  if (p_.Afetch = FETCH_FROM_LOCAL ∨ p_.Bfetch = FETCH_FROM_LOCAL) ∧
      mul32 p_.lf0 p_.lf1 ≠ mul32 p_.ls0 p_.ls1 then
    some TEMPLATE_LOCAL_FETCH_PRODUCT_MUST_MATCH_LOCAL_SIZE_PRODUCT
  else
  -- operand A
  let a_bound1 := if g.A_trans_ = N then p_.kL else p_.mL
  let a_bound0 := if g.A_trans_ = N then p_.mL else p_.kL
  if p_.Afetch = FETCH_FROM_LOCAL ∧ p_.lf1 > 0 ∧ a_bound1 % p_.lf1 > 0 then
    some (if g.A_trans_ = N then TEMPLATE_LOCAL_FETCH_1_MUST_BE_KL_MULTIPLE
          else TEMPLATE_LOCAL_FETCH_1_MUST_BE_ML_MULTIPLE)
  else
  match (if p_.Afetch = FETCH_FROM_LOCAL ∧ p_.lf0 > 0
         then umod a_bound0 (mul32 p_.lf0 p_.vwidth) else some 0) with
  | none => none
  | some ra =>
  if ra > 0 then
    some (if g.A_trans_ = N then TEMPLATE_LOCAL_FETCH_0_MUST_BE_NL_MULTIPLE
          else TEMPLATE_LOCAL_FETCH_0_MUST_BE_KL_MULTIPLE)
  else
  -- operand B
  let b_bound1 := if g.B_trans_ = T then p_.kL else p_.nL
  let b_bound0 := if g.B_trans_ = T then p_.nL else p_.kL
  if p_.Bfetch = FETCH_FROM_LOCAL ∧ p_.lf1 > 0 ∧ b_bound1 % p_.lf1 > 0 then
    some (if g.B_trans_ = T then TEMPLATE_LOCAL_FETCH_1_MUST_BE_KL_MULTIPLE
          else TEMPLATE_LOCAL_FETCH_1_MUST_BE_ML_MULTIPLE)
  else
  match (if p_.Bfetch = FETCH_FROM_LOCAL ∧ p_.lf0 > 0
         then umod b_bound0 (mul32 p_.lf0 p_.vwidth) else some 0) with
  | none => none
  | some rb =>
  if rb > 0 then
    some (if g.B_trans_ = T then TEMPLATE_LOCAL_FETCH_1_MUST_BE_KL_MULTIPLE
          else TEMPLATE_LOCAL_FETCH_1_MUST_BE_ML_MULTIPLE)
  else
    some TEMPLATE_VALID

/-- Embedding of `gemm::registers_usage`; `size_of_dtype` is the value of
`size_of(expression.dtype())`, the only use made of the tree. -/
def gemm.registers_usage (g : gemm) (size_of_dtype : Nat) : Nat :=
  let p_ := g.p_
  let N := add32 (add32 (mul32 p_.mS p_.nS) (mul32 p_.mS p_.kS)) (mul32 p_.kS p_.nS)
  mul32 N size_of_dtype

/-- The local `llda` of `lmem_usage` and `generate_impl`: the conditional is
evaluated on `uint32_t` operands, then widened to `size_t`. -/
def gemm.llda (g : gemm) : Nat := if g.A_trans_ = N then g.p_.mL else add32 g.p_.kL 1

/-- The local `lnda` of `lmem_usage` and `generate_impl`. -/
def gemm.lnda (g : gemm) : Nat := if g.A_trans_ = N then g.p_.kL else g.p_.mL

/-- The local `lldb` of `lmem_usage` and `generate_impl`. -/
def gemm.lldb (g : gemm) : Nat := if g.B_trans_ = T then g.p_.nL else add32 g.p_.kL 1

/-- The local `lndb` of `lmem_usage` and `generate_impl`. -/
def gemm.lndb (g : gemm) : Nat := if g.B_trans_ = T then g.p_.kL else g.p_.nL

/-- Embedding of `gemm::lmem_usage`: `N` is a `uint32_t` accumulator that
receives two `size_t` products, and the result is `N*size_of(dtype)` returned
as `uint32_t`. -/
def gemm.lmem_usage (g : gemm) (size_of_dtype : Nat) : Nat :=
  let N0 := 0
  let N1 := ((N0 + mul_size_t g.llda g.lnda) % SIZE_T_RANGE) % UINT32_RANGE
  let N2 := ((N1 + mul_size_t g.lldb g.lndb) % SIZE_T_RANGE) % UINT32_RANGE
  mul32 N2 size_of_dtype

/-- Length of the array `lA` declared by `gemm::generate_impl`
(`"$LOCAL " << sdtype << " lA[" << llda*lnda << "];"`). -/
def gemm.generate_impl_lA_length (g : gemm) : Nat := mul_size_t g.llda g.lnda

/-- Length of the array `lB` declared by `gemm::generate_impl`. -/
def gemm.generate_impl_lB_length (g : gemm) : Nat := mul_size_t g.lldb g.lndb

/-- The part of an array operand node that `gemm.cpp` reads: its two-component
shape (`shape[0]`, `shape[1]`), its leading dimensions (`ld[0]`, `ld[1]`), its
offset `array.start` and its buffer handles `array.handle.cl` and
`array.handle.cu`. -/
structure array_operand where
  shape0 : Nat
  shape1 : Nat
  ld0 : Nat := 1
  ld1 : Nat := 1
  start : Nat := 0
  handle_cl : Nat := 0
  handle_cu : Nat := 0
  deriving DecidableEq, Repr

/-- The resolved operands `symbolic::preset::gemm::args` (A, B and C) and the
two scalar coefficients. -/
structure gemm_args where
  A : array_operand
  B : array_operand
  C : array_operand
  alpha : Int := 1
  beta : Int := 0
  deriving DecidableEq, Repr

/-- Embedding of `gemm::infos`.  The call `symbolic::preset::gemm::check(array, root)`
is to a function that is not among the sources; its outcome on the tree is the
argument `extracted`: the resolved operands, or `none` when the tree is not
GEMM-shaped (the classification error of the specification).  `infos` reads
`arguments.C` and `arguments.A` without any test, so it has no result then. -/
def gemm.infos (g : gemm) (extracted : Option gemm_args) : Option (Nat × Nat × Nat) :=
  match extracted with
  | none => none
  | some arguments =>
    let M := arguments.C.shape0
    let N := arguments.C.shape1
    let K := if g.A_trans_ = T then arguments.A.shape0 else arguments.A.shape1
    some (M, N, K)

/-- Embedding of `gemm::input_sizes`. -/
def gemm.input_sizes (g : gemm) (extracted : Option gemm_args) : Option (Nat × Nat × Nat) :=
  g.infos extracted

/-- Embedding of `gemm::temporary_workspace`: the sizes are extracted first,
then `M*N*depth` is returned as a `uint32_t` when `depth > 1`. -/
def gemm.temporary_workspace (g : gemm) (extracted : Option gemm_args) : Option Nat :=
  match g.input_sizes extracted with
  | none => none
  | some MNK =>
    let M := MNK.1
    let N := MNK.2.1
    if g.p_.depth > 1 then some ((M * N * g.p_.depth) % UINT32_RANGE)
    else some 0

/-! ## Concrete parameter sets used as test points -/

/-- A small accepted parameter set (all tiles 4, register tiles 2 x 1 x 2). -/
def sample_parameters : gemm_parameters :=
  { vwidth := 1, ls0 := 2, ls1 := 2, mL := 4, nL := 4, kL := 4,
    mS := 2, kS := 1, nS := 2, depth := 1,
    Afetch := FETCH_FROM_LOCAL, Bfetch := FETCH_FROM_LOCAL, lf0 := 2, lf1 := 2 }

/-- The NN template over `sample_parameters`. -/
def sample_gemm : gemm := { p_ := sample_parameters, A_trans_ := N, B_trans_ := N }

/-! ## Statements of the validator's acceptance condition -/

/-- The tile dimension checked against `lf1` for operand A (`bound1`). -/
def gemm.A_bound1 (g : gemm) : Nat := if g.A_trans_ = N then g.p_.kL else g.p_.mL

/-- The tile dimension checked against `lf0*vwidth` for operand A (`bound0`). -/
def gemm.A_bound0 (g : gemm) : Nat := if g.A_trans_ = N then g.p_.mL else g.p_.kL

/-- The tile dimension checked against `lf1` for operand B (`bound1`). -/
def gemm.B_bound1 (g : gemm) : Nat := if g.B_trans_ = T then g.p_.kL else g.p_.nL

/-- The tile dimension checked against `lf0*vwidth` for operand B (`bound0`). -/
def gemm.B_bound0 (g : gemm) : Nat := if g.B_trans_ = T then g.p_.nL else g.p_.kL

/-- The acceptance condition in the words of the specification: both operands
staged, `mS` and `nS` multiples of `vw`, block tiles at most 256, `kS` not a
multiple of `kL`, `lf0*lf1 = ls0*ls1`, and the fetch layout dividing each tile
dimension (exact integer arithmetic, unconditional divisibility). -/
def gemm.stated_acceptance (g : gemm) : Prop :=
  g.p_.Afetch = FETCH_FROM_LOCAL ∧ g.p_.Bfetch = FETCH_FROM_LOCAL ∧
  g.p_.mS % g.p_.vwidth = 0 ∧ g.p_.nS % g.p_.vwidth = 0 ∧
  g.p_.mL ≤ 256 ∧ g.p_.nL ≤ 256 ∧
  g.p_.kS % g.p_.kL ≠ 0 ∧
  g.p_.lf0 * g.p_.lf1 = g.p_.ls0 * g.p_.ls1 ∧
  g.p_.lf1 ∣ g.A_bound1 ∧ g.p_.lf0 * g.p_.vwidth ∣ g.A_bound0 ∧
  g.p_.lf1 ∣ g.B_bound1 ∧ g.p_.lf0 * g.p_.vwidth ∣ g.B_bound0

instance (g : gemm) : Decidable g.stated_acceptance := by
  unfold gemm.stated_acceptance; infer_instance

/-- The acceptance condition the code implements: products are the 32-bit
products the code forms, a zero `lf1` or `lf0` switches the corresponding
divisibility test off, and a non-zero `lf0` needs a non-zero 32-bit product
`lf0*vw`. -/
def gemm.guarded_acceptance (g : gemm) : Prop :=
  g.p_.Afetch = FETCH_FROM_LOCAL ∧ g.p_.Bfetch = FETCH_FROM_LOCAL ∧
  g.p_.mS % g.p_.vwidth = 0 ∧ g.p_.nS % g.p_.vwidth = 0 ∧
  g.p_.mL ≤ 256 ∧ g.p_.nL ≤ 256 ∧
  g.p_.kS % g.p_.kL ≠ 0 ∧
  mul32 g.p_.lf0 g.p_.lf1 = mul32 g.p_.ls0 g.p_.ls1 ∧
  (0 < g.p_.lf1 → g.p_.lf1 ∣ g.A_bound1) ∧
  (0 < g.p_.lf0 → mul32 g.p_.lf0 g.p_.vwidth ≠ 0 ∧ mul32 g.p_.lf0 g.p_.vwidth ∣ g.A_bound0) ∧
  (0 < g.p_.lf1 → g.p_.lf1 ∣ g.B_bound1) ∧
  (0 < g.p_.lf0 → mul32 g.p_.lf0 g.p_.vwidth ≠ 0 ∧ mul32 g.p_.lf0 g.p_.vwidth ∣ g.B_bound0)

instance (g : gemm) : Decidable g.guarded_acceptance := by
  unfold gemm.guarded_acceptance; infer_instance

/-- An accepted NN parameter set whose `lf1` is zero (and whose group is empty). -/
def zero_lf1_gemm : gemm :=
  { p_ := { vwidth := 1, ls0 := 0, ls1 := 0, mL := 1, nL := 1, kL := 2,
            mS := 1, kS := 1, nS := 1, depth := 1,
            Afetch := FETCH_FROM_LOCAL, Bfetch := FETCH_FROM_LOCAL, lf0 := 1, lf1 := 0 },
    A_trans_ := N, B_trans_ := N }

/-- An accepted NN parameter set whose product `lf0*lf1` is `2^32`, which the
32-bit comparison takes for `ls0*ls1 = 0`. -/
def wrapped_product_gemm : gemm :=
  { p_ := { vwidth := 1, ls0 := 0, ls1 := 0, mL := 0, nL := 0, kL := 65536,
            mS := 1, kS := 1, nS := 1, depth := 1,
            Afetch := FETCH_FROM_LOCAL, Bfetch := FETCH_FROM_LOCAL, lf0 := 65536, lf1 := 65536 },
    A_trans_ := N, B_trans_ := N }

/-! ## The ordered rule list of the validator -/

/-- The code of the first violated rule of an ordered list of
(violated, code) pairs, `TEMPLATE_VALID` when no rule is violated. -/
def first_violation : List (Bool × template_code) → template_code
  | [] => TEMPLATE_VALID
  | (violated, code) :: rest => if violated then code else first_violation rest

/-- The code the source returns for each of the four fetch-layout checks. -/
def gemm.code_A_lf1 (g : gemm) : template_code :=
  if g.A_trans_ = N then TEMPLATE_LOCAL_FETCH_1_MUST_BE_KL_MULTIPLE
  else TEMPLATE_LOCAL_FETCH_1_MUST_BE_ML_MULTIPLE

/-- See `gemm.code_A_lf1`. -/
def gemm.code_A_lf0 (g : gemm) : template_code :=
  if g.A_trans_ = N then TEMPLATE_LOCAL_FETCH_0_MUST_BE_NL_MULTIPLE
  else TEMPLATE_LOCAL_FETCH_0_MUST_BE_KL_MULTIPLE

/-- See `gemm.code_A_lf1`. -/
def gemm.code_B_lf1 (g : gemm) : template_code :=
  if g.B_trans_ = T then TEMPLATE_LOCAL_FETCH_1_MUST_BE_KL_MULTIPLE
  else TEMPLATE_LOCAL_FETCH_1_MUST_BE_ML_MULTIPLE

/-- See `gemm.code_A_lf1`. -/
def gemm.code_B_lf0 (g : gemm) : template_code :=
  if g.B_trans_ = T then TEMPLATE_LOCAL_FETCH_1_MUST_BE_KL_MULTIPLE
  else TEMPLATE_LOCAL_FETCH_1_MUST_BE_ML_MULTIPLE

/-- The six rules in the words of the specification, in their fixed order
(rule 6 split into A before B, `lf1` before `lf0`): exact integer arithmetic and
unconditional divisibility. -/
def gemm.stated_rules (g : gemm) : List (Bool × template_code) :=
  [ (decide (g.p_.Afetch ≠ FETCH_FROM_LOCAL ∨ g.p_.Bfetch ≠ FETCH_FROM_LOCAL),
      TEMPLATE_INVALID_FETCHING_POLICY_TYPE),
    (decide (g.p_.mS % g.p_.vwidth ≠ 0 ∨ g.p_.nS % g.p_.vwidth ≠ 0),
      TEMPLATE_MS_NS_MUST_BE_SIMD_WIDTH_MULTIPLE),
    (decide (g.p_.mL > 256 ∨ g.p_.nL > 256), TEMPLATE_BLOCK_SIZE_TOO_LARGE),
    (decide (g.p_.kS % g.p_.kL = 0), TEMPLATE_KS_MUST_BE_SMALLER_THAN_KL),
    (decide (g.p_.lf0 * g.p_.lf1 ≠ g.p_.ls0 * g.p_.ls1),
      TEMPLATE_LOCAL_FETCH_PRODUCT_MUST_MATCH_LOCAL_SIZE_PRODUCT),
    (decide (¬ g.p_.lf1 ∣ g.A_bound1), g.code_A_lf1),
    (decide (¬ g.p_.lf0 * g.p_.vwidth ∣ g.A_bound0), g.code_A_lf0),
    (decide (¬ g.p_.lf1 ∣ g.B_bound1), g.code_B_lf1),
    (decide (¬ g.p_.lf0 * g.p_.vwidth ∣ g.B_bound0), g.code_B_lf0) ]

/-- The six rules as the code tests them, in the same order: 32-bit products,
and a divisibility test of rule 6 counts only when its `lf1` (or `lf0`) is
non-zero. -/
def gemm.guarded_rules (g : gemm) : List (Bool × template_code) :=
  [ (decide (g.p_.Afetch ≠ FETCH_FROM_LOCAL ∨ g.p_.Bfetch ≠ FETCH_FROM_LOCAL),
      TEMPLATE_INVALID_FETCHING_POLICY_TYPE),
    (decide (g.p_.mS % g.p_.vwidth ≠ 0 ∨ g.p_.nS % g.p_.vwidth ≠ 0),
      TEMPLATE_MS_NS_MUST_BE_SIMD_WIDTH_MULTIPLE),
    (decide (g.p_.mL > 256 ∨ g.p_.nL > 256), TEMPLATE_BLOCK_SIZE_TOO_LARGE),
    (decide (g.p_.kS % g.p_.kL = 0), TEMPLATE_KS_MUST_BE_SMALLER_THAN_KL),
    (decide (mul32 g.p_.lf0 g.p_.lf1 ≠ mul32 g.p_.ls0 g.p_.ls1),
      TEMPLATE_LOCAL_FETCH_PRODUCT_MUST_MATCH_LOCAL_SIZE_PRODUCT),
    (decide (0 < g.p_.lf1 ∧ ¬ g.p_.lf1 ∣ g.A_bound1), g.code_A_lf1),
    (decide (0 < g.p_.lf0 ∧ ¬ mul32 g.p_.lf0 g.p_.vwidth ∣ g.A_bound0), g.code_A_lf0),
    (decide (0 < g.p_.lf1 ∧ ¬ g.p_.lf1 ∣ g.B_bound1), g.code_B_lf1),
    (decide (0 < g.p_.lf0 ∧ ¬ mul32 g.p_.lf0 g.p_.vwidth ∣ g.B_bound0), g.code_B_lf0) ]

/-- An NN parameter set with `lf1 = 0` whose only failing check in the code is
the `lf0` check of operand B (`kL % (lf0*vw) = 3 % 2`). -/
def zero_lf1_B_lf0_gemm : gemm :=
  { p_ := { vwidth := 1, ls0 := 0, ls1 := 0, mL := 2, nL := 1, kL := 3,
            mS := 1, kS := 1, nS := 1, depth := 1,
            Afetch := FETCH_FROM_LOCAL, Bfetch := FETCH_FROM_LOCAL, lf0 := 2, lf1 := 0 },
    A_trans_ := N, B_trans_ := N }

/-! ## The four fetch-layout checks -/

/-- The operand a fetch-layout check belongs to. -/
inductive fetch_operand where
  | A
  | B
  deriving DecidableEq, Repr

/-- The fetch dimension a fetch-layout check tests. -/
inductive fetch_dimension where
  | lf0
  | lf1
  deriving DecidableEq, Repr

/-- The first fetch-layout check of `is_invalid_impl` that fails, in source
order (A's `lf1`, A's `lf0`, B's `lf1`, B's `lf0`), if any. -/
def gemm.first_failing_fetch_check (g : gemm) : Option (fetch_operand × fetch_dimension) :=
  if g.p_.lf1 > 0 ∧ g.A_bound1 % g.p_.lf1 > 0 then some (fetch_operand.A, fetch_dimension.lf1)
  else if g.p_.lf0 > 0 ∧ g.A_bound0 % mul32 g.p_.lf0 g.p_.vwidth > 0 then
    some (fetch_operand.A, fetch_dimension.lf0)
  else if g.p_.lf1 > 0 ∧ g.B_bound1 % g.p_.lf1 > 0 then
    some (fetch_operand.B, fetch_dimension.lf1)
  else if g.p_.lf0 > 0 ∧ g.B_bound0 % mul32 g.p_.lf0 g.p_.vwidth > 0 then
    some (fetch_operand.B, fetch_dimension.lf0)
  else none

/-- An NN parameter set that passes rules 1-5 and whose first failing check is
B's `lf1` check (`nL % lf1 = 3 % 2`). -/
def B_lf1_failing_gemm : gemm :=
  { p_ := { vwidth := 1, ls0 := 2, ls1 := 2, mL := 4, nL := 3, kL := 4,
            mS := 1, kS := 1, nS := 1, depth := 1,
            Afetch := FETCH_FROM_LOCAL, Bfetch := FETCH_FROM_LOCAL, lf0 := 2, lf1 := 2 },
    A_trans_ := N, B_trans_ := N }

/-- An NN parameter set that passes rules 1-5 and whose first failing check is
B's `lf0` check (`kL % (lf0*vw) = 4 % 3`). -/
def B_lf0_failing_gemm : gemm :=
  { p_ := { vwidth := 1, ls0 := 3, ls1 := 2, mL := 3, nL := 4, kL := 4,
            mS := 1, kS := 1, nS := 1, depth := 1,
            Afetch := FETCH_FROM_LOCAL, Bfetch := FETCH_FROM_LOCAL, lf0 := 3, lf1 := 2 },
    A_trans_ := N, B_trans_ := N }

/-- A TN parameter set that passes rules 1-5 and whose first failing check is
A's `lf1` check (`mL % lf1 = 3 % 2`). -/
def A_lf1_failing_gemm : gemm :=
  { p_ := { vwidth := 1, ls0 := 2, ls1 := 2, mL := 3, nL := 4, kL := 4,
            mS := 1, kS := 1, nS := 1, depth := 1,
            Afetch := FETCH_FROM_LOCAL, Bfetch := FETCH_FROM_LOCAL, lf0 := 2, lf1 := 2 },
    A_trans_ := T, B_trans_ := N }

/-- A TN parameter set that passes rules 1-5 and whose first failing check is
B's `lf1` check (`nL % lf1 = 3 % 2`). -/
def B_lf1_failing_TN_gemm : gemm :=
  { p_ := { vwidth := 1, ls0 := 2, ls1 := 2, mL := 4, nL := 3, kL := 4,
            mS := 1, kS := 1, nS := 1, depth := 1,
            Afetch := FETCH_FROM_LOCAL, Bfetch := FETCH_FROM_LOCAL, lf0 := 2, lf1 := 2 },
    A_trans_ := T, B_trans_ := N }

/-- The sample parameter set with `vwidth = 0`. -/
def zero_vwidth_gemm : gemm :=
  { sample_gemm with p_ := { sample_parameters with vwidth := 0 } }

/-- The sample parameter set with `kL = 0`. -/
def zero_kL_gemm : gemm :=
  { sample_gemm with p_ := { sample_parameters with kL := 0 } }

/-- An NN parameter set with `lf0 = vwidth = 65536`, whose 32-bit product
`lf0*vwidth` is zero. -/
def zero_product_gemm : gemm :=
  { p_ := { vwidth := 65536, ls0 := 65536, ls1 := 1, mL := 4, nL := 4, kL := 4,
            mS := 65536, kS := 1, nS := 65536, depth := 1,
            Afetch := FETCH_FROM_LOCAL, Bfetch := FETCH_FROM_LOCAL, lf0 := 65536, lf1 := 1 },
    A_trans_ := N, B_trans_ := N }

/-! ## Staging areas in the words of the specification -/

/-- Staging area of operand A: `mL*kL` if A is normal, `(kL+1)*mL` if transposed. -/
def gemm.stated_area_A (g : gemm) : Nat :=
  if g.A_trans_ = N then g.p_.mL * g.p_.kL else (g.p_.kL + 1) * g.p_.mL

/-- Staging area of operand B: `nL*kL` if B is transposed, `(kL+1)*nL` if normal. -/
def gemm.stated_area_B (g : gemm) : Nat :=
  if g.B_trans_ = T then g.p_.nL * g.p_.kL else (g.p_.kL + 1) * g.p_.nL

/-! ## Test points of the estimators -/

/-- Operands of a 3 x 5 product with inner dimension 7. -/
def sample_args : gemm_args :=
  { A := { shape0 := 3, shape1 := 7 }, B := { shape0 := 7, shape1 := 5 },
    C := { shape0 := 3, shape1 := 5 } }

/-- An accepted NN parameter set with a deep block tile, `kL = 2^21 - 1`. -/
def deep_tile_gemm : gemm :=
  { p_ := { vwidth := 1, ls0 := 1, ls1 := 1, mL := 256, nL := 256, kL := 2097151,
            mS := 1, kS := 1, nS := 1, depth := 1,
            Afetch := FETCH_FROM_LOCAL, Bfetch := FETCH_FROM_LOCAL, lf0 := 1, lf1 := 1 },
    A_trans_ := N, B_trans_ := N }

/-- An accepted NN parameter set with `mL = 255`, `nL = 1`, `kL = 2^22 - 1`. -/
def tall_tile_gemm : gemm :=
  { p_ := { vwidth := 1, ls0 := 1, ls1 := 1, mL := 255, nL := 1, kL := 4194303,
            mS := 1, kS := 1, nS := 1, depth := 1,
            Afetch := FETCH_FROM_LOCAL, Bfetch := FETCH_FROM_LOCAL, lf0 := 1, lf1 := 1 },
    A_trans_ := N, B_trans_ := N }

/-- An accepted NN parameter set with `mL = 1`, `nL = 255`, `kL = 2^22 - 1`. -/
def broad_tile_gemm : gemm :=
  { p_ := { vwidth := 1, ls0 := 1, ls1 := 1, mL := 1, nL := 255, kL := 4194303,
            mS := 1, kS := 1, nS := 1, depth := 1,
            Afetch := FETCH_FROM_LOCAL, Bfetch := FETCH_FROM_LOCAL, lf0 := 1, lf1 := 1 },
    A_trans_ := N, B_trans_ := N }

/-- An accepted NN parameter set with a wide register tile,
`mS = nS = 65535`. -/
def wide_register_gemm : gemm :=
  { p_ := { vwidth := 1, ls0 := 1, ls1 := 1, mL := 4, nL := 4, kL := 4,
            mS := 65535, kS := 1, nS := 65535, depth := 1,
            Afetch := FETCH_FROM_LOCAL, Bfetch := FETCH_FROM_LOCAL, lf0 := 1, lf1 := 1 },
    A_trans_ := N, B_trans_ := N }

/-- The template `g` with `mL` replaced. -/
def gemm.with_mL (g : gemm) (v : Nat) : gemm := { g with p_ := { g.p_ with mL := v } }

/-- The template `g` with `nL` replaced. -/
def gemm.with_nL (g : gemm) (v : Nat) : gemm := { g with p_ := { g.p_ with nL := v } }

/-- The template `g` with `kL` replaced. -/
def gemm.with_kL (g : gemm) (v : Nat) : gemm := { g with p_ := { g.p_ with kL := v } }

/-- The template `g` with `mS` replaced. -/
def gemm.with_mS (g : gemm) (v : Nat) : gemm := { g with p_ := { g.p_ with mS := v } }

/-- The template `g` with `nS` replaced. -/
def gemm.with_nS (g : gemm) (v : Nat) : gemm := { g with p_ := { g.p_ with nS := v } }

/-- The template `g` with `kS` replaced. -/
def gemm.with_kS (g : gemm) (v : Nat) : gemm := { g with p_ := { g.p_ with kS := v } }

/-- The exact (unreduced) value `(mS*nS + mS*kS + kS*nS) * size_of(dtype)`. -/
def gemm.exact_register_bytes (g : gemm) (size_of_dtype : Nat) : Nat :=
  (g.p_.mS * g.p_.nS + g.p_.mS * g.p_.kS + g.p_.kS * g.p_.nS) * size_of_dtype

/-- The exact (unreduced) value `size_of(dtype) * (areaA + areaB)`. -/
def gemm.exact_local_bytes (g : gemm) (size_of_dtype : Nat) : Nat :=
  size_of_dtype * (g.stated_area_A + g.stated_area_B)


/-! ## Operand extraction -/

/-- The record `symbolic::preset::gemm::args` as `infos` holds it: A, B and C
are pointers, unresolved (`none`) until extraction sets them. -/
structure args_pointers where
  A : Option array_operand
  B : Option array_operand
  C : Option array_operand
  alpha : Int
  beta : Int
  deriving DecidableEq, Repr

/-- How a call of `gemm::infos` ends: it returns the triple `(M, N, K)` with
the operands stored in `arguments`; or extraction fails with its classification
error; or `->` is applied to an operand that is unresolved. -/
inductive infos_outcome where
  | returned (arguments : args_pointers) (M N K : Nat)
  | classification_error
  | unresolved_dereference
  deriving DecidableEq, Repr

/-- Modelled from the spec: `symbolic::preset::gemm::check`, which is not among
the sources.  Section 4.2 of the specification: for a root that matches the GEMM
pattern extraction yields the operands A, B, C and the coefficients; if the root
does not match (wrong arity, operand not an array) extraction fails with a
classification error (`none`), and it never yields a partially filled result.
The pattern test is the parameter `gemm_pattern`: its operator codes are
declared outside the sources. -/
def check (gemm_pattern : List atidlas.node → Nat → Option gemm_args)
    (array : List atidlas.node) (root : Nat) : Option args_pointers :=
  match gemm_pattern array root with
  | none => none
  | some a => some { A := some a.A, B := some a.B, C := some a.C, alpha := a.alpha, beta := a.beta }

/-- Embedding of `gemm::infos` on a tree (lines 669-678): the result of `check`
is stored in `arguments`, then `arguments.C` and `arguments.A` are read through
`->` without a test. -/
def gemm.infos_on_tree (g : gemm) (gemm_pattern : List atidlas.node → Nat → Option gemm_args)
    (tree : atidlas.array_expression) : infos_outcome :=
  match check gemm_pattern tree.tree_ tree.root_ with
  | none => infos_outcome.classification_error
  | some arguments =>
    match arguments.C with
    | none => infos_outcome.unresolved_dereference
    | some C =>
      match arguments.A with
      | none => infos_outcome.unresolved_dereference
      | some A =>
        infos_outcome.returned arguments C.shape0 C.shape1
          (if g.A_trans_ = T then A.shape0 else A.shape1)

/-- Operands A (3 x 7), B (7 x 5) and C (3 x 5) with distinct buffers, leading
dimensions and offsets, and coefficients 2 and 3. -/
def launch_args : gemm_args :=
  { A := { shape0 := 3, shape1 := 7, ld0 := 1, ld1 := 3, start := 10,
           handle_cl := 100, handle_cu := 101 },
    B := { shape0 := 7, shape1 := 5, ld0 := 1, ld1 := 7, start := 20,
           handle_cl := 200, handle_cu := 201 },
    C := { shape0 := 3, shape1 := 5, ld0 := 1, ld1 := 3, start := 30,
           handle_cl := 300, handle_cu := 301 },
    alpha := 2, beta := 3 }

/-- A pattern test that accepts every tree whose root has two array operands
and resolves it to `launch_args`; used as a test point. -/
def sample_pattern (array : List atidlas.node) (root : Nat) : Option gemm_args :=
  match array[root]? with
  | some { lhs := atidlas.lhs_rhs_element.dense_array _, op := _,
           rhs := atidlas.lhs_rhs_element.dense_array _ } => some launch_args
  | _ => none

/-! ## Launch configuration (`gemm::enqueue_block`, `gemm::enqueue`) -/

/-- The backends of `driver::backend_type`: the sources name `driver::OPENCL`;
`CUDA` stands for the backend whose buffers are bound through `handle.cu`. -/
inductive backend_type where
  | OPENCL
  | CUDA
  deriving DecidableEq, Repr

/-- Modelled from the spec: `tools::align`, which is not among the sources,
rounds `x` up to a multiple of `a`; there is no such multiple for `a = 0` and
`x > 0`. -/
def align (x a : Nat) : Option Nat :=
  if a = 0 then (if x = 0 then some 0 else none) else some (((x + a - 1) / a) * a)

/-- The C++ expression `a / b` on unsigned operands: undefined for `b = 0`. -/
def udiv (a b : Nat) : Option Nat := if b = 0 then none else some (a / b)

/-- The group count of one grid dimension, `align(align(M, mS)/mS, ls)`. -/
def grid_dimension (M mS ls : Nat) : Option Nat :=
  match align M mS with
  | none => none
  | some aligned =>
    match udiv aligned mS with
    | none => none
    | some count => align count ls

/-- The two `driver::Kernel` objects of `enqueue_block`. -/
inductive launched_kernel where
  | gemm
  | reduce
  deriving DecidableEq, Repr

/-- The name a `driver::Kernel` object is created with. -/
def kernel_name (k : launched_kernel) (suffix : String) : String :=
  match k with
  | launched_kernel.gemm => "gemm" ++ suffix
  | launched_kernel.reduce => "reduce" ++ suffix

/-- A value bound to a kernel parameter: a size (`setSizeArg`), a buffer
handle or a scalar (`setArg`). -/
inductive kernel_argument where
  | size (value : Nat)
  | buffer (handle : Nat)
  | scalar (value : Int)
  deriving DecidableEq, Repr

/-- The calls `enqueue_block` makes on the driver, in program order: creation
of a kernel object by name, `setSizeArg` / `setArg` at a position, and
`options.enqueue` with the global and local sizes. -/
inductive driver_call where
  | Kernel (kernel : launched_kernel) (name : String)
  | setArg (kernel : launched_kernel) (index : Nat) (value : kernel_argument)
  | enqueue (kernel : launched_kernel) (global : List Nat) (loc : List Nat)
  deriving DecidableEq, Repr

/-- The buffer handle of an operand for a backend (`handle.cl` for OpenCL,
`handle.cu` otherwise). -/
def array_operand.handle (x : array_operand) (backend : backend_type) : Nat :=
  if backend = backend_type.OPENCL then x.handle_cl else x.handle_cu

/-- The bindings of the main kernel (lines 600-642): the values passed to
`setSizeArg` / `setArg` with `current_arg++`, in program order. -/
def gemm.main_kernel_arguments (g : gemm) (backend : backend_type) (M N K : Nat)
    (A B C : array_operand) (alpha beta : Int) (workspace : Nat) : List kernel_argument :=
  [kernel_argument.size M, kernel_argument.size N, kernel_argument.size K] ++
  (if g.p_.depth = 1 then
    [kernel_argument.buffer (C.handle backend), kernel_argument.size C.ld1,
     kernel_argument.size C.start, kernel_argument.size C.ld0]
   else
    [kernel_argument.buffer workspace, kernel_argument.size M,
     kernel_argument.size 0, kernel_argument.size 1]) ++
  [kernel_argument.scalar alpha,
   kernel_argument.buffer (A.handle backend), kernel_argument.size A.ld1,
   kernel_argument.size A.start, kernel_argument.size A.ld0,
   kernel_argument.buffer (B.handle backend), kernel_argument.size B.ld1,
   kernel_argument.size B.start, kernel_argument.size B.ld0,
   kernel_argument.scalar beta]

/-- The bindings of the reduction kernel (lines 651-663), in program order. -/
def gemm.reduce_kernel_arguments (g : gemm) (backend : backend_type) (M N : Nat)
    (C : array_operand) (beta : Int) (workspace : Nat) : List kernel_argument :=
  [kernel_argument.size M, kernel_argument.size N, kernel_argument.size g.p_.depth,
   kernel_argument.buffer workspace, kernel_argument.size M,
   kernel_argument.buffer (C.handle backend), kernel_argument.size C.ld1,
   kernel_argument.size C.start, kernel_argument.size C.ld0,
   kernel_argument.scalar beta]

/-- The `setSizeArg` / `setArg` calls that bind a list of values at the
positions counted by `current_arg++`. -/
def bind_arguments_from (kernel : launched_kernel) (current_arg : Nat) :
    List kernel_argument → List driver_call
  | [] => []
  | value :: rest =>
    driver_call.setArg kernel current_arg value :: bind_arguments_from kernel (current_arg + 1) rest

/-- The bindings of a kernel, `current_arg` starting at 0. -/
def bind_arguments (kernel : launched_kernel) (values : List kernel_argument) :
    List driver_call :=
  bind_arguments_from kernel 0 values

/-- Embedding of `gemm::enqueue_block` (lines 578-667): the driver calls it
makes, `none` when the grid computation divides by zero. -/
def gemm.enqueue_block (g : gemm) (backend : backend_type) (M N K : Nat)
    (A B C : array_operand) (alpha beta : Int) (suffix : String) (workspace : Nat) :
    Option (List driver_call) :=
  if M = 0 ∨ N = 0 ∨ K = 0 then some []
  else
    match grid_dimension M g.p_.mS g.p_.ls0 with
    | none => none
    | some g0 =>
      match grid_dimension N g.p_.nS g.p_.ls1 with
      | none => none
      | some g1 =>
        let main : List driver_call :=
          [driver_call.Kernel launched_kernel.gemm (kernel_name launched_kernel.gemm suffix)] ++
          bind_arguments launched_kernel.gemm
            (g.main_kernel_arguments backend M N K A B C alpha beta workspace) ++
          [driver_call.enqueue launched_kernel.gemm [g0, g1, g.p_.depth]
            [g.p_.ls0, g.p_.ls1, 1]]
        if g.p_.depth > 1 then
          match align M g.p_.ls0 with
          | none => none
          | some r0 =>
            match align N g.p_.ls1 with
            | none => none
            | some r1 =>
              some (main ++
                [driver_call.Kernel launched_kernel.reduce
                  (kernel_name launched_kernel.reduce suffix)] ++
                bind_arguments launched_kernel.reduce
                  (g.reduce_kernel_arguments backend M N C beta workspace) ++
                [driver_call.enqueue launched_kernel.reduce [r0, r1] [g.p_.ls0, g.p_.ls1]])
        else some main

/-- Embedding of `gemm::enqueue` (lines 701-715): the sizes are extracted, an
empty product is skipped, and `enqueue_block` is called on the resolved operands. -/
def gemm.enqueue (g : gemm) (backend : backend_type) (extracted : Option gemm_args)
    (suffix : String) (workspace : Nat) : Option (List driver_call) :=
  match extracted, g.infos extracted with
  | some args, some (m, n, k) =>
    if m = 0 ∨ n = 0 ∨ k = 0 then some []
    else g.enqueue_block backend m n k args.A args.B args.C args.alpha args.beta suffix workspace
  | _, _ => none

/-- Whether a driver call is `options.enqueue` on the given kernel. -/
def driver_call.is_launch_of (kernel : launched_kernel) : driver_call → Bool
  | driver_call.enqueue k _ _ => decide (k = kernel)
  | _ => false

/-- Whether a driver call binds an argument. -/
def driver_call.is_binding : driver_call → Bool
  | driver_call.setArg _ _ _ => true
  | _ => false

/-- The (position, value) pairs bound to a kernel, in program order. -/
def bindings_of (kernel : launched_kernel) : List driver_call → List (Nat × kernel_argument)
  | [] => []
  | driver_call.setArg k index value :: rest =>
    if k = kernel then (index, value) :: bindings_of kernel rest else bindings_of kernel rest
  | _ :: rest => bindings_of kernel rest

/-- The sample template with `depth = 4`. -/
def split_gemm : gemm := { sample_gemm with p_ := { sample_parameters with depth := 4 } }

/-- The sample template with `mS = 0`, which the validator accepts. -/
def zero_mS_gemm : gemm := { sample_gemm with p_ := { sample_parameters with mS := 0 } }

/-- The quotient `ceil(x / a)` as the launch code computes it, `align(x, a)/a`. -/
def ceil_div (x a : Nat) : Nat := (x + a - 1) / a

/-! ## Kernel text (`gemm::generate_impl`) -/

/-- Difference of two `uint32_t` values. -/
def sub32 (a b : Nat) : Nat := (a + UINT32_RANGE - b % UINT32_RANGE) % UINT32_RANGE

/-- Sum of two `size_t` values. -/
def add_size_t (a b : Nat) : Nat := (a + b) % SIZE_T_RANGE

/-- Decimal text of a number (`tools::to_string`, and `<<` on an integer). -/
def to_string (n : Nat) : String := toString n

/-- The counter values of `for(uint32_t k = 0; k < bound; k += step)`: the
multiples of `step` below `bound`.  `none` when the loop does not terminate
(`step = 0` with `bound > 0`) or when the counter passes `2^32 - 1` before it
reaches the bound (a case the model leaves out). -/
def loop_values (bound step : Nat) : Option (List Nat) :=
  if bound = 0 then some []
  else if step = 0 then none
  else if ((bound + step - 1) / step) * step < UINT32_RANGE then
    some ((List.range ((bound + step - 1) / step)).map (fun i => i * step))
  else none

/-- The lines written by a loop nest `for(outer) for(inner) body`; the inner
loop is not entered when the outer loop has no iteration. -/
def nested_lines (outer inner : Option (List Nat)) (body : Nat → Nat → List String) :
    Option (List String) :=
  match outer with
  | none => none
  | some ks =>
    if ks.isEmpty then some []
    else
      match inner with
      | none => none
      | some ms => some (ks.flatMap (fun k => ms.flatMap (fun m => body k m)))

/-- The text helpers that `generate_impl` calls and that are not among the
sources: `vload`, `vstore`, `Select`, `access_vector_type` and `append_width`.
Each is a parameter of the embedding. -/
structure text_helpers where
  vload : Nat → String → String → String → String → backend_type → Bool → String
  vstore : Nat → String → String → String → String → String → backend_type → String
  Select : backend_type → String → String → String → String
  access_vector_type : String → Nat → String
  append_width : String → Nat → String

/-- The locals of `generate_impl` that its text is built from: the suffix, the
element type names, the three stride suffixes, the macros `VLOAD`,
`VLOAD_MISALIGNED`, `VSTORE` and the calls `Select(backend, ...)` with the
backend they capture, and the pointer counts `npA`, `npB`. -/
structure kernel_locals where
  suffix : String
  sdtype : String
  vdtype : String
  ASTRIDE1 : String
  BSTRIDE1 : String
  CSTRIDE1 : String
  VLOAD : String → String → String
  VLOAD_MISALIGNED : String → String → String
  VSTORE : String → String → String → String
  SELECT : String → String → String → String
  access_vector_type : String → Nat → String
  npA : Nat
  npB : Nat

/-- The locals computed at lines 119-137 and 181-182.  `none` when `vwidth = 0`
(line 170 divides by it) or when the divisor of `npA` or `npB` is zero. -/
def gemm.generate_impl_locals (g : gemm) (h : text_helpers) (suffix : String) (args : gemm_args)
    (sdtype : String) (backend : backend_type) : Option kernel_locals :=
  if g.p_.vwidth = 0 then none
  else
    match udiv g.p_.mL (if g.A_trans_ = N then mul32 g.p_.lf0 g.p_.vwidth else g.p_.lf1),
          udiv g.p_.nL (if g.B_trans_ = T then mul32 g.p_.lf0 g.p_.vwidth else g.p_.lf1) with
    | some npA, some npB =>
      some
        { suffix := suffix,
          sdtype := sdtype,
          vdtype := h.append_width sdtype g.p_.vwidth,
          ASTRIDE1 := if args.A.ld0 > 1 then "*Astride1" else "",
          BSTRIDE1 := if args.B.ld0 > 1 then "*Bstride1" else "",
          CSTRIDE1 := if args.C.ld0 > 1 then "*Cstride1" else "",
          VLOAD := fun offset ptr => h.vload g.p_.vwidth sdtype offset ptr "1" backend true,
          VLOAD_MISALIGNED :=
            fun offset ptr => h.vload g.p_.vwidth sdtype offset ptr "1" backend false,
          VSTORE :=
            fun value offset ptr => h.vstore g.p_.vwidth sdtype value offset ptr "1" backend,
          SELECT := fun cond a b => h.Select backend cond a b,
          access_vector_type := h.access_vector_type,
          npA := npA,
          npB := npB }
    | _, _ => none

/-- The line written by the `switch(backend)` of lines 148-155: the OpenCL
work-group attribute, nothing for another backend. -/
def gemm.opencl_attribute (g : gemm) (backend : backend_type) : List String :=
  match backend with
  | backend_type.OPENCL =>
    [" __attribute__((reqd_work_group_size(" ++ to_string g.p_.ls0 ++ "," ++
      to_string g.p_.ls1 ++ ",1)))"]
  | backend_type.CUDA => []

/-- The header of the main kernel (lines 157-163). -/
def main_kernel_header (suffix sdtype : String) : String :=
  "$KERNEL void gemm" ++ suffix ++ "($SIZE_T M, $SIZE_T N, $SIZE_T K, " ++
    "$GLOBAL " ++ sdtype ++ "* C, $SIZE_T ldc, $SIZE_T offc, $SIZE_T Cstride1, " ++
    sdtype ++ " alpha," ++
    "$GLOBAL " ++ sdtype ++ "* A, $SIZE_T lda, $SIZE_T offa, $SIZE_T Astride1," ++
    "$GLOBAL " ++ sdtype ++ "* B, $SIZE_T ldb, $SIZE_T offb, $SIZE_T Bstride1," ++
    sdtype ++ " beta)"

/-- The header of the reduction kernel (lines 542-545). -/
def reduce_kernel_header (suffix sdtype : String) : String :=
  "$KERNEL void reduce" ++ suffix ++ "($SIZE_T M, $SIZE_T N, $SIZE_T D, " ++
    "$GLOBAL " ++ sdtype ++ "* Z, $SIZE_T Zld," ++
    "$GLOBAL " ++ sdtype ++ "* C, $SIZE_T ldc, $SIZE_T Cstart, $SIZE_T Cstride," ++
    sdtype ++ " beta)"

/-- The declarations and pointer set-up of the main kernel (lines 157-293),
one string per line written to the stream (without the indentation that
`inc_tab` / `dec_tab` make the stream add). -/
def gemm.prologue (g : gemm) (e : kernel_locals) : List String :=
  let has_depth := g.p_.depth > 1
  [ main_kernel_header e.suffix e.sdtype,
    "\x7b",
    "//blocks",
    e.sdtype ++ " rC[" ++ to_string g.p_.mS ++ "][" ++ to_string g.p_.nS ++ "] = \x7b\x7b0\x7d\x7d;",
    e.vdtype ++ " rA[" ++ to_string g.p_.kS ++ "][" ++ to_string (g.p_.mS / g.p_.vwidth) ++ "];",
    e.vdtype ++ " rB[" ++ to_string g.p_.kS ++ "][" ++ to_string (g.p_.nS / g.p_.vwidth) ++ "];",
    "",
    "//pointers",
    "$LOCAL " ++ e.sdtype ++ " lA[" ++ to_string g.generate_impl_lA_length ++ "];",
    "$LOCAL " ++ e.sdtype ++ " lB[" ++ to_string g.generate_impl_lB_length ++ "];",
    "$GLOBAL " ++ e.sdtype ++ "* Ai[" ++ to_string e.npA ++ "];",
    "$GLOBAL " ++ e.sdtype ++ "* Bi[" ++ to_string e.npB ++ "];",
    "",
    "//identifiers",
    "int2 idT;",
    "int idt;" ] ++
  (if has_depth then ["int gidz, div, offz;"] else []) ++
  [ "uint4 ids;",
    "ids.x = $GROUP_IDX_0;",
    "ids.y = $GROUP_IDX_1;",
    "ids.z = $LOCAL_IDX_0;",
    "ids.w = $LOCAL_IDX_1;",
    "",
    "//offsets",
    "A += offa;",
    "B += offb;",
    "C += offc;" ] ++
  (if has_depth then
    [ "gidz = $GROUP_IDX_2;",
      "div = (K+" ++ to_string (sub32 g.p_.depth 1) ++ ")/" ++ to_string g.p_.depth ++ ";",
      "offz = div*gidz;",
      "K = min(K - div*gidz, ($SIZE_T)div);" ]
   else []) ++
  [ "idt = " ++ to_string g.p_.ls0 ++ "*ids.w + ids.z;",
    "idT.y = idt/" ++ to_string g.p_.lf0 ++ ";",
    "idT.x = idt - " ++ to_string g.p_.lf0 ++ "*idT.y;",
    "",
    "//Adjust pointers and bounds per work-item",
    "ids.x *= " ++ to_string g.p_.mL ++ ";",
    "ids.y *= " ++ to_string g.p_.nL ++ ";",
    "idT.x *= " ++ to_string g.p_.vwidth ++ ";",
    "M -= ids.x;",
    (if g.A_trans_ = N then "M -= idT.x;" else "M -= idT.y;"),
    "N -= ids.y;",
    (if g.B_trans_ = T then "N -= idT.x;" else "N -= idT.y;") ] ++
  (if g.A_trans_ = N then
    [ "A += ids.x" ++ e.ASTRIDE1 ++ ";",
      "A += idT.y*lda;" ] ++
    (if has_depth then ["A += offz*lda;"] else [])
   else
    [ "A += ids.x*lda;",
      "A += idT.x" ++ e.ASTRIDE1 ++ ";" ] ++
    (if has_depth then ["A += offz;"] else [])) ++
  (if g.B_trans_ = T then
    [ "B += ids.y" ++ e.BSTRIDE1 ++ ";",
      "B += idT.y*ldb;" ] ++
    (if has_depth then ["B += offz*ldb;"] else [])
   else
    [ "B += ids.y*ldb;",
      "B += idT.x" ++ e.BSTRIDE1 ++ ";" ] ++
    (if has_depth then ["B += offz;"] else [])) ++
  [ "#pragma unroll",
    "for(int i = 0 ; i < " ++ to_string e.npA ++ " ; ++i)\x7b",
    "Ai[i] = A;",
    "\x7d",
    "",
    "#pragma unroll",
    "for(int i = 0 ; i < " ++ to_string e.npB ++ " ; ++i)\x7b",
    "Bi[i] = B;",
    "\x7d",
    "" ] ++
  (List.range e.npA).map (fun i =>
    if g.A_trans_ = N then
      "Ai[" ++ to_string i ++ "] += " ++
        e.SELECT (to_string (mul32 (mul32 i g.p_.lf0) g.p_.vwidth) ++ " < M")
          ("(int)((idT.x + " ++ to_string (mul32 (mul32 i g.p_.lf0) g.p_.vwidth) ++ ")" ++
            e.ASTRIDE1 ++ ")") "0" ++ ";"
    else
      "Ai[" ++ to_string i ++ "] += " ++
        e.SELECT (to_string (mul32 i g.p_.lf1) ++ " < M")
          ("(int)((idT.y + " ++ to_string (mul32 i g.p_.lf1) ++ ")*lda)") "0" ++ ";") ++
  (List.range e.npB).map (fun i =>
    if g.B_trans_ = T then
      "Bi[" ++ to_string i ++ "] += " ++
        e.SELECT (to_string (mul32 (mul32 i g.p_.lf0) g.p_.vwidth) ++ " < N")
          ("(int)((idT.x + " ++ to_string (mul32 (mul32 i g.p_.lf0) g.p_.vwidth) ++ ")" ++
            e.BSTRIDE1 ++ ")") "0" ++ ";"
    else
      "Bi[" ++ to_string i ++ "] += " ++
        e.SELECT (to_string (mul32 i g.p_.lf1) ++ " < N")
          ("(int)((idT.y + " ++ to_string (mul32 i g.p_.lf1) ++ ")*ldb)") "0" ++ ";") ++
  [ "" ]

/-- The lambda `fetch_to_lds(last_iteration)` (lines 300-465): one staging pass
followed by its compute loop and the pointer increments.  `none` when one of its
generating loops has no modelled result. -/
def gemm.fetch_to_lds (g : gemm) (e : kernel_locals) (last_iteration : Bool) :
    Option (List String) :=
  let vw := g.p_.vwidth
  let llda := g.llda
  let lldb := g.lldb
  let step0 := mul32 g.p_.lf0 g.p_.vwidth
  let fetch_A : Option (List String) :=
    if g.A_trans_ = N then
      nested_lines (loop_values g.p_.kL g.p_.lf1) (loop_values g.p_.mL step0) (fun k m =>
        let mm := to_string (m / mul32 g.p_.vwidth g.p_.lf0)
        let kk := to_string k
        if last_iteration then
          (List.range vw).map (fun s =>
            "ldsA[" ++ to_string (add_size_t (add_size_t (mul_size_t k llda) m) s) ++
              "] = (condy" ++ to_string k ++ " && " ++ to_string s ++ "< M)? Ai[" ++ mm ++
              "][" ++ to_string k ++ "*lda + " ++ to_string s ++ "] : 0;")
        else
          [ e.VSTORE (e.VLOAD_MISALIGNED "0" ("&Ai[" ++ mm ++ "][" ++ kk ++ "*lda]")) "0"
              ("ldsA + " ++ to_string (add_size_t (mul_size_t k llda) m)) ++ ";" ])
    else
      nested_lines (loop_values g.p_.kL step0) (loop_values g.p_.mL g.p_.lf1) (fun k m =>
        let mm := to_string (m / g.p_.lf1)
        let kk := to_string k
        if last_iteration then
          (List.range vw).map (fun s =>
            "ldsA[" ++ to_string (add_size_t (add_size_t (mul_size_t m llda) k) s) ++
              "] = condx" ++ to_string (add32 k s) ++ "? Ai[" ++ mm ++ "][" ++
              to_string (add32 k s) ++ e.ASTRIDE1 ++ "] : 0;")
        else
          [ e.VSTORE (e.VLOAD_MISALIGNED "0" ("&Ai[" ++ mm ++ "][" ++ kk ++ e.ASTRIDE1 ++ "]"))
              "0" ("ldsA + " ++ to_string (add_size_t (mul_size_t m llda) k)) ++ ";" ])
  let fetch_B : Option (List String) :=
    if g.B_trans_ = T then
      nested_lines (loop_values g.p_.kL g.p_.lf1) (loop_values g.p_.nL step0) (fun k n =>
        let nn := to_string (n / mul32 g.p_.vwidth g.p_.lf0)
        let kk := to_string k
        if last_iteration then
          (List.range vw).map (fun s =>
            "ldsB[" ++ to_string (add_size_t (add_size_t (mul_size_t k lldb) n) s) ++
              "] = (condy" ++ to_string k ++ " && " ++ to_string s ++ "< N)? Bi[" ++ nn ++
              "][" ++ kk ++ "*ldb +" ++ to_string s ++ "] : 0;")
        else
          [ e.VSTORE (e.VLOAD_MISALIGNED "0" ("&Bi[" ++ nn ++ "][" ++ kk ++ "*ldb]")) "0"
              ("ldsB + " ++ to_string (add_size_t (mul_size_t k lldb) n)) ++ ";" ])
    else
      nested_lines (loop_values g.p_.kL step0) (loop_values g.p_.nL g.p_.lf1) (fun k n =>
        let nn := to_string (n / g.p_.lf1)
        let kk := to_string k
        if last_iteration then
          (List.range vw).map (fun s =>
            "ldsB[" ++ to_string (add_size_t (add_size_t (mul_size_t n lldb) k) s) ++
              "] = condx" ++ to_string (add32 k s) ++ "? Bi[" ++ nn ++ "][" ++
              to_string (add32 k s) ++ e.BSTRIDE1 ++ "] : 0;")
        else
          [ e.VSTORE (e.VLOAD_MISALIGNED "0" ("&Bi[" ++ nn ++ "][" ++ kk ++ e.BSTRIDE1 ++ "]"))
              "0" ("ldsB + " ++ to_string (add_size_t (mul_size_t n lldb) k)) ++ ";" ])
  let bound := if last_iteration then "K" else to_string g.p_.kL
  let ks := if last_iteration then 1 else g.p_.kS
  match fetch_A, fetch_B with
  | some lines_A, some lines_B =>
    some (
      [ "$LOCAL_BARRIER;",
        "$LOCAL_PTR " ++ e.sdtype ++ "* ldsA = lA + idT.y*" ++ to_string llda ++ " + idT.x;",
        "$LOCAL_PTR " ++ e.sdtype ++ "* ldsB = lB + idT.y*" ++ to_string lldb ++ " + idT.x;",
        "//Fetch A to local memory" ] ++
      lines_A ++
      [ "//Fetch B to local memory" ] ++
      lines_B ++
      [ (if g.A_trans_ = N then "ldsA = lA + ids.z*" ++ to_string vw ++ ";"
         else "ldsA = lA + ids.z*" ++ to_string (mul_size_t llda vw) ++ ";"),
        (if g.B_trans_ = T then "ldsB = lB + ids.w*" ++ to_string vw ++ ";"
         else "ldsB = lB + ids.w*" ++ to_string (mul_size_t lldb vw) ++ ";"),
        "$LOCAL_BARRIER;",
        "//Inner loop",
        "for(uint32_t k = 0; k < " ++ bound ++ "; k+=" ++ to_string ks ++ ")\x7b",
        "//Fetch A to registers",
        "#pragma unroll",
        "for(uint32_t kk = 0; kk < " ++ to_string ks ++ "; kk++)",
        "#pragma unroll " ++ to_string (g.p_.mS / vw),
        "for(uint32_t mm = 0; mm < " ++ to_string (g.p_.mS / vw) ++ "; mm++)",
        "\x7b" ] ++
      (if g.A_trans_ = N then
        [ "rA[kk][mm] = " ++
            e.VLOAD "0" ("ldsA + k*" ++ to_string llda ++ " + mm*" ++
              to_string (mul32 g.p_.ls0 vw) ++ "+ kk*" ++ to_string llda) ++ ";" ]
       else if vw = 1 then
        [ "rA[kk][mm] = ldsA[k + mm*" ++ to_string (mul_size_t g.p_.ls0 llda) ++ "+ kk" ++ "];" ]
       else
        (List.range vw).map (fun s =>
          e.access_vector_type "rA[kk][mm]" s ++ " = ldsA[k + (mm*" ++
            to_string (mul32 vw g.p_.ls0) ++ " + " ++ to_string s ++ ")*" ++ to_string llda ++
            "+ kk];")) ++
      [ "\x7d",
        "//Fetch B to registers",
        "#pragma unroll " ++ to_string ks,
        "for(uint32_t kk = 0; kk < " ++ to_string ks ++ "; kk++)",
        "#pragma unroll " ++ to_string (g.p_.nS / vw),
        "for(uint32_t nn = 0; nn < " ++ to_string (g.p_.nS / vw) ++ "; nn++)",
        "\x7b" ] ++
      (if g.B_trans_ = T then
        [ "rB[kk][nn] = " ++
            e.VLOAD "0" ("ldsB + k*" ++ to_string lldb ++ " + nn*" ++
              to_string (mul32 g.p_.ls1 vw) ++ "+ kk*" ++ to_string lldb) ++ ";" ]
       else if vw = 1 then
        [ "rB[kk][nn] = ldsB[k" ++ " + nn*" ++ to_string (mul_size_t g.p_.ls1 lldb) ++ "+ kk" ++
            "];" ]
       else
        (List.range vw).map (fun s =>
          e.access_vector_type "rB[kk][nn]" s ++ " = ldsB[k" ++ " + (nn*" ++
            to_string (mul32 vw g.p_.ls1) ++ " + " ++ to_string s ++ ")*" ++ to_string lldb ++
            "+ kk];")) ++
      [ "\x7d",
        "//FMA computations",
        "#pragma unroll",
        "for(uint32_t kk = 0 ; kk < " ++ to_string ks ++ "; ++kk)\x7b" ] ++
      (List.range g.p_.nS).flatMap (fun nn =>
        (List.range g.p_.mS).map (fun mm =>
          let res_str := "rC[" ++ to_string mm ++ "][" ++ to_string nn ++ "]"
          let lhs_str :=
            if vw = 1 then "rA[kk][" ++ to_string mm ++ "]"
            else e.access_vector_type ("rA[kk][" ++ to_string (mm / vw) ++ "]") (mm % vw)
          let rhs_str :=
            if vw = 1 then "rB[kk][" ++ to_string nn ++ "]"
            else e.access_vector_type ("rB[kk][" ++ to_string (nn / vw) ++ "]") (nn % vw)
          res_str ++ "= $MAD(" ++ lhs_str ++ "," ++ rhs_str ++ "," ++ res_str ++ ");")) ++
      [ "\x7d",
        "\x7d",
        "K -= " ++ to_string g.p_.kL ++ ";" ] ++
      (List.range e.npA).map (fun i =>
        if g.A_trans_ = N then "Ai[" ++ to_string i ++ "] += " ++ to_string g.p_.kL ++ "*lda;"
        else "Ai[" ++ to_string i ++ "] += " ++ to_string g.p_.kL ++ e.ASTRIDE1 ++ ";") ++
      (List.range e.npB).map (fun i =>
        if g.B_trans_ = T then "Bi[" ++ to_string i ++ "] += " ++ to_string g.p_.kL ++ "*ldb;"
        else "Bi[" ++ to_string i ++ "] += " ++ to_string g.p_.kL ++ e.BSTRIDE1 ++ ";"))
  | _, _ => none

/-- The declarations of the predicates of the tail pass (lines 471-484). -/
def gemm.tail_predicates (g : gemm) : Option (List String) :=
  let condy : Option (List String) :=
    if g.A_trans_ = N ∨ g.B_trans_ = T then
      match loop_values g.p_.kL g.p_.lf1 with
      | none => none
      | some ks =>
        some ([ "int Ky = K - idT.y;" ] ++
          ks.map (fun k => "int condy" ++ to_string k ++ " = " ++ to_string k ++ " < Ky;"))
    else some []
  let condx : Option (List String) :=
    if g.A_trans_ = T ∨ g.B_trans_ = N then
      match loop_values g.p_.kL (mul32 g.p_.lf0 g.p_.vwidth) with
      | none => none
      | some ks =>
        some ([ "int Kx = K - idT.x;" ] ++
          ks.flatMap (fun k => (List.range g.p_.vwidth).map (fun s =>
            "int condx" ++ to_string (add32 k s) ++ " = " ++ to_string (add32 k s) ++ " < Kx;")))
    else some []
  match condy, condx with
  | some lines_y, some lines_x => some (lines_y ++ lines_x)
  | _, _ => none

/-- The write-back of the main kernel (lines 487-538). -/
def gemm.write_back (g : gemm) (e : kernel_locals) : List String :=
  let has_depth := g.p_.depth > 1
  let vw := g.p_.vwidth
  [ "//Write back C",
    "M += ids.x;",
    (if g.A_trans_ = N then "M += idT.x;" else "M += idT.y;"),
    (if g.B_trans_ = T then "N += idT.x;" else "N += idT.y;"),
    "N += ids.y;",
    "C += ids.x" ++ e.CSTRIDE1 ++ ";",
    "C += ids.z*" ++ to_string vw ++ e.CSTRIDE1 ++ ";",
    "C += ids.y*ldc;",
    "C += ids.w*" ++ to_string vw ++ "*ldc;" ] ++
  (if has_depth then [ "C += gidz*ldc*N;" ] else []) ++
  [ "M -= ids.x;",
    "M -= ids.z*" ++ to_string vw ++ ";",
    "N -= ids.y;",
    "N -= ids.w*" ++ to_string vw ++ ";" ] ++
  (List.range g.p_.nS).flatMap (fun n =>
    let Cj := to_string (add32 (mul32 (n / vw) (mul32 g.p_.ls1 vw)) (n % vw))
    [ "if(" ++ Cj ++ " >= N) return;" ] ++
    (List.range g.p_.mS).map (fun m =>
      "rC[" ++ to_string m ++ "][" ++ to_string n ++ "] *= alpha;") ++
    (List.range g.p_.mS).map (fun m =>
      let Ci := to_string (add32 (mul32 (m / vw) (mul32 g.p_.ls0 vw)) (m % vw))
      "if(" ++ Ci ++ "< M) " ++
        (if has_depth then
          "C[" ++ Ci ++ e.CSTRIDE1 ++ "] = rC[" ++ to_string m ++ "][" ++ to_string n ++ "];"
         else
          "C[" ++ Ci ++ e.CSTRIDE1 ++ "] = rC[" ++ to_string m ++ "][" ++ to_string n ++
            "] + ((beta != (" ++ e.sdtype ++ ")0)?(beta*" ++ "C[" ++ Ci ++ e.CSTRIDE1 ++
            "]):0);")) ++
    [ (if add32 n 1 % vw = 0 then
        "C += ldc*" ++ to_string (add32 (sub32 (mul32 g.p_.ls1 vw) vw) 1) ++ ";"
       else "C += ldc;") ]) ++
  [ "\x7d" ]

/-- The reduction kernel (lines 542-569). -/
def reduce_kernel_text (e : kernel_locals) : List String :=
  [ reduce_kernel_header e.suffix e.sdtype,
    "\x7b",
    "C += Cstart;",
    "for(uint32_t i = $GLOBAL_IDX_0 ;  i < M ;  i += $GLOBAL_SIZE_0)",
    "\x7b",
    "for(uint32_t j = $GLOBAL_IDX_1 ;  j < N ;  j += $GLOBAL_SIZE_1)",
    "\x7b",
    e.sdtype ++ " acc = 0;",
    "for(uint32_t k = 0 ;  k < D ;  k++)",
    "acc += Z[i + j*Zld + k*Zld*N];",
    "C[i*Cstride + j*ldc] = acc + ((beta != (" ++ e.sdtype ++
      ")0)?(beta*C[i*Cstride + j*ldc]):0);",
    "\x7d",
    "\x7d",
    "\x7d" ]

/-- The main kernel from its header to its closing brace (lines 157-538). -/
def gemm.main_kernel_text (g : gemm) (e : kernel_locals) : Option (List String) :=
  match g.fetch_to_lds e false, g.tail_predicates, g.fetch_to_lds e true with
  | some main_pass, some predicates, some tail_pass =>
    some (g.prologue e ++
      [ "//Outer loop",
        "while(K >=" ++ to_string g.p_.kL ++ ")",
        "\x7b" ] ++
      main_pass ++
      [ "\x7d" ] ++
      predicates ++
      tail_pass ++
      g.write_back e)
  | _, _, _ => none

/-- Embedding of `gemm::generate_impl` (lines 114-576): the lines of the
returned text.  `none` when extraction fails, when a division by zero is
evaluated, or when a generating loop has no modelled result. -/
def gemm.generate_impl (g : gemm) (h : text_helpers) (suffix : String)
    (extracted : Option gemm_args) (sdtype : String) (backend : backend_type) :
    Option (List String) :=
  match extracted with
  | none => none
  | some args =>
    match g.generate_impl_locals h suffix args sdtype backend with
    | none => none
    | some e =>
      match g.main_kernel_text e with
      | none => none
      | some main =>
        some (g.opencl_attribute backend ++ main ++
          (if g.p_.depth > 1 then reduce_kernel_text e else []))

/-- Text helpers used as a test point; none of them looks at the backend. -/
def sample_helpers : text_helpers :=
  { vload := fun _ _ offset ptr _ _ _ => "vload(" ++ offset ++ "," ++ ptr ++ ")",
    vstore := fun _ _ value offset ptr _ _ => "vstore(" ++ value ++ "," ++ offset ++ "," ++ ptr ++ ")",
    Select := fun _ cond a b => "select(" ++ b ++ "," ++ a ++ "," ++ cond ++ ")",
    access_vector_type := fun v s => v ++ ".s" ++ to_string s,
    append_width := fun v w => if w = 1 then v else v ++ to_string w }


/-! ## Kernel parameter lists -/

/-- A parameter of a kernel header: the text of its type, its name, and the
text written after it (a separator, or the closing parenthesis). -/
structure kernel_parameter where
  type_text : String
  name : String
  closing : String
  deriving DecidableEq, Repr

/-- The parameters of the main kernel as lines 157-162 write them. -/
def main_kernel_parameters (sdtype : String) : List kernel_parameter :=
  [ { type_text := "$SIZE_T", name := "M", closing := ", " },
    { type_text := "$SIZE_T", name := "N", closing := ", " },
    { type_text := "$SIZE_T", name := "K", closing := ", " },
    { type_text := "$GLOBAL " ++ sdtype ++ "*", name := "C", closing := ", " },
    { type_text := "$SIZE_T", name := "ldc", closing := ", " },
    { type_text := "$SIZE_T", name := "offc", closing := ", " },
    { type_text := "$SIZE_T", name := "Cstride1", closing := ", " },
    { type_text := sdtype, name := "alpha", closing := "," },
    { type_text := "$GLOBAL " ++ sdtype ++ "*", name := "A", closing := ", " },
    { type_text := "$SIZE_T", name := "lda", closing := ", " },
    { type_text := "$SIZE_T", name := "offa", closing := ", " },
    { type_text := "$SIZE_T", name := "Astride1", closing := "," },
    { type_text := "$GLOBAL " ++ sdtype ++ "*", name := "B", closing := ", " },
    { type_text := "$SIZE_T", name := "ldb", closing := ", " },
    { type_text := "$SIZE_T", name := "offb", closing := ", " },
    { type_text := "$SIZE_T", name := "Bstride1", closing := "," },
    { type_text := sdtype, name := "beta", closing := ")" } ]

/-- The parameters of the reduction kernel as lines 542-545 write them. -/
def reduce_kernel_parameters (sdtype : String) : List kernel_parameter :=
  [ { type_text := "$SIZE_T", name := "M", closing := ", " },
    { type_text := "$SIZE_T", name := "N", closing := ", " },
    { type_text := "$SIZE_T", name := "D", closing := ", " },
    { type_text := "$GLOBAL " ++ sdtype ++ "*", name := "Z", closing := ", " },
    { type_text := "$SIZE_T", name := "Zld", closing := "," },
    { type_text := "$GLOBAL " ++ sdtype ++ "*", name := "C", closing := ", " },
    { type_text := "$SIZE_T", name := "ldc", closing := ", " },
    { type_text := "$SIZE_T", name := "Cstart", closing := ", " },
    { type_text := "$SIZE_T", name := "Cstride", closing := "," },
    { type_text := sdtype, name := "beta", closing := ")" } ]

/-- The text of a parameter list: each parameter as its type, a blank, its
name and the text that closes it. -/
def parameter_list_text : List kernel_parameter → String
  | [] => ""
  | p :: rest => p.type_text ++ " " ++ p.name ++ p.closing ++ parameter_list_text rest

/-- The type text of the header parameter that takes a bound value:
`setSizeArg` binds a `$SIZE_T`, `setArg` a buffer or a scalar of the element type. -/
def kernel_argument.parameter_type (sdtype : String) : kernel_argument → String
  | kernel_argument.size _ => "$SIZE_T"
  | kernel_argument.buffer _ => "$GLOBAL " ++ sdtype ++ "*"
  | kernel_argument.scalar _ => sdtype

/-- The conditions under which every generating loop of `generate_impl` ends
without wrap-around and none of its divisions has a zero divisor: the knobs are
`uint32_t` values, `vwidth`, `lf1` and the 32-bit product `lf0*vwidth` are
non-zero, and the fetch layout divides the tile dimensions it steps through
(the divisibility tests of the validator, lines 91-109). -/
def gemm.generation_defined (g : gemm) : Prop :=
  g.p_.in_range ∧ 1 ≤ g.p_.vwidth ∧ 1 ≤ g.p_.lf1 ∧ 1 ≤ mul32 g.p_.lf0 g.p_.vwidth ∧
  g.p_.lf1 ∣ g.A_bound1 ∧ mul32 g.p_.lf0 g.p_.vwidth ∣ g.A_bound0 ∧
  g.p_.lf1 ∣ g.B_bound1 ∧ mul32 g.p_.lf0 g.p_.vwidth ∣ g.B_bound0

instance (g : gemm) : Decidable g.generation_defined := by
  unfold gemm.generation_defined; infer_instance

/-- Modelled from the spec: the four values of `expression_type` that the
constructor assigns to `type_` (the enumeration is declared outside the sources);
the variant names the A flag first. -/
inductive expression_type where
  | GEMM_NN
  | GEMM_TN
  | GEMM_NT
  | GEMM_TT
  deriving DecidableEq, Repr

/-- The arguments of the constructor `gemm::gemm` other than the two
transpose characters, in the order of its parameter list (lines 680-684). -/
structure gemm_constructor_arguments where
  vwidth : Nat
  ls0 : Nat
  kL : Nat
  ls1 : Nat
  D : Nat
  ms : Nat
  ks : Nat
  ns : Nat
  Afetch : fetch_type
  Bfetch : fetch_type
  lf0 : Nat
  lf1 : Nat
  deriving DecidableEq, Repr

/-- The object a successful construction leaves: the arguments of the base
class, the members of the initialiser list (lines 685-686) and `type_`. -/
structure constructed_gemm where
  base_impl : Nat × Nat × Nat
  kL_ : Nat
  depth_ : Nat
  mS_ : Nat
  kS_ : Nat
  nS_ : Nat
  Afetch_ : fetch_type
  Bfetch_ : fetch_type
  lf0_ : Nat
  lf1_ : Nat
  A_trans_ : Char
  B_trans_ : Char
  type_ : expression_type
  deriving DecidableEq, Repr

/-- The members set by the initialiser list, with a given `type_`. -/
def gemm_constructor_arguments.members (a : gemm_constructor_arguments) (A_trans B_trans : Char)
    (type_ : expression_type) : constructed_gemm :=
  { base_impl := (a.vwidth, a.ls0, a.ls1), kL_ := a.kL, depth_ := a.D, mS_ := a.ms,
    kS_ := a.ks, nS_ := a.ns, Afetch_ := a.Afetch, Bfetch_ := a.Bfetch, lf0_ := a.lf0,
    lf1_ := a.lf1, A_trans_ := A_trans, B_trans_ := B_trans, type_ := type_ }

/-- Embedding of the constructor `gemm::gemm` (lines 680-693): the chain of
tests on the two characters assigns `type_`; the final `else throw;` (a `throw`
with no exception in flight, which ends the program) is `none`. -/
def gemm_constructor (a : gemm_constructor_arguments) (A_trans B_trans : Char) :
    Option constructed_gemm :=
  if A_trans = 'N' ∧ B_trans = 'N' then some (a.members A_trans B_trans expression_type.GEMM_NN)
  else if A_trans = 'T' ∧ B_trans = 'N' then
    some (a.members A_trans B_trans expression_type.GEMM_TN)
  else if A_trans = 'N' ∧ B_trans = 'T' then
    some (a.members A_trans B_trans expression_type.GEMM_NT)
  else if A_trans = 'T' ∧ B_trans = 'T' then
    some (a.members A_trans B_trans expression_type.GEMM_TT)
  else none

/-- Embedding of `gemm_nn::gemm_nn` (lines 718-725). -/
def gemm_nn (a : gemm_constructor_arguments) : Option constructed_gemm :=
  gemm_constructor a 'N' 'N'

/-- Embedding of `gemm_tn::gemm_tn` (lines 728-734). -/
def gemm_tn (a : gemm_constructor_arguments) : Option constructed_gemm :=
  gemm_constructor a 'T' 'N'

/-- Embedding of `gemm_nt::gemm_nt` (lines 737-743). -/
def gemm_nt (a : gemm_constructor_arguments) : Option constructed_gemm :=
  gemm_constructor a 'N' 'T'

/-- Embedding of `gemm_tt::gemm_tt` (lines 746-752). -/
def gemm_tt (a : gemm_constructor_arguments) : Option constructed_gemm :=
  gemm_constructor a 'T' 'T'

/-- Constructor arguments used as a test point. -/
def sample_constructor_arguments : gemm_constructor_arguments :=
  { vwidth := 1, ls0 := 2, kL := 4, ls1 := 2, D := 1, ms := 2, ks := 1, ns := 2,
    Afetch := FETCH_FROM_LOCAL, Bfetch := FETCH_FROM_LOCAL, lf0 := 2, lf1 := 2 }


/-! ## Constants of the write-back (lines 500-535) -/

/-- The constant `Ci` of line 521 for the register row `m`,
`(m/vwidth)*(ls0*vwidth) + m%vwidth` in `uint32_t` arithmetic. -/
def gemm.Ci (g : gemm) (m : Nat) : Nat :=
  add32 (mul32 (m / g.p_.vwidth) (mul32 g.p_.ls0 g.p_.vwidth)) (m % g.p_.vwidth)

/-- The constant `Cj` of line 515 for the register column `n`,
`(n/vwidth)*(ls1*vwidth) + n%vwidth` in `uint32_t` arithmetic. -/
def gemm.Cj (g : gemm) (n : Nat) : Nat :=
  add32 (mul32 (n / g.p_.vwidth) (mul32 g.p_.ls1 g.p_.vwidth)) (n % g.p_.vwidth)

/-- The factor of `ldc` in the pointer increment written after column `n`
(lines 528-533): `ls1*vwidth - vwidth + 1` in `uint32_t` arithmetic when
`(n+1) % vwidth == 0`, and 1 (the statement `C += ldc;`) otherwise. -/
def gemm.column_increment (g : gemm) (n : Nat) : Nat :=
  if add32 n 1 % g.p_.vwidth = 0 then
    add32 (sub32 (mul32 g.p_.ls1 g.p_.vwidth) g.p_.vwidth) 1
  else 1

/-- The text of the increment statement written after column `n`. -/
def gemm.column_increment_line (g : gemm) (n : Nat) : String :=
  if add32 n 1 % g.p_.vwidth = 0 then
    "C += ldc*" ++ to_string (add32 (sub32 (mul32 g.p_.ls1 g.p_.vwidth) g.p_.vwidth) 1) ++ ";"
  else "C += ldc;"

/-- The text of the guard written before column `n` (line 516). -/
def gemm.column_guard_line (g : gemm) (n : Nat) : String :=
  "if(" ++ to_string (g.Cj n) ++ " >= N) return;"

/-- The factor of `ldc` that the emitted kernel has added to `C` when it
reaches column `n`: the sum of the increments written after the columns
`0, ..., n-1`. -/
def gemm.column_offset (g : gemm) (n : Nat) : Nat :=
  ((List.range n).map g.column_increment).sum

/-- The row of the group's tile that the emitted kernel stores `rC[m][n]` to
in the thread with local id `z`: `C += ids.z*vwidth` (line 501) followed by the
access `C[Ci]` (lines 524, 526). -/
def gemm.write_back_row (g : gemm) (z m : Nat) : Nat := z * g.p_.vwidth + g.Ci m

/-- The column of the group's tile that the emitted kernel stores `rC[m][n]`
to in the thread with local id `w`: `C += ids.w*vwidth*ldc` (line 503) and the
column constant `Cj` tested at line 516. -/
def gemm.write_back_column (g : gemm) (w n : Nat) : Nat := w * g.p_.vwidth + g.Cj n

/-- A parameter set with `ls0 = ls1 = 2^31` and register tiles of 3 rows and
columns: the products `2*ls0*vwidth` and `2*ls1*vwidth` are `2^32`. -/
def wrapping_tile_gemm : gemm :=
  { sample_gemm with p_ := { sample_parameters with
      ls0 := 2147483648, ls1 := 2147483648, mS := 3, nS := 3 } }

/-- The statement that scales `rC[m][n]` by alpha (line 518). -/
def scale_line (m n : Nat) : String :=
  "rC[" ++ to_string m ++ "][" ++ to_string n ++ "] *= alpha;"

/-- The guarded store of `rC[m][n]` (lines 521-526): the `depth > 1` form
stores the accumulator, the other form blends with `beta`. -/
def gemm.store_line (g : gemm) (e : kernel_locals) (m n : Nat) : String :=
  "if(" ++ to_string (g.Ci m) ++ "< M) " ++
    (if g.p_.depth > 1 then
      "C[" ++ to_string (g.Ci m) ++ e.CSTRIDE1 ++ "] = rC[" ++ to_string m ++ "][" ++
        to_string n ++ "];"
     else
      "C[" ++ to_string (g.Ci m) ++ e.CSTRIDE1 ++ "] = rC[" ++ to_string m ++ "][" ++
        to_string n ++ "] + ((beta != (" ++ e.sdtype ++ ")0)?(beta*" ++ "C[" ++
        to_string (g.Ci m) ++ e.CSTRIDE1 ++ "]):0);")

/-- The lines written by one iteration of the loop over the columns
(lines 513-535): the guard, the scalings of the column, its stores, and the
pointer increment. -/
def gemm.write_back_column_lines (g : gemm) (e : kernel_locals) (n : Nat) : List String :=
  [ g.column_guard_line n ] ++
  (List.range g.p_.mS).map (fun m => scale_line m n) ++
  (List.range g.p_.mS).map (fun m => g.store_line e m n) ++
  [ g.column_increment_line n ]

/-- The lines of the write-back before the loop over the columns (lines 487-511). -/
def gemm.write_back_head (g : gemm) (e : kernel_locals) : List String :=
  [ "//Write back C",
    "M += ids.x;",
    (if g.A_trans_ = N then "M += idT.x;" else "M += idT.y;"),
    (if g.B_trans_ = T then "N += idT.x;" else "N += idT.y;"),
    "N += ids.y;",
    "C += ids.x" ++ e.CSTRIDE1 ++ ";",
    "C += ids.z*" ++ to_string g.p_.vwidth ++ e.CSTRIDE1 ++ ";",
    "C += ids.y*ldc;",
    "C += ids.w*" ++ to_string g.p_.vwidth ++ "*ldc;" ] ++
  (if g.p_.depth > 1 then [ "C += gidz*ldc*N;" ] else []) ++
  [ "M -= ids.x;",
    "M -= ids.z*" ++ to_string g.p_.vwidth ++ ";",
    "N -= ids.y;",
    "N -= ids.w*" ++ to_string g.p_.vwidth ++ ";" ]


/-! ## Loops of the emitted kernel -/

/-- The local-memory rows `k + kk` that the compute loop of the main staging
pass reads into `rA` / `rB`: the emitted loop `for(k = 0; k < kL; k += kS)`
(lines 379-382, `bound = kL`, `ks = kS`) around `for(kk = 0; kk < kS; kk++)`
(lines 387, 408) with the accesses `ldsA + k*llda + ... + kk*llda` (line 393). -/
def gemm.compute_loop_rows (g : gemm) : Option (List Nat) :=
  (loop_values g.p_.kL g.p_.kS).map
    (fun ks => ks.flatMap (fun k => (List.range g.p_.kS).map (fun kk => k + kk)))

/-- The sample template with `kS = 3` (and `kL = 4`). -/
def overhanging_kS_gemm : gemm := { sample_gemm with p_ := { sample_parameters with kS := 3 } }

/-- The value of `div` in the emitted statement `div = (K+(depth-1))/depth;`
(line 207; `depth-1` is formed in `uint32_t`). -/
def gemm.slice_div (g : gemm) (K : Nat) : Nat := (K + sub32 g.p_.depth 1) / g.p_.depth

/-- The value of `offz` in the emitted statement `offz = div*gidz;` (line 208). -/
def gemm.slice_offz (g : gemm) (K gidz : Nat) : Nat := g.slice_div K * gidz

/-- The value of `K` after the emitted statement
`K = min(K - div*gidz, ($SIZE_T)div);` (line 209) when `$SIZE_T` is a signed
type: the difference is an integer that may be negative. -/
def gemm.slice_K (g : gemm) (K gidz : Nat) : Int :=
  min ((K : Int) - (g.slice_div K * gidz : Nat)) (g.slice_div K : Nat)

/-- The value of `K` after the same statement when `$SIZE_T` is the unsigned
64-bit type: the difference wraps. -/
def gemm.slice_K_unsigned (g : gemm) (K gidz : Nat) : Nat :=
  min ((K + SIZE_T_RANGE - (g.slice_div K * gidz) % SIZE_T_RANGE) % SIZE_T_RANGE)
    (g.slice_div K)

/-- The index read by the emitted statement `acc += Z[i + j*Zld + k*Zld*N];`
of the reduction kernel (line 560). -/
def reduce_read_index (Zld N i j k : Nat) : Nat := i + j * Zld + k * Zld * N


/-- Operands of a product with `M = N = 65536` and `K = 7`. -/
def large_args : gemm_args :=
  { launch_args with
    A := { launch_args.A with shape0 := 65536, shape1 := 7 },
    B := { launch_args.B with shape0 := 7, shape1 := 65536 },
    C := { launch_args.C with shape0 := 65536, shape1 := 65536 } }


/-! ## Staging layout (lines 175-180, 212-220, 300-366) -/

/-- The pairs `(k, m)` that a loop nest `for(k ...) for(m ...)` visits, in
order; the inner loop is not entered when the outer loop has no iteration. -/
def nested_pairs (outer inner : Option (List Nat)) : Option (List (Nat × Nat)) :=
  match outer with
  | none => none
  | some ks =>
    if ks.isEmpty then some []
    else
      match inner with
      | none => none
      | some ms => some (ks.flatMap (fun k => ms.map (fun m => (k, m))))

/-- The shape of a staged tile: `Dx` elements per row, `Dy` rows, and the
leading dimension `ld` of the local array. -/
structure staging_layout where
  Dx : Nat
  Dy : Nat
  ld : Nat
  deriving DecidableEq, Repr

/-- The staged tile of A: `(mL, kL, mL)` for A normal, `(kL, mL, kL+1)` for A
transposed (`llda`, `lnda` of lines 175-176). -/
def gemm.layout_A (g : gemm) : staging_layout :=
  { Dx := g.A_bound0, Dy := g.lnda, ld := g.llda }

/-- The staged tile of B: `(nL, kL, nL)` for B transposed, `(kL, nL, kL+1)` for
B normal (`lldb`, `lndb` of lines 177-178). -/
def gemm.layout_B (g : gemm) : staging_layout :=
  { Dx := g.B_bound0, Dy := g.lndb, ld := g.lldb }

/-- The pairs `(r, c)` of the stores of A in one staging pass: the store of
the loop iteration `(k, m)` goes to `ldsA + k*llda + m` for A normal
(lines 309-318, `(r, c) = (k, m)`) and to `ldsA + m*llda + k` for A transposed
(lines 323-333, `(r, c) = (m, k)`). -/
def gemm.staged_offsets_A (g : gemm) : Option (List (Nat × Nat)) :=
  if g.A_trans_ = N then
    nested_pairs (loop_values g.p_.kL g.p_.lf1)
      (loop_values g.p_.mL (mul32 g.p_.lf0 g.p_.vwidth))
  else
    (nested_pairs (loop_values g.p_.kL (mul32 g.p_.lf0 g.p_.vwidth))
      (loop_values g.p_.mL g.p_.lf1)).map (List.map (fun km => (km.2, km.1)))

/-- The pairs `(r, c)` of the stores of B in one staging pass: `ldsB + k*lldb + n`
for B transposed (lines 340-349), `ldsB + n*lldb + k` for B normal
(lines 354-364). -/
def gemm.staged_offsets_B (g : gemm) : Option (List (Nat × Nat)) :=
  if g.B_trans_ = T then
    nested_pairs (loop_values g.p_.kL g.p_.lf1)
      (loop_values g.p_.nL (mul32 g.p_.lf0 g.p_.vwidth))
  else
    (nested_pairs (loop_values g.p_.kL (mul32 g.p_.lf0 g.p_.vwidth))
      (loop_values g.p_.nL g.p_.lf1)).map (List.map (fun kn => (kn.2, kn.1)))

/-- The position `(row, col)` of the tile that the fetch thread `idt` writes
for the store `(r, c)` and the lane `s`: the emitted statements
`idT.y = idt/lf0; idT.x = idt - lf0*idT.y; idT.x *= vwidth;` (lines 213-220) and
`ldsA = lA + idT.y*llda + idT.x` (line 303) give the row `idT.y + r` and the
column `idT.x + c + s`. -/
def gemm.staged_position (g : gemm) (idt r c s : Nat) : Nat × Nat :=
  (idt / g.p_.lf0 + r, (idt - g.p_.lf0 * (idt / g.p_.lf0)) * g.p_.vwidth + c + s)

/-- The index of the local array that a position of the tile is stored at. -/
def staging_layout.index (lay : staging_layout) (position : Nat × Nat) : Nat :=
  position.1 * lay.ld + position.2

/-- The stores `offsets` of the `ls0*ls1` fetch threads tile the layout: every
written position is inside the tile and its index inside the local array of
`length` elements, no position is written twice, and every position of the tile
is written. -/
def gemm.staging_tiled (g : gemm) (lay : staging_layout) (length : Nat)
    (offsets : List (Nat × Nat)) : Prop :=
  (∀ idt rc s, idt < g.p_.ls0 * g.p_.ls1 → rc ∈ offsets → s < g.p_.vwidth →
    (g.staged_position idt rc.1 rc.2 s).1 < lay.Dy ∧
    (g.staged_position idt rc.1 rc.2 s).2 < lay.Dx ∧
    lay.index (g.staged_position idt rc.1 rc.2 s) < length) ∧
  (∀ idt rc s idt' rc' s', idt < g.p_.ls0 * g.p_.ls1 → rc ∈ offsets → s < g.p_.vwidth →
    idt' < g.p_.ls0 * g.p_.ls1 → rc' ∈ offsets → s' < g.p_.vwidth →
    g.staged_position idt rc.1 rc.2 s = g.staged_position idt' rc'.1 rc'.2 s' →
    idt = idt' ∧ rc = rc' ∧ s = s') ∧
  (∀ row col, row < lay.Dy → col < lay.Dx →
    ∃ idt rc s, idt < g.p_.ls0 * g.p_.ls1 ∧ rc ∈ offsets ∧ s < g.p_.vwidth ∧
      g.staged_position idt rc.1 rc.2 s = (row, col))

/-- An accepted TN parameter set with `kL = 2^32 - 1`: the leading dimension
`kL + 1` of the staged tile of A is 0 in `uint32_t` arithmetic. -/
def wrapping_ld_gemm : gemm :=
  { p_ := { vwidth := 1, ls0 := 1, ls1 := 1, mL := 1, nL := 1, kL := 4294967295,
            mS := 1, kS := 1, nS := 1, depth := 1,
            Afetch := FETCH_FROM_LOCAL, Bfetch := FETCH_FROM_LOCAL, lf0 := 1, lf1 := 1 },
    A_trans_ := T, B_trans_ := N }

/-- An accepted TN parameter set with `ls0*ls1 = 2^32` and `lf0*lf1 = 2^33`,
which the 32-bit comparison of the validator takes for equal. -/
def wrapping_threads_gemm : gemm :=
  { p_ := { vwidth := 1, ls0 := 65536, ls1 := 65536, mL := 4, nL := 4, kL := 2147483648,
            mS := 1, kS := 1, nS := 1, depth := 1,
            Afetch := FETCH_FROM_LOCAL, Bfetch := FETCH_FROM_LOCAL,
            lf0 := 2147483648, lf1 := 4 },
    A_trans_ := T, B_trans_ := N }

/-! ## Constant indices of the emitted arrays (lines 169-184, 281-291, 307-366, 430-443) -/

/-- The first indices `mm` of the accesses `Ai[mm][...]` that one staging pass
emits: `m/(vwidth*lf0)` over the loop nest of lines 309-318 for A normal,
`m/lf1` over the loop nest of lines 323-333 for A transposed. -/
def gemm.Ai_fetch_indices (g : gemm) : Option (List Nat) :=
  if g.A_trans_ = N then
    (nested_pairs (loop_values g.p_.kL g.p_.lf1)
      (loop_values g.p_.mL (mul32 g.p_.lf0 g.p_.vwidth))).map
        (List.map (fun km => km.2 / mul32 g.p_.vwidth g.p_.lf0))
  else
    (nested_pairs (loop_values g.p_.kL (mul32 g.p_.lf0 g.p_.vwidth))
      (loop_values g.p_.mL g.p_.lf1)).map (List.map (fun km => km.2 / g.p_.lf1))

/-- The first indices `nn` of the accesses `Bi[nn][...]` that one staging pass
emits: `n/(vwidth*lf0)` for B transposed (lines 340-349), `n/lf1` for B normal
(lines 354-364). -/
def gemm.Bi_fetch_indices (g : gemm) : Option (List Nat) :=
  if g.B_trans_ = T then
    (nested_pairs (loop_values g.p_.kL g.p_.lf1)
      (loop_values g.p_.nL (mul32 g.p_.lf0 g.p_.vwidth))).map
        (List.map (fun kn => kn.2 / mul32 g.p_.vwidth g.p_.lf0))
  else
    (nested_pairs (loop_values g.p_.kL (mul32 g.p_.lf0 g.p_.vwidth))
      (loop_values g.p_.nL g.p_.lf1)).map (List.map (fun kn => kn.2 / g.p_.lf1))

/-- The indices `i` of the statements `Ai[i] += ...` of the pointer set-up
(lines 281-285) and of the pointer increments of a pass (lines 449-454). -/
def kernel_locals.Ai_pointer_indices (e : kernel_locals) : List Nat := List.range e.npA

/-- The indices `i` of the statements `Bi[i] += ...` (lines 287-291, 457-462). -/
def kernel_locals.Bi_pointer_indices (e : kernel_locals) : List Nat := List.range e.npB

/-- The second indices of `rA` in the FMA block (lines 430-443): `mm` for
`vwidth = 1`, `mm/vwidth` otherwise, for `nn < nS`, `mm < mS`. -/
def gemm.fma_rA_indices (g : gemm) : List Nat :=
  (List.range g.p_.nS).flatMap (fun _ =>
    (List.range g.p_.mS).map (fun mm => if g.p_.vwidth = 1 then mm else mm / g.p_.vwidth))

/-- The second indices of `rB` in the FMA block: `nn` for `vwidth = 1`,
`nn/vwidth` otherwise. -/
def gemm.fma_rB_indices (g : gemm) : List Nat :=
  (List.range g.p_.nS).flatMap (fun nn =>
    (List.range g.p_.mS).map (fun _ => if g.p_.vwidth = 1 then nn else nn / g.p_.vwidth))

/-- The index pairs of `rC[mm][nn]` in the FMA block (line 433) and of
`rC[m][n]` in the write-back (lines 517-531): both loop nests run `n` below
`nS` outside and `m` below `mS` inside. -/
def gemm.rC_indices (g : gemm) : List (Nat × Nat) :=
  (List.range g.p_.nS).flatMap (fun nn => (List.range g.p_.mS).map (fun mm => (mm, nn)))

/-! ## Barriers of a staging pass (lines 300-382, 466-485) -/

/-- The barrier statement as `fetch_to_lds` writes it (lines 302 and 378). -/
def barrier_line : String := "$LOCAL_BARRIER;"

/-- No line of a list is the barrier statement. -/
def no_barrier (lines : List String) : Prop := ∀ l ∈ lines, l ≠ barrier_line

/-- Whether a line has a character that the barrier statement does not have. -/
def foreign (l : String) : Bool := l.data.any (fun c => !(barrier_line.data.contains c))

/-- The stores of A into local memory of one pass (lines 306-335): the lines
of the loop nest that follows `//Fetch A to local memory`. -/
def gemm.stores_A (g : gemm) (e : kernel_locals) (last_iteration : Bool) :
    Option (List String) :=
  let vw := g.p_.vwidth
  let llda := g.llda
  let step0 := mul32 g.p_.lf0 g.p_.vwidth
  if g.A_trans_ = N then
    nested_lines (loop_values g.p_.kL g.p_.lf1) (loop_values g.p_.mL step0) (fun k m =>
      let mm := to_string (m / mul32 g.p_.vwidth g.p_.lf0)
      let kk := to_string k
      if last_iteration then
        (List.range vw).map (fun s =>
          "ldsA[" ++ to_string (add_size_t (add_size_t (mul_size_t k llda) m) s) ++
            "] = (condy" ++ to_string k ++ " && " ++ to_string s ++ "< M)? Ai[" ++ mm ++
            "][" ++ to_string k ++ "*lda + " ++ to_string s ++ "] : 0;")
      else
        [ e.VSTORE (e.VLOAD_MISALIGNED "0" ("&Ai[" ++ mm ++ "][" ++ kk ++ "*lda]")) "0"
            ("ldsA + " ++ to_string (add_size_t (mul_size_t k llda) m)) ++ ";" ])
  else
    nested_lines (loop_values g.p_.kL step0) (loop_values g.p_.mL g.p_.lf1) (fun k m =>
      let mm := to_string (m / g.p_.lf1)
      let kk := to_string k
      if last_iteration then
        (List.range vw).map (fun s =>
          "ldsA[" ++ to_string (add_size_t (add_size_t (mul_size_t m llda) k) s) ++
            "] = condx" ++ to_string (add32 k s) ++ "? Ai[" ++ mm ++ "][" ++
            to_string (add32 k s) ++ e.ASTRIDE1 ++ "] : 0;")
      else
        [ e.VSTORE (e.VLOAD_MISALIGNED "0" ("&Ai[" ++ mm ++ "][" ++ kk ++ e.ASTRIDE1 ++ "]"))
            "0" ("ldsA + " ++ to_string (add_size_t (mul_size_t m llda) k)) ++ ";" ])

/-- The stores of B into local memory of one pass (lines 337-366): the lines
of the loop nest that follows `//Fetch B to local memory`. -/
def gemm.stores_B (g : gemm) (e : kernel_locals) (last_iteration : Bool) :
    Option (List String) :=
  let vw := g.p_.vwidth
  let lldb := g.lldb
  let step0 := mul32 g.p_.lf0 g.p_.vwidth
  if g.B_trans_ = T then
    nested_lines (loop_values g.p_.kL g.p_.lf1) (loop_values g.p_.nL step0) (fun k n =>
      let nn := to_string (n / mul32 g.p_.vwidth g.p_.lf0)
      let kk := to_string k
      if last_iteration then
        (List.range vw).map (fun s =>
          "ldsB[" ++ to_string (add_size_t (add_size_t (mul_size_t k lldb) n) s) ++
            "] = (condy" ++ to_string k ++ " && " ++ to_string s ++ "< N)? Bi[" ++ nn ++
            "][" ++ kk ++ "*ldb +" ++ to_string s ++ "] : 0;")
      else
        [ e.VSTORE (e.VLOAD_MISALIGNED "0" ("&Bi[" ++ nn ++ "][" ++ kk ++ "*ldb]")) "0"
            ("ldsB + " ++ to_string (add_size_t (mul_size_t k lldb) n)) ++ ";" ])
  else
    nested_lines (loop_values g.p_.kL step0) (loop_values g.p_.nL g.p_.lf1) (fun k n =>
      let nn := to_string (n / g.p_.lf1)
      let kk := to_string k
      if last_iteration then
        (List.range vw).map (fun s =>
          "ldsB[" ++ to_string (add_size_t (add_size_t (mul_size_t n lldb) k) s) ++
            "] = condx" ++ to_string (add32 k s) ++ "? Bi[" ++ nn ++ "][" ++
            to_string (add32 k s) ++ e.BSTRIDE1 ++ "] : 0;")
      else
        [ e.VSTORE (e.VLOAD_MISALIGNED "0" ("&Bi[" ++ nn ++ "][" ++ kk ++ e.BSTRIDE1 ++ "]"))
            "0" ("ldsB + " ++ to_string (add_size_t (mul_size_t n lldb) k)) ++ ";" ])

/-- The loads of `rA` from local memory (lines 391-400). -/
def gemm.register_loads_A (g : gemm) (e : kernel_locals) : List String :=
  let vw := g.p_.vwidth
  let llda := g.llda
  if g.A_trans_ = N then
    [ "rA[kk][mm] = " ++
        e.VLOAD "0" ("ldsA + k*" ++ to_string llda ++ " + mm*" ++
          to_string (mul32 g.p_.ls0 vw) ++ "+ kk*" ++ to_string llda) ++ ";" ]
  else if vw = 1 then
    [ "rA[kk][mm] = ldsA[k + mm*" ++ to_string (mul_size_t g.p_.ls0 llda) ++ "+ kk" ++ "];" ]
  else
    (List.range vw).map (fun s =>
      e.access_vector_type "rA[kk][mm]" s ++ " = ldsA[k + (mm*" ++
        to_string (mul32 vw g.p_.ls0) ++ " + " ++ to_string s ++ ")*" ++ to_string llda ++
        "+ kk];")

/-- The loads of `rB` from local memory (lines 412-421). -/
def gemm.register_loads_B (g : gemm) (e : kernel_locals) : List String :=
  let vw := g.p_.vwidth
  let lldb := g.lldb
  if g.B_trans_ = T then
    [ "rB[kk][nn] = " ++
        e.VLOAD "0" ("ldsB + k*" ++ to_string lldb ++ " + nn*" ++
          to_string (mul32 g.p_.ls1 vw) ++ "+ kk*" ++ to_string lldb) ++ ";" ]
  else if vw = 1 then
    [ "rB[kk][nn] = ldsB[k" ++ " + nn*" ++ to_string (mul_size_t g.p_.ls1 lldb) ++ "+ kk" ++
        "];" ]
  else
    (List.range vw).map (fun s =>
      e.access_vector_type "rB[kk][nn]" s ++ " = ldsB[k" ++ " + (nn*" ++
        to_string (mul32 vw g.p_.ls1) ++ " + " ++ to_string s ++ ")*" ++ to_string lldb ++
        "+ kk];")

/-- The lines of a pass between its first barrier and its stores of A
(lines 303-306). -/
def gemm.pass_pointers (g : gemm) (e : kernel_locals) : List String :=
  [ "$LOCAL_PTR " ++ e.sdtype ++ "* ldsA = lA + idT.y*" ++ to_string g.llda ++ " + idT.x;",
    "$LOCAL_PTR " ++ e.sdtype ++ "* ldsB = lB + idT.y*" ++ to_string g.lldb ++ " + idT.x;",
    "//Fetch A to local memory" ]

/-- The lines of a pass between its last store and its second barrier
(lines 368-376): the local pointers are set for the register loads. -/
def gemm.pass_pointer_resets (g : gemm) : List String :=
  [ (if g.A_trans_ = N then "ldsA = lA + ids.z*" ++ to_string g.p_.vwidth ++ ";"
     else "ldsA = lA + ids.z*" ++ to_string (mul_size_t g.llda g.p_.vwidth) ++ ";"),
    (if g.B_trans_ = T then "ldsB = lB + ids.w*" ++ to_string g.p_.vwidth ++ ";"
     else "ldsB = lB + ids.w*" ++ to_string (mul_size_t g.lldb g.p_.vwidth) ++ ";") ]

/-- The compute phase of a pass, from `//Inner loop` to the pointer increments
(lines 379-463); the register loads are its only reads of local memory. -/
def gemm.pass_compute (g : gemm) (e : kernel_locals) (last_iteration : Bool) : List String :=
  let vw := g.p_.vwidth
  let bound := if last_iteration then "K" else to_string g.p_.kL
  let ks := if last_iteration then 1 else g.p_.kS
  [ "//Inner loop",
    "for(uint32_t k = 0; k < " ++ bound ++ "; k+=" ++ to_string ks ++ ")\x7b",
    "//Fetch A to registers",
    "#pragma unroll",
    "for(uint32_t kk = 0; kk < " ++ to_string ks ++ "; kk++)",
    "#pragma unroll " ++ to_string (g.p_.mS / vw),
    "for(uint32_t mm = 0; mm < " ++ to_string (g.p_.mS / vw) ++ "; mm++)",
    "\x7b" ] ++
  g.register_loads_A e ++
  [ "\x7d",
    "//Fetch B to registers",
    "#pragma unroll " ++ to_string ks,
    "for(uint32_t kk = 0; kk < " ++ to_string ks ++ "; kk++)",
    "#pragma unroll " ++ to_string (g.p_.nS / vw),
    "for(uint32_t nn = 0; nn < " ++ to_string (g.p_.nS / vw) ++ "; nn++)",
    "\x7b" ] ++
  g.register_loads_B e ++
  [ "\x7d",
    "//FMA computations",
    "#pragma unroll",
    "for(uint32_t kk = 0 ; kk < " ++ to_string ks ++ "; ++kk)\x7b" ] ++
  (List.range g.p_.nS).flatMap (fun nn =>
    (List.range g.p_.mS).map (fun mm =>
      let res_str := "rC[" ++ to_string mm ++ "][" ++ to_string nn ++ "]"
      let lhs_str :=
        if vw = 1 then "rA[kk][" ++ to_string mm ++ "]"
        else e.access_vector_type ("rA[kk][" ++ to_string (mm / vw) ++ "]") (mm % vw)
      let rhs_str :=
        if vw = 1 then "rB[kk][" ++ to_string nn ++ "]"
        else e.access_vector_type ("rB[kk][" ++ to_string (nn / vw) ++ "]") (nn % vw)
      res_str ++ "= $MAD(" ++ lhs_str ++ "," ++ rhs_str ++ "," ++ res_str ++ ");")) ++
  [ "\x7d",
    "\x7d",
    "K -= " ++ to_string g.p_.kL ++ ";" ] ++
  (List.range e.npA).map (fun i =>
    if g.A_trans_ = N then "Ai[" ++ to_string i ++ "] += " ++ to_string g.p_.kL ++ "*lda;"
    else "Ai[" ++ to_string i ++ "] += " ++ to_string g.p_.kL ++ e.ASTRIDE1 ++ ";") ++
  (List.range e.npB).map (fun i =>
    if g.B_trans_ = T then "Bi[" ++ to_string i ++ "] += " ++ to_string g.p_.kL ++ "*ldb;"
    else "Bi[" ++ to_string i ++ "] += " ++ to_string g.p_.kL ++ e.BSTRIDE1 ++ ";")

/-! ## Decimal text and occurrences of `beta` -/

/-- The number that a list of decimal digits denotes. -/
def digits_value (cs : List Char) : Nat := cs.foldl (fun acc c => acc * 10 + (c.toNat - 48)) 0

/-- The text `beta` does not occur in a line. -/
def beta_free (l : String) : Prop := ¬ "beta".data <:+: l.data

/-- A character that is none of the letters of `beta`. -/
def neutral (c : Char) : Bool := !("beta".data.contains c)

/-- The last character of a text, when it has one, is none of the letters of
`beta`. -/
def neutral_end (l : String) : Bool :=
  match l.data.getLast? with
  | none => true
  | some c => neutral c

/-- A non-empty text without `beta` whose first and last characters are none
of the letters of `beta`. -/
def neutral_piece (l : String) : Bool :=
  match l.data.head?, l.data.getLast? with
  | some c, some d => neutral c && neutral d && !(decide ("beta".data <:+: l.data))
  | _, _ => false

instance (l : String) : Decidable (beta_free l) := by
  unfold beta_free; infer_instance

/-- A text without `beta` whose last character, when it has one, is none of
the letters of `beta`. -/
def clean_end (l : String) : Prop := beta_free l ∧ neutral_end l = true

/-- A stride suffix: empty, or a piece. -/
def stride_text (l : String) : Prop := l = "" ∨ neutral_piece l = true

/-- The decimal text of a number, kept folded while a line is taken apart. -/
@[irreducible] def decimal (n : Nat) : String := to_string n

/-- Every line of a list has a property. -/
def lines_all (P : String → Prop) (lines : List String) : Prop := ∀ l ∈ lines, P l

/-- The helpers put no `beta` into the kernel text: the text each of them
returns is without `beta` when the texts it is given are. -/
def text_helpers.beta_free (h : text_helpers) : Prop :=
  (∀ t w, isaac.templates.beta_free t → isaac.templates.beta_free (h.append_width t w)) ∧
  (∀ w t o p i b a, isaac.templates.beta_free t → isaac.templates.beta_free o →
    isaac.templates.beta_free p → isaac.templates.beta_free i →
    isaac.templates.beta_free (h.vload w t o p i b a)) ∧
  (∀ w t v o p i b, isaac.templates.beta_free t → isaac.templates.beta_free v →
    isaac.templates.beta_free o → isaac.templates.beta_free p → isaac.templates.beta_free i →
    isaac.templates.beta_free (h.vstore w t v o p i b)) ∧
  (∀ b c x y, isaac.templates.beta_free c → isaac.templates.beta_free x →
    isaac.templates.beta_free y → isaac.templates.beta_free (h.Select b c x y)) ∧
  (∀ v s, isaac.templates.beta_free v → isaac.templates.beta_free (h.access_vector_type v s))

/-- The locals of `generate_impl` put no `beta` into the kernel text: the type
names are without `beta`, the stride suffixes are empty or pieces, and the
macros return a text without `beta` when the texts they are given are. -/
def kernel_locals.beta_free (e : kernel_locals) : Prop :=
  isaac.templates.beta_free e.sdtype ∧ isaac.templates.beta_free e.vdtype ∧
  stride_text e.ASTRIDE1 ∧ stride_text e.BSTRIDE1 ∧ stride_text e.CSTRIDE1 ∧
  (∀ o p, isaac.templates.beta_free o → isaac.templates.beta_free p →
    isaac.templates.beta_free (e.VLOAD o p)) ∧
  (∀ o p, isaac.templates.beta_free o → isaac.templates.beta_free p →
    isaac.templates.beta_free (e.VLOAD_MISALIGNED o p)) ∧
  (∀ v o p, isaac.templates.beta_free v → isaac.templates.beta_free o →
    isaac.templates.beta_free p → isaac.templates.beta_free (e.VSTORE v o p)) ∧
  (∀ c x y, isaac.templates.beta_free c → isaac.templates.beta_free x →
    isaac.templates.beta_free y → isaac.templates.beta_free (e.SELECT c x y)) ∧
  (∀ v s, isaac.templates.beta_free v → isaac.templates.beta_free (e.access_vector_type v s))

/-- The lines of the prologue after the kernel header (lines 164-293). -/
def gemm.prologue_body (g : gemm) (e : kernel_locals) : List String := (g.prologue e).tail

/-- Whether the first character of a line is one of the characters of `cs`. -/
def opens_with (cs : String) (l : String) : Bool :=
  match l.data.head? with
  | some c => cs.data.contains c
  | none => false

/-! ## Shared lemmas -/

theorem is_invalid_impl_chain (g : gemm) (hv : 0 < g.p_.vwidth) (hk : 0 < g.p_.kL) :
    g.is_invalid_impl =
      if g.p_.Afetch ≠ FETCH_FROM_LOCAL ∨ g.p_.Bfetch ≠ FETCH_FROM_LOCAL then
        some TEMPLATE_INVALID_FETCHING_POLICY_TYPE
      else if g.p_.mS % g.p_.vwidth > 0 ∨ g.p_.nS % g.p_.vwidth > 0 then
        some TEMPLATE_MS_NS_MUST_BE_SIMD_WIDTH_MULTIPLE
      else if g.p_.mL > 256 ∨ g.p_.nL > 256 then some TEMPLATE_BLOCK_SIZE_TOO_LARGE
      else if g.p_.kS % g.p_.kL = 0 then some TEMPLATE_KS_MUST_BE_SMALLER_THAN_KL
      else if mul32 g.p_.lf0 g.p_.lf1 ≠ mul32 g.p_.ls0 g.p_.ls1 then
        some TEMPLATE_LOCAL_FETCH_PRODUCT_MUST_MATCH_LOCAL_SIZE_PRODUCT
      else if g.p_.lf1 > 0 ∧ (if g.A_trans_ = N then g.p_.kL else g.p_.mL) % g.p_.lf1 > 0 then
        some (if g.A_trans_ = N then TEMPLATE_LOCAL_FETCH_1_MUST_BE_KL_MULTIPLE
          else TEMPLATE_LOCAL_FETCH_1_MUST_BE_ML_MULTIPLE)
      else if g.p_.lf0 > 0 ∧ mul32 g.p_.lf0 g.p_.vwidth = 0 then none
      else if g.p_.lf0 > 0 ∧
          (if g.A_trans_ = N then g.p_.mL else g.p_.kL) % mul32 g.p_.lf0 g.p_.vwidth > 0 then
        some (if g.A_trans_ = N then TEMPLATE_LOCAL_FETCH_0_MUST_BE_NL_MULTIPLE
          else TEMPLATE_LOCAL_FETCH_0_MUST_BE_KL_MULTIPLE)
      else if g.p_.lf1 > 0 ∧ (if g.B_trans_ = T then g.p_.kL else g.p_.nL) % g.p_.lf1 > 0 then
        some (if g.B_trans_ = T then TEMPLATE_LOCAL_FETCH_1_MUST_BE_KL_MULTIPLE
          else TEMPLATE_LOCAL_FETCH_1_MUST_BE_ML_MULTIPLE)
      else if g.p_.lf0 > 0 ∧
          (if g.B_trans_ = T then g.p_.nL else g.p_.kL) % mul32 g.p_.lf0 g.p_.vwidth > 0 then
        some (if g.B_trans_ = T then TEMPLATE_LOCAL_FETCH_1_MUST_BE_KL_MULTIPLE
          else TEMPLATE_LOCAL_FETCH_1_MUST_BE_ML_MULTIPLE)
      else some TEMPLATE_VALID := by
  have hv0 : g.p_.vwidth ≠ 0 := by omega
  have hk0 : g.p_.kL ≠ 0 := by omega
  simp only [gemm.is_invalid_impl, umod, hv0, hk0, if_false]
  by_cases h1 : g.p_.Afetch ≠ FETCH_FROM_LOCAL ∨ g.p_.Bfetch ≠ FETCH_FROM_LOCAL
  · simp [h1]
  · have hA : g.p_.Afetch = FETCH_FROM_LOCAL := by
      by_contra h; exact h1 (Or.inl h)
    have hB : g.p_.Bfetch = FETCH_FROM_LOCAL := by
      by_contra h; exact h1 (Or.inr h)
    simp only [hA, hB, ne_eq, not_true_eq_false, or_self, if_false, true_and, true_or]
    by_cases h2 : g.p_.mS % g.p_.vwidth > 0
    · simp [h2]
    · by_cases h2b : g.p_.nS % g.p_.vwidth > 0
      · simp [h2, h2b]
      · simp only [h2, h2b, if_false, or_self]
        by_cases h3 : g.p_.mL > 256 ∨ g.p_.nL > 256
        · simp only [h3, if_true]
        · simp only [h3, if_false]
          by_cases h4 : g.p_.kS % g.p_.kL = 0
          · simp only [h4, if_true]
          · simp only [h4, if_false]
            by_cases h5 : mul32 g.p_.lf0 g.p_.lf1 = mul32 g.p_.ls0 g.p_.ls1
            · simp only [h5, not_true_eq_false, if_false]
              by_cases h6 : g.p_.lf1 > 0 ∧ (if g.A_trans_ = N then g.p_.kL else g.p_.mL) % g.p_.lf1 > 0
              · simp only [h6, and_self, if_true]
              · simp only [h6, if_false]
                by_cases h7 : g.p_.lf0 > 0
                · by_cases h8 : mul32 g.p_.lf0 g.p_.vwidth = 0
                  · simp [h7, h8]
                  · simp only [h7, h8, if_true, if_false, true_and]
                · simp [h7]
            · simp [h5]

theorem ite_some_congr {α : Type} {c c' : Prop} [Decidable c] [Decidable c']
    {a : α} {x : Option α} {y : α} (hc : c ↔ c') (hx : x = some y) :
    (if c then some a else x) = some (if c' then a else y) := by
  by_cases h : c
  · rw [if_pos h, if_pos (hc.mp h)]
  · rw [if_neg h, if_neg (fun h' => h (hc.mpr h')), hx]

theorem pos_mod_iff_not_dvd (a b : Nat) : (a > 0 ∧ b % a > 0) ↔ (0 < a ∧ ¬ a ∣ b) := by
  rw [Nat.dvd_iff_mod_eq_zero]
  omega

theorem pos_mod_iff_not_dvd_of (c a b : Nat) : (c > 0 ∧ b % a > 0) ↔ (0 < c ∧ ¬ a ∣ b) := by
  rw [Nat.dvd_iff_mod_eq_zero]
  omega

theorem size_t_mod_uint32 (x : Nat) : x % SIZE_T_RANGE % UINT32_RANGE = x % UINT32_RANGE :=
  Nat.mod_mod_of_dvd x ⟨4294967296, by norm_num [UINT32_RANGE, SIZE_T_RANGE]⟩

theorem lA_length_modEq (g : gemm) :
    g.generate_impl_lA_length ≡ g.stated_area_A [MOD UINT32_RANGE] := by
  unfold Nat.ModEq gemm.generate_impl_lA_length mul_size_t gemm.stated_area_A gemm.llda
    gemm.lnda add32
  rw [size_t_mod_uint32]
  by_cases h : g.A_trans_ = N
  · simp only [h, if_true]
  · simp only [h, if_false]
    rw [Nat.mul_mod, Nat.mod_mod, ← Nat.mul_mod]

theorem lB_length_modEq (g : gemm) :
    g.generate_impl_lB_length ≡ g.stated_area_B [MOD UINT32_RANGE] := by
  unfold Nat.ModEq gemm.generate_impl_lB_length mul_size_t gemm.stated_area_B gemm.lldb
    gemm.lndb add32
  rw [size_t_mod_uint32]
  by_cases h : g.B_trans_ = T
  · simp only [h, if_true]
  · simp only [h, if_false]
    rw [Nat.mul_mod, Nat.mod_mod, ← Nat.mul_mod]

theorem lmem_usage_eq_lengths (g : gemm) (size_of_dtype : Nat) :
    g.lmem_usage size_of_dtype =
      (size_of_dtype * (g.generate_impl_lA_length + g.generate_impl_lB_length))
        % UINT32_RANGE := by
  unfold gemm.lmem_usage gemm.generate_impl_lA_length gemm.generate_impl_lB_length mul32
  simp only [Nat.zero_add, size_t_mod_uint32]
  rw [Nat.mul_mod, Nat.mod_mod, Nat.mul_comm size_of_dtype]
  conv_rhs => rw [Nat.mul_mod]
  congr 2
  rw [Nat.add_mod, Nat.mod_mod, ← Nat.add_mod]

theorem lmem_usage_eq_areas (g : gemm) (size_of_dtype : Nat) :
    g.lmem_usage size_of_dtype =
      (size_of_dtype * (g.stated_area_A + g.stated_area_B)) % UINT32_RANGE := by
  rw [lmem_usage_eq_lengths]
  exact Nat.ModEq.mul_left _ (Nat.ModEq.add (lA_length_modEq g) (lB_length_modEq g))

theorem registers_usage_eq_exact (g : gemm) (size_of_dtype : Nat) :
    g.registers_usage size_of_dtype =
      ((g.p_.mS * g.p_.nS + g.p_.mS * g.p_.kS + g.p_.kS * g.p_.nS) * size_of_dtype)
        % UINT32_RANGE := by
  simp only [gemm.registers_usage, mul32, add32, UINT32_RANGE]
  rw [Nat.mul_mod, Nat.mod_mod]
  conv_rhs => rw [Nat.mul_mod]
  congr 2
  omega

/-! ## Validator -/

/-- C1 (as stated) fails: two in-range NN parameter sets with `vw = 1` and
`kL >= 1` are accepted by `is_invalid_impl` although the stated acceptance
condition is false for them, one because `lf1 = 0` divides no tile, one because
`lf0*lf1 = 2^32` differs from `ls0*ls1 = 0`. -/
theorem is_invalid_impl_stated_acceptance_fails :
    (zero_lf1_gemm.p_.in_range ∧ 1 ≤ zero_lf1_gemm.p_.vwidth ∧ 1 ≤ zero_lf1_gemm.p_.kL ∧
      ¬ (zero_lf1_gemm.is_invalid_impl = some TEMPLATE_VALID ↔ zero_lf1_gemm.stated_acceptance)) ∧
    (wrapped_product_gemm.p_.in_range ∧ 1 ≤ wrapped_product_gemm.p_.vwidth ∧
      1 ≤ wrapped_product_gemm.p_.kL ∧
      ¬ (wrapped_product_gemm.is_invalid_impl = some TEMPLATE_VALID ↔
          wrapped_product_gemm.stated_acceptance)) := by
  decide

/-- C1 (amended): for every parameter set with `vw >= 1` and `kL >= 1` and every
transpose variant, `is_invalid_impl` returns `TEMPLATE_VALID` exactly when both
operands are staged, `mS` and `nS` are multiples of `vw`, `mL, nL <= 256`,
`kS % kL != 0`, the 32-bit products `lf0*lf1` and `ls0*ls1` agree, and for each
operand a non-zero `lf1` divides its `bound1` and a non-zero `lf0` has a non-zero
32-bit product `lf0*vw` that divides its `bound0`. -/
theorem is_invalid_impl_valid_iff (g : gemm) (hv : 1 ≤ g.p_.vwidth) (hk : 1 ≤ g.p_.kL) :
    g.is_invalid_impl = some TEMPLATE_VALID ↔ g.guarded_acceptance := by
  rw [is_invalid_impl_chain g hv hk]
  unfold gemm.guarded_acceptance gemm.A_bound1 gemm.A_bound0 gemm.B_bound1 gemm.B_bound0
  simp only [Nat.dvd_iff_mod_eq_zero]
  by_cases h1 : g.p_.Afetch ≠ FETCH_FROM_LOCAL ∨ g.p_.Bfetch ≠ FETCH_FROM_LOCAL
  · rw [if_pos h1]
    refine ⟨fun h => (by cases h), ?_⟩
    rintro ⟨hA, hB, -⟩
    rcases h1 with h | h
    · exact absurd hA h
    · exact absurd hB h
  rw [if_neg h1]
  by_cases h2 : g.p_.mS % g.p_.vwidth > 0 ∨ g.p_.nS % g.p_.vwidth > 0
  · rw [if_pos h2]
    refine ⟨fun h => (by cases h), ?_⟩
    rintro ⟨-, -, hm, hn, -⟩
    omega
  rw [if_neg h2]
  by_cases h3 : g.p_.mL > 256 ∨ g.p_.nL > 256
  · rw [if_pos h3]
    refine ⟨fun h => (by cases h), ?_⟩
    rintro ⟨-, -, -, -, hm, hn, -⟩
    omega
  rw [if_neg h3]
  by_cases h4 : g.p_.kS % g.p_.kL = 0
  · rw [if_pos h4]
    refine ⟨fun h => (by cases h), ?_⟩
    rintro ⟨-, -, -, -, -, -, hk4, -⟩
    exact absurd h4 hk4
  rw [if_neg h4]
  by_cases h5 : mul32 g.p_.lf0 g.p_.lf1 ≠ mul32 g.p_.ls0 g.p_.ls1
  · rw [if_pos h5]
    refine ⟨fun h => (by cases h), ?_⟩
    rintro ⟨-, -, -, -, -, -, -, hp, -⟩
    exact absurd hp h5
  rw [if_neg h5]
  by_cases h6 : g.p_.lf1 > 0 ∧ (if g.A_trans_ = N then g.p_.kL else g.p_.mL) % g.p_.lf1 > 0
  · rw [if_pos h6]
    refine ⟨fun h => (by split at h <;> cases h), ?_⟩
    rintro ⟨-, -, -, -, -, -, -, -, ha1, -⟩
    have := ha1 h6.1
    omega
  rw [if_neg h6]
  by_cases h7 : g.p_.lf0 > 0 ∧ mul32 g.p_.lf0 g.p_.vwidth = 0
  · rw [if_pos h7]
    refine ⟨fun h => (by cases h), ?_⟩
    rintro ⟨-, -, -, -, -, -, -, -, -, ha0, -⟩
    exact absurd h7.2 (ha0 h7.1).1
  rw [if_neg h7]
  by_cases h8 : g.p_.lf0 > 0 ∧
      (if g.A_trans_ = N then g.p_.mL else g.p_.kL) % mul32 g.p_.lf0 g.p_.vwidth > 0
  · rw [if_pos h8]
    refine ⟨fun h => (by split at h <;> cases h), ?_⟩
    rintro ⟨-, -, -, -, -, -, -, -, -, ha0, -⟩
    have := (ha0 h8.1).2
    omega
  rw [if_neg h8]
  by_cases h9 : g.p_.lf1 > 0 ∧ (if g.B_trans_ = T then g.p_.kL else g.p_.nL) % g.p_.lf1 > 0
  · rw [if_pos h9]
    refine ⟨fun h => (by split at h <;> cases h), ?_⟩
    rintro ⟨-, -, -, -, -, -, -, -, -, -, hb1, -⟩
    have := hb1 h9.1
    omega
  rw [if_neg h9]
  by_cases h10 : g.p_.lf0 > 0 ∧
      (if g.B_trans_ = T then g.p_.nL else g.p_.kL) % mul32 g.p_.lf0 g.p_.vwidth > 0
  · rw [if_pos h10]
    refine ⟨fun h => (by split at h <;> cases h), ?_⟩
    rintro ⟨-, -, -, -, -, -, -, -, -, -, -, hb0⟩
    have := (hb0 h10.1).2
    omega
  rw [if_neg h10]
  refine ⟨fun _ => ?_, fun _ => rfl⟩
  have hA : g.p_.Afetch = FETCH_FROM_LOCAL := by
    by_contra h; exact h1 (Or.inl h)
  have hB : g.p_.Bfetch = FETCH_FROM_LOCAL := by
    by_contra h; exact h1 (Or.inr h)
  refine ⟨hA, hB, by omega, by omega, by omega, by omega, h4,
    (by by_contra h; exact h5 h), ?_, ?_, ?_, ?_⟩
  · intro hp
    by_contra hc
    exact h6 ⟨hp, Nat.pos_of_ne_zero hc⟩
  · intro hp
    have hne : mul32 g.p_.lf0 g.p_.vwidth ≠ 0 := fun hz => h7 ⟨hp, hz⟩
    refine ⟨hne, ?_⟩
    by_contra hc
    exact h8 ⟨hp, Nat.pos_of_ne_zero hc⟩
  · intro hp
    by_contra hc
    exact h9 ⟨hp, Nat.pos_of_ne_zero hc⟩
  · intro hp
    have hne : mul32 g.p_.lf0 g.p_.vwidth ≠ 0 := fun hz => h7 ⟨hp, hz⟩
    refine ⟨hne, ?_⟩
    by_contra hc
    exact h10 ⟨hp, Nat.pos_of_ne_zero hc⟩

/-- Witness for C1 (amended) on the sample NN parameter set. -/
theorem is_invalid_impl_valid_iff_witness :
    sample_gemm.is_invalid_impl = some TEMPLATE_VALID ↔ sample_gemm.guarded_acceptance :=
  is_invalid_impl_valid_iff sample_gemm (by decide) (by decide)
/-- C2 (as stated) fails: an in-range NN parameter set with `vw = 1`, `kL = 3`
and `lf1 = 0` violates the stated `lf1` rule of operand A and the `lf0` rule of
operand B; the earliest stated violation is A's, with code
`TEMPLATE_LOCAL_FETCH_1_MUST_BE_KL_MULTIPLE`, but `is_invalid_impl` skips the
`lf1` checks and returns the code of B's `lf0` check. -/
theorem is_invalid_impl_stated_order_fails :
    zero_lf1_B_lf0_gemm.p_.in_range ∧
    first_violation zero_lf1_B_lf0_gemm.stated_rules =
      TEMPLATE_LOCAL_FETCH_1_MUST_BE_KL_MULTIPLE ∧
    zero_lf1_B_lf0_gemm.is_invalid_impl = some TEMPLATE_LOCAL_FETCH_1_MUST_BE_ML_MULTIPLE ∧
    zero_lf1_B_lf0_gemm.is_invalid_impl ≠
      some (first_violation zero_lf1_B_lf0_gemm.stated_rules) := by
  decide

/-- C2 (amended): a parameter set with a non-staged operand gets
`TEMPLATE_INVALID_FETCHING_POLICY_TYPE` whatever its other parameters are; and
for `vw >= 1`, `kL >= 1` and a 32-bit product `lf0*vw` that is non-zero when
`lf0` is, `is_invalid_impl` returns exactly the code of the earliest violated
rule of the guarded rule list (`TEMPLATE_VALID` when none is violated). -/
theorem is_invalid_impl_first_match (g : gemm) :
    ((g.p_.Afetch ≠ FETCH_FROM_LOCAL ∨ g.p_.Bfetch ≠ FETCH_FROM_LOCAL) →
      g.is_invalid_impl = some TEMPLATE_INVALID_FETCHING_POLICY_TYPE) ∧
    (1 ≤ g.p_.vwidth → 1 ≤ g.p_.kL → (0 < g.p_.lf0 → mul32 g.p_.lf0 g.p_.vwidth ≠ 0) →
      g.is_invalid_impl = some (first_violation g.guarded_rules)) := by
  constructor
  · intro h
    simp only [gemm.is_invalid_impl, if_pos h]
  · intro hv hk hw
    rw [is_invalid_impl_chain g hv hk]
    have h7 : ¬ (g.p_.lf0 > 0 ∧ mul32 g.p_.lf0 g.p_.vwidth = 0) := fun h => hw h.1 h.2
    rw [if_neg h7]
    unfold gemm.guarded_rules gemm.A_bound1 gemm.A_bound0 gemm.B_bound1 gemm.B_bound0
      gemm.code_A_lf1 gemm.code_A_lf0 gemm.code_B_lf1 gemm.code_B_lf0
    simp only [first_violation, decide_eq_true_eq]
    refine ite_some_congr Iff.rfl ?_
    refine ite_some_congr (by omega) ?_
    refine ite_some_congr Iff.rfl ?_
    refine ite_some_congr Iff.rfl ?_
    refine ite_some_congr Iff.rfl ?_
    refine ite_some_congr (pos_mod_iff_not_dvd _ _) ?_
    refine ite_some_congr (pos_mod_iff_not_dvd_of _ _ _) ?_
    refine ite_some_congr (pos_mod_iff_not_dvd _ _) ?_
    exact ite_some_congr (pos_mod_iff_not_dvd_of _ _ _) rfl

/-- Witness for C2 (amended): the sample parameter set with operand A fetched
directly, and the accepted sample parameter set. -/
theorem is_invalid_impl_first_match_witness :
    ({ sample_gemm with p_ := { sample_parameters with Afetch := FETCH_FROM_GLOBAL } } :
        gemm).is_invalid_impl = some TEMPLATE_INVALID_FETCHING_POLICY_TYPE ∧
    sample_gemm.is_invalid_impl = some (first_violation sample_gemm.guarded_rules) :=
  ⟨(is_invalid_impl_first_match _).1 (by decide),
   (is_invalid_impl_first_match sample_gemm).2 (by decide) (by decide) (by decide)⟩
/-- C3: if `is_invalid_impl` accepts a parameter set and `kS'` is a multiple of
its `kL`, then the same set with only `kS` replaced by `kS'` is rejected with
`TEMPLATE_KS_MUST_BE_SMALLER_THAN_KL`. -/
theorem is_invalid_impl_kS_perturbation (g : gemm) (kS' : Nat)
    (hacc : g.is_invalid_impl = some TEMPLATE_VALID) (hmul : kS' % g.p_.kL = 0) :
    ({ g with p_ := { g.p_ with kS := kS' } } : gemm).is_invalid_impl =
      some TEMPLATE_KS_MUST_BE_SMALLER_THAN_KL := by
  have hv : g.p_.vwidth ≠ 0 := by
    intro hv
    by_cases h1 : g.p_.Afetch ≠ FETCH_FROM_LOCAL ∨ g.p_.Bfetch ≠ FETCH_FROM_LOCAL
    · simp [gemm.is_invalid_impl, h1] at hacc
    · simp [gemm.is_invalid_impl, h1, umod, hv] at hacc
  have hk : g.p_.kL ≠ 0 := by
    intro hk
    rw [gemm.is_invalid_impl] at hacc
    simp only [umod, hv, hk, if_false, if_true] at hacc
    split_ifs at hacc <;> cases hacc
  have hch := is_invalid_impl_chain g (by omega) (by omega)
  rw [hacc] at hch
  rw [is_invalid_impl_chain _ (by show 0 < g.p_.vwidth; omega) (by show 0 < g.p_.kL; omega)]
  show (if g.p_.Afetch ≠ FETCH_FROM_LOCAL ∨ g.p_.Bfetch ≠ FETCH_FROM_LOCAL then _
    else if g.p_.mS % g.p_.vwidth > 0 ∨ g.p_.nS % g.p_.vwidth > 0 then _
    else if g.p_.mL > 256 ∨ g.p_.nL > 256 then _
    else if kS' % g.p_.kL = 0 then _ else _) = _
  by_cases h1 : g.p_.Afetch ≠ FETCH_FROM_LOCAL ∨ g.p_.Bfetch ≠ FETCH_FROM_LOCAL
  · rw [if_pos h1] at hch; cases hch
  rw [if_neg h1] at hch ⊢
  by_cases h2 : g.p_.mS % g.p_.vwidth > 0 ∨ g.p_.nS % g.p_.vwidth > 0
  · rw [if_pos h2] at hch; cases hch
  rw [if_neg h2] at hch ⊢
  by_cases h3 : g.p_.mL > 256 ∨ g.p_.nL > 256
  · rw [if_pos h3] at hch; cases hch
  rw [if_neg h3, if_pos hmul]

/-- Witness for C3: the accepted sample parameter set with `kS` replaced by 8,
a multiple of `kL = 4`. -/
theorem is_invalid_impl_kS_perturbation_witness :
    sample_gemm.is_invalid_impl = some TEMPLATE_VALID ∧ 8 % sample_gemm.p_.kL = 0 ∧
    ({ sample_gemm with p_ := { sample_gemm.p_ with kS := 8 } } : gemm).is_invalid_impl =
      some TEMPLATE_KS_MUST_BE_SMALLER_THAN_KL :=
  ⟨by decide, by decide, is_invalid_impl_kS_perturbation sample_gemm 8 (by decide) (by decide)⟩
/-- C4 (the code deviates): the fetch-layout codes do not identify the failing
(operand, dimension) pair.  Two in-range NN parameter sets pass rules 1-5, the
first failing check is B's `lf1` check for one and B's `lf0` check for the
other, and both get `TEMPLATE_LOCAL_FETCH_1_MUST_BE_ML_MULTIPLE`; two TN sets
whose first failing checks are A's `lf1` and B's `lf1` get that same code too. -/
theorem fetch_layout_codes_collide :
    (B_lf1_failing_gemm.p_.in_range ∧ B_lf0_failing_gemm.p_.in_range ∧
      B_lf1_failing_gemm.A_trans_ = B_lf0_failing_gemm.A_trans_ ∧
      B_lf1_failing_gemm.B_trans_ = B_lf0_failing_gemm.B_trans_ ∧
      first_violation (B_lf1_failing_gemm.guarded_rules.take 5) = TEMPLATE_VALID ∧
      first_violation (B_lf0_failing_gemm.guarded_rules.take 5) = TEMPLATE_VALID ∧
      B_lf1_failing_gemm.first_failing_fetch_check =
        some (fetch_operand.B, fetch_dimension.lf1) ∧
      B_lf0_failing_gemm.first_failing_fetch_check =
        some (fetch_operand.B, fetch_dimension.lf0) ∧
      B_lf1_failing_gemm.is_invalid_impl = some TEMPLATE_LOCAL_FETCH_1_MUST_BE_ML_MULTIPLE ∧
      B_lf0_failing_gemm.is_invalid_impl = some TEMPLATE_LOCAL_FETCH_1_MUST_BE_ML_MULTIPLE) ∧
    (A_lf1_failing_gemm.p_.in_range ∧ B_lf1_failing_TN_gemm.p_.in_range ∧
      A_lf1_failing_gemm.A_trans_ = B_lf1_failing_TN_gemm.A_trans_ ∧
      A_lf1_failing_gemm.B_trans_ = B_lf1_failing_TN_gemm.B_trans_ ∧
      first_violation (A_lf1_failing_gemm.guarded_rules.take 5) = TEMPLATE_VALID ∧
      first_violation (B_lf1_failing_TN_gemm.guarded_rules.take 5) = TEMPLATE_VALID ∧
      A_lf1_failing_gemm.first_failing_fetch_check =
        some (fetch_operand.A, fetch_dimension.lf1) ∧
      B_lf1_failing_TN_gemm.first_failing_fetch_check =
        some (fetch_operand.B, fetch_dimension.lf1) ∧
      A_lf1_failing_gemm.is_invalid_impl = some TEMPLATE_LOCAL_FETCH_1_MUST_BE_ML_MULTIPLE ∧
      B_lf1_failing_TN_gemm.is_invalid_impl =
        some TEMPLATE_LOCAL_FETCH_1_MUST_BE_ML_MULTIPLE) := by
  decide

/-- C5 (the code deviates): `is_invalid_impl` is not total.  With both operands
staged, `vwidth = 0` makes it evaluate `mS % vwidth`, `kL = 0` makes it evaluate
`kS % kL`, and `lf0 = vwidth = 65536` makes it evaluate `bound0 % (lf0*vwidth)`
with the 32-bit product equal to zero; none of the three in-range parameter sets
yields a code. -/
theorem is_invalid_impl_zero_divisor :
    (zero_vwidth_gemm.p_.in_range ∧ zero_vwidth_gemm.is_invalid_impl = none) ∧
    (zero_kL_gemm.p_.in_range ∧ zero_kL_gemm.is_invalid_impl = none) ∧
    (zero_product_gemm.p_.in_range ∧ 0 < zero_product_gemm.p_.lf0 ∧
      0 < zero_product_gemm.p_.vwidth ∧ zero_product_gemm.is_invalid_impl = none) := by
  decide
/-! ## Resource estimators -/

/-- C6 (as stated) fails: on the accepted in-range NN parameter set with
`mS = 65536`, `nS = 65535`, `kS = 1` and 1-byte elements the expression
`(mS*nS + mS*kS + kS*nS) * size_of(dtype)` is 4295032831, and `registers_usage`
returns 65535: the return type is `uint32_t`. -/
theorem registers_usage_formula_wraps :
    (wide_register_gemm.with_mS 65536).p_.in_range ∧
    (wide_register_gemm.with_mS 65536).is_invalid_impl = some TEMPLATE_VALID ∧
    ((wide_register_gemm.with_mS 65536).p_.mS * (wide_register_gemm.with_mS 65536).p_.nS +
      (wide_register_gemm.with_mS 65536).p_.mS * (wide_register_gemm.with_mS 65536).p_.kS +
      (wide_register_gemm.with_mS 65536).p_.kS * (wide_register_gemm.with_mS 65536).p_.nS) * 1
      = 4295032831 ∧
    (wide_register_gemm.with_mS 65536).registers_usage 1 = 65535 ∧
    (wide_register_gemm.with_mS 65536).registers_usage 1 ≠
      ((wide_register_gemm.with_mS 65536).p_.mS * (wide_register_gemm.with_mS 65536).p_.nS +
        (wide_register_gemm.with_mS 65536).p_.mS * (wide_register_gemm.with_mS 65536).p_.kS +
        (wide_register_gemm.with_mS 65536).p_.kS * (wide_register_gemm.with_mS 65536).p_.nS)
        * 1 := by
  decide

/-- C6 (amended): `registers_usage` returns the `uint32_t` value of
`(mS*nS + mS*kS + kS*nS) * size_of(dtype)` (the expression reduced modulo
`2^32`, hence the expression itself whenever it is below `2^32`), and the result
is the same for any two templates that agree on `mS`, `nS` and `kS`, whatever
their tile sizes `mL`, `nL`, `kL`, transpose flags, depth and other knobs are. -/
theorem registers_usage_formula (g : gemm) (size_of_dtype : Nat) :
    g.registers_usage size_of_dtype =
      ((g.p_.mS * g.p_.nS + g.p_.mS * g.p_.kS + g.p_.kS * g.p_.nS) * size_of_dtype)
        % UINT32_RANGE ∧
    ((g.p_.mS * g.p_.nS + g.p_.mS * g.p_.kS + g.p_.kS * g.p_.nS) * size_of_dtype
        < UINT32_RANGE →
      g.registers_usage size_of_dtype =
        (g.p_.mS * g.p_.nS + g.p_.mS * g.p_.kS + g.p_.kS * g.p_.nS) * size_of_dtype) ∧
    (∀ g' : gemm, g'.p_.mS = g.p_.mS → g'.p_.nS = g.p_.nS → g'.p_.kS = g.p_.kS →
      g'.registers_usage size_of_dtype = g.registers_usage size_of_dtype) := by
  have key := fun h : gemm => registers_usage_eq_exact h size_of_dtype
  refine ⟨key g, ?_, ?_⟩
  · intro hlt
    rw [key g, Nat.mod_eq_of_lt hlt]
  · intro g' hm hn hk
    rw [key g', key g, hm, hn, hk]

/-- Witness for C6: the sample template with 4-byte elements needs 32 bytes,
and so does a TT template with other tile sizes and depth but the same
register tile. -/
theorem registers_usage_formula_witness :
    sample_gemm.registers_usage 4 = 32 ∧
    ({ p_ := { sample_parameters with mL := 64, nL := 32, kL := 8, depth := 3 },
       A_trans_ := T, B_trans_ := T } : gemm).registers_usage 4 =
      sample_gemm.registers_usage 4 :=
  ⟨(registers_usage_formula sample_gemm 4).2.1 (by decide),
   (registers_usage_formula sample_gemm 4).2.2 _ rfl rfl rfl⟩
/-- C7 (as stated) fails: on the accepted in-range NN parameter set with
`mL = nL = 256`, `kL = 2^21` and 4-byte elements, `areaA = 536870912` and
`areaB = 536871168` are the declared lengths of `lA` and `lB`,
`size_of(dtype) * (areaA + areaB)` is 4294968320, and `lmem_usage` returns 1024:
the accumulator and the return type are `uint32_t`. -/
theorem lmem_usage_formula_wraps :
    (deep_tile_gemm.with_kL 2097152).p_.in_range ∧
    (deep_tile_gemm.with_kL 2097152).is_invalid_impl = some TEMPLATE_VALID ∧
    (deep_tile_gemm.with_kL 2097152).stated_area_A = 536870912 ∧
    (deep_tile_gemm.with_kL 2097152).stated_area_B = 536871168 ∧
    (deep_tile_gemm.with_kL 2097152).generate_impl_lA_length = 536870912 ∧
    (deep_tile_gemm.with_kL 2097152).generate_impl_lB_length = 536871168 ∧
    (deep_tile_gemm.with_kL 2097152).lmem_usage 4 = 1024 ∧
    (deep_tile_gemm.with_kL 2097152).lmem_usage 4 ≠
      4 * ((deep_tile_gemm.with_kL 2097152).stated_area_A +
        (deep_tile_gemm.with_kL 2097152).stated_area_B) ∧
    (deep_tile_gemm.with_kL 2097152).lmem_usage 4 ≠
      4 * ((deep_tile_gemm.with_kL 2097152).generate_impl_lA_length +
        (deep_tile_gemm.with_kL 2097152).generate_impl_lB_length) := by
  decide

/-- C7 (amended): `lmem_usage` returns the `uint32_t` value of
`size_of(dtype) * (areaA + areaB)` (reduced modulo `2^32`, hence the product
itself whenever it is below `2^32`), with `areaA = mL*kL` or `(kL+1)*mL` and `areaB = nL*kL` or `(kL+1)*nL`
by transpose flag; the same value is `size_of(dtype)` times the sum of the
lengths of `lA` and `lB` declared by `generate_impl`, and for in-range knobs
with `kL + 1 < 2^32` those lengths are exactly `areaA` and `areaB`. -/
theorem lmem_usage_formula (g : gemm) (size_of_dtype : Nat) :
    g.lmem_usage size_of_dtype =
      (size_of_dtype * (g.stated_area_A + g.stated_area_B)) % UINT32_RANGE ∧
    (size_of_dtype * (g.stated_area_A + g.stated_area_B) < UINT32_RANGE →
      g.lmem_usage size_of_dtype = size_of_dtype * (g.stated_area_A + g.stated_area_B)) ∧
    g.lmem_usage size_of_dtype =
      (size_of_dtype * (g.generate_impl_lA_length + g.generate_impl_lB_length))
        % UINT32_RANGE ∧
    (g.p_.in_range → g.p_.kL + 1 < UINT32_RANGE →
      g.generate_impl_lA_length = g.stated_area_A ∧
      g.generate_impl_lB_length = g.stated_area_B) := by
  refine ⟨lmem_usage_eq_areas g _, ?_, lmem_usage_eq_lengths g _, ?_⟩
  · intro hlt
    rw [lmem_usage_eq_areas, Nat.mod_eq_of_lt hlt]
  · intro hr hk
    obtain ⟨-, -, -, hmL, hnL, hkL, -⟩ := hr
    have hwrap : add32 g.p_.kL 1 = g.p_.kL + 1 := Nat.mod_eq_of_lt hk
    have hbig : ∀ a b : Nat, a < UINT32_RANGE → b < UINT32_RANGE →
        mul_size_t a b = a * b := by
      intro a b ha hb
      apply Nat.mod_eq_of_lt
      have h1 : a * b ≤ 4294967295 * 4294967295 :=
        Nat.mul_le_mul (by unfold UINT32_RANGE at ha; omega) (by unfold UINT32_RANGE at hb; omega)
      unfold SIZE_T_RANGE
      omega
    constructor
    · unfold gemm.generate_impl_lA_length gemm.stated_area_A gemm.llda gemm.lnda
      by_cases h : g.A_trans_ = N
      · simp only [h, if_true]
        exact hbig _ _ hmL hkL
      · simp only [h, if_false, hwrap]
        exact hbig _ _ hk hmL
    · unfold gemm.generate_impl_lB_length gemm.stated_area_B gemm.lldb gemm.lndb
      by_cases h : g.B_trans_ = T
      · simp only [h, if_true]
        exact hbig _ _ hnL hkL
      · simp only [h, if_false, hwrap]
        exact hbig _ _ hk hnL

/-- Witness for C7: the sample NN template with 4-byte elements needs
`4 * (4*4 + 5*4) = 144` bytes, and its `lA` and `lB` have 16 and 20 elements. -/
theorem lmem_usage_formula_witness :
    sample_gemm.lmem_usage 4 = 144 ∧
    sample_gemm.generate_impl_lA_length = 16 ∧ sample_gemm.generate_impl_lB_length = 20 :=
  ⟨(lmem_usage_formula sample_gemm 4).2.1 (by decide),
   (lmem_usage_formula sample_gemm 4).2.2.2 (by decide) (by decide)⟩
/-- C8 (as stated) fails: with `depth = 1` and a tree on which extraction
fails, `temporary_workspace` does not return 0, because the sizes are extracted
before `depth` is tested. -/
theorem temporary_workspace_unextractable :
    sample_gemm.p_.depth ≤ 1 ∧ sample_gemm.temporary_workspace none ≠ some 0 := by
  decide

/-- C8 (amended): for every tree on which extraction succeeds,
`temporary_workspace` returns 0 when `depth <= 1` and the `uint32_t` value of
`M*N*depth` when `depth > 1` (the product itself whenever it is below `2^32`),
with `M` and `N` the two components of operand C's shape. -/
theorem temporary_workspace_formula (g : gemm) (arguments : gemm_args) :
    (g.p_.depth ≤ 1 → g.temporary_workspace (some arguments) = some 0) ∧
    (g.p_.depth > 1 → g.temporary_workspace (some arguments) =
      some ((arguments.C.shape0 * arguments.C.shape1 * g.p_.depth) % UINT32_RANGE)) ∧
    (g.p_.depth > 1 → arguments.C.shape0 * arguments.C.shape1 * g.p_.depth < UINT32_RANGE →
      g.temporary_workspace (some arguments) =
        some (arguments.C.shape0 * arguments.C.shape1 * g.p_.depth)) := by
  refine ⟨?_, ?_, ?_⟩
  · intro h
    have h' : ¬ g.p_.depth > 1 := by omega
    simp only [gemm.temporary_workspace, gemm.input_sizes, gemm.infos, if_neg h']
  · intro h
    simp only [gemm.temporary_workspace, gemm.input_sizes, gemm.infos, if_pos h]
  · intro h hlt
    simp only [gemm.temporary_workspace, gemm.input_sizes, gemm.infos, if_pos h,
      Nat.mod_eq_of_lt hlt]

/-- Witness for C8 (amended): a 3 x 5 output needs no workspace at depth 1 and
`3*5*4 = 60` elements at depth 4. -/
theorem temporary_workspace_formula_witness :
    sample_gemm.temporary_workspace (some sample_args) = some 0 ∧
    ({ sample_gemm with p_ := { sample_parameters with depth := 4 } } :
        gemm).temporary_workspace (some sample_args) = some 60 :=
  ⟨(temporary_workspace_formula sample_gemm sample_args).1 (by decide),
   (temporary_workspace_formula _ sample_args).2.2 (by decide) (by decide)⟩

/-- C9 (as stated) fails: for each of `kL`, `mL` and `nL` there are two accepted
in-range NN parameter sets that differ only in that knob, the second larger,
while with 4-byte elements the returned `uint32_t` drops: from 4294966272 to
1024 (`kL` from `2^21 - 1` to `2^21`), from 4294966276 to 16776192 (`mL` from
255 to 256) and from 4294967292 to 16777212 (`nL` from 255 to 256). -/
theorem lmem_usage_not_monotone :
    (deep_tile_gemm.p_.in_range ∧ (deep_tile_gemm.with_kL 2097152).p_.in_range ∧
      deep_tile_gemm.is_invalid_impl = some TEMPLATE_VALID ∧
      (deep_tile_gemm.with_kL 2097152).is_invalid_impl = some TEMPLATE_VALID ∧
      deep_tile_gemm.p_.kL < 2097152 ∧
      deep_tile_gemm.lmem_usage 4 = 4294966272 ∧
      (deep_tile_gemm.with_kL 2097152).lmem_usage 4 = 1024) ∧
    (tall_tile_gemm.p_.in_range ∧ (tall_tile_gemm.with_mL 256).p_.in_range ∧
      tall_tile_gemm.is_invalid_impl = some TEMPLATE_VALID ∧
      (tall_tile_gemm.with_mL 256).is_invalid_impl = some TEMPLATE_VALID ∧
      tall_tile_gemm.p_.mL < 256 ∧
      tall_tile_gemm.lmem_usage 4 = 4294966276 ∧
      (tall_tile_gemm.with_mL 256).lmem_usage 4 = 16776192) ∧
    (broad_tile_gemm.p_.in_range ∧ (broad_tile_gemm.with_nL 256).p_.in_range ∧
      broad_tile_gemm.is_invalid_impl = some TEMPLATE_VALID ∧
      (broad_tile_gemm.with_nL 256).is_invalid_impl = some TEMPLATE_VALID ∧
      broad_tile_gemm.p_.nL < 256 ∧
      broad_tile_gemm.lmem_usage 4 = 4294967292 ∧
      (broad_tile_gemm.with_nL 256).lmem_usage 4 = 16777212) := by
  decide

/-- C9 (amended): `lmem_usage` is non-decreasing in each of `mL`, `nL` and `kL`
(other knobs, transpose flags and element size fixed) whenever the exact value
`size_of(dtype) * (areaA + areaB)` of the larger parameter set is below `2^32`. -/
theorem lmem_usage_monotone (g : gemm) (size_of_dtype v : Nat) :
    (g.p_.mL ≤ v → (g.with_mL v).exact_local_bytes size_of_dtype < UINT32_RANGE →
      g.lmem_usage size_of_dtype ≤ (g.with_mL v).lmem_usage size_of_dtype) ∧
    (g.p_.nL ≤ v → (g.with_nL v).exact_local_bytes size_of_dtype < UINT32_RANGE →
      g.lmem_usage size_of_dtype ≤ (g.with_nL v).lmem_usage size_of_dtype) ∧
    (g.p_.kL ≤ v → (g.with_kL v).exact_local_bytes size_of_dtype < UINT32_RANGE →
      g.lmem_usage size_of_dtype ≤ (g.with_kL v).lmem_usage size_of_dtype) := by
  have mono : ∀ g' : gemm, g'.A_trans_ = g.A_trans_ → g'.B_trans_ = g.B_trans_ →
      g.p_.mL ≤ g'.p_.mL → g.p_.nL ≤ g'.p_.nL → g.p_.kL ≤ g'.p_.kL →
      g'.exact_local_bytes size_of_dtype < UINT32_RANGE →
      g.lmem_usage size_of_dtype ≤ g'.lmem_usage size_of_dtype := by
    intro g' hA hB hm hn hk hlt
    have hle : g.exact_local_bytes size_of_dtype ≤ g'.exact_local_bytes size_of_dtype := by
      unfold gemm.exact_local_bytes gemm.stated_area_A gemm.stated_area_B
      rw [hA, hB]
      apply Nat.mul_le_mul_left
      apply Nat.add_le_add
      · split
        · exact Nat.mul_le_mul hm hk
        · exact Nat.mul_le_mul (Nat.succ_le_succ hk) hm
      · split
        · exact Nat.mul_le_mul hn hk
        · exact Nat.mul_le_mul (Nat.succ_le_succ hk) hn
    unfold gemm.exact_local_bytes at hle hlt
    rw [lmem_usage_eq_areas, lmem_usage_eq_areas, Nat.mod_eq_of_lt hlt,
      Nat.mod_eq_of_lt (Nat.lt_of_le_of_lt hle hlt)]
    exact hle
  refine ⟨fun h hlt => ?_, fun h hlt => ?_, fun h hlt => ?_⟩
  · exact mono (g.with_mL v) rfl rfl h (Nat.le_refl _) (Nat.le_refl _) hlt
  · exact mono (g.with_nL v) rfl rfl (Nat.le_refl _) h (Nat.le_refl _) hlt
  · exact mono (g.with_kL v) rfl rfl (Nat.le_refl _) (Nat.le_refl _) h hlt

/-- Witness for C9 (amended): raising `mL`, `nL` or `kL` of the sample template
from 4 to 8 does not lower its local-memory bytes (4-byte elements). -/
theorem lmem_usage_monotone_witness :
    sample_gemm.lmem_usage 4 ≤ (sample_gemm.with_mL 8).lmem_usage 4 ∧
    sample_gemm.lmem_usage 4 ≤ (sample_gemm.with_nL 8).lmem_usage 4 ∧
    sample_gemm.lmem_usage 4 ≤ (sample_gemm.with_kL 8).lmem_usage 4 :=
  ⟨(lmem_usage_monotone sample_gemm 4 8).1 (by decide) (by decide),
   (lmem_usage_monotone sample_gemm 4 8).2.1 (by decide) (by decide),
   (lmem_usage_monotone sample_gemm 4 8).2.2 (by decide) (by decide)⟩
/-- C10 (as stated) fails: for each of `mS`, `nS` and `kS` there are two accepted
in-range NN parameter sets that differ only in that knob, the second larger,
while the returned `uint32_t` drops (1-byte elements): from 4294967295 to 65535
when `mS` or `nS` goes from 65535 to 65536 (the other being 65535, `kS = 1`),
and from 4294967295 to 131069 when `kS` goes from 1 to 2. -/
theorem registers_usage_not_monotone :
    (wide_register_gemm.p_.in_range ∧ (wide_register_gemm.with_mS 65536).p_.in_range ∧
      (wide_register_gemm.with_nS 65536).p_.in_range ∧
      (wide_register_gemm.with_kS 2).p_.in_range) ∧
    (wide_register_gemm.is_invalid_impl = some TEMPLATE_VALID ∧
      (wide_register_gemm.with_mS 65536).is_invalid_impl = some TEMPLATE_VALID ∧
      (wide_register_gemm.with_nS 65536).is_invalid_impl = some TEMPLATE_VALID ∧
      (wide_register_gemm.with_kS 2).is_invalid_impl = some TEMPLATE_VALID) ∧
    (wide_register_gemm.p_.mS < 65536 ∧ wide_register_gemm.p_.nS < 65536 ∧
      wide_register_gemm.p_.kS < 2) ∧
    wide_register_gemm.registers_usage 1 = 4294967295 ∧
    (wide_register_gemm.with_mS 65536).registers_usage 1 = 65535 ∧
    (wide_register_gemm.with_nS 65536).registers_usage 1 = 65535 ∧
    (wide_register_gemm.with_kS 2).registers_usage 1 = 131069 := by
  decide

/-- C10 (amended): `registers_usage` is non-decreasing in each of `mS`, `nS` and
`kS` (other knobs and element size fixed) whenever the exact value
`(mS*nS + mS*kS + kS*nS) * size_of(dtype)` of the larger parameter set is below
`2^32`. -/
theorem registers_usage_monotone (g : gemm) (size_of_dtype v : Nat) :
    (g.p_.mS ≤ v → (g.with_mS v).exact_register_bytes size_of_dtype < UINT32_RANGE →
      g.registers_usage size_of_dtype ≤ (g.with_mS v).registers_usage size_of_dtype) ∧
    (g.p_.nS ≤ v → (g.with_nS v).exact_register_bytes size_of_dtype < UINT32_RANGE →
      g.registers_usage size_of_dtype ≤ (g.with_nS v).registers_usage size_of_dtype) ∧
    (g.p_.kS ≤ v → (g.with_kS v).exact_register_bytes size_of_dtype < UINT32_RANGE →
      g.registers_usage size_of_dtype ≤ (g.with_kS v).registers_usage size_of_dtype) := by
  have mono : ∀ g' : gemm, g.p_.mS ≤ g'.p_.mS → g.p_.nS ≤ g'.p_.nS → g.p_.kS ≤ g'.p_.kS →
      g'.exact_register_bytes size_of_dtype < UINT32_RANGE →
      g.registers_usage size_of_dtype ≤ g'.registers_usage size_of_dtype := by
    intro g' hm hn hk hlt
    have hle : g.exact_register_bytes size_of_dtype ≤
        g'.exact_register_bytes size_of_dtype := by
      unfold gemm.exact_register_bytes
      apply Nat.mul_le_mul_right
      exact Nat.add_le_add (Nat.add_le_add (Nat.mul_le_mul hm hn) (Nat.mul_le_mul hm hk))
        (Nat.mul_le_mul hk hn)
    unfold gemm.exact_register_bytes at hle hlt
    rw [registers_usage_eq_exact, registers_usage_eq_exact, Nat.mod_eq_of_lt hlt,
      Nat.mod_eq_of_lt (Nat.lt_of_le_of_lt hle hlt)]
    exact hle
  refine ⟨fun h hlt => ?_, fun h hlt => ?_, fun h hlt => ?_⟩
  · exact mono (g.with_mS v) h (Nat.le_refl _) (Nat.le_refl _) hlt
  · exact mono (g.with_nS v) (Nat.le_refl _) h (Nat.le_refl _) hlt
  · exact mono (g.with_kS v) (Nat.le_refl _) (Nat.le_refl _) h hlt

/-- Witness for C10 (amended): raising `mS`, `nS` or `kS` of the sample template
to 6 does not lower its register bytes (4-byte elements). -/
theorem registers_usage_monotone_witness :
    sample_gemm.registers_usage 4 ≤ (sample_gemm.with_mS 6).registers_usage 4 ∧
    sample_gemm.registers_usage 4 ≤ (sample_gemm.with_nS 6).registers_usage 4 ∧
    sample_gemm.registers_usage 4 ≤ (sample_gemm.with_kS 6).registers_usage 4 :=
  ⟨(registers_usage_monotone sample_gemm 4 6).1 (by decide) (by decide),
   (registers_usage_monotone sample_gemm 4 6).2.1 (by decide) (by decide),
   (registers_usage_monotone sample_gemm 4 6).2.2 (by decide) (by decide)⟩


/-! ## Operand extraction and launch configuration -/

theorem ceil_div_mul_ge (x a : Nat) (ha : 1 ≤ a) : x ≤ ceil_div x a * a := by
  unfold ceil_div
  have h1 := Nat.div_add_mod (x + a - 1) a
  have h2 := Nat.mod_lt (x + a - 1) (by omega : a > 0)
  have h3 : (x + a - 1) / a * a = a * ((x + a - 1) / a) := Nat.mul_comm _ _
  omega

theorem ceil_div_le_of_le_mul (x a c : Nat) (ha : 1 ≤ a) (h : x ≤ c * a) : ceil_div x a ≤ c := by
  unfold ceil_div
  have h1 : x + a - 1 < (c + 1) * a := by
    have : (c + 1) * a = c * a + a := by ring
    omega
  exact Nat.lt_succ_iff.mp ((Nat.div_lt_iff_lt_mul (by omega : 0 < a)).mpr h1)

theorem align_eq (x a : Nat) (ha : 1 ≤ a) : align x a = some (ceil_div x a * a) := by
  have h : a ≠ 0 := by omega
  simp only [align, h, if_false, ceil_div]

theorem grid_dimension_eq (M mS ls : Nat) (hm : 1 ≤ mS) (hl : 1 ≤ ls) :
    grid_dimension M mS ls = some (ceil_div (ceil_div M mS) ls * ls) := by
  have h : mS ≠ 0 := by omega
  simp only [grid_dimension, align_eq M mS hm, udiv, h, if_false,
    Nat.mul_div_cancel _ (by omega : 0 < mS), align_eq _ ls hl]

theorem least_multiple (c ls : Nat) (hl : 1 ≤ ls) :
    ls ∣ ceil_div c ls * ls ∧ c ≤ ceil_div c ls * ls ∧
    ∀ m, ls ∣ m → c ≤ m → ceil_div c ls * ls ≤ m := by
  refine ⟨Dvd.intro_left _ rfl, ceil_div_mul_ge c ls hl, ?_⟩
  rintro m ⟨q, rfl⟩ hc
  have h1 : ceil_div c ls ≤ q := ceil_div_le_of_le_mul c ls q hl (by rw [Nat.mul_comm]; exact hc)
  rw [Nat.mul_comm ls q]
  exact Nat.mul_le_mul_right ls h1

theorem enqueue_block_of_nonzero (g : gemm) (backend : backend_type) (M N K : Nat)
    (A B C : array_operand) (alpha beta : Int) (suffix : String) (workspace : Nat)
    (hM : M ≠ 0) (hN : N ≠ 0) (hK : K ≠ 0)
    (hmS : 1 ≤ g.p_.mS) (hnS : 1 ≤ g.p_.nS) (hls0 : 1 ≤ g.p_.ls0) (hls1 : 1 ≤ g.p_.ls1) :
    g.enqueue_block backend M N K A B C alpha beta suffix workspace =
      some (
        ([driver_call.Kernel launched_kernel.gemm (kernel_name launched_kernel.gemm suffix)] ++
          bind_arguments launched_kernel.gemm
            (g.main_kernel_arguments backend M N K A B C alpha beta workspace) ++
          [driver_call.enqueue launched_kernel.gemm
            [ceil_div (ceil_div M g.p_.mS) g.p_.ls0 * g.p_.ls0,
             ceil_div (ceil_div N g.p_.nS) g.p_.ls1 * g.p_.ls1, g.p_.depth]
            [g.p_.ls0, g.p_.ls1, 1]]) ++
        (if g.p_.depth > 1 then
          [driver_call.Kernel launched_kernel.reduce
            (kernel_name launched_kernel.reduce suffix)] ++
          bind_arguments launched_kernel.reduce
            (g.reduce_kernel_arguments backend M N C beta workspace) ++
          [driver_call.enqueue launched_kernel.reduce
            [ceil_div M g.p_.ls0 * g.p_.ls0, ceil_div N g.p_.ls1 * g.p_.ls1]
            [g.p_.ls0, g.p_.ls1]]
         else [])) := by
  have hz : ¬ (M = 0 ∨ N = 0 ∨ K = 0) := by
    rintro (h | h | h)
    · exact hM h
    · exact hN h
    · exact hK h
  simp only [gemm.enqueue_block, if_neg hz, grid_dimension_eq M _ _ hmS hls0,
    grid_dimension_eq N _ _ hnS hls1, align_eq M _ hls0, align_eq N _ hls1]
  by_cases hd : g.p_.depth > 1
  · simp only [if_pos hd, List.append_assoc]
  · simp only [if_neg hd, List.append_nil]

theorem filter_launch_bind_arguments (k k' : launched_kernel) (values : List kernel_argument) :
    ∀ start, (bind_arguments_from k start values).filter (driver_call.is_launch_of k') = [] := by
  induction values with
  | nil => intro start; rfl
  | cons v rest ih =>
    intro start
    simp only [bind_arguments_from, List.filter_cons, driver_call.is_launch_of, ih]
    rfl

theorem bindings_of_bind_arguments_other (k k' : launched_kernel) (hk : k ≠ k')
    (values : List kernel_argument) :
    ∀ start, bindings_of k' (bind_arguments_from k start values) = [] := by
  induction values with
  | nil => intro start; rfl
  | cons v rest ih =>
    intro start
    simp only [bind_arguments_from, bindings_of, if_neg hk, ih]

theorem bindings_of_append (k : launched_kernel) (xs ys : List driver_call) :
    bindings_of k (xs ++ ys) = bindings_of k xs ++ bindings_of k ys := by
  induction xs with
  | nil => rfl
  | cons x rest ih =>
    cases x with
    | Kernel k1 name =>
      show bindings_of k (rest ++ ys) = bindings_of k rest ++ bindings_of k ys
      exact ih
    | setArg k1 index value =>
      by_cases h : k1 = k
      · show (if k1 = k then (index, value) :: bindings_of k (rest ++ ys)
            else bindings_of k (rest ++ ys)) =
          (if k1 = k then (index, value) :: bindings_of k rest else bindings_of k rest) ++
            bindings_of k ys
        rw [if_pos h, if_pos h, ih]
        rfl
      · show (if k1 = k then (index, value) :: bindings_of k (rest ++ ys)
            else bindings_of k (rest ++ ys)) =
          (if k1 = k then (index, value) :: bindings_of k rest else bindings_of k rest) ++
            bindings_of k ys
        rw [if_neg h, if_neg h, ih]
    | enqueue k1 g l =>
      show bindings_of k (rest ++ ys) = bindings_of k rest ++ bindings_of k ys
      exact ih

/-- C14: on a tree on which extraction succeeds, `infos` and `input_sizes`
return `(M, N, K)` with `M = C.shape[0]`, `N = C.shape[1]` and `K = A.shape[0]`
if the A flag is `T`, `K = A.shape[1]` otherwise; a template with another B flag
and operands with another B give the same triple. -/
theorem infos_triple (g : gemm) (arguments : gemm_args) :
    g.infos (some arguments) =
      some (arguments.C.shape0, arguments.C.shape1,
        if g.A_trans_ = T then arguments.A.shape0 else arguments.A.shape1) ∧
    g.input_sizes (some arguments) = g.infos (some arguments) ∧
    (∀ (g' : gemm) (arguments' : gemm_args), g'.A_trans_ = g.A_trans_ →
      arguments'.A = arguments.A → arguments'.C = arguments.C →
      g'.infos (some arguments') = g.infos (some arguments)) ∧
    (∀ (gemm_pattern : List atidlas.node → Nat → Option gemm_args)
        (tree : atidlas.array_expression),
      gemm_pattern tree.tree_ tree.root_ = some arguments →
      ∃ pointers, g.infos_on_tree gemm_pattern tree =
        infos_outcome.returned pointers arguments.C.shape0 arguments.C.shape1
          (if g.A_trans_ = T then arguments.A.shape0 else arguments.A.shape1)) := by
  refine ⟨rfl, rfl, ?_, ?_⟩
  · intro g' arguments' hA hAa hCa
    simp only [gemm.infos, hA, hAa, hCa]
  · intro gemm_pattern tree h
    refine ⟨{ A := some arguments.A, B := some arguments.B, C := some arguments.C,
              alpha := arguments.alpha, beta := arguments.beta }, ?_⟩
    simp only [gemm.infos_on_tree, check, h]

/-- Witness for C14: the 3 x 7 by 7 x 5 sample operands give `(3, 5, 7)` for
the NN template, also with the B flag `T` and B replaced by C. -/
theorem infos_triple_witness :
    sample_gemm.infos (some launch_args) = some (3, 5, 7) ∧
    ({ sample_gemm with B_trans_ := T } : gemm).infos
        (some { launch_args with B := launch_args.C }) = sample_gemm.infos (some launch_args) ∧
    (∃ pointers, sample_gemm.infos_on_tree sample_pattern atidlas.sample_leaf_tree =
      infos_outcome.returned pointers 3 5 7) :=
  ⟨(infos_triple sample_gemm launch_args).1,
   (infos_triple sample_gemm launch_args).2.2.1 _ _ rfl rfl rfl,
   (infos_triple sample_gemm launch_args).2.2.2 sample_pattern atidlas.sample_leaf_tree
     (by decide)⟩

/-- C15: on a tree whose root does not match the GEMM pattern, `infos` ends with
the classification error of the extraction: it neither applies `->` to an
unresolved operand nor returns a triple or operands. -/
theorem infos_classification_error (g : gemm)
    (gemm_pattern : List atidlas.node → Nat → Option gemm_args)
    (tree : atidlas.array_expression) (h : gemm_pattern tree.tree_ tree.root_ = none) :
    g.infos_on_tree gemm_pattern tree = infos_outcome.classification_error ∧
    g.infos_on_tree gemm_pattern tree ≠ infos_outcome.unresolved_dereference ∧
    (∀ arguments M N K,
      g.infos_on_tree gemm_pattern tree ≠ infos_outcome.returned arguments M N K) := by
  have h1 : g.infos_on_tree gemm_pattern tree = infos_outcome.classification_error := by
    simp only [gemm.infos_on_tree, check, h]
  refine ⟨h1, ?_, ?_⟩
  · rw [h1]
    intro hc
    cases hc
  · intro arguments M N K
    rw [h1]
    intro hc
    cases hc

/-- Witness for C15: the root of the two-node sample tree has a sub-expression
as left operand, which the sample pattern rejects. -/
theorem infos_classification_error_witness :
    sample_pattern atidlas.sample_left_tree.tree_ atidlas.sample_left_tree.root_ = none ∧
    sample_gemm.infos_on_tree sample_pattern atidlas.sample_left_tree =
      infos_outcome.classification_error :=
  ⟨by decide,
   (infos_classification_error sample_gemm sample_pattern atidlas.sample_left_tree
     (by decide)).1⟩

/-- C16: for `M, N, K >= 1` and `mS, nS, ls0, ls1 >= 1` the main launch of
`enqueue_block` has local size `(ls0, ls1, 1)` and global size `(g0, g1, depth)`,
where `g0` is the least multiple of `ls0` that is at least `ceil(M/mS)` and `g1`
the least multiple of `ls1` that is at least `ceil(N/nS)`; `ceil(M/mS)` is the
least `c` with `M <= c*mS`, and `g0*mS >= M`, `g1*nS >= N`. -/
theorem main_launch_grid (g : gemm) (backend : backend_type) (M N K : Nat)
    (A B C : array_operand) (alpha beta : Int) (suffix : String) (workspace : Nat)
    (hM : 1 ≤ M) (hN : 1 ≤ N) (hK : 1 ≤ K)
    (hmS : 1 ≤ g.p_.mS) (hnS : 1 ≤ g.p_.nS) (hls0 : 1 ≤ g.p_.ls0) (hls1 : 1 ≤ g.p_.ls1) :
    ∃ trace g0 g1,
      g.enqueue_block backend M N K A B C alpha beta suffix workspace = some trace ∧
      trace.filter (driver_call.is_launch_of launched_kernel.gemm) =
        [driver_call.enqueue launched_kernel.gemm [g0, g1, g.p_.depth]
          [g.p_.ls0, g.p_.ls1, 1]] ∧
      (g.p_.ls0 ∣ g0 ∧ ceil_div M g.p_.mS ≤ g0 ∧
        ∀ m, g.p_.ls0 ∣ m → ceil_div M g.p_.mS ≤ m → g0 ≤ m) ∧
      (g.p_.ls1 ∣ g1 ∧ ceil_div N g.p_.nS ≤ g1 ∧
        ∀ m, g.p_.ls1 ∣ m → ceil_div N g.p_.nS ≤ m → g1 ≤ m) ∧
      (∀ c, ceil_div M g.p_.mS ≤ c ↔ M ≤ c * g.p_.mS) ∧
      (∀ c, ceil_div N g.p_.nS ≤ c ↔ N ≤ c * g.p_.nS) ∧
      M ≤ g0 * g.p_.mS ∧ N ≤ g1 * g.p_.nS := by
  have htrace := enqueue_block_of_nonzero g backend M N K A B C alpha beta suffix workspace
    (by omega) (by omega) (by omega) hmS hnS hls0 hls1
  have h0 := least_multiple (ceil_div M g.p_.mS) g.p_.ls0 hls0
  have h1 := least_multiple (ceil_div N g.p_.nS) g.p_.ls1 hls1
  have hc : ∀ x a c, 1 ≤ a → (ceil_div x a ≤ c ↔ x ≤ c * a) := by
    intro x a c ha
    constructor
    · intro h
      exact Nat.le_trans (ceil_div_mul_ge x a ha) (Nat.mul_le_mul_right a h)
    · exact ceil_div_le_of_le_mul x a c ha
  refine ⟨_, _, _, htrace, ?_, h0, h1, fun c => hc M _ c hmS, fun c => hc N _ c hnS, ?_, ?_⟩
  · simp only [List.filter_append, List.filter_cons, List.filter_nil, bind_arguments,
      filter_launch_bind_arguments, driver_call.is_launch_of]
    by_cases hd : g.p_.depth > 1
    · simp [if_pos hd, List.filter_append, List.filter_cons, bind_arguments,
        filter_launch_bind_arguments, driver_call.is_launch_of]
    · simp [if_neg hd, driver_call.is_launch_of]
  · exact (hc M _ _ hmS).mp h0.2.1
  · exact (hc N _ _ hnS).mp h1.2.1

/-- Witness for C16: `M = 3, N = 5` with `mS = nS = 2`, `ls0 = ls1 = 2` launch
the global size `(2, 4, 1)`. -/
theorem main_launch_grid_witness :
    ∃ trace g0 g1,
      sample_gemm.enqueue_block backend_type.OPENCL 3 5 7 launch_args.A launch_args.B
        launch_args.C 2 3 "" 0 = some trace ∧
      trace.filter (driver_call.is_launch_of launched_kernel.gemm) =
        [driver_call.enqueue launched_kernel.gemm [g0, g1, 1] [2, 2, 1]] ∧
      3 ≤ g0 * 2 ∧ 5 ≤ g1 * 2 := by
  obtain ⟨trace, g0, g1, h1, h2, -, -, -, -, h3, h4⟩ :=
    main_launch_grid sample_gemm backend_type.OPENCL 3 5 7 launch_args.A launch_args.B
      launch_args.C 2 3 "" 0 (by decide) (by decide) (by decide) (by decide) (by decide)
      (by decide) (by decide)
  exact ⟨trace, g0, g1, h1, h2, h3, h4⟩

theorem main_launch_count (g : gemm) (backend : backend_type) (M N K : Nat)
    (A B C : array_operand) (alpha beta : Int) (suffix : String) (workspace : Nat)
    (hM : M ≠ 0) (hN : N ≠ 0) (hK : K ≠ 0)
    (hmS : 1 ≤ g.p_.mS) (hnS : 1 ≤ g.p_.nS) (hls0 : 1 ≤ g.p_.ls0) (hls1 : 1 ≤ g.p_.ls1) :
    ∃ trace, g.enqueue_block backend M N K A B C alpha beta suffix workspace = some trace ∧
      (trace.filter (driver_call.is_launch_of launched_kernel.gemm)).length = 1 := by
  refine ⟨_, enqueue_block_of_nonzero g backend M N K A B C alpha beta suffix workspace
    hM hN hK hmS hnS hls0 hls1, ?_⟩
  by_cases hd : g.p_.depth > 1
  · simp [if_pos hd, List.filter_append, List.filter_cons, bind_arguments,
      filter_launch_bind_arguments, driver_call.is_launch_of]
  · simp [if_neg hd, List.filter_append, List.filter_cons, bind_arguments,
      filter_launch_bind_arguments, driver_call.is_launch_of]

/-- C17 (as stated) fails: the template with `mS = 0` is in range and accepted
by the validator, and with `M = N = K = 1` neither `enqueue_block` nor `enqueue`
issues the main launch: line 598 divides by `mS`. -/
theorem main_launch_zero_mS :
    zero_mS_gemm.p_.in_range ∧ zero_mS_gemm.is_invalid_impl = some TEMPLATE_VALID ∧
    zero_mS_gemm.enqueue_block backend_type.OPENCL 1 1 1 launch_args.A launch_args.B
      launch_args.C 2 3 "" 0 = none ∧
    zero_mS_gemm.enqueue backend_type.OPENCL (some launch_args) "" 0 = none := by
  decide

/-- C17 (amended): when any of `M`, `N`, `K` is zero, `enqueue_block` and
`enqueue` make no driver call at all (no kernel object, no binding, no launch,
for any depth); when `M`, `N`, `K` are all non-zero and `mS, nS, ls0, ls1 >= 1`,
both issue the main launch exactly once. -/
theorem zero_size_skips_launch (g : gemm) (backend : backend_type) (M N K : Nat)
    (A B C : array_operand) (alpha beta : Int) (suffix : String) (workspace : Nat) :
    ((M = 0 ∨ N = 0 ∨ K = 0) →
      g.enqueue_block backend M N K A B C alpha beta suffix workspace = some []) ∧
    (∀ arguments : gemm_args, g.infos (some arguments) = some (M, N, K) →
      (M = 0 ∨ N = 0 ∨ K = 0) → g.enqueue backend (some arguments) suffix workspace = some []) ∧
    (M ≠ 0 → N ≠ 0 → K ≠ 0 → 1 ≤ g.p_.mS → 1 ≤ g.p_.nS → 1 ≤ g.p_.ls0 → 1 ≤ g.p_.ls1 →
      ∃ trace, g.enqueue_block backend M N K A B C alpha beta suffix workspace = some trace ∧
        (trace.filter (driver_call.is_launch_of launched_kernel.gemm)).length = 1) ∧
    (∀ arguments : gemm_args, g.infos (some arguments) = some (M, N, K) →
      M ≠ 0 → N ≠ 0 → K ≠ 0 → 1 ≤ g.p_.mS → 1 ≤ g.p_.nS → 1 ≤ g.p_.ls0 → 1 ≤ g.p_.ls1 →
      ∃ trace, g.enqueue backend (some arguments) suffix workspace = some trace ∧
        (trace.filter (driver_call.is_launch_of launched_kernel.gemm)).length = 1) := by
  refine ⟨?_, ?_, ?_, ?_⟩
  · intro hz
    simp only [gemm.enqueue_block, if_pos hz]
  · intro arguments hinfos hz
    simp only [gemm.enqueue, hinfos, if_pos hz]
  · intro hM hN hK hmS hnS hls0 hls1
    exact main_launch_count g backend M N K A B C alpha beta suffix workspace hM hN hK hmS hnS
      hls0 hls1
  · intro arguments hinfos hM hN hK hmS hnS hls0 hls1
    have hz : ¬ (M = 0 ∨ N = 0 ∨ K = 0) := by
      rintro (h | h | h)
      · exact hM h
      · exact hN h
      · exact hK h
    simp only [gemm.enqueue, hinfos, if_neg hz]
    exact main_launch_count g backend M N K _ _ _ _ _ suffix workspace hM hN hK hmS hnS
      hls0 hls1

/-- Witness for C17 (amended): the sample template makes no driver call for
`K = 0` and issues one main launch for the 3 x 5 x 7 sample product. -/
theorem zero_size_skips_launch_witness :
    sample_gemm.enqueue_block backend_type.OPENCL 3 5 0 launch_args.A launch_args.B
      launch_args.C 2 3 "" 0 = some [] ∧
    (∃ trace, sample_gemm.enqueue backend_type.OPENCL (some launch_args) "" 0 = some trace ∧
      (trace.filter (driver_call.is_launch_of launched_kernel.gemm)).length = 1) :=
  ⟨(zero_size_skips_launch sample_gemm backend_type.OPENCL 3 5 0 launch_args.A launch_args.B
      launch_args.C 2 3 "" 0).1 (by decide),
   (zero_size_skips_launch sample_gemm backend_type.OPENCL 3 5 7 launch_args.A launch_args.B
      launch_args.C 2 3 "" 0).2.2.2 launch_args (by decide) (by decide) (by decide) (by decide)
      (by decide) (by decide) (by decide) (by decide)⟩


set_option maxRecDepth 8000

/-! ## Kernel text and bindings -/

theorem main_kernel_header_parameters (suffix sdtype : String) :
    main_kernel_header suffix sdtype =
      "$KERNEL void gemm" ++ suffix ++ "(" ++
        parameter_list_text (main_kernel_parameters sdtype) := by
  apply String.ext
  simp only [main_kernel_header, main_kernel_parameters, parameter_list_text,
    String.data_append, List.append_assoc]
  rfl

theorem loop_values_of_dvd (bound step : Nat) (hs : 1 ≤ step) (hd : step ∣ bound)
    (hb : bound < UINT32_RANGE) : ∃ values, loop_values bound step = some values := by
  obtain ⟨q, rfl⟩ := hd
  unfold loop_values
  by_cases h0 : step * q = 0
  · exact ⟨_, if_pos h0⟩
  · have hs0 : step ≠ 0 := by omega
    have hq : (step * q + step - 1) / step = q := by
      have h1 : step * q + step - 1 = step - 1 + step * q := by omega
      rw [h1, Nat.add_mul_div_left _ _ (by omega : 0 < step),
        Nat.div_eq_of_lt (by omega : step - 1 < step), Nat.zero_add]
    have hlt : (step * q + step - 1) / step * step < UINT32_RANGE := by
      rw [hq, Nat.mul_comm]; exact hb
    exact ⟨_, by rw [if_neg h0, if_neg hs0, if_pos hlt]⟩

theorem nested_lines_some (b1 s1 b2 s2 : Nat) (body : Nat → Nat → List String)
    (h1 : ∃ values, loop_values b1 s1 = some values)
    (h2 : ∃ values, loop_values b2 s2 = some values) :
    ∃ lines, nested_lines (loop_values b1 s1) (loop_values b2 s2) body = some lines := by
  obtain ⟨v1, e1⟩ := h1
  obtain ⟨v2, e2⟩ := h2
  rw [e1, e2]
  unfold nested_lines
  by_cases he : v1.isEmpty = true
  · exact ⟨[], by simp only [he, if_true]⟩
  · exact ⟨_, by simp only [he]; rfl⟩

theorem nested_lines_some_some (v1 v2 : List Nat) (body : Nat → Nat → List String) :
    nested_lines (some v1) (some v2) body =
      some (if v1.isEmpty then [] else v1.flatMap (fun k => v2.flatMap (fun m => body k m))) := by
  unfold nested_lines
  by_cases he : v1.isEmpty = true
  · simp only [he, if_true]
  · simp only [he]; rfl

theorem fetch_to_lds_returns (g : gemm) (e : kernel_locals) (last_iteration : Bool)
    (hfit : g.generation_defined) : ∃ lines, g.fetch_to_lds e last_iteration = some lines := by
  obtain ⟨hr, hv, h1, h0, hA1, hA0, hB1, hB0⟩ := hfit
  obtain ⟨-, -, -, hmL, hnL, hkL, -⟩ := hr
  cases hAt : g.A_trans_ <;> cases hBt : g.B_trans_ <;>
    simp only [gemm.A_bound1, gemm.A_bound0, gemm.B_bound1, gemm.B_bound0, hAt, hBt, if_true,
      if_false, reduceCtorEq] at hA1 hA0 hB1 hB0
  · obtain ⟨v1, e1⟩ := loop_values_of_dvd _ _ h1 hA1 hkL
    obtain ⟨v2, e2⟩ := loop_values_of_dvd _ _ h0 hA0 hmL
    obtain ⟨v3, e3⟩ := loop_values_of_dvd _ _ h1 hB1 hnL
    obtain ⟨v4, e4⟩ := loop_values_of_dvd _ _ h0 hB0 hkL
    simp only [gemm.fetch_to_lds, hAt, hBt, if_true, if_false, reduceCtorEq, e1, e2, e3, e4,
      nested_lines_some_some]
    exact ⟨_, rfl⟩
  · obtain ⟨v1, e1⟩ := loop_values_of_dvd _ _ h1 hA1 hkL
    obtain ⟨v2, e2⟩ := loop_values_of_dvd _ _ h0 hA0 hmL
    obtain ⟨v4, e4⟩ := loop_values_of_dvd _ _ h0 hB0 hnL
    simp only [gemm.fetch_to_lds, hAt, hBt, if_true, if_false, reduceCtorEq, e1, e2, e4,
      nested_lines_some_some]
    exact ⟨_, rfl⟩
  · obtain ⟨v1, e1⟩ := loop_values_of_dvd _ _ h1 hA1 hmL
    obtain ⟨v2, e2⟩ := loop_values_of_dvd _ _ h0 hA0 hkL
    obtain ⟨v3, e3⟩ := loop_values_of_dvd _ _ h1 hB1 hnL
    simp only [gemm.fetch_to_lds, hAt, hBt, if_true, if_false, reduceCtorEq, e1, e2, e3,
      nested_lines_some_some]
    exact ⟨_, rfl⟩
  · obtain ⟨v1, e1⟩ := loop_values_of_dvd _ _ h1 hA1 hmL
    obtain ⟨v2, e2⟩ := loop_values_of_dvd _ _ h0 hA0 hkL
    obtain ⟨v3, e3⟩ := loop_values_of_dvd _ _ h1 hB1 hkL
    obtain ⟨v4, e4⟩ := loop_values_of_dvd _ _ h0 hB0 hnL
    simp only [gemm.fetch_to_lds, hAt, hBt, if_true, if_false, reduceCtorEq, e1, e2, e3, e4,
      nested_lines_some_some]
    exact ⟨_, rfl⟩

theorem tail_predicates_returns (g : gemm) (hfit : g.generation_defined) :
    ∃ lines, g.tail_predicates = some lines := by
  obtain ⟨hr, hv, h1, h0, hA1, hA0, hB1, hB0⟩ := hfit
  obtain ⟨-, -, -, hmL, hnL, hkL, -⟩ := hr
  cases hAt : g.A_trans_ <;> cases hBt : g.B_trans_ <;>
    simp only [gemm.A_bound1, gemm.A_bound0, gemm.B_bound1, gemm.B_bound0, hAt, hBt, if_true,
      if_false, reduceCtorEq] at hA1 hA0 hB1 hB0
  · obtain ⟨v1, e1⟩ := loop_values_of_dvd _ _ h1 hA1 hkL
    obtain ⟨v4, e4⟩ := loop_values_of_dvd _ _ h0 hB0 hkL
    simp only [gemm.tail_predicates, hAt, hBt, if_true, if_false, reduceCtorEq, e1, e4,
      or_true, true_or, or_self]
    exact ⟨_, rfl⟩
  · obtain ⟨v1, e1⟩ := loop_values_of_dvd _ _ h1 hA1 hkL
    simp only [gemm.tail_predicates, hAt, hBt, if_true, if_false, reduceCtorEq, e1,
      or_true, true_or, or_self]
    exact ⟨_, rfl⟩
  · obtain ⟨v2, e2⟩ := loop_values_of_dvd _ _ h0 hA0 hkL
    simp only [gemm.tail_predicates, hAt, hBt, if_true, if_false, reduceCtorEq, e2,
      or_true, true_or, or_self]
    exact ⟨_, rfl⟩
  · obtain ⟨v2, e2⟩ := loop_values_of_dvd _ _ h0 hA0 hkL
    obtain ⟨v3, e3⟩ := loop_values_of_dvd _ _ h1 hB1 hkL
    simp only [gemm.tail_predicates, hAt, hBt, if_true, if_false, reduceCtorEq, e2, e3,
      or_true, true_or, or_self]
    exact ⟨_, rfl⟩

theorem main_kernel_text_returns (g : gemm) (e : kernel_locals) (hfit : g.generation_defined) :
    ∃ main, g.main_kernel_text e = some main := by
  obtain ⟨l1, e1⟩ := fetch_to_lds_returns g e false hfit
  obtain ⟨l2, e2⟩ := tail_predicates_returns g hfit
  obtain ⟨l3, e3⟩ := fetch_to_lds_returns g e true hfit
  simp only [gemm.main_kernel_text, e1, e2, e3]
  exact ⟨_, rfl⟩

theorem generate_impl_locals_returns (g : gemm) (h : text_helpers) (suffix : String)
    (args : gemm_args) (sdtype : String) (backend : backend_type)
    (hfit : g.generation_defined) :
    ∃ e, g.generate_impl_locals h suffix args sdtype backend = some e ∧
      e.suffix = suffix ∧ e.sdtype = sdtype := by
  obtain ⟨hr, hv, h1, h0, -⟩ := hfit
  have hv0 : g.p_.vwidth ≠ 0 := by omega
  have h10 : g.p_.lf1 ≠ 0 := by omega
  have h00 : mul32 g.p_.lf0 g.p_.vwidth ≠ 0 := by omega
  cases hAt : g.A_trans_ <;> cases hBt : g.B_trans_ <;>
    simp only [gemm.generate_impl_locals, hv0, hAt, hBt, if_true, if_false, reduceCtorEq, udiv,
      h10, h00] <;>
    exact ⟨_, rfl, rfl, rfl⟩

theorem main_kernel_text_head (g : gemm) (e : kernel_locals) (main : List String)
    (hmain : g.main_kernel_text e = some main) :
    ∃ rest, main = main_kernel_header e.suffix e.sdtype :: rest := by
  unfold gemm.main_kernel_text at hmain
  split at hmain
  · injection hmain with hmain
    subst hmain
    exact ⟨_, rfl⟩
  · cases hmain

theorem generate_impl_of_parts (g : gemm) (h : text_helpers) (suffix : String)
    (args : gemm_args) (sdtype : String) (backend : backend_type) (e : kernel_locals)
    (main : List String)
    (he : g.generate_impl_locals h suffix args sdtype backend = some e)
    (hmain : g.main_kernel_text e = some main) :
    g.generate_impl h suffix (some args) sdtype backend =
      some (g.opencl_attribute backend ++ main ++
        (if g.p_.depth > 1 then reduce_kernel_text e else [])) := by
  simp only [gemm.generate_impl, he, hmain]

theorem generate_impl_parts (g : gemm) (h : text_helpers) (suffix : String)
    (extracted : Option gemm_args) (sdtype : String) (backend : backend_type)
    (text : List String)
    (htext : g.generate_impl h suffix extracted sdtype backend = some text) :
    ∃ args e main, extracted = some args ∧
      g.generate_impl_locals h suffix args sdtype backend = some e ∧
      g.main_kernel_text e = some main ∧
      text = g.opencl_attribute backend ++ main ++
        (if g.p_.depth > 1 then reduce_kernel_text e else []) := by
  unfold gemm.generate_impl at htext
  split at htext
  · cases htext
  · rename_i args
    split at htext
    · cases htext
    · rename_i e he
      split at htext
      · cases htext
      · rename_i main hmain
        injection htext with htext
        exact ⟨args, e, main, rfl, he, hmain, htext.symm⟩

theorem generate_impl_locals_names (g : gemm) (h : text_helpers) (suffix : String)
    (args : gemm_args) (sdtype : String) (backend : backend_type) (e : kernel_locals)
    (he : g.generate_impl_locals h suffix args sdtype backend = some e) :
    e.suffix = suffix ∧ e.sdtype = sdtype := by
  unfold gemm.generate_impl_locals at he
  split at he
  · cases he
  · split at he
    · injection he with he
      subst he
      exact ⟨rfl, rfl⟩
    · cases he

theorem generate_impl_header_mem (g : gemm) (h : text_helpers) (suffix : String)
    (extracted : Option gemm_args) (sdtype : String) (backend : backend_type)
    (text : List String)
    (htext : g.generate_impl h suffix extracted sdtype backend = some text) :
    main_kernel_header suffix sdtype ∈ text := by
  obtain ⟨args, e, main, -, he, hmain, rfl⟩ := generate_impl_parts g h suffix extracted sdtype
    backend text htext
  obtain ⟨rest, rfl⟩ := main_kernel_text_head g e main hmain
  obtain ⟨h1, h2⟩ := generate_impl_locals_names g h suffix args sdtype backend e he
  rw [h1, h2]
  simp only [List.mem_append, List.mem_cons, true_or, or_true]

theorem bindings_of_bind_arguments_same (k : launched_kernel) (values : List kernel_argument) :
    ∀ start, bindings_of k (bind_arguments_from k start values) =
      (List.range' start values.length).zip values := by
  induction values with
  | nil => intro start; rfl
  | cons v rest ih =>
    intro start
    simp only [bind_arguments_from, bindings_of, if_true, ih, List.length_cons, List.range'_succ,
      List.zip_cons_cons]

/-- C18 (as stated) fails: called with `M = 0`, `enqueue_block` returns at line
586 before any binding, so the main kernel gets none of the 17 arguments, for
`depth = 1` and for `depth = 4`; and on the accepted parameter set with `mS = 0`
the grid computation of line 598 divides by zero before the first binding. -/
theorem main_kernel_bindings_zero_size :
    (sample_gemm.enqueue_block backend_type.OPENCL 0 5 7 launch_args.A launch_args.B
      launch_args.C 2 3 "" 0).map (bindings_of launched_kernel.gemm) = some [] ∧
    (split_gemm.enqueue_block backend_type.OPENCL 0 5 7 launch_args.A launch_args.B
      launch_args.C 2 3 "" 0).map (bindings_of launched_kernel.gemm) = some [] ∧
    zero_mS_gemm.is_invalid_impl = some TEMPLATE_VALID ∧
    (zero_mS_gemm.enqueue_block backend_type.OPENCL 3 5 7 launch_args.A launch_args.B
      launch_args.C 2 3 "" 0).map (bindings_of launched_kernel.gemm) = none := by
  decide

/-- C18 (amended): for non-zero `M`, `N`, `K` and `mS, nS, ls0, ls1 >= 1`,
`enqueue_block` binds exactly 17 arguments of the main kernel, at the positions
0..16, in the order M, N, K, destination (buffer, leading dimension, offset,
stride), alpha, A buffer, `A.ld[1]`, `A.array.start`, `A.ld[0]`, B buffer,
`B.ld[1]`, `B.array.start`, `B.ld[0]`, beta; the destination is
`(C, C.ld[1], C.array.start, C.ld[0])` when `depth = 1` and
`(workspace, M, 0, 1)` otherwise.  The header that `generate_impl` writes is
`gemm` + suffix followed by the 17 parameters M, N, K, C, ldc, offc, Cstride1,
alpha, A, lda, offa, Astride1, B, ldb, offb, Bstride1, beta, and the value bound
at each position has the kind of the parameter at that position. -/
theorem main_kernel_bindings (g : gemm) (backend : backend_type) (M N K : Nat)
    (A B C : array_operand) (alpha beta : Int) (suffix sdtype : String) (workspace : Nat)
    (hM : M ≠ 0) (hN : N ≠ 0) (hK : K ≠ 0)
    (hmS : 1 ≤ g.p_.mS) (hnS : 1 ≤ g.p_.nS) (hls0 : 1 ≤ g.p_.ls0) (hls1 : 1 ≤ g.p_.ls1) :
    ∃ trace destination,
      g.enqueue_block backend M N K A B C alpha beta suffix workspace = some trace ∧
      bindings_of launched_kernel.gemm trace =
        (List.range 17).zip
          ([kernel_argument.size M, kernel_argument.size N, kernel_argument.size K] ++
            destination ++
            [kernel_argument.scalar alpha,
             kernel_argument.buffer (A.handle backend), kernel_argument.size A.ld1,
             kernel_argument.size A.start, kernel_argument.size A.ld0,
             kernel_argument.buffer (B.handle backend), kernel_argument.size B.ld1,
             kernel_argument.size B.start, kernel_argument.size B.ld0,
             kernel_argument.scalar beta]) ∧
      (g.p_.depth = 1 →
        destination = [kernel_argument.buffer (C.handle backend), kernel_argument.size C.ld1,
          kernel_argument.size C.start, kernel_argument.size C.ld0]) ∧
      (g.p_.depth ≠ 1 →
        destination = [kernel_argument.buffer workspace, kernel_argument.size M,
          kernel_argument.size 0, kernel_argument.size 1]) ∧
      main_kernel_header suffix sdtype =
        "$KERNEL void gemm" ++ suffix ++ "(" ++
          parameter_list_text (main_kernel_parameters sdtype) ∧
      (main_kernel_parameters sdtype).map kernel_parameter.name =
        ["M", "N", "K", "C", "ldc", "offc", "Cstride1", "alpha", "A", "lda", "offa",
         "Astride1", "B", "ldb", "offb", "Bstride1", "beta"] ∧
      (bindings_of launched_kernel.gemm trace).map
          (fun binding => binding.2.parameter_type sdtype) =
        (main_kernel_parameters sdtype).map kernel_parameter.type_text ∧
      (∀ (h : text_helpers) (extracted : Option gemm_args) (text : List String),
        g.generate_impl h suffix extracted sdtype backend = some text →
        main_kernel_header suffix sdtype ∈ text) := by
  have htrace := enqueue_block_of_nonzero g backend M N K A B C alpha beta suffix workspace
    hM hN hK hmS hnS hls0 hls1
  have hb : ∀ destination : List kernel_argument, destination =
      (if g.p_.depth = 1 then
        [kernel_argument.buffer (C.handle backend), kernel_argument.size C.ld1,
         kernel_argument.size C.start, kernel_argument.size C.ld0]
       else
        [kernel_argument.buffer workspace, kernel_argument.size M,
         kernel_argument.size 0, kernel_argument.size 1]) →
      bindings_of launched_kernel.gemm
        (([driver_call.Kernel launched_kernel.gemm (kernel_name launched_kernel.gemm suffix)] ++
          bind_arguments launched_kernel.gemm
            (g.main_kernel_arguments backend M N K A B C alpha beta workspace) ++
          [driver_call.enqueue launched_kernel.gemm
            [ceil_div (ceil_div M g.p_.mS) g.p_.ls0 * g.p_.ls0,
             ceil_div (ceil_div N g.p_.nS) g.p_.ls1 * g.p_.ls1, g.p_.depth]
            [g.p_.ls0, g.p_.ls1, 1]]) ++
        (if g.p_.depth > 1 then
          [driver_call.Kernel launched_kernel.reduce
            (kernel_name launched_kernel.reduce suffix)] ++
          bind_arguments launched_kernel.reduce
            (g.reduce_kernel_arguments backend M N C beta workspace) ++
          [driver_call.enqueue launched_kernel.reduce
            [ceil_div M g.p_.ls0 * g.p_.ls0, ceil_div N g.p_.ls1 * g.p_.ls1]
            [g.p_.ls0, g.p_.ls1]]
         else [])) =
      (List.range 17).zip
          ([kernel_argument.size M, kernel_argument.size N, kernel_argument.size K] ++
            destination ++
            [kernel_argument.scalar alpha,
             kernel_argument.buffer (A.handle backend), kernel_argument.size A.ld1,
             kernel_argument.size A.start, kernel_argument.size A.ld0,
             kernel_argument.buffer (B.handle backend), kernel_argument.size B.ld1,
             kernel_argument.size B.start, kernel_argument.size B.ld0,
             kernel_argument.scalar beta]) := by
    intro destination hdest
    have hred : bindings_of launched_kernel.gemm
        (if g.p_.depth > 1 then
          [driver_call.Kernel launched_kernel.reduce
            (kernel_name launched_kernel.reduce suffix)] ++
          bind_arguments launched_kernel.reduce
            (g.reduce_kernel_arguments backend M N C beta workspace) ++
          [driver_call.enqueue launched_kernel.reduce
            [ceil_div M g.p_.ls0 * g.p_.ls0, ceil_div N g.p_.ls1 * g.p_.ls1]
            [g.p_.ls0, g.p_.ls1]]
         else []) = [] := by
      by_cases hd : g.p_.depth > 1
      · rw [if_pos hd, bindings_of_append, bindings_of_append, bind_arguments,
          bindings_of_bind_arguments_other launched_kernel.reduce launched_kernel.gemm
            (by decide)]
        rfl
      · rw [if_neg hd]
        rfl
    rw [bindings_of_append, hred, List.append_nil, bindings_of_append, bindings_of_append,
      bind_arguments, bindings_of_bind_arguments_same, hdest]
    by_cases hd : g.p_.depth = 1
    · simp only [gemm.main_kernel_arguments, if_pos hd]
      rfl
    · simp only [gemm.main_kernel_arguments, if_neg hd]
      rfl
  refine ⟨_, _, htrace, hb _ rfl, ?_, ?_, main_kernel_header_parameters suffix sdtype, rfl, ?_,
    fun h extracted text htext =>
      generate_impl_header_mem g h suffix extracted sdtype backend text htext⟩
  · intro hd
    rw [if_pos hd]
  · intro hd
    rw [if_neg hd]
  · rw [hb _ rfl]
    by_cases hd : g.p_.depth = 1
    · rw [if_pos hd]
      rfl
    · rw [if_neg hd]
      rfl

/-- Witness for C18 (amended): the 3 x 5 x 7 sample product on the sample
template (`depth = 1`) binds the 17 values with C as destination. -/
theorem main_kernel_bindings_witness :
    ∃ trace,
      sample_gemm.enqueue_block backend_type.OPENCL 3 5 7 launch_args.A launch_args.B
        launch_args.C 2 3 "" 0 = some trace ∧
      bindings_of launched_kernel.gemm trace =
        (List.range 17).zip
          [kernel_argument.size 3, kernel_argument.size 5, kernel_argument.size 7,
           kernel_argument.buffer 300, kernel_argument.size 3, kernel_argument.size 30,
           kernel_argument.size 1, kernel_argument.scalar 2,
           kernel_argument.buffer 100, kernel_argument.size 3, kernel_argument.size 10,
           kernel_argument.size 1,
           kernel_argument.buffer 200, kernel_argument.size 7, kernel_argument.size 20,
           kernel_argument.size 1, kernel_argument.scalar 3] := by
  obtain ⟨trace, destination, h1, h2, h3, -⟩ :=
    main_kernel_bindings sample_gemm backend_type.OPENCL 3 5 7 launch_args.A launch_args.B
      launch_args.C 2 3 "" "float" 0 (by decide) (by decide) (by decide) (by decide)
      (by decide) (by decide) (by decide)
  refine ⟨trace, h1, ?_⟩
  rw [h2, h3 (by decide)]
  rfl

/-- C20 (as stated) fails: with helpers that ignore the backend, the text for
OpenCL starts with the line ` __attribute__((reqd_work_group_size(2,2,1)))`
written at line 151, the text for another backend starts with the kernel header,
and the two texts differ. -/
theorem generate_impl_opencl_attribute :
    (sample_gemm.generate_impl sample_helpers "" (some launch_args) "float"
      backend_type.OPENCL).bind List.head? =
        some " __attribute__((reqd_work_group_size(2,2,1)))" ∧
    (sample_gemm.generate_impl sample_helpers "" (some launch_args) "float"
      backend_type.CUDA).bind List.head? = some (main_kernel_header "" "float") ∧
    sample_gemm.generate_impl sample_helpers "" (some launch_args) "float"
        backend_type.OPENCL ≠
      sample_gemm.generate_impl sample_helpers "" (some launch_args) "float"
        backend_type.CUDA := by
  decide

theorem generate_impl_locals_backend (g : gemm) (h : text_helpers) (suffix : String)
    (args : gemm_args) (sdtype : String) (b1 b2 : backend_type)
    (hvload : ∀ w t offset ptr stride aligned,
      h.vload w t offset ptr stride b1 aligned = h.vload w t offset ptr stride b2 aligned)
    (hvstore : ∀ w t value offset ptr stride,
      h.vstore w t value offset ptr stride b1 = h.vstore w t value offset ptr stride b2)
    (hselect : ∀ cond a b, h.Select b1 cond a b = h.Select b2 cond a b) :
    g.generate_impl_locals h suffix args sdtype b1 =
      g.generate_impl_locals h suffix args sdtype b2 := by
  simp only [gemm.generate_impl_locals, hvload, hvstore, hselect]

/-- C20 (amended): the only text that `generate_impl` writes for one backend
and not for another is the line
` __attribute__((reqd_work_group_size(ls0,ls1,1)))`, written first and for
OpenCL only.  With helpers `vload`, `vstore`, `Select` that return the same text
for the two backends compared, a text returned for one backend is this line (if
the backend is OpenCL) followed by a body, and the text returned for the other
backend is its line (if any) followed by the same body; on a parameter set for
which generation is defined a text is returned for both. -/
theorem backend_only_in_attribute (g : gemm) (h : text_helpers) (suffix : String)
    (args : gemm_args) (sdtype : String) (b1 b2 : backend_type)
    (hvload : ∀ w t offset ptr stride aligned,
      h.vload w t offset ptr stride b1 aligned = h.vload w t offset ptr stride b2 aligned)
    (hvstore : ∀ w t value offset ptr stride,
      h.vstore w t value offset ptr stride b1 = h.vstore w t value offset ptr stride b2)
    (hselect : ∀ cond a b, h.Select b1 cond a b = h.Select b2 cond a b) :
    (∀ text, g.generate_impl h suffix (some args) sdtype b1 = some text →
      ∃ body, text = g.opencl_attribute b1 ++ body ∧
        g.generate_impl h suffix (some args) sdtype b2 = some (g.opencl_attribute b2 ++ body)) ∧
    (g.generation_defined →
      ∃ body,
        g.generate_impl h suffix (some args) sdtype b1 = some (g.opencl_attribute b1 ++ body) ∧
        g.generate_impl h suffix (some args) sdtype b2 =
          some (g.opencl_attribute b2 ++ body)) ∧
    g.opencl_attribute backend_type.OPENCL =
      [" __attribute__((reqd_work_group_size(" ++ to_string g.p_.ls0 ++ "," ++
        to_string g.p_.ls1 ++ ",1)))"] ∧
    g.opencl_attribute backend_type.CUDA = [] := by
  have hloc := generate_impl_locals_backend g h suffix args sdtype b1 b2 hvload hvstore hselect
  refine ⟨?_, ?_, rfl, rfl⟩
  · intro text htext
    obtain ⟨args', e, main, hargs, he, hmain, rfl⟩ :=
      generate_impl_parts g h suffix (some args) sdtype b1 text htext
    injection hargs with hargs
    subst hargs
    refine ⟨main ++ (if g.p_.depth > 1 then reduce_kernel_text e else []), ?_, ?_⟩
    · rw [List.append_assoc]
    · rw [generate_impl_of_parts g h suffix args sdtype b2 e main (hloc ▸ he) hmain,
        List.append_assoc]
  · intro hfit
    obtain ⟨e, he, -, -⟩ := generate_impl_locals_returns g h suffix args sdtype b1 hfit
    obtain ⟨main, hmain⟩ := main_kernel_text_returns g e hfit
    refine ⟨main ++ (if g.p_.depth > 1 then reduce_kernel_text e else []), ?_, ?_⟩
    · rw [generate_impl_of_parts g h suffix args sdtype b1 e main he hmain, List.append_assoc]
    · rw [generate_impl_of_parts g h suffix args sdtype b2 e main (hloc ▸ he) hmain,
        List.append_assoc]

/-- Witness for C20 (amended): with the sample helpers the OpenCL text of the
sample template is the attribute line followed by the text for the other
backend. -/
theorem backend_only_in_attribute_witness :
    sample_gemm.generation_defined ∧
    ∃ body,
      sample_gemm.generate_impl sample_helpers "" (some launch_args) "float"
          backend_type.OPENCL =
        some (" __attribute__((reqd_work_group_size(2,2,1)))" :: body) ∧
      sample_gemm.generate_impl sample_helpers "" (some launch_args) "float"
          backend_type.CUDA = some body := by
  obtain ⟨body, h1, h2⟩ :=
    (backend_only_in_attribute sample_gemm sample_helpers "" launch_args "float"
      backend_type.OPENCL backend_type.CUDA
      (fun _ _ _ _ _ _ => rfl) (fun _ _ _ _ _ _ => rfl) (fun _ _ _ => rfl)).2.1 (by decide)
  exact ⟨by decide, body, h1, h2⟩


/-! ## Shared lemmas on accepted parameter sets and on mixed-radix numbers -/

theorem accepted_nonzero (g : gemm) (h : g.is_invalid_impl = some TEMPLATE_VALID) :
    1 ≤ g.p_.vwidth ∧ 1 ≤ g.p_.kL := by
  unfold gemm.is_invalid_impl at h
  simp only [umod] at h
  by_cases hf : g.p_.Afetch ≠ FETCH_FROM_LOCAL ∨ g.p_.Bfetch ≠ FETCH_FROM_LOCAL
  · rw [if_pos hf] at h
    cases h
  rw [if_neg hf] at h
  by_cases hv : g.p_.vwidth = 0
  · simp only [hv, if_true] at h
    cases h
  by_cases hk : g.p_.kL = 0
  · simp only [hv, hk, if_true, if_false] at h
    split_ifs at h <;> cases h
  exact ⟨by omega, by omega⟩

theorem accepted_guarded (g : gemm) (h : g.is_invalid_impl = some TEMPLATE_VALID) :
    g.guarded_acceptance := by
  obtain ⟨hv, hk⟩ := accepted_nonzero g h
  rw [is_invalid_impl_chain g hv hk] at h
  unfold gemm.guarded_acceptance gemm.A_bound1 gemm.A_bound0 gemm.B_bound1 gemm.B_bound0
  simp only [Nat.dvd_iff_mod_eq_zero]
  by_cases h1 : g.p_.Afetch ≠ FETCH_FROM_LOCAL ∨ g.p_.Bfetch ≠ FETCH_FROM_LOCAL
  · rw [if_pos h1] at h
    cases h
  rw [if_neg h1] at h
  by_cases h2 : g.p_.mS % g.p_.vwidth > 0 ∨ g.p_.nS % g.p_.vwidth > 0
  · rw [if_pos h2] at h
    cases h
  rw [if_neg h2] at h
  by_cases h3 : g.p_.mL > 256 ∨ g.p_.nL > 256
  · rw [if_pos h3] at h
    cases h
  rw [if_neg h3] at h
  by_cases h4 : g.p_.kS % g.p_.kL = 0
  · rw [if_pos h4] at h
    cases h
  rw [if_neg h4] at h
  by_cases h5 : mul32 g.p_.lf0 g.p_.lf1 ≠ mul32 g.p_.ls0 g.p_.ls1
  · rw [if_pos h5] at h
    cases h
  rw [if_neg h5] at h
  by_cases h6 : g.p_.lf1 > 0 ∧ (if g.A_trans_ = N then g.p_.kL else g.p_.mL) % g.p_.lf1 > 0
  · rw [if_pos h6] at h
    split at h <;> cases h
  rw [if_neg h6] at h
  by_cases h7 : g.p_.lf0 > 0 ∧ mul32 g.p_.lf0 g.p_.vwidth = 0
  · rw [if_pos h7] at h
    cases h
  rw [if_neg h7] at h
  by_cases h8 : g.p_.lf0 > 0 ∧
      (if g.A_trans_ = N then g.p_.mL else g.p_.kL) % mul32 g.p_.lf0 g.p_.vwidth > 0
  · rw [if_pos h8] at h
    split at h <;> cases h
  rw [if_neg h8] at h
  by_cases h9 : g.p_.lf1 > 0 ∧ (if g.B_trans_ = T then g.p_.kL else g.p_.nL) % g.p_.lf1 > 0
  · rw [if_pos h9] at h
    split at h <;> cases h
  rw [if_neg h9] at h
  by_cases h10 : g.p_.lf0 > 0 ∧
      (if g.B_trans_ = T then g.p_.nL else g.p_.kL) % mul32 g.p_.lf0 g.p_.vwidth > 0
  · rw [if_pos h10] at h
    split at h <;> cases h
  have hA : g.p_.Afetch = FETCH_FROM_LOCAL := by
    by_contra hc; exact h1 (Or.inl hc)
  have hB : g.p_.Bfetch = FETCH_FROM_LOCAL := by
    by_contra hc; exact h1 (Or.inr hc)
  refine ⟨hA, hB, by omega, by omega, by omega, by omega, h4,
    (by by_contra hc; exact h5 hc), ?_, ?_, ?_, ?_⟩
  · intro hp
    by_contra hc
    exact h6 ⟨hp, Nat.pos_of_ne_zero hc⟩
  · intro hp
    have hne : mul32 g.p_.lf0 g.p_.vwidth ≠ 0 := fun hz => h7 ⟨hp, hz⟩
    refine ⟨hne, ?_⟩
    by_contra hc
    exact h8 ⟨hp, Nat.pos_of_ne_zero hc⟩
  · intro hp
    by_contra hc
    exact h9 ⟨hp, Nat.pos_of_ne_zero hc⟩
  · intro hp
    have hne : mul32 g.p_.lf0 g.p_.vwidth ≠ 0 := fun hz => h7 ⟨hp, hz⟩
    refine ⟨hne, ?_⟩
    by_contra hc
    exact h10 ⟨hp, Nat.pos_of_ne_zero hc⟩

theorem mixed_radix_unique (b q r q' r' : Nat) (hr : r < b) (hr' : r' < b)
    (h : q * b + r = q' * b + r') : q = q' ∧ r = r' := by
  have hb : 0 < b := by omega
  have h1 : (q * b + r) / b = q := by
    rw [Nat.add_comm, Nat.add_mul_div_right _ _ hb, Nat.div_eq_of_lt hr, Nat.zero_add]
  have h2 : (q' * b + r') / b = q' := by
    rw [Nat.add_comm, Nat.add_mul_div_right _ _ hb, Nat.div_eq_of_lt hr', Nat.zero_add]
  have hq : q = q' := by rw [← h1, ← h2, h]
  subst hq
  exact ⟨rfl, by omega⟩

theorem mixed_radix_lt (b n q r : Nat) (hr : r < b) (hq : q < n) : q * b + r < n * b := by
  have h1 : (q + 1) * b ≤ n * b := Nat.mul_le_mul_right b hq
  have h2 : (q + 1) * b = q * b + b := by ring
  omega


/-! ## Construction -/

/-- C23: the constructor succeeds exactly for the character pairs `('N','N')`,
`('T','N')`, `('N','T')`, `('T','T')`, with `type_` set to `GEMM_NN`, `GEMM_TN`,
`GEMM_NT`, `GEMM_TT` (A flag first) and every argument stored unchanged; for
every other pair it does not return.  `gemm_nn`, `gemm_tn`, `gemm_nt`, `gemm_tt`
always succeed, with these four types and their arguments stored unchanged. -/
theorem gemm_constructor_variants (a : gemm_constructor_arguments) (A_trans B_trans : Char) :
    ((gemm_constructor a A_trans B_trans).isSome = true ↔
      (A_trans = 'N' ∨ A_trans = 'T') ∧ (B_trans = 'N' ∨ B_trans = 'T')) ∧
    (∀ c, gemm_constructor a A_trans B_trans = some c →
      c = a.members A_trans B_trans c.type_ ∧
      (c.type_ = expression_type.GEMM_NN ↔ A_trans = 'N' ∧ B_trans = 'N') ∧
      (c.type_ = expression_type.GEMM_TN ↔ A_trans = 'T' ∧ B_trans = 'N') ∧
      (c.type_ = expression_type.GEMM_NT ↔ A_trans = 'N' ∧ B_trans = 'T') ∧
      (c.type_ = expression_type.GEMM_TT ↔ A_trans = 'T' ∧ B_trans = 'T')) ∧
    (¬ ((A_trans = 'N' ∨ A_trans = 'T') ∧ (B_trans = 'N' ∨ B_trans = 'T')) →
      gemm_constructor a A_trans B_trans = none) ∧
    gemm_nn a = some (a.members 'N' 'N' expression_type.GEMM_NN) ∧
    gemm_tn a = some (a.members 'T' 'N' expression_type.GEMM_TN) ∧
    gemm_nt a = some (a.members 'N' 'T' expression_type.GEMM_NT) ∧
    gemm_tt a = some (a.members 'T' 'T' expression_type.GEMM_TT) := by
  have hNT : ('N' : Char) ≠ 'T' := by decide
  have hTN : ('T' : Char) ≠ 'N' := by decide
  refine ⟨?_, ?_, ?_, rfl, rfl, rfl, rfl⟩
  · unfold gemm_constructor
    by_cases hAN : A_trans = 'N' <;> by_cases hAT : A_trans = 'T' <;>
      by_cases hBN : B_trans = 'N' <;> by_cases hBT : B_trans = 'T' <;>
      simp_all
  · intro c hc
    unfold gemm_constructor at hc
    by_cases hAN : A_trans = 'N' <;> by_cases hAT : A_trans = 'T' <;>
      by_cases hBN : B_trans = 'N' <;> by_cases hBT : B_trans = 'T' <;>
      simp_all <;> subst hc <;> simp [gemm_constructor_arguments.members]
  · intro h
    unfold gemm_constructor
    by_cases hAN : A_trans = 'N' <;> by_cases hAT : A_trans = 'T' <;>
      by_cases hBN : B_trans = 'N' <;> by_cases hBT : B_trans = 'T' <;>
      simp_all

/-- Witness for C23: the pair `('N','T')` yields `GEMM_NT`, the pair `('N','n')`
does not construct. -/
theorem gemm_constructor_variants_witness :
    (gemm_constructor sample_constructor_arguments 'N' 'T').map (fun c => c.type_) =
      some expression_type.GEMM_NT ∧
    gemm_constructor sample_constructor_arguments 'N' 'n' = none ∧
    gemm_tn sample_constructor_arguments =
      some (sample_constructor_arguments.members 'T' 'N' expression_type.GEMM_TN) :=
  ⟨by decide,
   (gemm_constructor_variants sample_constructor_arguments 'N' 'n').2.2.1 (by decide),
   (gemm_constructor_variants sample_constructor_arguments 'N' 'n').2.2.2.2.1⟩


/-! ## Write-back offsets -/

theorem tile_offset_exact (vw ls S m : Nat) (hv : 1 ≤ vw) (hS : vw ∣ S)
    (hfit : ls * S < UINT32_RANGE) (hl : 1 ≤ ls) (hm : m < S) :
    add32 (mul32 (m / vw) (mul32 ls vw)) (m % vw) = (m / vw) * (ls * vw) + m % vw ∧
    (m / vw) * (ls * vw) + m % vw < ls * S := by
  obtain ⟨q, rfl⟩ := hS
  have hlt : m % vw < vw := Nat.mod_lt _ (by omega)
  have ha : m / vw < q := by
    rw [Nat.div_lt_iff_lt_mul (by omega)]
    rwa [Nat.mul_comm] at hm
  have h1 : (m / vw) * (ls * vw) + m % vw < ls * (vw * q) := by
    have h2 : (m / vw) * ls < q * ls := Nat.mul_lt_mul_of_pos_right ha (by omega)
    have h3 := mixed_radix_lt vw (q * ls) ((m / vw) * ls) (m % vw) hlt h2
    have e1 : (m / vw) * (ls * vw) = (m / vw) * ls * vw := by ring
    have e2 : ls * (vw * q) = q * ls * vw := by ring
    omega
  have hq : 1 ≤ q := by
    rcases Nat.eq_zero_or_pos q with h0 | h0
    · subst h0
      simp at hm
    · exact h0
  have h4 : ls * vw ≤ ls * (vw * q) := by
    apply Nat.mul_le_mul_left
    exact Nat.le_mul_of_pos_right vw (by omega)
  have h5 : (m / vw) * (ls * vw) ≤ (m / vw) * (ls * vw) + m % vw := Nat.le_add_right _ _
  refine ⟨?_, h1⟩
  unfold add32 mul32
  rw [Nat.mod_eq_of_lt (by omega : ls * vw < UINT32_RANGE),
    Nat.mod_eq_of_lt (by omega : (m / vw) * (ls * vw) < UINT32_RANGE),
    Nat.mod_eq_of_lt (by omega : (m / vw) * (ls * vw) + m % vw < UINT32_RANGE)]

theorem tile_offset_bijection (vw ls S : Nat) (hv : 1 ≤ vw) (hl : 1 ≤ ls) (hS : vw ∣ S) :
    (∀ z m, z < ls → m < S → z * vw + ((m / vw) * (ls * vw) + m % vw) < ls * S) ∧
    (∀ z m z' m', z < ls → m < S → z' < ls → m' < S →
      z * vw + ((m / vw) * (ls * vw) + m % vw) =
        z' * vw + ((m' / vw) * (ls * vw) + m' % vw) → z = z' ∧ m = m') ∧
    (∀ t, t < ls * S → ∃ z m, z < ls ∧ m < S ∧
      z * vw + ((m / vw) * (ls * vw) + m % vw) = t) := by
  obtain ⟨q, rfl⟩ := hS
  have hvpos : 0 < vw := by omega
  have key : ∀ z m, z * vw + ((m / vw) * (ls * vw) + m % vw) =
      ((m / vw) * ls + z) * vw + m % vw := by
    intro z m; ring
  have hdiv : ∀ m, m < vw * q → m / vw < q := by
    intro m hm
    rw [Nat.div_lt_iff_lt_mul hvpos]
    rwa [Nat.mul_comm] at hm
  refine ⟨?_, ?_, ?_⟩
  · intro z m hz hm
    rw [key]
    have h1 := mixed_radix_lt ls q (m / vw) z hz (hdiv m hm)
    have h2 := mixed_radix_lt vw (q * ls) ((m / vw) * ls + z) (m % vw) (Nat.mod_lt _ hvpos) h1
    have e : ls * (vw * q) = q * ls * vw := by ring
    omega
  · intro z m z' m' hz hm hz' hm' h
    rw [key, key] at h
    obtain ⟨h1, h2⟩ := mixed_radix_unique vw _ _ _ _ (Nat.mod_lt _ hvpos) (Nat.mod_lt _ hvpos) h
    obtain ⟨h3, h4⟩ := mixed_radix_unique ls _ _ _ _ hz hz' h1
    refine ⟨h4, ?_⟩
    have e1 := Nat.div_add_mod m vw
    have e2 := Nat.div_add_mod m' vw
    rw [h3, h2] at e1
    omega
  · intro t ht
    have e : ls * (vw * q) = q * ls * vw := by ring
    have hu : t / vw < q * ls := by
      rw [Nat.div_lt_iff_lt_mul hvpos]
      omega
    have hls : 0 < ls := by omega
    have ha : t / vw / ls < q := by
      rw [Nat.div_lt_iff_lt_mul hls]
      exact hu
    have hm : t / vw / ls * vw + t % vw < vw * q := by
      have := mixed_radix_lt vw q (t / vw / ls) (t % vw) (Nat.mod_lt _ hvpos) ha
      rw [Nat.mul_comm vw q]
      exact this
    have hmd : (t / vw / ls * vw + t % vw) / vw = t / vw / ls := by
      rw [Nat.add_comm, Nat.add_mul_div_right _ _ hvpos,
        Nat.div_eq_of_lt (Nat.mod_lt _ hvpos), Nat.zero_add]
    have hmm : (t / vw / ls * vw + t % vw) % vw = t % vw := by
      rw [Nat.add_comm, Nat.add_mul_mod_self_right, Nat.mod_mod]
    refine ⟨t / vw % ls, t / vw / ls * vw + t % vw, Nat.mod_lt _ hls, hm, ?_⟩
    rw [key, hmd, hmm]
    have e1 := Nat.div_add_mod (t / vw) ls
    have e2 := Nat.div_add_mod t vw
    have e3 : t / vw / ls * ls = ls * (t / vw / ls) := Nat.mul_comm _ _
    have e4 : (t / vw / ls * ls + t / vw % ls) * vw = vw * (t / vw) := by
      rw [e3, e1, Nat.mul_comm]
    omega

theorem write_back_columns (g : gemm) (e : kernel_locals) :
    g.write_back e =
      g.write_back_head e ++ (List.range g.p_.nS).flatMap (g.write_back_column_lines e) ++
        ["\x7d"] := by
  rfl

theorem write_back_column_mem (g : gemm) (e : kernel_locals) (n : Nat) (hn : n < g.p_.nS)
    (line : String) (hl : line ∈ g.write_back_column_lines e n) : line ∈ g.write_back e := by
  rw [write_back_columns]
  simp only [List.mem_append, List.mem_flatMap, List.mem_range]
  exact Or.inl (Or.inr ⟨n, hn, hl⟩)

theorem succ_div_mod (vw n : Nat) (hv : 1 ≤ vw) :
    ((n + 1) % vw = 0 ∧ (n + 1) / vw = n / vw + 1 ∧ n % vw + 1 = vw) ∨
    ((n + 1) % vw = n % vw + 1 ∧ (n + 1) / vw = n / vw ∧ n % vw + 1 < vw) := by
  have hpos : 0 < vw := by omega
  have h1 := Nat.div_add_mod n vw
  have h2 := Nat.div_add_mod (n + 1) vw
  have hlt := Nat.mod_lt n hpos
  have hlt2 := Nat.mod_lt (n + 1) hpos
  by_cases hc : n % vw + 1 < vw
  · right
    have h3 : (n + 1) / vw * vw + (n + 1) % vw = n / vw * vw + (n % vw + 1) := by
      rw [Nat.mul_comm ((n + 1) / vw), Nat.mul_comm (n / vw)]
      omega
    obtain ⟨h4, h5⟩ := mixed_radix_unique vw _ _ _ _ hlt2 hc h3
    exact ⟨h5, h4, hc⟩
  · left
    have hv2 : n % vw + 1 = vw := by omega
    have h3 : (n + 1) / vw * vw + (n + 1) % vw = (n / vw + 1) * vw + 0 := by
      have e : (n / vw + 1) * vw = vw * (n / vw) + vw := by ring
      rw [Nat.mul_comm ((n + 1) / vw), e]
      omega
    obtain ⟨h4, h5⟩ := mixed_radix_unique vw _ _ _ _ hlt2 hpos h3
    exact ⟨h5, h4, hv2⟩

theorem column_offset_exact_step (vw ls n : Nat) (hv : 1 ≤ vw) (hl : 1 ≤ ls) :
    ((n + 1) / vw) * (ls * vw) + (n + 1) % vw =
      ((n / vw) * (ls * vw) + n % vw) +
        (if (n + 1) % vw = 0 then ls * vw - vw + 1 else 1) := by
  have hge : vw ≤ ls * vw := Nat.le_mul_of_pos_left vw (by omega)
  rcases succ_div_mod vw n hv with ⟨h1, h2, h3⟩ | ⟨h1, h2, h3⟩
  · rw [h1, h2, if_pos rfl]
    have e : (n / vw + 1) * (ls * vw) = n / vw * (ls * vw) + ls * vw := by ring
    omega
  · rw [h1, h2, if_neg (by omega)]
    omega

theorem column_constants_exact (g : gemm) (hv : 1 ≤ g.p_.vwidth) (hl : 1 ≤ g.p_.ls1)
    (hfit : g.p_.ls1 * (g.p_.nS + g.p_.vwidth) ≤ UINT32_RANGE) (n : Nat) (hn : n < g.p_.nS) :
    g.Cj n = (n / g.p_.vwidth) * (g.p_.ls1 * g.p_.vwidth) + n % g.p_.vwidth ∧
    g.column_increment n =
      (if (n + 1) % g.p_.vwidth = 0 then g.p_.ls1 * g.p_.vwidth - g.p_.vwidth + 1 else 1) := by
  have hpos : 0 < g.p_.vwidth := by omega
  have hmod := Nat.mod_lt n hpos
  have hdm := Nat.div_add_mod n g.p_.vwidth
  have e1 : g.p_.ls1 * (g.p_.nS + g.p_.vwidth) =
      g.p_.ls1 * g.p_.nS + g.p_.ls1 * g.p_.vwidth := by ring
  have h1 : g.p_.nS ≤ g.p_.ls1 * g.p_.nS := Nat.le_mul_of_pos_left _ (by omega)
  have h2 : g.p_.vwidth ≤ g.p_.ls1 * g.p_.vwidth := Nat.le_mul_of_pos_left _ (by omega)
  have h3 : (n / g.p_.vwidth) * (g.p_.ls1 * g.p_.vwidth) ≤ g.p_.ls1 * n := by
    have e2 : (n / g.p_.vwidth) * (g.p_.ls1 * g.p_.vwidth) =
        g.p_.ls1 * (g.p_.vwidth * (n / g.p_.vwidth)) := by ring
    rw [e2]
    exact Nat.mul_le_mul_left _ (by omega)
  have h4 : g.p_.ls1 * n < g.p_.ls1 * g.p_.nS := Nat.mul_lt_mul_of_pos_left hn (by omega)
  constructor
  · unfold gemm.Cj add32 mul32
    rw [Nat.mod_eq_of_lt (by omega : g.p_.ls1 * g.p_.vwidth < UINT32_RANGE),
      Nat.mod_eq_of_lt (by omega :
        (n / g.p_.vwidth) * (g.p_.ls1 * g.p_.vwidth) < UINT32_RANGE),
      Nat.mod_eq_of_lt (by omega :
        (n / g.p_.vwidth) * (g.p_.ls1 * g.p_.vwidth) + n % g.p_.vwidth < UINT32_RANGE)]
  · unfold gemm.column_increment add32 sub32 mul32
    rw [Nat.mod_eq_of_lt (by omega : n + 1 < UINT32_RANGE),
      Nat.mod_eq_of_lt (by omega : g.p_.ls1 * g.p_.vwidth < UINT32_RANGE),
      Nat.mod_eq_of_lt (by omega : g.p_.vwidth < UINT32_RANGE)]
    have e3 : (g.p_.ls1 * g.p_.vwidth + UINT32_RANGE - g.p_.vwidth) % UINT32_RANGE =
        g.p_.ls1 * g.p_.vwidth - g.p_.vwidth := by
      have e4 : g.p_.ls1 * g.p_.vwidth + UINT32_RANGE - g.p_.vwidth =
          (g.p_.ls1 * g.p_.vwidth - g.p_.vwidth) + UINT32_RANGE := by omega
      rw [e4, Nat.add_mod_right, Nat.mod_eq_of_lt (by omega)]
    rw [e3, Nat.mod_eq_of_lt (by omega :
      g.p_.ls1 * g.p_.vwidth - g.p_.vwidth + 1 < UINT32_RANGE)]

theorem column_offset_eq_Cj (g : gemm) (hv : 1 ≤ g.p_.vwidth) (hl : 1 ≤ g.p_.ls1)
    (hfit : g.p_.ls1 * (g.p_.nS + g.p_.vwidth) ≤ UINT32_RANGE) :
    ∀ n, n < g.p_.nS → g.column_offset n = g.Cj n := by
  intro n
  induction n with
  | zero =>
    intro hn
    rw [(column_constants_exact g hv hl hfit 0 hn).1]
    simp [gemm.column_offset]
  | succ k ih =>
    intro hn
    have hk : k < g.p_.nS := by omega
    have hoff : g.column_offset (k + 1) = g.column_offset k + g.column_increment k := by
      unfold gemm.column_offset
      rw [List.range_succ, List.map_append, List.sum_append]
      simp
    rw [hoff, ih hk, (column_constants_exact g hv hl hfit k hk).1,
      (column_constants_exact g hv hl hfit k hk).2,
      (column_constants_exact g hv hl hfit (k + 1) hn).1]
    exact (column_offset_exact_step g.p_.vwidth g.p_.ls1 k hv hl).symm


/-- C25 (as stated) fails: with `vw = 1`, `ls0 = 2^31` and `mS = 3` (a multiple
of `vw`) the constant `Ci` of register row 2 is `2*2^31` in `uint32_t`
arithmetic, that is 0, so the thread with local id 0 stores its register rows 0
and 2 to the same row of the tile. -/
theorem write_back_row_collision :
    1 ≤ wrapping_tile_gemm.p_.vwidth ∧ 1 ≤ wrapping_tile_gemm.p_.ls0 ∧
    wrapping_tile_gemm.p_.vwidth ∣ wrapping_tile_gemm.p_.mS ∧
    wrapping_tile_gemm.p_.in_range ∧
    0 < wrapping_tile_gemm.p_.ls0 ∧ 2 < wrapping_tile_gemm.p_.mS ∧
    wrapping_tile_gemm.Ci 2 = 0 ∧
    wrapping_tile_gemm.write_back_row 0 0 = wrapping_tile_gemm.write_back_row 0 2 := by
  decide

/-- C25 (amended): for `vw >= 1`, `ls0 >= 1`, `mS` a multiple of `vw` and
`ls0*mS < 2^32`, the constant `Ci` of row `m < mS` is
`(m/vw)*(ls0*vw) + m%vw`, and the row offset `z*vw + Ci(m)` maps
`[0, ls0) x [0, mS)` one-to-one onto `[0, ls0*mS)`; the same holds for the
columns with `ls1`, `nS` and `Cj`. -/
theorem write_back_row_bijection (g : gemm) (hv : 1 ≤ g.p_.vwidth)
    (hl0 : 1 ≤ g.p_.ls0) (hm : g.p_.vwidth ∣ g.p_.mS) (hfit0 : g.p_.ls0 * g.p_.mS < UINT32_RANGE)
    (hl1 : 1 ≤ g.p_.ls1) (hn : g.p_.vwidth ∣ g.p_.nS)
    (hfit1 : g.p_.ls1 * g.p_.nS < UINT32_RANGE) :
    ((∀ m, m < g.p_.mS →
        g.Ci m = (m / g.p_.vwidth) * (g.p_.ls0 * g.p_.vwidth) + m % g.p_.vwidth) ∧
      (∀ z m, z < g.p_.ls0 → m < g.p_.mS → g.write_back_row z m < g.p_.ls0 * g.p_.mS) ∧
      (∀ z m z' m', z < g.p_.ls0 → m < g.p_.mS → z' < g.p_.ls0 → m' < g.p_.mS →
        g.write_back_row z m = g.write_back_row z' m' → z = z' ∧ m = m') ∧
      (∀ t, t < g.p_.ls0 * g.p_.mS →
        ∃ z m, z < g.p_.ls0 ∧ m < g.p_.mS ∧ g.write_back_row z m = t)) ∧
    ((∀ n, n < g.p_.nS →
        g.Cj n = (n / g.p_.vwidth) * (g.p_.ls1 * g.p_.vwidth) + n % g.p_.vwidth) ∧
      (∀ w n, w < g.p_.ls1 → n < g.p_.nS → g.write_back_column w n < g.p_.ls1 * g.p_.nS) ∧
      (∀ w n w' n', w < g.p_.ls1 → n < g.p_.nS → w' < g.p_.ls1 → n' < g.p_.nS →
        g.write_back_column w n = g.write_back_column w' n' → w = w' ∧ n = n') ∧
      (∀ t, t < g.p_.ls1 * g.p_.nS →
        ∃ w n, w < g.p_.ls1 ∧ n < g.p_.nS ∧ g.write_back_column w n = t)) := by
  have hCi : ∀ m, m < g.p_.mS →
      g.Ci m = (m / g.p_.vwidth) * (g.p_.ls0 * g.p_.vwidth) + m % g.p_.vwidth :=
    fun m hlt => (tile_offset_exact g.p_.vwidth g.p_.ls0 g.p_.mS m hv hm hfit0 hl0 hlt).1
  have hCj : ∀ n, n < g.p_.nS →
      g.Cj n = (n / g.p_.vwidth) * (g.p_.ls1 * g.p_.vwidth) + n % g.p_.vwidth :=
    fun n hlt => (tile_offset_exact g.p_.vwidth g.p_.ls1 g.p_.nS n hv hn hfit1 hl1 hlt).1
  obtain ⟨r1, r2, r3⟩ := tile_offset_bijection g.p_.vwidth g.p_.ls0 g.p_.mS hv hl0 hm
  obtain ⟨c1, c2, c3⟩ := tile_offset_bijection g.p_.vwidth g.p_.ls1 g.p_.nS hv hl1 hn
  refine ⟨⟨hCi, ?_, ?_, ?_⟩, ⟨hCj, ?_, ?_, ?_⟩⟩
  · intro z m hz hlt
    unfold gemm.write_back_row
    rw [hCi m hlt]
    exact r1 z m hz hlt
  · intro z m z' m' hz hlt hz' hlt' h
    unfold gemm.write_back_row at h
    rw [hCi m hlt, hCi m' hlt'] at h
    exact r2 z m z' m' hz hlt hz' hlt' h
  · intro t ht
    obtain ⟨z, m, hz, hlt, h⟩ := r3 t ht
    refine ⟨z, m, hz, hlt, ?_⟩
    unfold gemm.write_back_row
    rw [hCi m hlt]
    exact h
  · intro w n hw hlt
    unfold gemm.write_back_column
    rw [hCj n hlt]
    exact c1 w n hw hlt
  · intro w n w' n' hw hlt hw' hlt' h
    unfold gemm.write_back_column at h
    rw [hCj n hlt, hCj n' hlt'] at h
    exact c2 w n w' n' hw hlt hw' hlt' h
  · intro t ht
    obtain ⟨w, n, hw, hlt, h⟩ := c3 t ht
    refine ⟨w, n, hw, hlt, ?_⟩
    unfold gemm.write_back_column
    rw [hCj n hlt]
    exact h

/-- Witness for C25 (amended): on the sample template (`vw = 1`, `ls0 = 2`,
`mS = 2`) thread 1 stores register row 1 to row 3 of the tile, and row 3 is
written by some thread. -/
theorem write_back_row_bijection_witness :
    sample_gemm.write_back_row 1 1 < 4 ∧
    (∃ z m, z < 2 ∧ m < 2 ∧ sample_gemm.write_back_row z m = 3) :=
  ⟨(write_back_row_bijection sample_gemm (by decide) (by decide) (by decide) (by decide)
      (by decide) (by decide) (by decide)).1.2.1 1 1 (by decide) (by decide),
   (write_back_row_bijection sample_gemm (by decide) (by decide) (by decide) (by decide)
      (by decide) (by decide) (by decide)).1.2.2.2 3 (by decide)⟩

/-- C28 (as stated) fails: with `vw = 1`, `ls1 = 2^31` and `nS = 3` the guard
constants are `Cj(1) = 2^31` and `Cj(2) = 0` (the product `2*2^31` wraps), so
`Cj` is not increasing, and the two increments written before column 2 add up to
`2^32`, not to `Cj(2)`. -/
theorem column_guard_wraps :
    1 ≤ wrapping_tile_gemm.p_.vwidth ∧ 1 ≤ wrapping_tile_gemm.p_.ls1 ∧
    wrapping_tile_gemm.p_.in_range ∧ 2 < wrapping_tile_gemm.p_.nS ∧
    wrapping_tile_gemm.Cj 1 = 2147483648 ∧ wrapping_tile_gemm.Cj 2 = 0 ∧
    ¬ (wrapping_tile_gemm.Cj 1 < wrapping_tile_gemm.Cj 2) ∧
    wrapping_tile_gemm.column_offset 2 = 4294967296 ∧
    wrapping_tile_gemm.column_offset 2 ≠ wrapping_tile_gemm.Cj 2 := by
  decide

/-- C28 (amended): for `vw >= 1`, `ls1 >= 1` and `ls1*(nS + vw) <= 2^32`
(no constant of the loop wraps), for every column `n < nS` the guard line and
the increment line of column `n` are lines of the write-back, the sum of the
factors of `ldc` in the increments written for the columns `0..n-1` is
`Cj(n) = (n/vw)*(ls1*vw) + n%vw`, the constant tested by the guard of column
`n`, and `Cj` is strictly increasing on `[0, nS)`. -/
theorem column_offset_matches_guard (g : gemm) (e : kernel_locals) (hv : 1 ≤ g.p_.vwidth)
    (hl : 1 ≤ g.p_.ls1) (hfit : g.p_.ls1 * (g.p_.nS + g.p_.vwidth) ≤ UINT32_RANGE)
    (n : Nat) (hn : n < g.p_.nS) :
    g.column_guard_line n ∈ g.write_back e ∧
    g.column_increment_line n ∈ g.write_back e ∧
    g.column_guard_line n = "if(" ++ to_string (g.Cj n) ++ " >= N) return;" ∧
    (add32 n 1 % g.p_.vwidth = 0 →
      g.column_increment_line n = "C += ldc*" ++ to_string (g.column_increment n) ++ ";") ∧
    (¬ add32 n 1 % g.p_.vwidth = 0 →
      g.column_increment_line n = "C += ldc;" ∧ g.column_increment n = 1) ∧
    g.column_offset n = g.Cj n ∧
    g.Cj n = (n / g.p_.vwidth) * (g.p_.ls1 * g.p_.vwidth) + n % g.p_.vwidth ∧
    (∀ n', n' < n → g.Cj n' < g.Cj n) := by
  refine ⟨?_, ?_, rfl, ?_, ?_, column_offset_eq_Cj g hv hl hfit n hn,
    (column_constants_exact g hv hl hfit n hn).1, ?_⟩
  · apply write_back_column_mem g e n hn
    simp [gemm.write_back_column_lines]
  · apply write_back_column_mem g e n hn
    simp [gemm.write_back_column_lines]
  · intro hc
    unfold gemm.column_increment_line gemm.column_increment
    rw [if_pos hc, if_pos hc]
  · intro hc
    unfold gemm.column_increment_line gemm.column_increment
    rw [if_neg hc, if_neg hc]
    exact ⟨rfl, rfl⟩
  · intro n' hn'
    have hmono : ∀ d, n' + d + 1 < g.p_.nS → g.Cj n' < g.Cj (n' + d + 1) := by
      intro d
      induction d with
      | zero =>
        intro hlt
        have h1 := column_offset_exact_step g.p_.vwidth g.p_.ls1 n' hv hl
        rw [(column_constants_exact g hv hl hfit n' (by omega)).1,
          (column_constants_exact g hv hl hfit (n' + 0 + 1) hlt).1]
        simp only [Nat.add_zero]
        rw [h1]
        split_ifs <;> omega
      | succ d ih =>
        intro hlt
        have h0 := ih (by omega)
        have h1 := column_offset_exact_step g.p_.vwidth g.p_.ls1 (n' + d + 1) hv hl
        rw [(column_constants_exact g hv hl hfit (n' + (d + 1) + 1) hlt).1]
        rw [(column_constants_exact g hv hl hfit (n' + d + 1) (by omega)).1] at h0
        have e : n' + (d + 1) + 1 = n' + d + 1 + 1 := by omega
        rw [e, h1]
        split_ifs <;> omega
    have hd : n = n' + (n - n' - 1) + 1 := by omega
    rw [hd]
    exact hmono (n - n' - 1) (by omega)

/-- Witness for C28 (amended): on the sample template the increments written
before column 1 add up to `Cj(1) = 2`. -/
theorem column_offset_matches_guard_witness :
    sample_gemm.column_offset 1 = sample_gemm.Cj 1 ∧ sample_gemm.Cj 1 = 2 ∧
    sample_gemm.Cj 0 < sample_gemm.Cj 1 := by
  obtain ⟨e, he⟩ : ∃ e, sample_gemm.generate_impl_locals sample_helpers "" launch_args "float"
      backend_type.OPENCL = some e := ⟨_, rfl⟩
  have h := column_offset_matches_guard sample_gemm e (by decide) (by decide) (by decide) 1
    (by decide)
  exact ⟨h.2.2.2.2.2.1, by decide, h.2.2.2.2.2.2.2 0 (by decide)⟩


/-! ## Loops of the emitted kernel -/

/-- C26 is contradicted by the code: the parameter set of the sample template
with `kS = 3`, `kL = 4` is accepted by the validator (its test at line 78 is
`kS % kL == 0`), the main pass is emitted with the loop
`for(uint32_t k = 0; k < 4; k+=3)`, and the iteration `k = 3` reads the rows 3, 4
and 5 although the staged tile has the rows 0..3. -/
theorem compute_loop_overhang :
    overhanging_kS_gemm.p_.in_range ∧
    overhanging_kS_gemm.is_invalid_impl = some TEMPLATE_VALID ∧
    "for(uint32_t k = 0; k < 4; k+=3)\x7b" ∈
      (overhanging_kS_gemm.generate_impl sample_helpers "" (some launch_args) "float"
        backend_type.OPENCL).getD [] ∧
    overhanging_kS_gemm.compute_loop_rows = some [0, 1, 2, 3, 4, 5] ∧
    ¬ (3 + overhanging_kS_gemm.p_.kS ≤ overhanging_kS_gemm.p_.kL) ∧
    ¬ (∀ rows, overhanging_kS_gemm.compute_loop_rows = some rows →
        ∀ row ∈ rows, row < overhanging_kS_gemm.p_.kL) := by
  decide

theorem slice_sum (K d : Nat) :
    ∀ n, ((List.range n).map
      (fun gidz => (min ((K : Int) - (d * gidz : Nat)) (d : Nat)).toNat)).sum = min K (d * n) := by
  intro n
  induction n with
  | zero => simp
  | succ n ih =>
    rw [List.range_succ, List.map_append, List.sum_append, ih]
    simp only [List.map_cons, List.map_nil, List.sum_cons, List.sum_nil, Nat.add_zero]
    have e : d * (n + 1) = d * n + d := by ring
    rw [e]
    omega

theorem slice_div_mul_ge (K depth : Nat) (hd : 1 ≤ depth) :
    K ≤ (K + (depth - 1)) / depth * depth := by
  have h1 := Nat.div_add_mod (K + (depth - 1)) depth
  have h2 := Nat.mod_lt (K + (depth - 1)) (by omega : 0 < depth)
  have h3 : (K + (depth - 1)) / depth * depth = depth * ((K + (depth - 1)) / depth) :=
    Nat.mul_comm _ _
  omega


/-- C27 (as stated) fails: for `K = 1` and `depth = 4` the emitted statements
give `div = 1` and, for `gidz = 2`, `offz = 2 > K`; the slice lengths
`min(K - div*gidz, div)` are 1, 0, -1, -2 with a signed `K` (sum -2) and
1, 0, 1, 1 with an unsigned `K` (sum 3), not a partition of `[0, 1)`. -/
theorem slice_offset_beyond_K :
    2 ≤ split_gemm.p_.depth ∧ 2 < split_gemm.p_.depth ∧
    split_gemm.slice_div 1 = 1 ∧ split_gemm.slice_offz 1 2 = 2 ∧
    ¬ (split_gemm.slice_offz 1 2 ≤ 1) ∧
    ((List.range split_gemm.p_.depth).map (split_gemm.slice_K 1)).sum = -2 ∧
    ((List.range split_gemm.p_.depth).map (split_gemm.slice_K_unsigned 1)).sum = 3 := by
  decide

/-- C27 (amended): for every `K` and `2 <= depth < 2^32`, with
`div = (K + depth - 1)/depth`: a group `gidz` whose offset `offz = div*gidz` is
at most `K` gets the slice length `min(K - offz, div) >= 0`, and its slice
`[offz, offz + length)` lies in `[0, K)`; a group with `offz > K` gets a negative
difference `K - div*gidz` (an empty slice for a signed `K`); every `k < K` lies
in the slice of exactly one group `gidz < depth`; and the lengths, negative ones
counted as 0, sum to `K`. -/
theorem slices_partition (g : gemm) (K : Nat) (hd : 2 ≤ g.p_.depth)
    (hr : g.p_.depth < UINT32_RANGE) :
    g.slice_div K = (K + g.p_.depth - 1) / g.p_.depth ∧
    (∀ gidz, g.slice_offz K gidz ≤ K →
      g.slice_K K gidz = ((min (K - g.slice_offz K gidz) (g.slice_div K) : Nat) : Int) ∧
      g.slice_offz K gidz + min (K - g.slice_offz K gidz) (g.slice_div K) ≤ K) ∧
    (∀ gidz, K < g.slice_offz K gidz → g.slice_K K gidz < 0) ∧
    (∀ k, k < K → ∃ gidz, gidz < g.p_.depth ∧ g.slice_offz K gidz ≤ k ∧
      (k : Int) < g.slice_offz K gidz + g.slice_K K gidz ∧
      ∀ gidz', g.slice_offz K gidz' ≤ k →
        (k : Int) < g.slice_offz K gidz' + g.slice_K K gidz' → gidz' = gidz) ∧
    ((List.range g.p_.depth).map (fun gidz => (g.slice_K K gidz).toNat)).sum = K := by
  have hsub : sub32 g.p_.depth 1 = g.p_.depth - 1 := by
    unfold sub32
    have h1 : (1 : Nat) % UINT32_RANGE = 1 := by decide
    have h2 : g.p_.depth + UINT32_RANGE - 1 = (g.p_.depth - 1) + UINT32_RANGE := by omega
    rw [h1, h2, Nat.add_mod_right, Nat.mod_eq_of_lt (by omega)]
  have hdiv : g.slice_div K = (K + (g.p_.depth - 1)) / g.p_.depth := by
    unfold gemm.slice_div
    rw [hsub]
  have hcover : K ≤ g.slice_div K * g.p_.depth := by
    rw [hdiv]
    exact slice_div_mul_ge K g.p_.depth (by omega)
  refine ⟨?_, ?_, ?_, ?_, ?_⟩
  · have e : K + (g.p_.depth - 1) = K + g.p_.depth - 1 := by omega
    rw [hdiv, e]
  · intro gidz h
    unfold gemm.slice_offz at h ⊢
    unfold gemm.slice_K
    constructor
    · omega
    · omega
  · intro gidz h
    unfold gemm.slice_offz at h
    unfold gemm.slice_K
    omega
  · intro k hk
    have hdpos : 0 < g.slice_div K := by
      rcases Nat.eq_zero_or_pos (g.slice_div K) with h0 | h0
      · rw [h0, Nat.zero_mul] at hcover
        omega
      · exact h0
    have h1 := Nat.div_add_mod k (g.slice_div K)
    have h2 := Nat.mod_lt k hdpos
    refine ⟨k / g.slice_div K, ?_, ?_, ?_, ?_⟩
    · rw [Nat.div_lt_iff_lt_mul hdpos, Nat.mul_comm]
      have : g.slice_div K * g.p_.depth = g.p_.depth * g.slice_div K := Nat.mul_comm _ _
      omega
    · unfold gemm.slice_offz
      omega
    · unfold gemm.slice_offz gemm.slice_K
      omega
    · intro gidz' h3 h4
      unfold gemm.slice_offz at h3 h4
      unfold gemm.slice_K at h4
      have h5 : k < g.slice_div K * gidz' + g.slice_div K := by omega
      have h6 : g.slice_div K * gidz' + g.slice_div K = (gidz' + 1) * g.slice_div K := by ring
      have h7 : gidz' * g.slice_div K ≤ k := by rw [Nat.mul_comm]; exact h3
      symm
      apply Nat.div_eq_of_lt_le h7
      rw [← h6]
      exact h5
  · have h := slice_sum K (g.slice_div K) g.p_.depth
    unfold gemm.slice_K
    rw [h]
    omega

/-- Witness for C27 (amended): with `depth = 4` and `K = 10` (`div = 3`) the
slice of group 3 starts at 9 and has length 1, and the lengths sum to 10. -/
theorem slices_partition_witness :
    split_gemm.slice_K 10 3 = 1 ∧
    ((List.range split_gemm.p_.depth).map (fun gidz => (split_gemm.slice_K 10 gidz).toNat)).sum
      = 10 :=
  ⟨by
    have h := (slices_partition split_gemm 10 (by decide) (by decide)).2.1 3 (by decide)
    rw [h.1]
    decide,
   (slices_partition split_gemm 10 (by decide) (by decide)).2.2.2.2⟩


/-! ## Workspace of the reduction -/

theorem reduce_bindings_of_nonzero (g : gemm) (backend : backend_type) (M N K : Nat)
    (A B C : array_operand) (alpha beta : Int) (suffix : String) (workspace : Nat)
    (hM : M ≠ 0) (hN : N ≠ 0) (hK : K ≠ 0)
    (hmS : 1 ≤ g.p_.mS) (hnS : 1 ≤ g.p_.nS) (hls0 : 1 ≤ g.p_.ls0) (hls1 : 1 ≤ g.p_.ls1)
    (hdepth : g.p_.depth > 1) :
    ∃ trace, g.enqueue_block backend M N K A B C alpha beta suffix workspace = some trace ∧
      bindings_of launched_kernel.reduce trace =
        (List.range 10).zip (g.reduce_kernel_arguments backend M N C beta workspace) := by
  refine ⟨_, enqueue_block_of_nonzero g backend M N K A B C alpha beta suffix workspace
    hM hN hK hmS hnS hls0 hls1, ?_⟩
  rw [if_pos hdepth, bindings_of_append, bindings_of_append, bindings_of_append,
    bindings_of_append, bindings_of_append, bind_arguments, bind_arguments,
    bindings_of_bind_arguments_other launched_kernel.gemm launched_kernel.reduce (by decide),
    bindings_of_bind_arguments_same]
  rfl

theorem reduce_index_facts (M N D : Nat) :
    (∀ i j k, i < M → j < N → k < D → reduce_read_index M N i j k < M * N * D) ∧
    (∀ i j k i' j' k', i < M → j < N → k < D → i' < M → j' < N → k' < D →
      reduce_read_index M N i j k = reduce_read_index M N i' j' k' →
      i = i' ∧ j = j' ∧ k = k') := by
  have key : ∀ i j k, reduce_read_index M N i j k = k * (N * M) + (j * M + i) := by
    intro i j k
    unfold reduce_read_index
    ring
  have hin : ∀ i j, i < M → j < N → j * M + i < N * M :=
    fun i j hi hj => mixed_radix_lt M N j i hi hj
  constructor
  · intro i j k hi hj hk
    rw [key]
    have h := mixed_radix_lt (N * M) D k (j * M + i) (hin i j hi hj) hk
    have e : M * N * D = D * (N * M) := by ring
    omega
  · intro i j k i' j' k' hi hj hk hi' hj' hk' h
    rw [key, key] at h
    obtain ⟨h1, h2⟩ := mixed_radix_unique (N * M) _ _ _ _ (hin i j hi hj) (hin i' j' hi' hj') h
    obtain ⟨h3, h4⟩ := mixed_radix_unique M _ _ _ _ hi hi' h2
    exact ⟨h4, h3, h1⟩

/-- C31 (as stated) fails: for `M = N = 65536` and `depth = 4` the estimate
`M*N*depth` is returned as a `uint32_t`, that is 0, and the index 0 read by the
reduction kernel for `i = j = k = 0` is not below it. -/
theorem workspace_estimate_wraps :
    split_gemm.p_.depth > 1 ∧
    split_gemm.infos (some large_args) = some (65536, 65536, 7) ∧
    split_gemm.temporary_workspace (some large_args) = some 0 ∧
    ¬ (∀ w, split_gemm.temporary_workspace (some large_args) = some w →
        reduce_read_index 65536 65536 0 0 0 < w) := by
  decide

/-- C31 (amended): with `depth > 1`, non-zero sizes `(M, N, K)` extracted from
the tree, `mS, nS, ls0, ls1 >= 1` and `M*N*depth < 2^32`, `enqueue` binds `N`,
`D = depth` and `Zld = M` at the positions 1, 2 and 4 of the reduction kernel,
whose header names these parameters `N`, `D` and `Zld`; the estimate
`temporary_workspace` is `M*N*depth`; for all `i < M`, `j < N`, `k < depth` the
index `i + j*Zld + k*Zld*N` read by the emitted statement
`acc += Z[i + j*Zld + k*Zld*N];` is below the estimate, and distinct `(i, j, k)`
read distinct indices. -/
theorem workspace_covers_reduction (g : gemm) (backend : backend_type)
    (arguments : gemm_args) (M N K : Nat) (suffix sdtype : String) (workspace : Nat)
    (e : kernel_locals)
    (hinfos : g.infos (some arguments) = some (M, N, K))
    (hdepth : g.p_.depth > 1) (hM : M ≠ 0) (hN : N ≠ 0) (hK : K ≠ 0)
    (hmS : 1 ≤ g.p_.mS) (hnS : 1 ≤ g.p_.nS) (hls0 : 1 ≤ g.p_.ls0) (hls1 : 1 ≤ g.p_.ls1)
    (hfit : M * N * g.p_.depth < UINT32_RANGE) :
    (∃ trace, g.enqueue backend (some arguments) suffix workspace = some trace ∧
      (bindings_of launched_kernel.reduce trace)[1]? = some (1, kernel_argument.size N) ∧
      (bindings_of launched_kernel.reduce trace)[2]? =
        some (2, kernel_argument.size g.p_.depth) ∧
      (bindings_of launched_kernel.reduce trace)[4]? = some (4, kernel_argument.size M)) ∧
    ((reduce_kernel_parameters sdtype).map kernel_parameter.name)[1]? = some "N" ∧
    ((reduce_kernel_parameters sdtype).map kernel_parameter.name)[2]? = some "D" ∧
    ((reduce_kernel_parameters sdtype).map kernel_parameter.name)[4]? = some "Zld" ∧
    "acc += Z[i + j*Zld + k*Zld*N];" ∈ reduce_kernel_text e ∧
    g.temporary_workspace (some arguments) = some (M * N * g.p_.depth) ∧
    (∀ i j k, i < M → j < N → k < g.p_.depth →
      reduce_read_index M N i j k < M * N * g.p_.depth) ∧
    (∀ i j k i' j' k', i < M → j < N → k < g.p_.depth → i' < M → j' < N → k' < g.p_.depth →
      reduce_read_index M N i j k = reduce_read_index M N i' j' k' →
      i = i' ∧ j = j' ∧ k = k') := by
  have hz : ¬ (M = 0 ∨ N = 0 ∨ K = 0) := by
    rintro (h | h | h)
    · exact hM h
    · exact hN h
    · exact hK h
  obtain ⟨trace, htrace, hbind⟩ := reduce_bindings_of_nonzero g backend M N K arguments.A
    arguments.B arguments.C arguments.alpha arguments.beta suffix workspace hM hN hK hmS hnS
    hls0 hls1 hdepth
  refine ⟨⟨trace, ?_, ?_, ?_, ?_⟩, rfl, rfl, rfl, ?_, ?_, (reduce_index_facts M N g.p_.depth).1,
    (reduce_index_facts M N g.p_.depth).2⟩
  · simp only [gemm.enqueue, hinfos, if_neg hz]
    exact htrace
  · rw [hbind]
    rfl
  · rw [hbind]
    rfl
  · rw [hbind]
    rfl
  · simp [reduce_kernel_text]
  · simp only [gemm.temporary_workspace, gemm.input_sizes, hinfos, if_pos hdepth,
      Nat.mod_eq_of_lt hfit]

/-- Witness for C31 (amended): the sample product `3 x 5 x 7` with `depth = 4`
has the estimate 60, and the last read index, for `(2, 4, 3)`, is 59. -/
theorem workspace_covers_reduction_witness :
    split_gemm.temporary_workspace (some launch_args) = some 60 ∧
    reduce_read_index 3 5 2 4 3 < 60 := by
  obtain ⟨el, hel⟩ : ∃ el, split_gemm.generate_impl_locals sample_helpers "" launch_args "float"
      backend_type.OPENCL = some el := ⟨_, rfl⟩
  have h := workspace_covers_reduction split_gemm backend_type.OPENCL launch_args 3 5 7 ""
    "float" 0 el (by decide) (by decide) (by decide) (by decide) (by decide) (by decide)
    (by decide) (by decide) (by decide) (by decide)
  exact ⟨h.2.2.2.2.2.1, h.2.2.2.2.2.2.1 2 4 3 (by decide) (by decide) (by decide)⟩


/-! ## Staging layout -/

theorem stage_position_facts (lf0 lf1 vw Dx Dy : Nat) (h0 : 1 ≤ lf0) (h1 : 1 ≤ lf1)
    (hv : 1 ≤ vw) (hy : lf1 ∣ Dy) (hx : lf0 * vw ∣ Dx) :
    (∀ idt r c s, idt < lf0 * lf1 → lf1 ∣ r → r < Dy → lf0 * vw ∣ c → c < Dx → s < vw →
      idt / lf0 + r < Dy ∧ (idt - lf0 * (idt / lf0)) * vw + c + s < Dx) ∧
    (∀ idt r c s idt' r' c' s', idt < lf0 * lf1 → lf1 ∣ r → lf0 * vw ∣ c → s < vw →
      idt' < lf0 * lf1 → lf1 ∣ r' → lf0 * vw ∣ c' → s' < vw →
      idt / lf0 + r = idt' / lf0 + r' →
      (idt - lf0 * (idt / lf0)) * vw + c + s = (idt' - lf0 * (idt' / lf0)) * vw + c' + s' →
      idt = idt' ∧ r = r' ∧ c = c' ∧ s = s') ∧
    (∀ row col, row < Dy → col < Dx →
      ∃ idt r c s, idt < lf0 * lf1 ∧ lf1 ∣ r ∧ r < Dy ∧ lf0 * vw ∣ c ∧ c < Dx ∧ s < vw ∧
        idt / lf0 + r = row ∧ (idt - lf0 * (idt / lf0)) * vw + c + s = col) := by
  have hl0 : 0 < lf0 := by omega
  have hl1 : 0 < lf1 := by omega
  have hvw : 0 < vw := by omega
  have hstep : 0 < lf0 * vw := Nat.mul_pos hl0 hvw
  have hyq : ∀ idt, idt < lf0 * lf1 → idt / lf0 < lf1 := by
    intro idt h
    rw [Nat.div_lt_iff_lt_mul hl0, Nat.mul_comm]
    exact h
  have hxm : ∀ idt, idt - lf0 * (idt / lf0) = idt % lf0 := by
    intro idt
    have := Nat.div_add_mod idt lf0
    omega
  have hxs : ∀ idt s, s < vw → idt % lf0 * vw + s < lf0 * vw := by
    intro idt s hs
    exact mixed_radix_lt vw lf0 (idt % lf0) s hs (Nat.mod_lt _ hl0)
  refine ⟨?_, ?_, ?_⟩
  · intro idt r c s hidt hr hrlt hc hclt hs
    obtain ⟨q, rfl⟩ := hy
    obtain ⟨p, rfl⟩ := hx
    obtain ⟨a, rfl⟩ := hr
    obtain ⟨b, rfl⟩ := hc
    have ha : a < q := Nat.lt_of_mul_lt_mul_left hrlt
    have hb : b < p := Nat.lt_of_mul_lt_mul_left hclt
    have h2 := mixed_radix_lt lf1 q a (idt / lf0) (hyq idt hidt) ha
    have h3 := mixed_radix_lt (lf0 * vw) p b (idt % lf0 * vw + s) (hxs idt s hs) hb
    rw [hxm]
    have e1 : a * lf1 = lf1 * a := Nat.mul_comm _ _
    have e2 : q * lf1 = lf1 * q := Nat.mul_comm _ _
    have e3 : b * (lf0 * vw) = lf0 * vw * b := Nat.mul_comm _ _
    have e4 : p * (lf0 * vw) = lf0 * vw * p := Nat.mul_comm _ _
    constructor
    · omega
    · omega
  · intro idt r c s idt' r' c' s' hidt hr hc hs hidt' hr' hc' hs' hrow hcol
    obtain ⟨a, rfl⟩ := hr
    obtain ⟨b, rfl⟩ := hc
    obtain ⟨a', rfl⟩ := hr'
    obtain ⟨b', rfl⟩ := hc'
    rw [hxm, hxm] at hcol
    have hrow' : a * lf1 + idt / lf0 = a' * lf1 + idt' / lf0 := by
      rw [Nat.mul_comm a, Nat.mul_comm a']
      omega
    obtain ⟨ha, hyy⟩ := mixed_radix_unique lf1 _ _ _ _ (hyq idt hidt) (hyq idt' hidt') hrow'
    have hcol' : b * (lf0 * vw) + (idt % lf0 * vw + s) =
        b' * (lf0 * vw) + (idt' % lf0 * vw + s') := by
      rw [Nat.mul_comm b, Nat.mul_comm b']
      omega
    obtain ⟨hb, hxx⟩ := mixed_radix_unique (lf0 * vw) _ _ _ _ (hxs idt s hs) (hxs idt' s' hs')
      hcol'
    obtain ⟨hx0, hss⟩ := mixed_radix_unique vw _ _ _ _ hs hs' hxx
    have e1 := Nat.div_add_mod idt lf0
    have e2 := Nat.div_add_mod idt' lf0
    rw [hyy, hx0] at e1
    refine ⟨by omega, by rw [ha], by rw [hb], hss⟩
  · intro row col hrow hcol
    obtain ⟨q, rfl⟩ := hy
    obtain ⟨p, rfl⟩ := hx
    have hrem : col % (lf0 * vw) / vw < lf0 := by
      rw [Nat.div_lt_iff_lt_mul hvw]
      exact Nat.mod_lt _ hstep
    have hidt : row % lf1 * lf0 + col % (lf0 * vw) / vw < lf0 * lf1 := by
      have := mixed_radix_lt lf0 lf1 (row % lf1) (col % (lf0 * vw) / vw) hrem
        (Nat.mod_lt _ hl1)
      rw [Nat.mul_comm lf0 lf1]
      exact this
    have hdiv : (row % lf1 * lf0 + col % (lf0 * vw) / vw) / lf0 = row % lf1 := by
      rw [Nat.add_comm, Nat.add_mul_div_right _ _ hl0, Nat.div_eq_of_lt hrem, Nat.zero_add]
    have hmod : (row % lf1 * lf0 + col % (lf0 * vw) / vw) % lf0 = col % (lf0 * vw) / vw := by
      rw [Nat.add_comm, Nat.add_mul_mod_self_right, Nat.mod_eq_of_lt hrem]
    refine ⟨row % lf1 * lf0 + col % (lf0 * vw) / vw, lf1 * (row / lf1),
      lf0 * vw * (col / (lf0 * vw)), col % (lf0 * vw) % vw, hidt, Dvd.intro _ rfl, ?_,
      Dvd.intro _ rfl, ?_, Nat.mod_lt _ hvw, ?_, ?_⟩
    · have := Nat.div_add_mod row lf1
      omega
    · have := Nat.div_add_mod col (lf0 * vw)
      omega
    · rw [hdiv]
      have := Nat.div_add_mod row lf1
      omega
    · rw [hxm, hmod]
      have e1 := Nat.div_add_mod col (lf0 * vw)
      have e2 := Nat.div_add_mod (col % (lf0 * vw)) vw
      have e3 : col % (lf0 * vw) / vw * vw = vw * (col % (lf0 * vw) / vw) := Nat.mul_comm _ _
      omega

theorem lt_ceil_div_iff (bound step i : Nat) (hs : 1 ≤ step) :
    i < (bound + step - 1) / step ↔ i * step < bound := by
  have h1 := ceil_div_mul_ge bound step hs
  have h2 := ceil_div_le_of_le_mul bound step i hs
  unfold ceil_div at h1 h2
  constructor
  · intro hi
    by_contra hc
    have := h2 (by omega)
    omega
  · intro hi
    by_contra hc
    have h3 : (bound + step - 1) / step * step ≤ i * step :=
      Nat.mul_le_mul_right step (by omega)
    omega

theorem loop_values_mem (bound step : Nat) (values : List Nat) (hs : 1 ≤ step)
    (h : loop_values bound step = some values) (v : Nat) :
    v ∈ values ↔ step ∣ v ∧ v < bound := by
  unfold loop_values at h
  by_cases h0 : bound = 0
  · rw [if_pos h0] at h
    injection h with h
    subst h
    simp [h0]
  · rw [if_neg h0, if_neg (by omega)] at h
    split at h
    · injection h with h
      subst h
      simp only [List.mem_map, List.mem_range]
      constructor
      · rintro ⟨i, hi, rfl⟩
        exact ⟨Dvd.intro_left _ rfl, (lt_ceil_div_iff bound step i hs).mp hi⟩
      · rintro ⟨⟨i, rfl⟩, hv⟩
        refine ⟨i, (lt_ceil_div_iff bound step i hs).mpr ?_, Nat.mul_comm _ _⟩
        rw [Nat.mul_comm]
        exact hv
    · cases h

theorem nested_pairs_mem (outer inner : Option (List Nat)) (ks ms : List Nat)
    (ho : outer = some ks) (hi : inner = some ms) :
    ∃ pairs, nested_pairs outer inner = some pairs ∧
      ∀ k m, (k, m) ∈ pairs ↔ k ∈ ks ∧ m ∈ ms := by
  subst ho hi
  unfold nested_pairs
  by_cases he : ks.isEmpty = true
  · refine ⟨[], by simp only [he, if_true], ?_⟩
    intro k m
    have : ks = [] := List.isEmpty_iff.mp he
    simp [this]
  · refine ⟨_, by simp only [he]; rfl, ?_⟩
    intro k m
    simp only [List.mem_flatMap, List.mem_map, Prod.mk.injEq]
    constructor
    · rintro ⟨k', hk', m', hm', rfl, rfl⟩
      exact ⟨hk', hm'⟩
    · rintro ⟨hk, hm⟩
      exact ⟨k, hk, m, hm, rfl, rfl⟩

theorem staged_offsets_char (Dx Dy lf1 step : Nat) (h1 : 1 ≤ lf1) (hs : 1 ≤ step)
    (hy : lf1 ∣ Dy) (hx : step ∣ Dx) (hDx : Dx < UINT32_RANGE) (hDy : Dy < UINT32_RANGE) :
    (∃ offs, nested_pairs (loop_values Dy lf1) (loop_values Dx step) = some offs ∧
      ∀ rc : Nat × Nat, rc ∈ offs ↔ lf1 ∣ rc.1 ∧ rc.1 < Dy ∧ step ∣ rc.2 ∧ rc.2 < Dx) ∧
    (∃ offs, (nested_pairs (loop_values Dx step) (loop_values Dy lf1)).map
        (List.map (fun km => (km.2, km.1))) = some offs ∧
      ∀ rc : Nat × Nat, rc ∈ offs ↔ lf1 ∣ rc.1 ∧ rc.1 < Dy ∧ step ∣ rc.2 ∧ rc.2 < Dx) := by
  obtain ⟨rows, hrows⟩ := loop_values_of_dvd Dy lf1 h1 hy hDy
  obtain ⟨cols, hcols⟩ := loop_values_of_dvd Dx step hs hx hDx
  have hr := loop_values_mem Dy lf1 rows h1 hrows
  have hc := loop_values_mem Dx step cols hs hcols
  constructor
  · obtain ⟨pairs, hp, hmem⟩ := nested_pairs_mem _ _ rows cols hrows hcols
    refine ⟨pairs, hp, ?_⟩
    rintro ⟨r, c⟩
    rw [hmem r c, hr r, hc c]
    tauto
  · obtain ⟨pairs, hp, hmem⟩ := nested_pairs_mem _ _ cols rows hcols hrows
    refine ⟨pairs.map (fun km => (km.2, km.1)), by rw [hp]; rfl, ?_⟩
    rintro ⟨r, c⟩
    simp only [List.mem_map, Prod.mk.injEq, Prod.exists]
    constructor
    · rintro ⟨k, m, hkm, rfl, rfl⟩
      have := (hmem k m).mp hkm
      rw [hc k, hr m] at this
      tauto
    · intro h
      refine ⟨c, r, (hmem c r).mpr ?_, rfl, rfl⟩
      rw [hc c, hr r]
      tauto

theorem staging_tiled_of_char (g : gemm) (lay : staging_layout) (length : Nat)
    (offs : List (Nat × Nat)) (h0 : 1 ≤ g.p_.lf0) (h1 : 1 ≤ g.p_.lf1) (hv : 1 ≤ g.p_.vwidth)
    (hprod : g.p_.lf0 * g.p_.lf1 = g.p_.ls0 * g.p_.ls1)
    (hy : g.p_.lf1 ∣ lay.Dy) (hx : g.p_.lf0 * g.p_.vwidth ∣ lay.Dx)
    (hld : lay.Dx ≤ lay.ld) (hlen : length = lay.ld * lay.Dy)
    (hoffs : ∀ rc : Nat × Nat, rc ∈ offs ↔
      g.p_.lf1 ∣ rc.1 ∧ rc.1 < lay.Dy ∧ g.p_.lf0 * g.p_.vwidth ∣ rc.2 ∧ rc.2 < lay.Dx) :
    g.staging_tiled lay length offs := by
  obtain ⟨f1, f2, f3⟩ := stage_position_facts g.p_.lf0 g.p_.lf1 g.p_.vwidth lay.Dx lay.Dy
    h0 h1 hv hy hx
  refine ⟨?_, ?_, ?_⟩
  · intro idt rc s hidt hrc hs
    obtain ⟨a1, a2, a3, a4⟩ := (hoffs rc).mp hrc
    obtain ⟨b1, b2⟩ := f1 idt rc.1 rc.2 s (by rw [hprod]; exact hidt) a1 a2 a3 a4 hs
    refine ⟨b1, b2, ?_⟩
    unfold staging_layout.index
    rw [hlen, Nat.mul_comm lay.ld lay.Dy]
    exact mixed_radix_lt lay.ld lay.Dy _ _ (by
      show (g.staged_position idt rc.1 rc.2 s).2 < lay.ld
      have : (g.staged_position idt rc.1 rc.2 s).2 < lay.Dx := b2
      omega) b1
  · intro idt rc s idt' rc' s' hidt hrc hs hidt' hrc' hs' heq
    obtain ⟨a1, a2, a3, a4⟩ := (hoffs rc).mp hrc
    obtain ⟨a1', a2', a3', a4'⟩ := (hoffs rc').mp hrc'
    have e1 := congrArg Prod.fst heq
    have e2 := congrArg Prod.snd heq
    obtain ⟨c1, c2, c3, c4⟩ := f2 idt rc.1 rc.2 s idt' rc'.1 rc'.2 s'
      (by rw [hprod]; exact hidt) a1 a3 hs (by rw [hprod]; exact hidt') a1' a3' hs' e1 e2
    exact ⟨c1, Prod.ext c2 c3, c4⟩
  · intro row col hrow hcol
    obtain ⟨idt, r, c, s, d1, d2, d3, d4, d5, d6, d7, d8⟩ := f3 row col hrow hcol
    refine ⟨idt, (r, c), s, by rw [← hprod]; exact d1, (hoffs (r, c)).mpr ⟨d2, d3, d4, d5⟩, d6, ?_⟩
    exact Prod.ext d7 d8


theorem size_t_product_exact (a b : Nat) (ha : a ≤ UINT32_RANGE) (hb : b < UINT32_RANGE) :
    mul_size_t a b = a * b := by
  unfold mul_size_t
  apply Nat.mod_eq_of_lt
  have h1 : a * b ≤ UINT32_RANGE * b := Nat.mul_le_mul_right b ha
  have h2 : UINT32_RANGE * b < UINT32_RANGE * UINT32_RANGE :=
    Nat.mul_lt_mul_of_pos_left hb (by decide)
  have h3 : UINT32_RANGE * UINT32_RANGE = SIZE_T_RANGE := by decide
  omega

/-- C24 (as stated) fails on accepted parameter sets with `ls0, ls1 >= 1` whose
products wrap in `uint32_t`.  With `ls0 = ls1 = 65536`, `lf0 = 2^31`, `lf1 = 4`,
`kL = 2^31`, `mL = 4` (variant TN) the validator compares `lf0*lf1 = 2^33` and
`ls0*ls1 = 2^32` modulo `2^32`; the only store of A is `(0, 0)`, the `2^32`
threads have `idt/lf0 < 2`, and row 2 of the 4 rows of the tile is never
written.  With `kL = 2^32 - 1` (variant TN) the leading dimension `kL + 1` is 0
and the declared length of `lA` is 0. -/
theorem staging_tile_not_covered :
    wrapping_threads_gemm.p_.in_range ∧
    wrapping_threads_gemm.is_invalid_impl = some TEMPLATE_VALID ∧
    1 ≤ wrapping_threads_gemm.p_.ls0 ∧ 1 ≤ wrapping_threads_gemm.p_.ls1 ∧
    wrapping_threads_gemm.layout_A = { Dx := 2147483648, Dy := 4, ld := 2147483649 } ∧
    wrapping_threads_gemm.staged_offsets_A = some [(0, 0)] ∧
    ¬ wrapping_threads_gemm.staging_tiled wrapping_threads_gemm.layout_A
        wrapping_threads_gemm.generate_impl_lA_length [(0, 0)] ∧
    wrapping_ld_gemm.p_.in_range ∧
    wrapping_ld_gemm.is_invalid_impl = some TEMPLATE_VALID ∧
    1 ≤ wrapping_ld_gemm.p_.ls0 ∧ 1 ≤ wrapping_ld_gemm.p_.ls1 ∧
    wrapping_ld_gemm.layout_A.ld = 0 ∧ wrapping_ld_gemm.generate_impl_lA_length = 0 := by
  refine ⟨by decide, by decide, by decide, by decide, by decide, by decide, ?_, by decide,
    by decide, by decide, by decide, by decide, by decide⟩
  rintro ⟨-, -, hsurj⟩
  obtain ⟨idt, rc, s, hidt, hrc, -, hpos⟩ := hsurj 2 0 (by decide) (by decide)
  simp only [List.mem_singleton] at hrc
  subst hrc
  have h1 := congrArg Prod.fst hpos
  have hlt : idt < 4294967296 := hidt
  have h2 : idt / 2147483648 + 0 = 2 := h1
  omega

/-- C24 (amended): for every accepted parameter set with `uint32_t` knobs,
`ls0, ls1 >= 1`, `lf0*lf1 = ls0*ls1` as integers, `lf0*vw < 2^32` and
`kL + 1 < 2^32`, and for each of the four staging layouts
`(Dx, Dy, ld) = (mL, kL, mL)` for A normal, `(kL, mL, kL+1)` for A transposed,
`(nL, kL, nL)` for B transposed, `(kL, nL, kL+1)` for B normal: the stores
`(r, c)` of a staging pass are the multiples `r` of `lf1` below `Dy` paired with
the multiples `c` of `lf0*vw` below `Dx`; the fetch thread `idt < ls0*ls1` with
`x = (idt % lf0)*vw`, `y = idt/lf0` writes the positions `(y + r, x + c + s)`,
`s < vw`; the map `(idt, (r, c), s) -> (row, col)` is one-to-one onto
`[0, Dy) x [0, Dx)`, and every written index `row*ld + col` is below `ld*Dy`,
the declared length of `lA` / `lB`. -/
theorem staging_layout_bijection (g : gemm) (hacc : g.is_invalid_impl = some TEMPLATE_VALID)
    (hr : g.p_.in_range) (hls0 : 1 ≤ g.p_.ls0) (hls1 : 1 ≤ g.p_.ls1)
    (hprod : g.p_.lf0 * g.p_.lf1 = g.p_.ls0 * g.p_.ls1)
    (hstep : g.p_.lf0 * g.p_.vwidth < UINT32_RANGE) (hkL : g.p_.kL + 1 < UINT32_RANGE) :
    g.layout_A = (if g.A_trans_ = N then { Dx := g.p_.mL, Dy := g.p_.kL, ld := g.p_.mL }
      else { Dx := g.p_.kL, Dy := g.p_.mL, ld := g.p_.kL + 1 }) ∧
    g.layout_B = (if g.B_trans_ = T then { Dx := g.p_.nL, Dy := g.p_.kL, ld := g.p_.nL }
      else { Dx := g.p_.kL, Dy := g.p_.nL, ld := g.p_.kL + 1 }) ∧
    g.generate_impl_lA_length = g.layout_A.ld * g.layout_A.Dy ∧
    g.generate_impl_lB_length = g.layout_B.ld * g.layout_B.Dy ∧
    (∀ idt r c s, g.staged_position idt r c s =
      (idt / g.p_.lf0 + r, idt % g.p_.lf0 * g.p_.vwidth + c + s)) ∧
    (∃ offsets, g.staged_offsets_A = some offsets ∧
      (∀ rc : Nat × Nat, rc ∈ offsets ↔ g.p_.lf1 ∣ rc.1 ∧ rc.1 < g.layout_A.Dy ∧
        g.p_.lf0 * g.p_.vwidth ∣ rc.2 ∧ rc.2 < g.layout_A.Dx) ∧
      g.staging_tiled g.layout_A g.generate_impl_lA_length offsets) ∧
    (∃ offsets, g.staged_offsets_B = some offsets ∧
      (∀ rc : Nat × Nat, rc ∈ offsets ↔ g.p_.lf1 ∣ rc.1 ∧ rc.1 < g.layout_B.Dy ∧
        g.p_.lf0 * g.p_.vwidth ∣ rc.2 ∧ rc.2 < g.layout_B.Dx) ∧
      g.staging_tiled g.layout_B g.generate_impl_lB_length offsets) := by
  obtain ⟨hv, hk⟩ := accepted_nonzero g hacc
  obtain ⟨-, -, -, -, -, -, -, -, hA1, hA0, hB1, hB0⟩ := accepted_guarded g hacc
  obtain ⟨-, -, -, hmL, hnL, hkLr, -⟩ := hr
  have hthreads : 1 ≤ g.p_.ls0 * g.p_.ls1 := Nat.mul_pos (by omega) (by omega)
  have h0 : 1 ≤ g.p_.lf0 := by
    rcases Nat.eq_zero_or_pos g.p_.lf0 with h | h
    · rw [h, Nat.zero_mul] at hprod
      omega
    · exact h
  have h1 : 1 ≤ g.p_.lf1 := by
    rcases Nat.eq_zero_or_pos g.p_.lf1 with h | h
    · rw [h, Nat.mul_zero] at hprod
      omega
    · exact h
  have hmul : mul32 g.p_.lf0 g.p_.vwidth = g.p_.lf0 * g.p_.vwidth := Nat.mod_eq_of_lt hstep
  have hadd : add32 g.p_.kL 1 = g.p_.kL + 1 := Nat.mod_eq_of_lt hkL
  have hs : 1 ≤ g.p_.lf0 * g.p_.vwidth := Nat.mul_pos (by omega) (by omega)
  have hA1' := hA1 (by omega)
  have hA0' := (hA0 (by omega)).2
  have hB1' := hB1 (by omega)
  have hB0' := (hB0 (by omega)).2
  rw [hmul] at hA0' hB0'
  have hpos : ∀ idt r c s, g.staged_position idt r c s =
      (idt / g.p_.lf0 + r, idt % g.p_.lf0 * g.p_.vwidth + c + s) := by
    intro idt r c s
    unfold gemm.staged_position
    have := Nat.div_add_mod idt g.p_.lf0
    have e : idt - g.p_.lf0 * (idt / g.p_.lf0) = idt % g.p_.lf0 := by omega
    rw [e]
  have hlayA : g.layout_A = (if g.A_trans_ = N then
      { Dx := g.p_.mL, Dy := g.p_.kL, ld := g.p_.mL }
      else { Dx := g.p_.kL, Dy := g.p_.mL, ld := g.p_.kL + 1 }) := by
    unfold gemm.layout_A gemm.A_bound0 gemm.lnda gemm.llda
    by_cases hA : g.A_trans_ = N
    · simp only [hA, if_true]
    · simp only [hA, if_false, hadd]
  have hlayB : g.layout_B = (if g.B_trans_ = T then
      { Dx := g.p_.nL, Dy := g.p_.kL, ld := g.p_.nL }
      else { Dx := g.p_.kL, Dy := g.p_.nL, ld := g.p_.kL + 1 }) := by
    unfold gemm.layout_B gemm.B_bound0 gemm.lndb gemm.lldb
    by_cases hB : g.B_trans_ = T
    · simp only [hB, if_true]
    · simp only [hB, if_false, hadd]
  have hlenA : g.generate_impl_lA_length = g.layout_A.ld * g.layout_A.Dy := by
    unfold gemm.generate_impl_lA_length
    rw [hlayA]
    unfold gemm.llda gemm.lnda
    by_cases hA : g.A_trans_ = N
    · simp only [hA, if_true]
      exact size_t_product_exact _ _ (by omega) hkLr
    · simp only [hA, if_false, hadd]
      exact size_t_product_exact _ _ (by omega) hmL
  have hlenB : g.generate_impl_lB_length = g.layout_B.ld * g.layout_B.Dy := by
    unfold gemm.generate_impl_lB_length
    rw [hlayB]
    unfold gemm.lldb gemm.lndb
    by_cases hB : g.B_trans_ = T
    · simp only [hB, if_true]
      exact size_t_product_exact _ _ (by omega) hkLr
    · simp only [hB, if_false, hadd]
      exact size_t_product_exact _ _ (by omega) hnL
  refine ⟨hlayA, hlayB, hlenA, hlenB, hpos, ?_, ?_⟩
  · by_cases hA : g.A_trans_ = N
    · have hDy : g.layout_A.Dy = g.p_.kL := by rw [hlayA, if_pos hA]
      have hDx : g.layout_A.Dx = g.p_.mL := by rw [hlayA, if_pos hA]
      have hld : g.layout_A.ld = g.p_.mL := by rw [hlayA, if_pos hA]
      simp only [gemm.A_bound1, gemm.A_bound0, hA, if_true] at hA1' hA0'
      obtain ⟨offs, ho, hc⟩ := (staged_offsets_char g.p_.mL g.p_.kL g.p_.lf1
        (g.p_.lf0 * g.p_.vwidth) h1 hs hA1' hA0' hmL hkLr).1
      refine ⟨offs, by unfold gemm.staged_offsets_A; rw [if_pos hA, hmul]; exact ho,
        by rw [hDy, hDx]; exact hc, ?_⟩
      exact staging_tiled_of_char g _ _ offs h0 h1 hv hprod (by rw [hDy]; exact hA1')
        (by rw [hDx]; exact hA0') (by rw [hDx, hld]) hlenA (by rw [hDy, hDx]; exact hc)
    · have hDy : g.layout_A.Dy = g.p_.mL := by rw [hlayA, if_neg hA]
      have hDx : g.layout_A.Dx = g.p_.kL := by rw [hlayA, if_neg hA]
      have hld : g.layout_A.ld = g.p_.kL + 1 := by rw [hlayA, if_neg hA]
      simp only [gemm.A_bound1, gemm.A_bound0, hA, if_false] at hA1' hA0'
      obtain ⟨offs, ho, hc⟩ := (staged_offsets_char g.p_.kL g.p_.mL g.p_.lf1
        (g.p_.lf0 * g.p_.vwidth) h1 hs hA1' hA0' hkLr hmL).2
      refine ⟨offs, by unfold gemm.staged_offsets_A; rw [if_neg hA, hmul]; exact ho,
        by rw [hDy, hDx]; exact hc, ?_⟩
      exact staging_tiled_of_char g _ _ offs h0 h1 hv hprod (by rw [hDy]; exact hA1')
        (by rw [hDx]; exact hA0') (by rw [hDx, hld]; omega) hlenA
        (by rw [hDy, hDx]; exact hc)
  · by_cases hB : g.B_trans_ = T
    · have hDy : g.layout_B.Dy = g.p_.kL := by rw [hlayB, if_pos hB]
      have hDx : g.layout_B.Dx = g.p_.nL := by rw [hlayB, if_pos hB]
      have hld : g.layout_B.ld = g.p_.nL := by rw [hlayB, if_pos hB]
      simp only [gemm.B_bound1, gemm.B_bound0, hB, if_true] at hB1' hB0'
      obtain ⟨offs, ho, hc⟩ := (staged_offsets_char g.p_.nL g.p_.kL g.p_.lf1
        (g.p_.lf0 * g.p_.vwidth) h1 hs hB1' hB0' hnL hkLr).1
      refine ⟨offs, by unfold gemm.staged_offsets_B; rw [if_pos hB, hmul]; exact ho,
        by rw [hDy, hDx]; exact hc, ?_⟩
      exact staging_tiled_of_char g _ _ offs h0 h1 hv hprod (by rw [hDy]; exact hB1')
        (by rw [hDx]; exact hB0') (by rw [hDx, hld]) hlenB (by rw [hDy, hDx]; exact hc)
    · have hDy : g.layout_B.Dy = g.p_.nL := by rw [hlayB, if_neg hB]
      have hDx : g.layout_B.Dx = g.p_.kL := by rw [hlayB, if_neg hB]
      have hld : g.layout_B.ld = g.p_.kL + 1 := by rw [hlayB, if_neg hB]
      simp only [gemm.B_bound1, gemm.B_bound0, hB, if_false] at hB1' hB0'
      obtain ⟨offs, ho, hc⟩ := (staged_offsets_char g.p_.kL g.p_.nL g.p_.lf1
        (g.p_.lf0 * g.p_.vwidth) h1 hs hB1' hB0' hkLr hnL).2
      refine ⟨offs, by unfold gemm.staged_offsets_B; rw [if_neg hB, hmul]; exact ho,
        by rw [hDy, hDx]; exact hc, ?_⟩
      exact staging_tiled_of_char g _ _ offs h0 h1 hv hprod (by rw [hDy]; exact hB1')
        (by rw [hDx]; exact hB0') (by rw [hDx, hld]; omega) hlenB
        (by rw [hDy, hDx]; exact hc)

/-- Witness for C24 (amended): on the sample template (`lf0 = lf1 = 2`, tiles
of 4 x 4) the stores of A are `(0,0), (0,2), (2,0), (2,2)` and they tile `lA`. -/
theorem staging_layout_bijection_witness :
    sample_gemm.staged_offsets_A = some [(0, 0), (0, 2), (2, 0), (2, 2)] ∧
    sample_gemm.staging_tiled sample_gemm.layout_A sample_gemm.generate_impl_lA_length
      [(0, 0), (0, 2), (2, 0), (2, 2)] := by
  obtain ⟨offs, h1, -, h2⟩ := (staging_layout_bijection sample_gemm (by decide) (by decide)
    (by decide) (by decide) (by decide) (by decide) (by decide)).2.2.2.2.2.1
  have h3 : sample_gemm.staged_offsets_A = some [(0, 0), (0, 2), (2, 0), (2, 2)] := by decide
  rw [h3] at h1
  injection h1 with h1
  subst h1
  exact ⟨h3, h2⟩


/-! ## Constant indices -/

theorem nested_lines_eq_pairs (outer inner : Option (List Nat)) (body : Nat → Nat → List String) :
    nested_lines outer inner body =
      (nested_pairs outer inner).map (fun pairs => pairs.flatMap (fun p => body p.1 p.2)) := by
  unfold nested_lines nested_pairs
  cases outer with
  | none => rfl
  | some ks =>
    by_cases he : ks.isEmpty = true
    · simp only [he, if_true, Option.map_some', List.flatMap_nil]
    · cases inner with
      | none => simp only [he, Bool.false_eq_true, if_false, Option.map_none']
      | some ms =>
        simp only [he, Option.map_some', Bool.false_eq_true, if_false]
        congr 1
        simp only [List.flatMap_assoc, List.flatMap_map]

theorem nested_pairs_inner (outer : Option (List Nat)) (bound step : Nat) (hs : 1 ≤ step)
    (pairs : List (Nat × Nat))
    (h : nested_pairs outer (loop_values bound step) = some pairs) (p : Nat × Nat)
    (hp : p ∈ pairs) : step ∣ p.2 ∧ p.2 < bound := by
  unfold nested_pairs at h
  cases outer with
  | none => cases h
  | some ks =>
    by_cases he : ks.isEmpty = true
    · simp only [he, if_true] at h
      injection h with h
      subst h
      cases hp
    · simp only [he, Bool.false_eq_true, if_false] at h
      cases hi : loop_values bound step with
      | none => rw [hi] at h; cases h
      | some ms =>
        rw [hi] at h
        injection h with h
        subst h
        simp only [List.mem_flatMap, List.mem_map] at hp
        obtain ⟨k, -, m, hm, rfl⟩ := hp
        exact (loop_values_mem bound step ms hs hi m).1 hm

theorem div_lt_div_of_dvd (step bound v : Nat) (hs : 1 ≤ step) (hb : step ∣ bound)
    (hv : v < bound) : v / step < bound / step := by
  obtain ⟨t, rfl⟩ := hb
  rw [Nat.mul_div_cancel_left t (by omega)]
  exact Nat.div_lt_of_lt_mul hv

theorem fetch_index_bound (outer : Option (List Nat)) (bound step : Nat) (hs : 1 ≤ step)
    (hb : step ∣ bound) (is : List Nat)
    (h : (nested_pairs outer (loop_values bound step)).map
      (List.map (fun km => km.2 / step)) = some is) :
    ∀ i ∈ is, i < bound / step := by
  cases hp : nested_pairs outer (loop_values bound step) with
  | none => rw [hp] at h; cases h
  | some pairs =>
    rw [hp] at h
    simp only [Option.map_some'] at h
    injection h with h
    subst h
    intro i hi
    simp only [List.mem_map] at hi
    obtain ⟨p, hp', rfl⟩ := hi
    exact div_lt_div_of_dvd step bound p.2 hs hb (nested_pairs_inner outer bound step hs pairs hp p hp').2

theorem nested_pairs_some (bo so bi si : Nat) (hso : 1 ≤ so) (hsi : 1 ≤ si) (ho : so ∣ bo)
    (hi : si ∣ bi) (hbo : bo < UINT32_RANGE) (hbi : bi < UINT32_RANGE) :
    ∃ pairs, nested_pairs (loop_values bo so) (loop_values bi si) = some pairs := by
  obtain ⟨ks, hks⟩ := loop_values_of_dvd bo so hso ho hbo
  obtain ⟨ms, hms⟩ := loop_values_of_dvd bi si hsi hi hbi
  obtain ⟨pairs, hp, -⟩ := nested_pairs_mem _ _ ks ms hks hms
  exact ⟨pairs, hp⟩

theorem locals_pointer_counts (g : gemm) (h : text_helpers) (suffix : String)
    (args : gemm_args) (sdtype : String) (backend : backend_type) (e : kernel_locals)
    (he : g.generate_impl_locals h suffix args sdtype backend = some e) :
    g.p_.vwidth ≠ 0 ∧
    (if g.A_trans_ = N then mul32 g.p_.lf0 g.p_.vwidth else g.p_.lf1) ≠ 0 ∧
    (if g.B_trans_ = T then mul32 g.p_.lf0 g.p_.vwidth else g.p_.lf1) ≠ 0 ∧
    e.npA = g.p_.mL / (if g.A_trans_ = N then mul32 g.p_.lf0 g.p_.vwidth else g.p_.lf1) ∧
    e.npB = g.p_.nL / (if g.B_trans_ = T then mul32 g.p_.lf0 g.p_.vwidth else g.p_.lf1) := by
  unfold gemm.generate_impl_locals at he
  by_cases hv : g.p_.vwidth = 0
  · rw [if_pos hv] at he
    cases he
  · rw [if_neg hv] at he
    unfold udiv at he
    by_cases hA : (if g.A_trans_ = N then mul32 g.p_.lf0 g.p_.vwidth else g.p_.lf1) = 0
    · rw [if_pos hA] at he
      cases he
    · rw [if_neg hA] at he
      by_cases hB : (if g.B_trans_ = T then mul32 g.p_.lf0 g.p_.vwidth else g.p_.lf1) = 0
      · rw [if_pos hB] at he
        cases he
      · rw [if_neg hB] at he
        injection he with he
        subst he
        exact ⟨hv, hA, hB, rfl, rfl⟩


theorem mul32_comm (a b : Nat) : mul32 a b = mul32 b a := by
  unfold mul32
  rw [Nat.mul_comm]

theorem mul32_zero_left (b : Nat) : mul32 0 b = 0 := by
  unfold mul32
  simp only [Nat.zero_mul, Nat.zero_mod]

theorem register_index_bound (vw size i : Nat) (hv : vw ≠ 0) (hs : size % vw = 0)
    (hi : i < size) : (if vw = 1 then i else i / vw) < size / vw := by
  by_cases h1 : vw = 1
  · rw [if_pos h1, h1, Nat.div_one]
    exact hi
  · rw [if_neg h1]
    exact div_lt_div_of_dvd vw size i (by omega) (Nat.dvd_of_mod_eq_zero hs) hi

/-- C29: for every parameter set that the validator accepts and every variant,
whenever `generate_impl` computes its locals (so that a kernel is emitted), the
pointer counts are `npA = mL / (lf0*vw if A normal else lf1)` and
`npB = nL / (lf0*vw if B transposed else lf1)`, and every constant index it
emits is within the declared length: the indices of `Ai` and `Bi` in the staging
passes, in the pointer set-up and in the pointer increments are below `npA` and
`npB`; the second indices of `rA` and `rB` in the FMA block are below `mS/vw`
and `nS/vw`; the indices of `rC` are below `mS` and `nS`.  When generation is
defined, the staging passes have index lists (the loops end). -/
theorem emitted_indices_within_bounds (g : gemm)
    (hacc : g.is_invalid_impl = some TEMPLATE_VALID)
    (h : text_helpers) (suffix : String) (args : gemm_args) (sdtype : String)
    (backend : backend_type) (e : kernel_locals)
    (he : g.generate_impl_locals h suffix args sdtype backend = some e) :
    e.npA = g.p_.mL / (if g.A_trans_ = N then mul32 g.p_.lf0 g.p_.vwidth else g.p_.lf1) ∧
    e.npB = g.p_.nL / (if g.B_trans_ = T then mul32 g.p_.lf0 g.p_.vwidth else g.p_.lf1) ∧
    (∀ is, g.Ai_fetch_indices = some is → ∀ i ∈ is, i < e.npA) ∧
    (∀ is, g.Bi_fetch_indices = some is → ∀ i ∈ is, i < e.npB) ∧
    (∀ i ∈ e.Ai_pointer_indices, i < e.npA) ∧
    (∀ i ∈ e.Bi_pointer_indices, i < e.npB) ∧
    (∀ i ∈ g.fma_rA_indices, i < g.p_.mS / g.p_.vwidth) ∧
    (∀ i ∈ g.fma_rB_indices, i < g.p_.nS / g.p_.vwidth) ∧
    (∀ p ∈ g.rC_indices, p.1 < g.p_.mS ∧ p.2 < g.p_.nS) ∧
    (g.generation_defined →
      ∃ ia ib, g.Ai_fetch_indices = some ia ∧ g.Bi_fetch_indices = some ib) := by
  obtain ⟨hv, hA, hB, hnpA, hnpB⟩ := locals_pointer_counts g h suffix args sdtype backend e he
  obtain ⟨-, -, hmS, hnS, -, -, -, -, hA1, hA0, hB1, hB0⟩ := accepted_guarded g hacc
  refine ⟨hnpA, hnpB, ?_, ?_, ?_, ?_, ?_, ?_, ?_, ?_⟩
  · intro is his
    rw [hnpA]
    unfold gemm.Ai_fetch_indices at his
    by_cases hAt : g.A_trans_ = N
    · rw [if_pos hAt] at his hA ⊢
      have hlf0 : 0 < g.p_.lf0 := by
        rcases Nat.eq_zero_or_pos g.p_.lf0 with h0 | h0
        · rw [h0, mul32_zero_left] at hA
          exact absurd rfl hA
        · exact h0
      have hd := (hA0 hlf0).2
      simp only [gemm.A_bound0, hAt, if_true] at hd
      rw [mul32_comm g.p_.vwidth g.p_.lf0] at his
      exact fetch_index_bound _ _ _ (by omega) hd is his
    · rw [if_neg hAt] at his hA ⊢
      have hd := hA1 (by omega)
      simp only [gemm.A_bound1, hAt, if_false] at hd
      exact fetch_index_bound _ _ _ (by omega) hd is his
  · intro is his
    rw [hnpB]
    unfold gemm.Bi_fetch_indices at his
    by_cases hBt : g.B_trans_ = T
    · rw [if_pos hBt] at his hB ⊢
      have hlf0 : 0 < g.p_.lf0 := by
        rcases Nat.eq_zero_or_pos g.p_.lf0 with h0 | h0
        · rw [h0, mul32_zero_left] at hB
          exact absurd rfl hB
        · exact h0
      have hd := (hB0 hlf0).2
      simp only [gemm.B_bound0, hBt, if_true] at hd
      rw [mul32_comm g.p_.vwidth g.p_.lf0] at his
      exact fetch_index_bound _ _ _ (by omega) hd is his
    · rw [if_neg hBt] at his hB ⊢
      have hd := hB1 (by omega)
      simp only [gemm.B_bound1, hBt, if_false] at hd
      exact fetch_index_bound _ _ _ (by omega) hd is his
  · intro i hi
    exact List.mem_range.1 hi
  · intro i hi
    exact List.mem_range.1 hi
  · intro i hi
    unfold gemm.fma_rA_indices at hi
    simp only [List.mem_flatMap, List.mem_map, List.mem_range] at hi
    obtain ⟨nn, -, mm, hmm, rfl⟩ := hi
    exact register_index_bound _ _ _ hv hmS hmm
  · intro i hi
    unfold gemm.fma_rB_indices at hi
    simp only [List.mem_flatMap, List.mem_map, List.mem_range] at hi
    obtain ⟨nn, hnn, mm, -, rfl⟩ := hi
    exact register_index_bound _ _ _ hv hnS hnn
  · intro p hp
    unfold gemm.rC_indices at hp
    simp only [List.mem_flatMap, List.mem_map, List.mem_range] at hp
    obtain ⟨nn, hnn, mm, hmm, rfl⟩ := hp
    exact ⟨hmm, hnn⟩
  · rintro ⟨hr, -, h1, h0, hd1, hd0, hd1', hd0'⟩
    obtain ⟨-, -, -, hmL, hnL, hkL, -⟩ := hr
    unfold gemm.Ai_fetch_indices gemm.Bi_fetch_indices
    have eA : ∃ ia, (if g.A_trans_ = N then
        (nested_pairs (loop_values g.p_.kL g.p_.lf1)
          (loop_values g.p_.mL (mul32 g.p_.lf0 g.p_.vwidth))).map
            (List.map (fun km => km.2 / mul32 g.p_.vwidth g.p_.lf0))
        else
        (nested_pairs (loop_values g.p_.kL (mul32 g.p_.lf0 g.p_.vwidth))
          (loop_values g.p_.mL g.p_.lf1)).map (List.map (fun km => km.2 / g.p_.lf1))) =
        some ia := by
      by_cases hAt : g.A_trans_ = N
      · simp only [gemm.A_bound1, gemm.A_bound0, hAt, if_true] at hd1 hd0
        obtain ⟨pairs, hp⟩ := nested_pairs_some _ _ _ _ h1 h0 hd1 hd0 hkL hmL
        rw [if_pos hAt, hp]
        exact ⟨_, rfl⟩
      · simp only [gemm.A_bound1, gemm.A_bound0, hAt, if_false] at hd1 hd0
        obtain ⟨pairs, hp⟩ := nested_pairs_some _ _ _ _ h0 h1 hd0 hd1 hkL hmL
        rw [if_neg hAt, hp]
        exact ⟨_, rfl⟩
    have eB : ∃ ib, (if g.B_trans_ = T then
        (nested_pairs (loop_values g.p_.kL g.p_.lf1)
          (loop_values g.p_.nL (mul32 g.p_.lf0 g.p_.vwidth))).map
            (List.map (fun kn => kn.2 / mul32 g.p_.vwidth g.p_.lf0))
        else
        (nested_pairs (loop_values g.p_.kL (mul32 g.p_.lf0 g.p_.vwidth))
          (loop_values g.p_.nL g.p_.lf1)).map (List.map (fun kn => kn.2 / g.p_.lf1))) =
        some ib := by
      by_cases hBt : g.B_trans_ = T
      · simp only [gemm.B_bound1, gemm.B_bound0, hBt, if_true] at hd1' hd0'
        obtain ⟨pairs, hp⟩ := nested_pairs_some _ _ _ _ h1 h0 hd1' hd0' hkL hnL
        rw [if_pos hBt, hp]
        exact ⟨_, rfl⟩
      · simp only [gemm.B_bound1, gemm.B_bound0, hBt, if_false] at hd1' hd0'
        obtain ⟨pairs, hp⟩ := nested_pairs_some _ _ _ _ h0 h1 hd0' hd1' hkL hnL
        rw [if_neg hBt, hp]
        exact ⟨_, rfl⟩
    obtain ⟨ia, hia⟩ := eA
    obtain ⟨ib, hib⟩ := eB
    exact ⟨ia, ib, hia, hib⟩

/-- Witness for C29: on the sample template (`mL = 4`, `lf0 = lf1 = 2`,
`vw = 1`) the staging pass of A uses the pointers `Ai[0], Ai[1]` twice, and
both indices are below `npA = 2`. -/
theorem emitted_indices_within_bounds_witness :
    sample_gemm.is_invalid_impl = some TEMPLATE_VALID ∧
    sample_gemm.Ai_fetch_indices = some [0, 1, 0, 1] ∧
    ∃ e, sample_gemm.generate_impl_locals sample_helpers "" launch_args "float"
        backend_type.OPENCL = some e ∧ e.npA = 2 ∧ ∀ i ∈ [0, 1, 0, 1], i < e.npA := by
  obtain ⟨e, he, -⟩ := generate_impl_locals_returns sample_gemm sample_helpers "" launch_args
    "float" backend_type.OPENCL (by decide)
  have hw := emitted_indices_within_bounds sample_gemm (by decide) sample_helpers ""
    launch_args "float" backend_type.OPENCL e he
  refine ⟨by decide, by decide, e, he, ?_, hw.2.2.1 _ (by decide)⟩
  rw [hw.1]
  decide


/-! ## Barriers -/

set_option linter.unusedTactic false
set_option linter.unreachableTactic false

theorem fetch_to_lds_pass (g : gemm) (e : kernel_locals) (last_iteration : Bool) :
    g.fetch_to_lds e last_iteration =
      match g.stores_A e last_iteration, g.stores_B e last_iteration with
      | some lines_A, some lines_B =>
        some ([barrier_line] ++ g.pass_pointers e ++ lines_A ++ ["//Fetch B to local memory"] ++
          lines_B ++ g.pass_pointer_resets ++ [barrier_line] ++ g.pass_compute e last_iteration)
      | _, _ => none := by
  cases hA : g.stores_A e last_iteration <;> cases hB : g.stores_B e last_iteration <;>
    unfold gemm.stores_A at hA <;> unfold gemm.stores_B at hB <;>
    simp only [] at hA hB <;> unfold gemm.fetch_to_lds <;> simp only [] <;> rw [hA, hB]
  simp only [gemm.pass_pointers, gemm.pass_pointer_resets, gemm.pass_compute,
    gemm.register_loads_A, gemm.register_loads_B, barrier_line, List.append_assoc,
    List.cons_append, List.nil_append, List.singleton_append]


theorem no_barrier_nil : no_barrier [] := by
  intro l hl
  cases hl

theorem no_barrier_cons (l : String) (ls : List String) (h : l ≠ barrier_line)
    (hs : no_barrier ls) : no_barrier (l :: ls) := by
  intro x hx
  rcases List.mem_cons.1 hx with rfl | hx
  · exact h
  · exact hs x hx

theorem no_barrier_append (xs ys : List String) (hx : no_barrier xs) (hy : no_barrier ys) :
    no_barrier (xs ++ ys) := by
  intro x hm
  rcases List.mem_append.1 hm with hm | hm
  · exact hx x hm
  · exact hy x hm

theorem no_barrier_ite (c : Prop) [Decidable c] (xs ys : List String) (hx : no_barrier xs)
    (hy : no_barrier ys) : no_barrier (if c then xs else ys) := by
  split
  · exact hx
  · exact hy

theorem no_barrier_map (f : Nat → String) (is : List Nat) (h : ∀ i, f i ≠ barrier_line) :
    no_barrier (is.map f) := by
  intro x hm
  obtain ⟨i, -, rfl⟩ := List.mem_map.1 hm
  exact h i

theorem no_barrier_flatMap (f : Nat → List String) (is : List Nat)
    (h : ∀ i, no_barrier (f i)) : no_barrier (is.flatMap f) := by
  intro x hm
  obtain ⟨i, -, hx⟩ := List.mem_flatMap.1 hm
  exact h i x hx

theorem no_barrier_nested (outer inner : Option (List Nat)) (body : Nat → Nat → List String)
    (lines : List String) (h : nested_lines outer inner body = some lines)
    (hb : ∀ k m, no_barrier (body k m)) : no_barrier lines := by
  unfold nested_lines at h
  cases outer with
  | none => cases h
  | some ks =>
    by_cases he : ks.isEmpty = true
    · simp only [he, if_true] at h
      injection h with h
      subst h
      exact no_barrier_nil
    · simp only [he, Bool.false_eq_true, if_false] at h
      cases inner with
      | none => cases h
      | some ms =>
        injection h with h
        subst h
        exact no_barrier_flatMap _ _ (fun k => no_barrier_flatMap _ _ (fun m => hb k m))

theorem foreign_append_left (x y : String) (h : foreign x = true) : foreign (x ++ y) = true := by
  unfold foreign at h ⊢
  rw [String.data_append, List.any_append, h, Bool.true_or]

theorem foreign_append_right (x y : String) (h : foreign y = true) :
    foreign (x ++ y) = true := by
  unfold foreign at h ⊢
  rw [String.data_append, List.any_append, h, Bool.or_true]

theorem ne_barrier_of_foreign (l : String) (h : foreign l = true) : l ≠ barrier_line := by
  intro heq
  subst heq
  revert h
  decide

theorem ne_barrier_of_statement (x : String) (h : x ≠ "$LOCAL_BARRIER") :
    x ++ ";" ≠ barrier_line := by
  intro heq
  apply h
  have hd := congrArg String.data heq
  rw [String.data_append] at hd
  have hb : barrier_line.data = "$LOCAL_BARRIER".data ++ ";".data := by decide
  rw [hb] at hd
  exact String.ext (List.append_cancel_right hd)

theorem pass_pointers_no_barrier (g : gemm) (e : kernel_locals) :
    no_barrier (g.pass_pointers e) := by
  unfold gemm.pass_pointers
  repeat' (first
    | exact no_barrier_nil
    | refine no_barrier_append _ _ ?_ ?_
    | refine no_barrier_cons _ _ ?_ ?_
    | refine no_barrier_ite _ _ _ ?_ ?_
    | refine no_barrier_map _ _ (fun _ => ?_)
    | refine no_barrier_flatMap _ _ (fun _ => ?_))
  all_goals (first
    | decide
    | (apply ne_barrier_of_foreign
       repeat (first
         | decide
         | (apply foreign_append_right; decide)
         | apply foreign_append_left)))

theorem pass_pointer_resets_no_barrier (g : gemm) : no_barrier g.pass_pointer_resets := by
  unfold gemm.pass_pointer_resets
  repeat' (first
    | exact no_barrier_nil
    | refine no_barrier_append _ _ ?_ ?_
    | refine no_barrier_cons _ _ ?_ ?_
    | refine no_barrier_ite _ _ _ ?_ ?_
    | refine no_barrier_map _ _ (fun _ => ?_)
    | refine no_barrier_flatMap _ _ (fun _ => ?_))
  all_goals (try split)
  all_goals (first
    | decide
    | (apply ne_barrier_of_foreign
       repeat (first
         | decide
         | apply foreign_append_left)))

theorem pass_compute_no_barrier (g : gemm) (e : kernel_locals) (last_iteration : Bool) :
    no_barrier (g.pass_compute e last_iteration) := by
  unfold gemm.pass_compute gemm.register_loads_A gemm.register_loads_B
  simp only []
  repeat' (first
    | exact no_barrier_nil
    | refine no_barrier_append _ _ ?_ ?_
    | refine no_barrier_cons _ _ ?_ ?_
    | refine no_barrier_ite _ _ _ ?_ ?_
    | refine no_barrier_map _ _ (fun _ => ?_)
    | refine no_barrier_flatMap _ _ (fun _ => ?_))
  all_goals (try split)
  all_goals (first
    | decide
    | (apply ne_barrier_of_foreign
       repeat (first
         | decide
         | (apply foreign_append_right; decide)
         | apply foreign_append_left)))


theorem stores_A_no_barrier (g : gemm) (e : kernel_locals) (last_iteration : Bool)
    (lines : List String) (hstore : ∀ v o p, e.VSTORE v o p ≠ "$LOCAL_BARRIER")
    (h : g.stores_A e last_iteration = some lines) : no_barrier lines := by
  unfold gemm.stores_A at h
  simp only [] at h
  split at h <;> refine no_barrier_nested _ _ _ _ h (fun k m => ?_) <;> split
  · refine no_barrier_map _ _ (fun s => ?_)
    apply ne_barrier_of_foreign
    repeat (first | decide | (apply foreign_append_right; decide) | apply foreign_append_left)
  · exact no_barrier_cons _ _ (ne_barrier_of_statement _ (hstore _ _ _)) no_barrier_nil
  · refine no_barrier_map _ _ (fun s => ?_)
    apply ne_barrier_of_foreign
    repeat (first | decide | (apply foreign_append_right; decide) | apply foreign_append_left)
  · exact no_barrier_cons _ _ (ne_barrier_of_statement _ (hstore _ _ _)) no_barrier_nil

theorem stores_B_no_barrier (g : gemm) (e : kernel_locals) (last_iteration : Bool)
    (lines : List String) (hstore : ∀ v o p, e.VSTORE v o p ≠ "$LOCAL_BARRIER")
    (h : g.stores_B e last_iteration = some lines) : no_barrier lines := by
  unfold gemm.stores_B at h
  simp only [] at h
  split at h <;> refine no_barrier_nested _ _ _ _ h (fun k m => ?_) <;> split
  · refine no_barrier_map _ _ (fun s => ?_)
    apply ne_barrier_of_foreign
    repeat (first | decide | (apply foreign_append_right; decide) | apply foreign_append_left)
  · exact no_barrier_cons _ _ (ne_barrier_of_statement _ (hstore _ _ _)) no_barrier_nil
  · refine no_barrier_map _ _ (fun s => ?_)
    apply ne_barrier_of_foreign
    repeat (first | decide | (apply foreign_append_right; decide) | apply foreign_append_left)
  · exact no_barrier_cons _ _ (ne_barrier_of_statement _ (hstore _ _ _)) no_barrier_nil

theorem prologue_no_barrier (g : gemm) (e : kernel_locals) : no_barrier (g.prologue e) := by
  unfold gemm.prologue main_kernel_header
  simp only []
  repeat' (first
    | exact no_barrier_nil
    | refine no_barrier_append _ _ ?_ ?_
    | refine no_barrier_cons _ _ ?_ ?_
    | refine no_barrier_ite _ _ _ ?_ ?_
    | refine no_barrier_map _ _ (fun _ => ?_)
    | refine no_barrier_flatMap _ _ (fun _ => ?_))
  all_goals (try split)
  all_goals (first
    | decide
    | (apply ne_barrier_of_foreign
       repeat (first
         | decide
         | (apply foreign_append_right; decide)
         | apply foreign_append_left)))

theorem write_back_no_barrier (g : gemm) (e : kernel_locals) : no_barrier (g.write_back e) := by
  unfold gemm.write_back
  simp only []
  repeat' (first
    | exact no_barrier_nil
    | refine no_barrier_append _ _ ?_ ?_
    | refine no_barrier_cons _ _ ?_ ?_
    | refine no_barrier_ite _ _ _ ?_ ?_
    | refine no_barrier_map _ _ (fun _ => ?_)
    | refine no_barrier_flatMap _ _ (fun _ => ?_))
  all_goals (try split)
  all_goals (first
    | decide
    | (apply ne_barrier_of_foreign
       repeat (first
         | decide
         | (apply foreign_append_right; decide)
         | apply foreign_append_left)))

theorem tail_predicates_no_barrier (g : gemm) (lines : List String)
    (h : g.tail_predicates = some lines) : no_barrier lines := by
  unfold gemm.tail_predicates at h
  simp only [] at h
  split at h
  · rename_i ly lx hy hx
    injection h with h
    subst h
    refine no_barrier_append _ _ ?_ ?_
    · split at hy
      · split at hy
        · cases hy
        · injection hy with hy
          subst hy
          refine no_barrier_append _ _ (no_barrier_cons _ _ (by decide) no_barrier_nil)
            (no_barrier_map _ _ (fun k => ?_))
          apply ne_barrier_of_foreign
          repeat
            (first | decide | (apply foreign_append_right; decide) | apply foreign_append_left)
      · injection hy with hy
        subst hy
        exact no_barrier_nil
    · split at hx
      · split at hx
        · cases hx
        · injection hx with hx
          subst hx
          refine no_barrier_append _ _ (no_barrier_cons _ _ (by decide) no_barrier_nil)
            (no_barrier_flatMap _ _ (fun k => no_barrier_map _ _ (fun s => ?_)))
          apply ne_barrier_of_foreign
          repeat
            (first | decide | (apply foreign_append_right; decide) | apply foreign_append_left)
      · injection hx with hx
        subst hx
        exact no_barrier_nil
  · cases h

theorem count_of_no_barrier (lines : List String) (h : no_barrier lines) :
    lines.count barrier_line = 0 := by
  apply List.count_eq_zero.2
  intro hm
  exact h _ hm rfl

theorem locals_VSTORE (g : gemm) (h : text_helpers) (suffix : String)
    (args : gemm_args) (sdtype : String) (backend : backend_type) (e : kernel_locals)
    (he : g.generate_impl_locals h suffix args sdtype backend = some e) :
    ∀ v o p, e.VSTORE v o p = h.vstore g.p_.vwidth sdtype v o p "1" backend := by
  unfold gemm.generate_impl_locals at he
  split at he
  · cases he
  · split at he
    · injection he with he
      subst he
      intro v o p
      rfl
    · cases he

theorem pass_barrier_count (g : gemm) (e : kernel_locals) (last_iteration : Bool)
    (hstore : ∀ v o p, e.VSTORE v o p ≠ "$LOCAL_BARRIER") (lines : List String)
    (h : g.fetch_to_lds e last_iteration = some lines) :
    ∃ stores_A stores_B, g.stores_A e last_iteration = some stores_A ∧
      g.stores_B e last_iteration = some stores_B ∧
      lines = [barrier_line] ++ g.pass_pointers e ++ stores_A ++ ["//Fetch B to local memory"] ++
        stores_B ++ g.pass_pointer_resets ++ [barrier_line] ++ g.pass_compute e last_iteration ∧
      no_barrier (g.pass_pointers e ++ stores_A ++ ["//Fetch B to local memory"] ++
        stores_B ++ g.pass_pointer_resets) ∧
      no_barrier (g.pass_compute e last_iteration) ∧
      lines.count barrier_line = 2 := by
  rw [fetch_to_lds_pass] at h
  cases hA : g.stores_A e last_iteration with
  | none => rw [hA] at h; cases h
  | some sA =>
    cases hB : g.stores_B e last_iteration with
    | none => rw [hA, hB] at h; cases h
    | some sB =>
      rw [hA, hB] at h
      injection h with h
      have h1 : no_barrier (g.pass_pointers e ++ sA ++ ["//Fetch B to local memory"] ++
          sB ++ g.pass_pointer_resets) :=
        no_barrier_append _ _ (no_barrier_append _ _ (no_barrier_append _ _
          (no_barrier_append _ _ (pass_pointers_no_barrier g e)
            (stores_A_no_barrier g e _ sA hstore hA))
          (no_barrier_cons _ _ (by decide) no_barrier_nil))
          (stores_B_no_barrier g e _ sB hstore hB)) (pass_pointer_resets_no_barrier g)
      have h2 := pass_compute_no_barrier g e last_iteration
      refine ⟨sA, sB, rfl, rfl, h.symm, h1, h2, ?_⟩
      rw [← h]
      have c1 := count_of_no_barrier _ h1
      have c2 := count_of_no_barrier _ h2
      simp only [List.append_assoc] at c1 ⊢
      simp only [List.count_append, List.count_singleton_self] at c1 ⊢
      omega


/-- C21: in the main kernel text that `generate_impl` emits, for every
parameter set, variant and helper set whose `vstore` never returns the bare text
`$LOCAL_BARRIER`: each staging pass (`fetch_to_lds(false)` inside
`while(K >= kL)` and `fetch_to_lds(true)`, the tail pass) is the barrier, the
local pointer declarations, the stores of A and B into local memory, the pointer
resets, the second barrier and the compute phase, in this order; no line before
or after the second barrier is a barrier, the register loads of `rA` and `rB`
are in the compute phase, so each pass has exactly two barrier statements; the
main kernel is the prologue, the loop head, the first pass, the predicates, the
tail pass and the write-back, and has exactly four barrier statements.  The main
kernel text exists when generation is defined. -/
theorem main_kernel_barriers (g : gemm) (h : text_helpers) (suffix : String)
    (args : gemm_args) (sdtype : String) (backend : backend_type)
    (hstore : ∀ w t v o p i b, h.vstore w t v o p i b ≠ "$LOCAL_BARRIER")
    (e : kernel_locals)
    (he : g.generate_impl_locals h suffix args sdtype backend = some e) :
    (∀ last_iteration lines, g.fetch_to_lds e last_iteration = some lines →
      ∃ stores_A stores_B, g.stores_A e last_iteration = some stores_A ∧
        g.stores_B e last_iteration = some stores_B ∧
        lines = [barrier_line] ++ g.pass_pointers e ++ stores_A ++
          ["//Fetch B to local memory"] ++ stores_B ++ g.pass_pointer_resets ++
          [barrier_line] ++ g.pass_compute e last_iteration ∧
        no_barrier (g.pass_pointers e ++ stores_A ++ ["//Fetch B to local memory"] ++
          stores_B ++ g.pass_pointer_resets) ∧
        no_barrier (g.pass_compute e last_iteration) ∧
        (∀ l ∈ g.register_loads_A e ++ g.register_loads_B e,
          l ∈ g.pass_compute e last_iteration) ∧
        lines.count barrier_line = 2) ∧
    (∀ main, g.main_kernel_text e = some main →
      ∃ main_pass predicates tail_pass, g.fetch_to_lds e false = some main_pass ∧
        g.tail_predicates = some predicates ∧ g.fetch_to_lds e true = some tail_pass ∧
        main = g.prologue e ++ ["//Outer loop", "while(K >=" ++ to_string g.p_.kL ++ ")", "\x7b"] ++
          main_pass ++ ["\x7d"] ++ predicates ++ tail_pass ++ g.write_back e ∧
        main_pass.count barrier_line = 2 ∧ tail_pass.count barrier_line = 2 ∧
        main.count barrier_line = 4) ∧
    (g.generation_defined → ∃ main, g.main_kernel_text e = some main) := by
  have hs : ∀ v o p, e.VSTORE v o p ≠ "$LOCAL_BARRIER" := by
    intro v o p
    rw [locals_VSTORE g h suffix args sdtype backend e he]
    exact hstore _ _ _ _ _ _ _
  refine ⟨?_, ?_, main_kernel_text_returns g e⟩
  · intro last_iteration lines hl
    obtain ⟨sA, sB, hA, hB, hlines, h1, h2, hc⟩ :=
      pass_barrier_count g e last_iteration hs lines hl
    refine ⟨sA, sB, hA, hB, hlines, h1, h2, ?_, hc⟩
    intro l hm
    unfold gemm.pass_compute
    simp only [List.mem_append] at hm ⊢
    rcases hm with hm | hm
    · exact Or.inl (Or.inl (Or.inl (Or.inl (Or.inl (Or.inl (Or.inl (Or.inr hm)))))))
    · exact Or.inl (Or.inl (Or.inl (Or.inl (Or.inl (Or.inr hm)))))
  · intro main hmain
    unfold gemm.main_kernel_text at hmain
    split at hmain
    · rename_i main_pass predicates tail_pass h1 h2 h3
      injection hmain with hmain
      obtain ⟨-, -, -, -, -, -, -, c1⟩ := pass_barrier_count g e false hs main_pass h1
      obtain ⟨-, -, -, -, -, -, -, c3⟩ := pass_barrier_count g e true hs tail_pass h3
      refine ⟨main_pass, predicates, tail_pass, h1, h2, h3, hmain.symm, c1, c3, ?_⟩
      rw [← hmain]
      have p1 := count_of_no_barrier _ (prologue_no_barrier g e)
      have p2 := count_of_no_barrier _ (tail_predicates_no_barrier g predicates h2)
      have p3 := count_of_no_barrier _ (write_back_no_barrier g e)
      have p4 : no_barrier ["//Outer loop", "while(K >=" ++ to_string g.p_.kL ++ ")", "\x7b"] := by
        refine no_barrier_cons _ _ (by decide) (no_barrier_cons _ _ ?_
          (no_barrier_cons _ _ (by decide) no_barrier_nil))
        exact ne_barrier_of_foreign _ (foreign_append_left _ _ (foreign_append_left _ _
          (by decide)))
      have p5 : no_barrier ["\x7d"] := no_barrier_cons _ _ (by decide) no_barrier_nil
      have p4' := count_of_no_barrier _ p4
      have p5' := count_of_no_barrier _ p5
      simp only [List.count_append]
      omega
    · cases hmain

theorem sample_vstore_statement (w : Nat) (t v o p i : String) (b : backend_type) :
    sample_helpers.vstore w t v o p i b ≠ "$LOCAL_BARRIER" := by
  intro heq
  have hd := congrArg String.data heq
  change 'v' :: _ = '$' :: _ at hd
  injection hd with h1
  exact absurd h1 (by decide)

/-- Witness for C21: the main kernel of the sample template has four barrier
statements. -/
theorem main_kernel_barriers_witness :
    ∃ e main, sample_gemm.generate_impl_locals sample_helpers "" launch_args "float"
        backend_type.OPENCL = some e ∧
      sample_gemm.main_kernel_text e = some main ∧ main.count barrier_line = 4 := by
  obtain ⟨e, he, -⟩ := generate_impl_locals_returns sample_gemm sample_helpers "" launch_args
    "float" backend_type.OPENCL (by decide)
  have hw := main_kernel_barriers sample_gemm sample_helpers "" launch_args "float"
    backend_type.OPENCL sample_vstore_statement e he
  obtain ⟨main, hmain⟩ := hw.2.2 (by decide)
  obtain ⟨-, -, -, -, -, -, -, -, -, hc⟩ := hw.2.1 main hmain
  exact ⟨e, main, he, hmain, hc⟩


/-! ## Decimal text -/

theorem digitChar_facts : ∀ k, k < 10 →
    (Nat.digitChar k).isDigit = true ∧ (Nat.digitChar k).toNat - 48 = k ∧
      neutral (Nat.digitChar k) = true := by
  decide

theorem digits_value_append (pre : List Char) (d : Char) :
    digits_value (pre ++ [d]) = digits_value pre * 10 + (d.toNat - 48) := by
  unfold digits_value
  rw [List.foldl_append]
  rfl

theorem toDigitsCore_facts (fuel : Nat) : ∀ n ds, n < fuel →
    ∃ pre, Nat.toDigitsCore 10 fuel n ds = pre ++ ds ∧ digits_value pre = n ∧ pre ≠ [] ∧
      ∀ c ∈ pre, c.isDigit = true ∧ neutral c = true := by
  induction fuel with
  | zero => intro n ds h; omega
  | succ fuel ih =>
    intro n ds h
    have hd := digitChar_facts (n % 10) (Nat.mod_lt _ (by decide))
    unfold Nat.toDigitsCore
    simp only []
    by_cases h0 : n / 10 = 0
    · rw [if_pos h0]
      refine ⟨[Nat.digitChar (n % 10)], rfl, ?_, by simp, ?_⟩
      · have := digits_value_append [] (Nat.digitChar (n % 10))
        simp only [List.nil_append] at this
        rw [this, hd.2.1]
        have : digits_value [] = 0 := rfl
        rw [this]
        omega
      · intro c hc
        rw [List.mem_singleton] at hc
        subst hc
        exact ⟨hd.1, hd.2.2⟩
    · rw [if_neg h0]
      obtain ⟨pre, hpre, hval, hne, hall⟩ := ih (n / 10) (Nat.digitChar (n % 10) :: ds)
        (by omega)
      refine ⟨pre ++ [Nat.digitChar (n % 10)], ?_, ?_, by simp, ?_⟩
      · rw [hpre, List.append_assoc]
        rfl
      · rw [digits_value_append, hval, hd.2.1]
        omega
      · intro c hc
        rcases List.mem_append.1 hc with hc | hc
        · exact hall c hc
        · rw [List.mem_singleton] at hc
          subst hc
          exact ⟨hd.1, hd.2.2⟩

theorem to_string_facts (n : Nat) :
    digits_value (to_string n).data = n ∧ (to_string n).data ≠ [] ∧
      ∀ c ∈ (to_string n).data, c.isDigit = true ∧ neutral c = true := by
  obtain ⟨pre, hpre, hval, hne, hall⟩ := toDigitsCore_facts (n + 1) n [] (by omega)
  have hd : (to_string n).data = pre := by
    rw [← List.append_nil pre, ← hpre]
    rfl
  rw [hd]
  exact ⟨hval, hne, hall⟩

theorem to_string_injective (m n : Nat) (h : to_string m = to_string n) : m = n := by
  rw [← (to_string_facts m).1, ← (to_string_facts n).1, h]

theorem digit_run_unique (d1 d2 r1 r2 : List Char) (c1 c2 : Char)
    (h1 : ∀ c ∈ d1, c.isDigit = true) (h2 : ∀ c ∈ d2, c.isDigit = true)
    (hc1 : c1.isDigit = false) (hc2 : c2.isDigit = false)
    (h : d1 ++ c1 :: r1 = d2 ++ c2 :: r2) : d1 = d2 ∧ c1 :: r1 = c2 :: r2 := by
  induction d1 generalizing d2 with
  | nil =>
    cases d2 with
    | nil => exact ⟨rfl, h⟩
    | cons b d2 =>
      exfalso
      simp only [List.nil_append, List.cons_append] at h
      injection h with hb _
      have := h2 b (List.mem_cons_self _ _)
      rw [← hb, hc1] at this
      cases this
  | cons a d1 ih =>
    cases d2 with
    | nil =>
      exfalso
      simp only [List.nil_append, List.cons_append] at h
      injection h with hb _
      have := h1 a (List.mem_cons_self _ _)
      rw [hb, hc2] at this
      cases this
    | cons b d2 =>
      simp only [List.cons_append] at h
      injection h with hab ht
      obtain ⟨e1, e2⟩ := ih d2 (fun c hc => h1 c (List.mem_cons_of_mem _ hc))
        (fun c hc => h2 c (List.mem_cons_of_mem _ hc)) ht
      exact ⟨by rw [hab, e1], e2⟩


/-! ## Occurrences of `beta` -/

theorem infix_split (p x y : List Char) (c : Char) (hc : c ∉ p) (h : p <:+: x ++ c :: y) :
    p <:+: x ∨ p <:+: y := by
  obtain ⟨s, t, hst⟩ := h
  rw [List.append_assoc] at hst
  rcases List.append_eq_append_iff.1 hst with ⟨a', hx, hpt⟩ | ⟨c', hs, hcy⟩
  · rcases List.append_eq_append_iff.1 hpt with ⟨b', ha', _⟩ | ⟨b', hp, hb⟩
    · left
      exact ⟨s, b', by rw [hx, ha', List.append_assoc]⟩
    · cases b' with
      | nil =>
        left
        rw [List.append_nil] at hp
        exact ⟨s, [], by rw [hx, hp, List.append_nil]⟩
      | cons d b'' =>
        exfalso
        rw [List.cons_append] at hb
        injection hb with hd _
        apply hc
        rw [hp, hd]
        exact List.mem_append_right _ (List.mem_cons_self _ _)
  · cases c' with
    | nil =>
      rw [List.nil_append] at hcy
      cases p with
      | nil => exact Or.inl ⟨[], x, rfl⟩
      | cons d p' =>
        exfalso
        rw [List.cons_append] at hcy
        injection hcy with hd _
        apply hc
        rw [hd]
        exact List.mem_cons_self _ _
    | cons d c'' =>
      right
      rw [List.cons_append] at hcy
      injection hcy with _ hy
      exact ⟨c'', t, by rw [hy, List.append_assoc]⟩

theorem not_mem_of_neutral (c : Char) (h : neutral c = true) : c ∉ "beta".data := by
  intro hm
  unfold neutral at h
  have : "beta".data.contains c = true := List.elem_eq_true_of_mem hm
  rw [this] at h
  cases h

theorem beta_free_append (x y : String) (hx : clean_end x) (hy : beta_free y) :
    beta_free (x ++ y) := by
  obtain ⟨hx, he⟩ := hx
  unfold beta_free at hx hy ⊢
  rw [String.data_append]
  unfold neutral_end at he
  rcases List.eq_nil_or_concat x.data with h0 | ⟨x', c, hx'⟩
  · rw [h0, List.nil_append]
    exact hy
  · rw [hx'] at he hx ⊢
    rw [List.concat_eq_append, List.getLast?_append] at he
    have he : neutral c = true := he
    rw [List.concat_eq_append] at hx ⊢
    rw [List.append_assoc]
    intro hin
    rcases infix_split _ _ _ _ (not_mem_of_neutral c he) hin with h1 | h1
    · exact hx (h1.trans (List.infix_append' [] x' [c]))
    · exact hy h1

theorem neutral_end_append (x y : String) (hx : neutral_end x = true)
    (hy : neutral_end y = true) : neutral_end (x ++ y) = true := by
  unfold neutral_end at hx hy ⊢
  rw [String.data_append, List.getLast?_append]
  cases hl : y.data.getLast? with
  | none =>
    rw [Option.none_or]
    exact hx
  | some d =>
    rw [hl] at hy
    exact hy

theorem clean_end_append (x y : String) (hx : clean_end x) (hy : clean_end y) :
    clean_end (x ++ y) :=
  ⟨beta_free_append x y hx hy.1, neutral_end_append x y hx.2 hy.2⟩

theorem piece_facts (l : String) (h : neutral_piece l = true) :
    beta_free l ∧ neutral_end l = true ∧ ∃ c rest, l.data = c :: rest ∧ neutral c = true := by
  unfold neutral_piece at h
  unfold beta_free neutral_end
  cases hh : l.data.head? with
  | none => rw [hh] at h; cases h
  | some c =>
    cases hl : l.data.getLast? with
    | none => rw [hh, hl] at h; cases h
    | some d =>
      rw [hh, hl] at h
      simp only [Bool.and_eq_true, Bool.not_eq_true', decide_eq_false_iff_not] at h
      refine ⟨h.2, h.1.2, ?_⟩
      cases hd : l.data with
      | nil => rw [hd] at hh; cases hh
      | cons a rest =>
        rw [hd] at hh
        injection hh with hh
        exact ⟨a, rest, rfl, by rw [hh]; exact h.1.1⟩

theorem clean_end_of_piece (l : String) (h : neutral_piece l = true) : clean_end l :=
  ⟨(piece_facts l h).1, (piece_facts l h).2.1⟩

theorem clean_end_append_piece (x y : String) (hx : beta_free x)
    (hy : neutral_piece y = true) : clean_end (x ++ y) := by
  obtain ⟨hfree, hend, c, rest, hdata, hc⟩ := piece_facts y hy
  refine ⟨?_, ?_⟩
  · unfold beta_free at hx hfree ⊢
    rw [String.data_append, hdata]
    intro hin
    rcases infix_split _ _ _ _ (not_mem_of_neutral c hc) hin with h1 | h1
    · exact hx h1
    · apply hfree
      rw [hdata]
      exact h1.trans (List.infix_cons (List.infix_refl rest))
  · unfold neutral_end at hend ⊢
    rw [String.data_append, List.getLast?_append]
    cases hl : y.data.getLast? with
    | none => rw [hdata] at hl; simp at hl
    | some d =>
      rw [hl] at hend
      exact hend

theorem beta_free_append_piece (x y : String) (hx : beta_free x)
    (hy : neutral_piece y = true) : beta_free (x ++ y) :=
  (clean_end_append_piece x y hx hy).1

theorem clean_end_append_stride (x y : String) (hx : clean_end x) (hy : stride_text y) :
    clean_end (x ++ y) := by
  rcases hy with rfl | hy
  · have : x ++ "" = x := String.ext (by rw [String.data_append]; exact List.append_nil _)
    rw [this]
    exact hx
  · exact clean_end_append_piece x y hx.1 hy

theorem beta_free_append_stride (x y : String) (hx : clean_end x) (hy : stride_text y) :
    beta_free (x ++ y) :=
  (clean_end_append_stride x y hx hy).1

theorem to_string_piece (n : Nat) : neutral_piece (to_string n) = true := by
  obtain ⟨-, hne, hall⟩ := to_string_facts n
  unfold neutral_piece
  cases hd : (to_string n).data with
  | nil => exact absurd hd hne
  | cons a rest =>
    have hlast : ∃ d, (a :: rest).getLast? = some d ∧ d ∈ a :: rest := by
      refine ⟨(a :: rest).getLast (by simp), List.getLast?_eq_getLast _ _, List.getLast_mem _⟩
    obtain ⟨d, hd1, hd2⟩ := hlast
    rw [hd] at hall
    simp only [List.head?_cons, hd1, Bool.and_eq_true, Bool.not_eq_true',
      decide_eq_false_iff_not]
    refine ⟨⟨(hall a (List.mem_cons_self _ _)).2, (hall d hd2).2⟩, ?_⟩
    intro hin
    have hb : 'b' ∈ a :: rest := hin.subset (by decide)
    have := (hall 'b' hb).2
    revert this
    decide

theorem decimal_eq (n : Nat) : decimal n = to_string n := by
  unfold decimal
  rfl

theorem decimal_piece (n : Nat) : neutral_piece (decimal n) = true := by
  rw [decimal_eq]
  exact to_string_piece n


theorem lines_all_nil (P : String → Prop) : lines_all P [] := by
  intro l hl
  cases hl

theorem lines_all_cons (P : String → Prop) (l : String) (ls : List String) (h : P l)
    (hs : lines_all P ls) : lines_all P (l :: ls) := by
  intro x hx
  rcases List.mem_cons.1 hx with rfl | hx
  · exact h
  · exact hs x hx

theorem lines_all_append (P : String → Prop) (xs ys : List String) (hx : lines_all P xs)
    (hy : lines_all P ys) : lines_all P (xs ++ ys) := by
  intro x hm
  rcases List.mem_append.1 hm with hm | hm
  · exact hx x hm
  · exact hy x hm

theorem lines_all_ite (P : String → Prop) (c : Prop) [Decidable c] (xs ys : List String)
    (hx : lines_all P xs) (hy : lines_all P ys) : lines_all P (if c then xs else ys) := by
  split
  · exact hx
  · exact hy

theorem lines_all_map (P : String → Prop) (f : Nat → String) (is : List Nat)
    (h : ∀ i, P (f i)) : lines_all P (is.map f) := by
  intro x hm
  obtain ⟨i, -, rfl⟩ := List.mem_map.1 hm
  exact h i

theorem lines_all_flatMap (P : String → Prop) (f : Nat → List String) (is : List Nat)
    (h : ∀ i, lines_all P (f i)) : lines_all P (is.flatMap f) := by
  intro x hm
  obtain ⟨i, -, hx⟩ := List.mem_flatMap.1 hm
  exact h i x hx

theorem lines_all_nested (P : String → Prop) (outer inner : Option (List Nat))
    (body : Nat → Nat → List String) (lines : List String)
    (h : nested_lines outer inner body = some lines)
    (hb : ∀ k m, lines_all P (body k m)) : lines_all P lines := by
  unfold nested_lines at h
  cases outer with
  | none => cases h
  | some ks =>
    by_cases he : ks.isEmpty = true
    · simp only [he, if_true] at h
      injection h with h
      subst h
      exact lines_all_nil P
    · simp only [he, Bool.false_eq_true, if_false] at h
      cases inner with
      | none => cases h
      | some ms =>
        injection h with h
        subst h
        exact lines_all_flatMap P _ _ (fun k => lines_all_flatMap P _ _ (fun m => hb k m))

/-- The lines after the first one have a property, and there is a first line. -/
theorem tail_all_cons (P : String → Prop) (l : String) (ls : List String)
    (h : lines_all P ls) : (l :: ls) ≠ [] ∧ lines_all P (l :: ls).tail :=
  ⟨List.cons_ne_nil _ _, h⟩

theorem tail_all_append (P : String → Prop) (xs ys : List String)
    (hx : xs ≠ [] ∧ lines_all P xs.tail) (hy : lines_all P ys) :
    (xs ++ ys) ≠ [] ∧ lines_all P (xs ++ ys).tail := by
  obtain ⟨hne, hx⟩ := hx
  cases xs with
  | nil => exact absurd rfl hne
  | cons a xs' => exact ⟨List.cons_ne_nil _ _, lines_all_append P _ _ hx hy⟩

theorem pass_pointers_beta_free (g : gemm) (e : kernel_locals) (hb : e.beta_free) :
    lines_all beta_free (g.pass_pointers e) := by
  obtain ⟨hsd, hvd, hA, hB, hC, hVL, hVLM, hVS, hSEL, hAVT⟩ := hb
  unfold gemm.pass_pointers
  simp only [← decimal_eq]
  repeat' (first
    | exact lines_all_nil _
    | refine tail_all_append _ _ _ ?_ ?_
    | refine tail_all_cons _ _ _ ?_
    | refine lines_all_append _ _ _ ?_ ?_
    | refine lines_all_cons _ _ _ ?_ ?_
    | refine lines_all_ite _ _ _ _ ?_ ?_
    | refine lines_all_map _ _ _ (fun _ => ?_)
    | refine lines_all_flatMap _ _ _ (fun _ => ?_))
  all_goals repeat' (first
    | refine beta_free_append_piece _ _ ?_ (decimal_piece _)
    | refine beta_free_append_piece _ _ ?_ (by decide)
    | refine beta_free_append_stride _ _ ?_ hA
    | refine beta_free_append_stride _ _ ?_ hB
    | refine beta_free_append_stride _ _ ?_ hC
    | refine clean_end_append_piece _ _ ?_ (decimal_piece _)
    | refine clean_end_append_piece _ _ ?_ (by decide)
    | refine clean_end_append_stride _ _ ?_ hA
    | refine clean_end_append_stride _ _ ?_ hB
    | refine clean_end_append_stride _ _ ?_ hC
    | refine beta_free_append _ _ ?_ ?_
    | refine clean_end_append _ _ ?_ ?_
    | decide
    | exact clean_end_of_piece _ (by decide)
    | exact clean_end_of_piece _ (decimal_piece _)
    | exact (clean_end_of_piece _ (decimal_piece _)).1
    | exact hsd
    | exact hvd
    | refine hVL _ _ ?_ ?_
    | refine hVLM _ _ ?_ ?_
    | refine hVS _ _ _ ?_ ?_ ?_
    | refine hSEL _ _ _ ?_ ?_ ?_
    | refine hAVT _ _ ?_
    | split)

theorem pass_pointer_resets_beta_free (g : gemm) (e : kernel_locals) (hb : e.beta_free) :
    lines_all beta_free g.pass_pointer_resets := by
  obtain ⟨hsd, hvd, hA, hB, hC, hVL, hVLM, hVS, hSEL, hAVT⟩ := hb
  unfold gemm.pass_pointer_resets
  simp only [← decimal_eq]
  repeat' (first
    | exact lines_all_nil _
    | refine tail_all_append _ _ _ ?_ ?_
    | refine tail_all_cons _ _ _ ?_
    | refine lines_all_append _ _ _ ?_ ?_
    | refine lines_all_cons _ _ _ ?_ ?_
    | refine lines_all_ite _ _ _ _ ?_ ?_
    | refine lines_all_map _ _ _ (fun _ => ?_)
    | refine lines_all_flatMap _ _ _ (fun _ => ?_))
  all_goals repeat' (first
    | refine beta_free_append_piece _ _ ?_ (decimal_piece _)
    | refine beta_free_append_piece _ _ ?_ (by decide)
    | refine beta_free_append_stride _ _ ?_ hA
    | refine beta_free_append_stride _ _ ?_ hB
    | refine beta_free_append_stride _ _ ?_ hC
    | refine clean_end_append_piece _ _ ?_ (decimal_piece _)
    | refine clean_end_append_piece _ _ ?_ (by decide)
    | refine clean_end_append_stride _ _ ?_ hA
    | refine clean_end_append_stride _ _ ?_ hB
    | refine clean_end_append_stride _ _ ?_ hC
    | refine beta_free_append _ _ ?_ ?_
    | refine clean_end_append _ _ ?_ ?_
    | decide
    | exact clean_end_of_piece _ (by decide)
    | exact clean_end_of_piece _ (decimal_piece _)
    | exact (clean_end_of_piece _ (decimal_piece _)).1
    | exact hsd
    | exact hvd
    | refine hVL _ _ ?_ ?_
    | refine hVLM _ _ ?_ ?_
    | refine hVS _ _ _ ?_ ?_ ?_
    | refine hSEL _ _ _ ?_ ?_ ?_
    | refine hAVT _ _ ?_
    | split)

theorem pass_compute_beta_free (g : gemm) (e : kernel_locals) (last_iteration : Bool)
    (hb : e.beta_free) : lines_all beta_free (g.pass_compute e last_iteration) := by
  obtain ⟨hsd, hvd, hA, hB, hC, hVL, hVLM, hVS, hSEL, hAVT⟩ := hb
  unfold gemm.pass_compute gemm.register_loads_A gemm.register_loads_B
  simp only [← decimal_eq]
  repeat' (first
    | exact lines_all_nil _
    | refine tail_all_append _ _ _ ?_ ?_
    | refine tail_all_cons _ _ _ ?_
    | refine lines_all_append _ _ _ ?_ ?_
    | refine lines_all_cons _ _ _ ?_ ?_
    | refine lines_all_ite _ _ _ _ ?_ ?_
    | refine lines_all_map _ _ _ (fun _ => ?_)
    | refine lines_all_flatMap _ _ _ (fun _ => ?_))
  all_goals repeat' (first
    | refine beta_free_append_piece _ _ ?_ (decimal_piece _)
    | refine beta_free_append_piece _ _ ?_ (by decide)
    | refine beta_free_append_stride _ _ ?_ hA
    | refine beta_free_append_stride _ _ ?_ hB
    | refine beta_free_append_stride _ _ ?_ hC
    | refine clean_end_append_piece _ _ ?_ (decimal_piece _)
    | refine clean_end_append_piece _ _ ?_ (by decide)
    | refine clean_end_append_stride _ _ ?_ hA
    | refine clean_end_append_stride _ _ ?_ hB
    | refine clean_end_append_stride _ _ ?_ hC
    | refine beta_free_append _ _ ?_ ?_
    | refine clean_end_append _ _ ?_ ?_
    | decide
    | exact clean_end_of_piece _ (by decide)
    | exact clean_end_of_piece _ (decimal_piece _)
    | exact (clean_end_of_piece _ (decimal_piece _)).1
    | exact hsd
    | exact hvd
    | refine hVL _ _ ?_ ?_
    | refine hVLM _ _ ?_ ?_
    | refine hVS _ _ _ ?_ ?_ ?_
    | refine hSEL _ _ _ ?_ ?_ ?_
    | refine hAVT _ _ ?_
    | split)

theorem prologue_body_beta_free (g : gemm) (e : kernel_locals) (hb : e.beta_free) :
    g.prologue e ≠ [] ∧ lines_all beta_free (g.prologue e).tail := by
  obtain ⟨hsd, hvd, hA, hB, hC, hVL, hVLM, hVS, hSEL, hAVT⟩ := hb
  unfold gemm.prologue
  simp only [← decimal_eq]
  repeat' (first
    | exact lines_all_nil _
    | refine tail_all_append _ _ _ ?_ ?_
    | refine tail_all_cons _ _ _ ?_
    | refine lines_all_append _ _ _ ?_ ?_
    | refine lines_all_cons _ _ _ ?_ ?_
    | refine lines_all_ite _ _ _ _ ?_ ?_
    | refine lines_all_map _ _ _ (fun _ => ?_)
    | refine lines_all_flatMap _ _ _ (fun _ => ?_))
  all_goals repeat' (first
    | refine beta_free_append_piece _ _ ?_ (decimal_piece _)
    | refine beta_free_append_piece _ _ ?_ (by decide)
    | refine beta_free_append_stride _ _ ?_ hA
    | refine beta_free_append_stride _ _ ?_ hB
    | refine beta_free_append_stride _ _ ?_ hC
    | refine clean_end_append_piece _ _ ?_ (decimal_piece _)
    | refine clean_end_append_piece _ _ ?_ (by decide)
    | refine clean_end_append_stride _ _ ?_ hA
    | refine clean_end_append_stride _ _ ?_ hB
    | refine clean_end_append_stride _ _ ?_ hC
    | refine beta_free_append _ _ ?_ ?_
    | refine clean_end_append _ _ ?_ ?_
    | decide
    | exact clean_end_of_piece _ (by decide)
    | exact clean_end_of_piece _ (decimal_piece _)
    | exact (clean_end_of_piece _ (decimal_piece _)).1
    | exact hsd
    | exact hvd
    | refine hVL _ _ ?_ ?_
    | refine hVLM _ _ ?_ ?_
    | refine hVS _ _ _ ?_ ?_ ?_
    | refine hSEL _ _ _ ?_ ?_ ?_
    | refine hAVT _ _ ?_
    | split)

theorem write_back_beta_free (g : gemm) (e : kernel_locals) (hb : e.beta_free)
    (hd : g.p_.depth > 1) : lines_all beta_free (g.write_back e) := by
  obtain ⟨hsd, hvd, hA, hB, hC, hVL, hVLM, hVS, hSEL, hAVT⟩ := hb
  unfold gemm.write_back
  simp only [← decimal_eq, hd, if_true]
  repeat' (first
    | exact lines_all_nil _
    | refine tail_all_append _ _ _ ?_ ?_
    | refine tail_all_cons _ _ _ ?_
    | refine lines_all_append _ _ _ ?_ ?_
    | refine lines_all_cons _ _ _ ?_ ?_
    | refine lines_all_ite _ _ _ _ ?_ ?_
    | refine lines_all_map _ _ _ (fun _ => ?_)
    | refine lines_all_flatMap _ _ _ (fun _ => ?_))
  all_goals repeat' (first
    | refine beta_free_append_piece _ _ ?_ (decimal_piece _)
    | refine beta_free_append_piece _ _ ?_ (by decide)
    | refine beta_free_append_stride _ _ ?_ hA
    | refine beta_free_append_stride _ _ ?_ hB
    | refine beta_free_append_stride _ _ ?_ hC
    | refine clean_end_append_piece _ _ ?_ (decimal_piece _)
    | refine clean_end_append_piece _ _ ?_ (by decide)
    | refine clean_end_append_stride _ _ ?_ hA
    | refine clean_end_append_stride _ _ ?_ hB
    | refine clean_end_append_stride _ _ ?_ hC
    | refine beta_free_append _ _ ?_ ?_
    | refine clean_end_append _ _ ?_ ?_
    | decide
    | exact clean_end_of_piece _ (by decide)
    | exact clean_end_of_piece _ (decimal_piece _)
    | exact (clean_end_of_piece _ (decimal_piece _)).1
    | exact hsd
    | exact hvd
    | refine hVL _ _ ?_ ?_
    | refine hVLM _ _ ?_ ?_
    | refine hVS _ _ _ ?_ ?_ ?_
    | refine hSEL _ _ _ ?_ ?_ ?_
    | refine hAVT _ _ ?_
    | split)

theorem stores_A_beta_free (g : gemm) (e : kernel_locals) (last_iteration : Bool)
    (hb : e.beta_free) (lines : List String)
    (h : g.stores_A e last_iteration = some lines) : lines_all beta_free lines := by
  obtain ⟨hsd, hvd, hA, hB, hC, hVL, hVLM, hVS, hSEL, hAVT⟩ := hb
  unfold gemm.stores_A at h
  simp only [← decimal_eq] at h
  split at h <;> refine lines_all_nested _ _ _ _ _ h (fun k m => ?_)
  repeat' (first
    | exact lines_all_nil _
    | refine tail_all_append _ _ _ ?_ ?_
    | refine tail_all_cons _ _ _ ?_
    | refine lines_all_append _ _ _ ?_ ?_
    | refine lines_all_cons _ _ _ ?_ ?_
    | refine lines_all_ite _ _ _ _ ?_ ?_
    | refine lines_all_map _ _ _ (fun _ => ?_)
    | refine lines_all_flatMap _ _ _ (fun _ => ?_))
  all_goals repeat' (first
    | refine beta_free_append_piece _ _ ?_ (decimal_piece _)
    | refine beta_free_append_piece _ _ ?_ (by decide)
    | refine beta_free_append_stride _ _ ?_ hA
    | refine beta_free_append_stride _ _ ?_ hB
    | refine beta_free_append_stride _ _ ?_ hC
    | refine clean_end_append_piece _ _ ?_ (decimal_piece _)
    | refine clean_end_append_piece _ _ ?_ (by decide)
    | refine clean_end_append_stride _ _ ?_ hA
    | refine clean_end_append_stride _ _ ?_ hB
    | refine clean_end_append_stride _ _ ?_ hC
    | refine beta_free_append _ _ ?_ ?_
    | refine clean_end_append _ _ ?_ ?_
    | decide
    | exact clean_end_of_piece _ (by decide)
    | exact clean_end_of_piece _ (decimal_piece _)
    | exact (clean_end_of_piece _ (decimal_piece _)).1
    | exact hsd
    | exact hvd
    | refine hVL _ _ ?_ ?_
    | refine hVLM _ _ ?_ ?_
    | refine hVS _ _ _ ?_ ?_ ?_
    | refine hSEL _ _ _ ?_ ?_ ?_
    | refine hAVT _ _ ?_
    | split)

theorem stores_B_beta_free (g : gemm) (e : kernel_locals) (last_iteration : Bool)
    (hb : e.beta_free) (lines : List String)
    (h : g.stores_B e last_iteration = some lines) : lines_all beta_free lines := by
  obtain ⟨hsd, hvd, hA, hB, hC, hVL, hVLM, hVS, hSEL, hAVT⟩ := hb
  unfold gemm.stores_B at h
  simp only [← decimal_eq] at h
  split at h <;> refine lines_all_nested _ _ _ _ _ h (fun k m => ?_)
  repeat' (first
    | exact lines_all_nil _
    | refine tail_all_append _ _ _ ?_ ?_
    | refine tail_all_cons _ _ _ ?_
    | refine lines_all_append _ _ _ ?_ ?_
    | refine lines_all_cons _ _ _ ?_ ?_
    | refine lines_all_ite _ _ _ _ ?_ ?_
    | refine lines_all_map _ _ _ (fun _ => ?_)
    | refine lines_all_flatMap _ _ _ (fun _ => ?_))
  all_goals repeat' (first
    | refine beta_free_append_piece _ _ ?_ (decimal_piece _)
    | refine beta_free_append_piece _ _ ?_ (by decide)
    | refine beta_free_append_stride _ _ ?_ hA
    | refine beta_free_append_stride _ _ ?_ hB
    | refine beta_free_append_stride _ _ ?_ hC
    | refine clean_end_append_piece _ _ ?_ (decimal_piece _)
    | refine clean_end_append_piece _ _ ?_ (by decide)
    | refine clean_end_append_stride _ _ ?_ hA
    | refine clean_end_append_stride _ _ ?_ hB
    | refine clean_end_append_stride _ _ ?_ hC
    | refine beta_free_append _ _ ?_ ?_
    | refine clean_end_append _ _ ?_ ?_
    | decide
    | exact clean_end_of_piece _ (by decide)
    | exact clean_end_of_piece _ (decimal_piece _)
    | exact (clean_end_of_piece _ (decimal_piece _)).1
    | exact hsd
    | exact hvd
    | refine hVL _ _ ?_ ?_
    | refine hVLM _ _ ?_ ?_
    | refine hVS _ _ _ ?_ ?_ ?_
    | refine hSEL _ _ _ ?_ ?_ ?_
    | refine hAVT _ _ ?_
    | split)

theorem tail_predicates_beta_free (g : gemm) (lines : List String)
    (h : g.tail_predicates = some lines) : lines_all beta_free lines := by
  unfold gemm.tail_predicates at h
  simp only [← decimal_eq] at h
  split at h
  · rename_i ly lx hy hx
    injection h with h
    subst h
    refine lines_all_append _ _ _ ?_ ?_
    · split at hy
      · split at hy
        · cases hy
        · injection hy with hy
          subst hy
          refine lines_all_append _ _ _ (lines_all_cons _ _ _ (by decide) (lines_all_nil _))
            (lines_all_map _ _ _ (fun k => ?_))
          exact beta_free_append_piece _ _ (beta_free_append_piece _ _
            (beta_free_append_piece _ _ (beta_free_append_piece _ _ (by decide)
              (decimal_piece _)) (by decide)) (decimal_piece _)) (by decide)
      · injection hy with hy
        subst hy
        exact lines_all_nil _
    · split at hx
      · split at hx
        · cases hx
        · injection hx with hx
          subst hx
          refine lines_all_append _ _ _ (lines_all_cons _ _ _ (by decide) (lines_all_nil _))
            (lines_all_flatMap _ _ _ (fun k => lines_all_map _ _ _ (fun s => ?_)))
          exact beta_free_append_piece _ _ (beta_free_append_piece _ _
            (beta_free_append_piece _ _ (beta_free_append_piece _ _ (by decide)
              (decimal_piece _)) (by decide)) (decimal_piece _)) (by decide)
      · injection hx with hx
        subst hx
        exact lines_all_nil _
  · cases h


/-! ## Statements of the write-back -/

theorem ne_of_opens (cs l l' : String) (h : opens_with cs l = true)
    (h' : opens_with cs l' = false) : l ≠ l' := by
  intro heq
  rw [heq, h'] at h
  cases h

theorem count_map_zero (f : Nat → String) (x : String) (is : List Nat)
    (h : ∀ i, f i ≠ x) : (is.map f).count x = 0 := by
  apply List.count_eq_zero.2
  intro hm
  obtain ⟨i, -, hi⟩ := List.mem_map.1 hm
  exact h i hi

theorem count_map_range_unique (f : Nat → String) (x : String) (M m : Nat) (hm : m < M)
    (h1 : f m = x) (h0 : ∀ i, i ≠ m → f i ≠ x) : ((List.range M).map f).count x = 1 := by
  induction M with
  | zero => omega
  | succ M ih =>
    rw [List.range_succ, List.map_append, List.count_append, List.map_singleton]
    by_cases hlt : m < M
    · rw [ih hlt]
      have : f M ≠ x := h0 M (by omega)
      rw [List.count_singleton]
      simp only [beq_iff_eq, this, if_false]
    · have hM : m = M := by omega
      subst hM
      have hz : ((List.range m).map f).count x = 0 := by
        apply List.count_eq_zero.2
        intro hmem
        obtain ⟨i, hi, hfi⟩ := List.mem_map.1 hmem
        exact h0 i (by have := List.mem_range.1 hi; omega) hfi
      rw [hz, h1, List.count_singleton_self]

theorem count_flatMap_range_unique (f : Nat → List String) (x : String) (M m : Nat)
    (hm : m < M) (h1 : (f m).count x = 1) (h0 : ∀ i, i ≠ m → (f i).count x = 0) :
    ((List.range M).flatMap f).count x = 1 := by
  induction M with
  | zero => omega
  | succ M ih =>
    rw [List.range_succ, List.flatMap_append, List.count_append]
    simp only [List.flatMap_cons, List.flatMap_nil, List.append_nil]
    by_cases hlt : m < M
    · rw [ih hlt, h0 M (by omega)]
    · have hM : m = M := by omega
      subst hM
      have hz : ((List.range m).flatMap f).count x = 0 := by
        apply List.count_eq_zero.2
        intro hmem
        obtain ⟨i, hi, hfi⟩ := List.mem_flatMap.1 hmem
        have := h0 i (by have := List.mem_range.1 hi; omega)
        exact (List.count_eq_zero.1 this) hfi
      rw [hz, h1]

theorem flatMap_split (f : Nat → List String) (is : List Nat) (i : Nat) (hi : i ∈ is) :
    ∃ s t, is.flatMap f = s ++ f i ++ t := by
  obtain ⟨a, b, hab⟩ := List.mem_iff_append.1 hi
  refine ⟨a.flatMap f, b.flatMap f, ?_⟩
  rw [hab, List.flatMap_append, List.flatMap_cons, List.append_assoc]

theorem map_split (f : Nat → String) (is : List Nat) (i : Nat) (hi : i ∈ is) :
    ∃ s t, is.map f = s ++ [f i] ++ t := by
  obtain ⟨a, b, hab⟩ := List.mem_iff_append.1 hi
  refine ⟨a.map f, b.map f, ?_⟩
  rw [hab, List.map_append, List.map_cons, List.append_assoc]
  rfl

theorem to_string_digits (n : Nat) : ∀ c ∈ (to_string n).data, c.isDigit = true :=
  fun c hc => ((to_string_facts n).2.2 c hc).1

theorem to_string_data_injective (m n : Nat) (h : (to_string m).data = (to_string n).data) :
    m = n :=
  to_string_injective m n (String.ext h)

theorem scale_line_injective (m n m' n' : Nat) (h : scale_line m n = scale_line m' n') :
    m = m' ∧ n = n' := by
  have hd := congrArg String.data h
  unfold scale_line at hd
  simp only [String.data_append, List.append_assoc, List.cons_append, List.nil_append,
    List.cons.injEq, true_and] at hd
  obtain ⟨hm, h2⟩ := digit_run_unique _ _ _ _ _ _ (to_string_digits m) (to_string_digits m')
    (by decide) (by decide) hd
  simp only [List.cons.injEq, true_and] at h2
  obtain ⟨hn, -⟩ := digit_run_unique _ _ _ _ _ _ (to_string_digits n) (to_string_digits n')
    (by decide) (by decide) h2
  exact ⟨to_string_data_injective _ _ hm, to_string_data_injective _ _ hn⟩

theorem store_line_injective (g : gemm) (e : kernel_locals) (m n m' n' : Nat)
    (h : g.store_line e m n = g.store_line e m' n') : m = m' ∧ n = n' := by
  have hd := congrArg String.data h
  unfold gemm.store_line at hd
  by_cases hdepth : g.p_.depth > 1
  · simp only [hdepth, if_true, String.data_append, List.append_assoc, List.cons_append,
      List.nil_append, List.cons.injEq, true_and] at hd
    obtain ⟨hc, h2⟩ := digit_run_unique _ _ _ _ _ _ (to_string_digits _) (to_string_digits _)
      (by decide) (by decide) hd
    simp only [List.cons.injEq, true_and] at h2
    rw [hc] at h2
    have h3 := List.append_cancel_left (List.append_cancel_left h2)
    simp only [List.cons.injEq, true_and] at h3
    obtain ⟨hm, h4⟩ := digit_run_unique _ _ _ _ _ _ (to_string_digits m) (to_string_digits m')
      (by decide) (by decide) h3
    simp only [List.cons.injEq, true_and] at h4
    obtain ⟨hn, -⟩ := digit_run_unique _ _ _ _ _ _ (to_string_digits n) (to_string_digits n')
      (by decide) (by decide) h4
    exact ⟨to_string_data_injective _ _ hm, to_string_data_injective _ _ hn⟩
  · simp only [hdepth, if_false, String.data_append, List.append_assoc, List.cons_append,
      List.nil_append, List.cons.injEq, true_and] at hd
    obtain ⟨hc, h2⟩ := digit_run_unique _ _ _ _ _ _ (to_string_digits _) (to_string_digits _)
      (by decide) (by decide) hd
    simp only [List.cons.injEq, true_and] at h2
    rw [hc] at h2
    have h3 := List.append_cancel_left (List.append_cancel_left h2)
    simp only [List.cons.injEq, true_and] at h3
    obtain ⟨hm, h4⟩ := digit_run_unique _ _ _ _ _ _ (to_string_digits m) (to_string_digits m')
      (by decide) (by decide) h3
    simp only [List.cons.injEq, true_and] at h4
    obtain ⟨hn, -⟩ := digit_run_unique _ _ _ _ _ _ (to_string_digits n) (to_string_digits n')
      (by decide) (by decide) h4
    exact ⟨to_string_data_injective _ _ hm, to_string_data_injective _ _ hn⟩


theorem count_zero_of_opens (cs x : String) (ls : List String)
    (h : lines_all (fun l => opens_with cs l = true) ls) (hx : opens_with cs x = false) :
    ls.count x = 0 := by
  apply List.count_eq_zero.2
  intro hm
  exact ne_of_opens cs x x (h x hm) hx rfl

theorem write_back_head_opens (g : gemm) (e : kernel_locals) :
    lines_all (fun l => opens_with "/MNC" l = true) (g.write_back_head e) := by
  unfold gemm.write_back_head
  repeat' (first
    | exact lines_all_nil _
    | refine lines_all_append _ _ _ ?_ ?_
    | refine lines_all_cons _ _ _ ?_ ?_
    | refine lines_all_ite _ _ _ _ ?_ ?_)
  all_goals (first | rfl | (split <;> rfl))

theorem column_increment_line_opens (g : gemm) (n : Nat) :
    opens_with "C" (g.column_increment_line n) = true := by
  unfold gemm.column_increment_line
  split <;> rfl

theorem store_line_ne_guard (g : gemm) (e : kernel_locals) (m n n' : Nat) :
    g.store_line e m n ≠ g.column_guard_line n' := by
  intro h
  have hd := congrArg String.data h
  unfold gemm.store_line gemm.column_guard_line at hd
  simp only [String.data_append, List.append_assoc, List.cons_append, List.nil_append,
    List.cons.injEq, true_and] at hd
  obtain ⟨-, h2⟩ := digit_run_unique _ _ _ _ _ _ (to_string_digits _) (to_string_digits _)
    (by decide) (by decide) hd
  injection h2 with h2 _
  revert h2
  decide

theorem column_count_scale (g : gemm) (e : kernel_locals) (m n n' : Nat) (hm : m < g.p_.mS) :
    (g.write_back_column_lines e n').count (scale_line m n) = if n' = n then 1 else 0 := by
  unfold gemm.write_back_column_lines
  rw [List.count_append, List.count_append, List.count_append]
  have h1 : [g.column_guard_line n'].count (scale_line m n) = 0 :=
    count_zero_of_opens "i" _ _ (lines_all_cons _ _ _ rfl (lines_all_nil _)) rfl
  have h3 : ((List.range g.p_.mS).map (fun m' => g.store_line e m' n')).count
      (scale_line m n) = 0 :=
    count_zero_of_opens "i" _ _ (lines_all_map _ _ _ (fun _ => rfl)) rfl
  have h4 : [g.column_increment_line n'].count (scale_line m n) = 0 :=
    count_zero_of_opens "C" _ _
      (lines_all_cons _ _ _ (column_increment_line_opens g n') (lines_all_nil _)) rfl
  rw [h1, h3, h4]
  by_cases hn : n' = n
  · subst hn
    rw [if_pos rfl, count_map_range_unique _ _ _ m hm rfl
      (fun i hi heq => hi (scale_line_injective _ _ _ _ heq).1)]
  · rw [if_neg hn, count_map_zero _ _ _
      (fun i heq => hn (scale_line_injective _ _ _ _ heq).2)]

theorem column_count_store (g : gemm) (e : kernel_locals) (m n n' : Nat) (hm : m < g.p_.mS) :
    (g.write_back_column_lines e n').count (g.store_line e m n) = if n' = n then 1 else 0 := by
  unfold gemm.write_back_column_lines
  rw [List.count_append, List.count_append, List.count_append]
  have h1 : [g.column_guard_line n'].count (g.store_line e m n) = 0 := by
    apply List.count_eq_zero.2
    intro hmem
    rw [List.mem_singleton] at hmem
    exact store_line_ne_guard g e m n n' hmem
  have h2 : ((List.range g.p_.mS).map (fun m' => scale_line m' n')).count
      (g.store_line e m n) = 0 :=
    count_zero_of_opens "r" _ _ (lines_all_map _ _ _ (fun _ => rfl)) rfl
  have h4 : [g.column_increment_line n'].count (g.store_line e m n) = 0 :=
    count_zero_of_opens "C" _ _
      (lines_all_cons _ _ _ (column_increment_line_opens g n') (lines_all_nil _)) rfl
  rw [h1, h2, h4]
  by_cases hn : n' = n
  · subst hn
    rw [if_pos rfl, count_map_range_unique _ _ _ m hm rfl
      (fun i hi heq => hi (store_line_injective g e _ _ _ _ heq).1)]
  · rw [if_neg hn, count_map_zero _ _ _
      (fun i heq => hn (store_line_injective g e _ _ _ _ heq).2)]

theorem write_back_counts (g : gemm) (e : kernel_locals) (m n : Nat) (hm : m < g.p_.mS)
    (hn : n < g.p_.nS) :
    (g.write_back e).count (scale_line m n) = 1 ∧
    (g.write_back e).count (g.store_line e m n) = 1 := by
  rw [write_back_columns, List.count_append, List.count_append, List.count_append,
    List.count_append]
  have a1 : (g.write_back_head e).count (scale_line m n) = 0 :=
    count_zero_of_opens "/MNC" _ _ (write_back_head_opens g e) rfl
  have a2 : (g.write_back_head e).count (g.store_line e m n) = 0 :=
    count_zero_of_opens "/MNC" _ _ (write_back_head_opens g e) rfl
  have b1 : ["\x7d"].count (scale_line m n) = 0 :=
    count_zero_of_opens "\x7d" _ _ (lines_all_cons _ _ _ rfl (lines_all_nil _)) rfl
  have b2 : ["\x7d"].count (g.store_line e m n) = 0 :=
    count_zero_of_opens "\x7d" _ _ (lines_all_cons _ _ _ rfl (lines_all_nil _)) rfl
  have c1 := count_flatMap_range_unique (g.write_back_column_lines e) (scale_line m n)
    g.p_.nS n hn (by rw [column_count_scale g e m n n hm, if_pos rfl])
    (fun i hi => by rw [column_count_scale g e m n i hm, if_neg hi])
  have c2 := count_flatMap_range_unique (g.write_back_column_lines e) (g.store_line e m n)
    g.p_.nS n hn (by rw [column_count_store g e m n n hm, if_pos rfl])
    (fun i hi => by rw [column_count_store g e m n i hm, if_neg hi])
  rw [a1, a2, b1, b2, c1, c2]
  exact ⟨rfl, rfl⟩

theorem write_back_order (g : gemm) (e : kernel_locals) (m n : Nat) (hm : m < g.p_.mS)
    (hn : n < g.p_.nS) :
    ∃ pre mid post, g.write_back e =
      pre ++ [scale_line m n] ++ mid ++ [g.store_line e m n] ++ post := by
  obtain ⟨s, t, hst⟩ := flatMap_split (g.write_back_column_lines e) (List.range g.p_.nS) n
    (List.mem_range.2 hn)
  obtain ⟨s1, t1, h1⟩ := map_split (fun m' => scale_line m' n) (List.range g.p_.mS) m
    (List.mem_range.2 hm)
  obtain ⟨s2, t2, h2⟩ := map_split (fun m' => g.store_line e m' n) (List.range g.p_.mS) m
    (List.mem_range.2 hm)
  refine ⟨g.write_back_head e ++ s ++ [g.column_guard_line n] ++ s1, t1 ++ s2,
    t2 ++ [g.column_increment_line n] ++ t ++ ["\x7d"], ?_⟩
  rw [write_back_columns, hst]
  unfold gemm.write_back_column_lines
  rw [h1, h2]
  simp only [List.append_assoc]


theorem locals_beta_free (g : gemm) (h : text_helpers) (suffix : String)
    (args : gemm_args) (sdtype : String) (backend : backend_type) (e : kernel_locals)
    (hh : h.beta_free) (hs : beta_free sdtype)
    (he : g.generate_impl_locals h suffix args sdtype backend = some e) : e.beta_free := by
  obtain ⟨hw, hvl, hvs, hsel, havt⟩ := hh
  have h1 : beta_free "1" := by decide
  have hA : ∀ c : Prop, ∀ _ : Decidable c, stride_text (if c then "*Astride1" else "") := by
    intro c _
    split
    · exact Or.inr (by decide)
    · exact Or.inl rfl
  have hB : ∀ c : Prop, ∀ _ : Decidable c, stride_text (if c then "*Bstride1" else "") := by
    intro c _
    split
    · exact Or.inr (by decide)
    · exact Or.inl rfl
  have hC : ∀ c : Prop, ∀ _ : Decidable c, stride_text (if c then "*Cstride1" else "") := by
    intro c _
    split
    · exact Or.inr (by decide)
    · exact Or.inl rfl
  unfold gemm.generate_impl_locals at he
  split at he
  · cases he
  · split at he
    · injection he with he
      subst he
      exact ⟨hs, hw _ _ hs, hA _ _, hB _ _, hC _ _,
        fun o p ho hp => hvl _ _ _ _ _ _ _ hs ho hp h1,
        fun o p ho hp => hvl _ _ _ _ _ _ _ hs ho hp h1,
        fun v o p hv ho hp => hvs _ _ _ _ _ _ _ hs hv ho hp h1,
        fun c x y hc hx hy => hsel _ _ _ _ hc hx hy,
        fun v s hv => havt _ _ hv⟩
    · cases he

theorem pass_beta_free (g : gemm) (e : kernel_locals) (last_iteration : Bool)
    (hb : e.beta_free) (lines : List String)
    (h : g.fetch_to_lds e last_iteration = some lines) : lines_all beta_free lines := by
  rw [fetch_to_lds_pass] at h
  cases hA : g.stores_A e last_iteration with
  | none => rw [hA] at h; cases h
  | some sA =>
    cases hB : g.stores_B e last_iteration with
    | none => rw [hA, hB] at h; cases h
    | some sB =>
      rw [hA, hB] at h
      injection h with h
      rw [← h]
      have hbar : lines_all beta_free [barrier_line] :=
        lines_all_cons _ _ _ (by decide) (lines_all_nil _)
      exact lines_all_append _ _ _ (lines_all_append _ _ _ (lines_all_append _ _ _
        (lines_all_append _ _ _ (lines_all_append _ _ _ (lines_all_append _ _ _
          (lines_all_append _ _ _ hbar (pass_pointers_beta_free g e hb))
          (stores_A_beta_free g e _ hb sA hA))
          (lines_all_cons _ _ _ (by decide) (lines_all_nil _)))
          (stores_B_beta_free g e _ hb sB hB)) (pass_pointer_resets_beta_free g e hb)) hbar)
        (pass_compute_beta_free g e _ hb)

theorem prologue_header (g : gemm) (e : kernel_locals) :
    g.prologue e = main_kernel_header e.suffix e.sdtype :: (g.prologue e).tail := by
  rfl

theorem main_body_beta_free (g : gemm) (e : kernel_locals) (hb : e.beta_free)
    (hd : g.p_.depth > 1) (main : List String) (hmain : g.main_kernel_text e = some main) :
    ∃ body, main = main_kernel_header e.suffix e.sdtype :: body ∧
      lines_all beta_free body := by
  unfold gemm.main_kernel_text at hmain
  split at hmain
  · rename_i main_pass predicates tail_pass h1 h2 h3
    injection hmain with hmain
    refine ⟨(g.prologue e).tail ++
      ["//Outer loop", "while(K >=" ++ to_string g.p_.kL ++ ")", "\x7b"] ++ main_pass ++
      ["\x7d"] ++ predicates ++ tail_pass ++ g.write_back e, ?_, ?_⟩
    · rw [← hmain]
      nth_rewrite 1 [prologue_header g e]
      simp only [List.cons_append, List.append_assoc]
    · have hloop : lines_all beta_free
          ["//Outer loop", "while(K >=" ++ to_string g.p_.kL ++ ")", "\x7b"] := by
        refine lines_all_cons _ _ _ (by decide) (lines_all_cons _ _ _ ?_
          (lines_all_cons _ _ _ (by decide) (lines_all_nil _)))
        rw [← decimal_eq]
        exact beta_free_append_piece _ _ (beta_free_append_piece _ _ (by decide)
          (decimal_piece _)) (by decide)
      exact lines_all_append _ _ _ (lines_all_append _ _ _ (lines_all_append _ _ _
        (lines_all_append _ _ _ (lines_all_append _ _ _ (lines_all_append _ _ _
          (prologue_body_beta_free g e hb).2 hloop) (pass_beta_free g e _ hb _ h1))
          (lines_all_cons _ _ _ (by decide) (lines_all_nil _)))
          (tail_predicates_beta_free g _ h2)) (pass_beta_free g e _ hb _ h3))
        (write_back_beta_free g e hb hd)
  · cases hmain

/-- C22: in the write-back that `generate_impl` emits, for every `m < mS` and
`n < nS` exactly one line is the statement `rC[m][n] *= alpha;`, exactly one
line is the store of `rC[m][n]` guarded by `Ci < M`, and the scaling precedes
the store.  When `depth = 1` the store is
`C[i] = rC[m][n] + ((beta != (T)0)?(beta*C[i]):0)`, which reads `C` under the
test `beta != 0` only; when `depth > 1` it is `C[i] = rC[m][n]`, and no line
after the header of the main kernel contains `beta`, provided that the type name
has no `beta` and that the helpers add none to the texts they are given.  The
main kernel text exists when generation is defined. -/
theorem write_back_statements (g : gemm) (h : text_helpers) (suffix : String)
    (args : gemm_args) (sdtype : String) (backend : backend_type) (e : kernel_locals)
    (he : g.generate_impl_locals h suffix args sdtype backend = some e) :
    (∀ m n, m < g.p_.mS → n < g.p_.nS →
      (g.write_back e).count (scale_line m n) = 1 ∧
      (g.write_back e).count (g.store_line e m n) = 1 ∧
      ∃ pre mid post, g.write_back e =
        pre ++ [scale_line m n] ++ mid ++ [g.store_line e m n] ++ post) ∧
    (g.p_.depth = 1 → ∀ m n, g.store_line e m n =
      "if(" ++ to_string (g.Ci m) ++ "< M) " ++ ("C[" ++ to_string (g.Ci m) ++ e.CSTRIDE1 ++
        "] = rC[" ++ to_string m ++ "][" ++ to_string n ++ "] + ((beta != (" ++ e.sdtype ++
        ")0)?(beta*" ++ "C[" ++ to_string (g.Ci m) ++ e.CSTRIDE1 ++ "]):0);")) ∧
    (g.p_.depth > 1 → ∀ m n, g.store_line e m n =
      "if(" ++ to_string (g.Ci m) ++ "< M) " ++ ("C[" ++ to_string (g.Ci m) ++ e.CSTRIDE1 ++
        "] = rC[" ++ to_string m ++ "][" ++ to_string n ++ "];")) ∧
    (g.p_.depth > 1 → h.beta_free → beta_free sdtype →
      ∀ main, g.main_kernel_text e = some main →
        ∃ body, main = main_kernel_header e.suffix e.sdtype :: body ∧
          ∀ l ∈ body, beta_free l) ∧
    (g.generation_defined → ∃ main, g.main_kernel_text e = some main ∧
      ∃ rest, main = rest ++ g.write_back e) := by
  refine ⟨?_, ?_, ?_, ?_, ?_⟩
  · intro m n hm hn
    obtain ⟨c1, c2⟩ := write_back_counts g e m n hm hn
    exact ⟨c1, c2, write_back_order g e m n hm hn⟩
  · intro hd m n
    unfold gemm.store_line
    have : ¬ g.p_.depth > 1 := by omega
    rw [if_neg this]
  · intro hd m n
    unfold gemm.store_line
    rw [if_pos hd]
  · intro hd hh hs main hmain
    obtain ⟨body, h1, h2⟩ := main_body_beta_free g e
      (locals_beta_free g h suffix args sdtype backend e hh hs he) hd main hmain
    exact ⟨body, h1, h2⟩
  · intro hfit
    obtain ⟨main, hmain⟩ := main_kernel_text_returns g e hfit
    refine ⟨main, hmain, ?_⟩
    unfold gemm.main_kernel_text at hmain
    split at hmain
    · injection hmain with hmain
      exact ⟨_, hmain.symm⟩
    · cases hmain

theorem sample_helpers_beta_free : sample_helpers.beta_free := by
  refine ⟨?_, ?_, ?_, ?_, ?_⟩
  · intro t w ht
    show beta_free (if w = 1 then t else t ++ to_string w)
    split
    · exact ht
    · rw [← decimal_eq]
      exact beta_free_append_piece _ _ ht (decimal_piece _)
  · intro w t o p i b a _ ho hp _
    show beta_free ("vload(" ++ o ++ "," ++ p ++ ")")
    exact beta_free_append_piece _ _ (beta_free_append _ _ (clean_end_append_piece _ _
      (beta_free_append _ _ (clean_end_of_piece _ (by decide)) ho) (by decide)) hp) (by decide)
  · intro w t v o p i b _ hv ho hp _
    show beta_free ("vstore(" ++ v ++ "," ++ o ++ "," ++ p ++ ")")
    exact beta_free_append_piece _ _ (beta_free_append _ _ (clean_end_append_piece _ _
      (beta_free_append _ _ (clean_end_append_piece _ _
        (beta_free_append _ _ (clean_end_of_piece _ (by decide)) hv) (by decide)) ho)
      (by decide)) hp) (by decide)
  · intro b c x y hc hx hy
    show beta_free ("select(" ++ y ++ "," ++ x ++ "," ++ c ++ ")")
    exact beta_free_append_piece _ _ (beta_free_append _ _ (clean_end_append_piece _ _
      (beta_free_append _ _ (clean_end_append_piece _ _
        (beta_free_append _ _ (clean_end_of_piece _ (by decide)) hy) (by decide)) hx)
      (by decide)) hc) (by decide)
  · intro v s hv
    show beta_free (v ++ ".s" ++ to_string s)
    rw [← decimal_eq]
    exact beta_free_append_piece _ _ (beta_free_append_piece _ _ hv (by decide))
      (decimal_piece _)

/-- Witness for C22: in the kernel of the sample template with `depth = 4` the
write-back has one scaling and one store of `rC[0][0]`, and no line after the
header contains `beta`. -/
theorem write_back_statements_witness :
    ∃ e main body, split_gemm.generate_impl_locals sample_helpers "" launch_args "float"
        backend_type.OPENCL = some e ∧
      (split_gemm.write_back e).count (scale_line 0 0) = 1 ∧
      (split_gemm.write_back e).count (split_gemm.store_line e 0 0) = 1 ∧
      split_gemm.main_kernel_text e = some main ∧
      main = main_kernel_header e.suffix e.sdtype :: body ∧ ∀ l ∈ body, beta_free l := by
  obtain ⟨e, he, -⟩ := generate_impl_locals_returns split_gemm sample_helpers "" launch_args
    "float" backend_type.OPENCL (by decide)
  have hw := write_back_statements split_gemm sample_helpers "" launch_args "float"
    backend_type.OPENCL e he
  obtain ⟨main, hmain, -⟩ := hw.2.2.2.2 (by decide)
  obtain ⟨body, hb1, hb2⟩ := hw.2.2.2.1 (by decide) sample_helpers_beta_free (by decide)
    main hmain
  obtain ⟨c1, c2, -⟩ := hw.1 0 0 (by decide) (by decide)
  exact ⟨e, main, body, he, c1, c2, hmain, hb1, hb2⟩

end templates
end isaac

namespace atidlas

/-! ## Expression trees -/

theorem foldl_modify_range (f : node → node) :
    ∀ (n s : Nat) (tree : List node) (i : Nat),
      ((List.range' s n).foldl (fun t it => t.modify f it) tree)[i]? =
        if s ≤ i ∧ i < s + n then (tree[i]?).map f else tree[i]? := by
  intro n
  induction n with
  | zero =>
    intro s tree i
    have h : ¬ (s ≤ i ∧ i < s + 0) := by omega
    simp only [List.range', List.foldl_nil, if_neg h]
  | succ n ih =>
    intro s tree i
    simp only [List.range', List.foldl_cons]
    rw [ih (s + 1) (tree.modify f s) i]
    by_cases his : i = s
    · subst his
      have h1 : ¬ (i + 1 ≤ i ∧ i < i + 1 + n) := by omega
      have h2 : i ≤ i ∧ i < i + (n + 1) := by omega
      rw [if_neg h1, if_pos h2, List.getElem?_modify_eq]
      rfl
    · have hne : s ≠ i := fun h => his h.symm
      rw [List.getElem?_modify_ne f tree hne]
      by_cases hc : s + 1 ≤ i ∧ i < s + 1 + n
      · have hc' : s ≤ i ∧ i < s + (n + 1) := by omega
        rw [if_pos hc, if_pos hc']
      · have hc' : ¬ (s ≤ i ∧ i < s + (n + 1)) := by omega
        rw [if_neg hc, if_neg hc']

theorem foldl_modify_range_length (f : node → node) :
    ∀ (n s : Nat) (tree : List node),
      ((List.range' s n).foldl (fun t it => t.modify f it) tree).length = tree.length := by
  intro n
  induction n with
  | zero => intro s tree; rfl
  | succ n ih =>
    intro s tree
    simp only [List.range', List.foldl_cons]
    rw [ih (s + 1) (tree.modify f s), List.length_modify]

theorem expr_expr_length (lhs rhs : array_expression) (op : op_element)
    (dtype : numeric_type) (shape : size4) :
    (array_expression.expr_expr lhs rhs op dtype shape).tree_.length =
      lhs.tree_.length + rhs.tree_.length + 1 := by
  simp only [array_expression.expr_expr, foldl_modify_range_length, List.length_append,
    List.length_singleton]

theorem expr_expr_getElem (lhs rhs : array_expression) (op : op_element)
    (dtype : numeric_type) (shape : size4) (i : Nat) :
    (array_expression.expr_expr lhs rhs op dtype shape).tree_[i]? =
      if i < lhs.tree_.length then lhs.tree_[i]?
      else if i < lhs.tree_.length + rhs.tree_.length then
        (rhs.tree_[i - lhs.tree_.length]?).map (rebase_node lhs.tree_.length)
      else if i = lhs.tree_.length + rhs.tree_.length then
        some { lhs := fill_node_index lhs.root_, op := op,
               rhs := fill_node_index (lhs.tree_.length + rhs.root_) }
      else none := by
  simp only [array_expression.expr_expr, foldl_modify_range]
  by_cases h1 : i < lhs.tree_.length
  · have hc : ¬ (lhs.tree_.length ≤ i ∧ i < lhs.tree_.length + rhs.tree_.length) := by omega
    rw [if_neg hc, if_pos h1, List.append_assoc, List.getElem?_append_left h1]
  · rw [if_neg h1]
    have hle : lhs.tree_.length ≤ i := by omega
    by_cases h2 : i < lhs.tree_.length + rhs.tree_.length
    · have hc : lhs.tree_.length ≤ i ∧ i < lhs.tree_.length + rhs.tree_.length := ⟨hle, h2⟩
      have h3 : i - lhs.tree_.length < rhs.tree_.length := by omega
      rw [if_pos hc, if_pos h2, List.append_assoc, List.getElem?_append_right hle,
        List.getElem?_append_left h3]
    · have hc : ¬ (lhs.tree_.length ≤ i ∧ i < lhs.tree_.length + rhs.tree_.length) := by omega
      have h3 : rhs.tree_.length ≤ i - lhs.tree_.length := by omega
      rw [if_neg hc, if_neg h2, List.append_assoc, List.getElem?_append_right hle,
        List.getElem?_append_right h3]
      by_cases h4 : i = lhs.tree_.length + rhs.tree_.length
      · have h5 : i - lhs.tree_.length - rhs.tree_.length = 0 := by omega
        rw [if_pos h4, h5]
        rfl
      · rw [if_neg h4]
        have h5 : i - lhs.tree_.length - rhs.tree_.length =
            (i - lhs.tree_.length - rhs.tree_.length - 1) + 1 := by omega
        rw [h5]
        rfl

theorem operand_shifted_rebase (lsize : Nat) (x : lhs_rhs_element) :
    operand_shifted lsize x (rebase_element lsize x) := by
  cases x with
  | composite node_index =>
    refine ⟨rfl, fun h => ?_⟩
    simp only [rebase_element, Nat.mod_eq_of_lt h]
  | invalid => rfl
  | dense_array a => rfl
  | scalar v => rfl
  | infos r => rfl

theorem children_rebase_node (lsize : Nat) (n : node) (j : Nat)
    (hj : j ∈ (rebase_node lsize n).children) :
    ∃ j0, j0 ∈ n.children ∧ j ≤ j0 + lsize := by
  obtain ⟨l, o, r⟩ := n
  simp only [rebase_node, node.children, List.mem_append] at hj ⊢
  rcases hj with h | h
  · cases l with
    | composite idx =>
      simp only [rebase_element, List.mem_singleton] at h
      exact ⟨idx, Or.inl (List.mem_singleton.mpr rfl), h ▸ Nat.mod_le _ _⟩
    | invalid => simp [rebase_element] at h
    | dense_array a => simp [rebase_element] at h
    | scalar v => simp [rebase_element] at h
    | infos i => simp [rebase_element] at h
  · cases r with
    | composite idx =>
      simp only [rebase_element, List.mem_singleton] at h
      exact ⟨idx, Or.inr (List.mem_singleton.mpr rfl), h ▸ Nat.mod_le _ _⟩
    | invalid => simp [rebase_element] at h
    | dense_array a => simp [rebase_element] at h
    | scalar v => simp [rebase_element] at h
    | infos i => simp [rebase_element] at h

theorem children_fill (x : leaf) : ∀ j, j ∉
    (match fill x with
      | lhs_rhs_element.composite node_index => [node_index]
      | _ => []) := by
  intro j
  cases x <;> simp [fill]

theorem children_root_leaf (idx : Nat) (op : op_element) (x : leaf) (j : Nat)
    (hj : j ∈ ({ lhs := fill_node_index idx, op := op, rhs := fill x } : node).children) :
    j ≤ idx := by
  simp only [node.children, fill_node_index, List.mem_append, List.mem_singleton] at hj
  rcases hj with h | h
  · exact h ▸ Nat.mod_le _ _
  · exact absurd h (children_fill x j)

theorem children_leaf_root (idx : Nat) (op : op_element) (x : leaf) (j : Nat)
    (hj : j ∈ ({ lhs := fill x, op := op, rhs := fill_node_index idx } : node).children) :
    j ≤ idx := by
  simp only [node.children, fill_node_index, List.mem_append, List.mem_singleton] at hj
  rcases hj with h | h
  · exact absurd h (children_fill x j)
  · exact h ▸ Nat.mod_le _ _

theorem well_formed_leaf_leaf (lhs rhs : leaf) (op : op_element) (context : Nat)
    (dtype : numeric_type) (shape : size4) :
    (array_expression.leaf_leaf lhs rhs op context dtype shape).well_formed := by
  refine ⟨rfl, ?_⟩
  intro i n hn j hj
  simp only [array_expression.leaf_leaf] at hn
  cases i with
  | zero =>
    simp only [List.getElem?_cons_zero, Option.some.injEq] at hn
    subst hn
    simp only [node.children, List.mem_append] at hj
    rcases hj with h | h
    · exact absurd h (children_fill lhs j)
    · exact absurd h (children_fill rhs j)
  | succ i => simp at hn

theorem well_formed_append_root (e : array_expression) (he : e.well_formed) (r : node)
    (hr : ∀ j ∈ r.children, j ≤ e.root_) (i : Nat) (n : node)
    (hn : (e.tree_ ++ [r])[i]? = some n) : ∀ j ∈ n.children, j < i := by
  intro j hj
  by_cases hi : i < e.tree_.length
  · rw [List.getElem?_append_left hi] at hn
    exact he.2 i n hn j hj
  · have hle : e.tree_.length ≤ i := by omega
    rw [List.getElem?_append_right hle] at hn
    cases hk : i - e.tree_.length with
    | zero =>
      rw [hk] at hn
      simp only [List.getElem?_cons_zero, Option.some.injEq] at hn
      subst hn
      have h1 := hr j hj
      have h2 := he.1
      omega
    | succ k =>
      rw [hk] at hn
      simp at hn

theorem well_formed_expr_leaf (e : array_expression) (he : e.well_formed) (rhs : leaf)
    (op : op_element) (dtype : numeric_type) (shape : size4) :
    (array_expression.expr_leaf e rhs op dtype shape).well_formed := by
  refine ⟨?_, ?_⟩
  · simp only [array_expression.expr_leaf, List.length_append, List.length_singleton]
    omega
  · intro i n hn
    exact well_formed_append_root e he _ (children_root_leaf _ _ _) i n hn

theorem well_formed_leaf_expr (lhs : leaf) (e : array_expression) (he : e.well_formed)
    (op : op_element) (dtype : numeric_type) (shape : size4) :
    (array_expression.leaf_expr lhs e op dtype shape).well_formed := by
  refine ⟨?_, ?_⟩
  · simp only [array_expression.leaf_expr, List.length_append, List.length_singleton]
    omega
  · intro i n hn
    exact well_formed_append_root e he _ (children_leaf_root _ _ _) i n hn

theorem well_formed_expr_expr (lhs rhs : array_expression) (hl : lhs.well_formed)
    (hr : rhs.well_formed) (op : op_element) (dtype : numeric_type) (shape : size4) :
    (array_expression.expr_expr lhs rhs op dtype shape).well_formed := by
  refine ⟨?_, ?_⟩
  · have hlen := expr_expr_length lhs rhs op dtype shape
    have hroot : (array_expression.expr_expr lhs rhs op dtype shape).root_ =
        (array_expression.expr_expr lhs rhs op dtype shape).tree_.length - 1 := rfl
    omega
  · intro i n hn j hj
    rw [expr_expr_getElem] at hn
    by_cases h1 : i < lhs.tree_.length
    · rw [if_pos h1] at hn
      exact hl.2 i n hn j hj
    · rw [if_neg h1] at hn
      by_cases h2 : i < lhs.tree_.length + rhs.tree_.length
      · rw [if_pos h2] at hn
        cases hm : rhs.tree_[i - lhs.tree_.length]? with
        | none => rw [hm] at hn; simp at hn
        | some m =>
          rw [hm] at hn
          simp only [Option.map_some', Option.some.injEq] at hn
          subst hn
          obtain ⟨j0, hj0, hle⟩ := children_rebase_node _ m j hj
          have := hr.2 _ m hm j0 hj0
          omega
      · rw [if_neg h2] at hn
        by_cases h3 : i = lhs.tree_.length + rhs.tree_.length
        · rw [if_pos h3] at hn
          simp only [Option.some.injEq] at hn
          subst hn
          simp only [node.children, fill_node_index, List.mem_append, List.mem_singleton] at hj
          have h4 := hl.1
          have h5 := hr.1
          rcases hj with h | h
          · have := Nat.mod_le lhs.root_ UINT_RANGE
            omega
          · have := Nat.mod_le (lhs.tree_.length + rhs.root_) UINT_RANGE
            omega
        · rw [if_neg h3] at hn
          simp at hn

theorem reaches_lt (tree : List node)
    (h : ∀ (i : Nat) (n : node), tree[i]? = some n → ∀ j ∈ n.children, j < i)
    (i j : Nat) (hr : reaches tree i j) : j < i := by
  induction hr with
  | step hn hj => exact h _ _ hn _ hj
  | trans _ _ ih1 ih2 => omega

theorem lhs_chain_succ_front (tree : List node) (i : Nat) :
    ∀ k, lhs_chain tree i (k + 1) = (lhs_index tree i).bind (fun i' => lhs_chain tree i' k) := by
  intro k
  induction k with
  | zero =>
    simp only [lhs_chain, Option.some_bind]
    cases lhs_index tree i <;> rfl
  | succ k ih =>
    rw [lhs_chain, ih]
    cases lhs_index tree i with
    | none => rfl
    | some i' => simp only [Option.some_bind, lhs_chain]

theorem lhs_most_from_spec (tree : List node)
    (hwf : ∀ (i : Nat) (n : node), tree[i]? = some n → ∀ j ∈ n.children, j < i) :
    ∀ (i : Nat) (n : node), tree[i]? = some n →
      ∃ k j m, k ≤ i ∧ lhs_chain tree i k = some j ∧ tree[j]? = some m ∧
        m.lhs.is_composite = false ∧
        (∀ k', k' < k → ∃ j' m', lhs_chain tree i k' = some j' ∧ tree[j']? = some m' ∧
          m'.lhs.is_composite = true) ∧
        (∀ fuel, k < fuel → lhs_most_from tree fuel n = some m) ∧
        (n.lhs.is_composite = false → m = n) := by
  intro i
  induction i using Nat.strong_induction_on with
  | _ i ih =>
    intro n hn
    cases hl : n.lhs with
    | composite idx =>
      have hidx : idx < i := hwf i n hn idx (by
        simp only [node.children, hl, List.mem_append, List.mem_singleton, true_or])
      have hilt : i < tree.length := (List.getElem?_eq_some.mp hn).1
      have hidxlt : idx < tree.length := by omega
      have hn1 : tree[idx]? = some (tree[idx]) := List.getElem?_eq_getElem hidxlt
      obtain ⟨k, j, m, hk, hchain, hm, hmc, hall, hfuel, -⟩ := ih idx hidx _ hn1
      have hli : lhs_index tree i = some idx := by
        simp only [lhs_index, hn, hl]
      refine ⟨k + 1, j, m, by omega, ?_, hm, hmc, ?_, ?_, ?_⟩
      · rw [lhs_chain_succ_front, hli, Option.some_bind, hchain]
      · intro k' hk'
        cases k' with
        | zero =>
          exact ⟨i, n, rfl, hn, by simp only [hl, lhs_rhs_element.is_composite]⟩
        | succ k'' =>
          obtain ⟨j', m', h1, h2, h3⟩ := hall k'' (by omega)
          refine ⟨j', m', ?_, h2, h3⟩
          rw [lhs_chain_succ_front, hli, Option.some_bind, h1]
      · intro fuel hf
        cases fuel with
        | zero => omega
        | succ f =>
          simp only [lhs_most_from, hl, hn1]
          exact hfuel f (by omega)
      · intro hc
        simp only [hl, lhs_rhs_element.is_composite] at hc
        exact absurd hc (by decide)
    | invalid =>
      refine ⟨0, i, n, Nat.zero_le _, rfl, hn,
        by simp only [hl, lhs_rhs_element.is_composite], fun k' hk' => absurd hk' (by omega),
        ?_, fun _ => rfl⟩
      intro fuel hf
      cases fuel with
      | zero => omega
      | succ f => simp only [lhs_most_from, hl]
    | dense_array a =>
      refine ⟨0, i, n, Nat.zero_le _, rfl, hn,
        by simp only [hl, lhs_rhs_element.is_composite], fun k' hk' => absurd hk' (by omega),
        ?_, fun _ => rfl⟩
      intro fuel hf
      cases fuel with
      | zero => omega
      | succ f => simp only [lhs_most_from, hl]
    | scalar v =>
      refine ⟨0, i, n, Nat.zero_le _, rfl, hn,
        by simp only [hl, lhs_rhs_element.is_composite], fun k' hk' => absurd hk' (by omega),
        ?_, fun _ => rfl⟩
      intro fuel hf
      cases fuel with
      | zero => omega
      | succ f => simp only [lhs_most_from, hl]
    | infos r =>
      refine ⟨0, i, n, Nat.zero_le _, rfl, hn,
        by simp only [hl, lhs_rhs_element.is_composite], fun k' hk' => absurd hk' (by omega),
        ?_, fun _ => rfl⟩
      intro fuel hf
      cases fuel with
      | zero => omega
      | succ f => simp only [lhs_most_from, hl]

theorem lhs_most_from_fixed (tree : List node) (m : node)
    (hm : m.lhs.is_composite = false) (fuel : Nat) (hf : 0 < fuel) :
    lhs_most_from tree fuel m = some m := by
  cases fuel with
  | zero => omega
  | succ f =>
    cases hl : m.lhs with
    | composite idx =>
      simp only [hl, lhs_rhs_element.is_composite] at hm
      exact absurd hm (by decide)
    | invalid => simp only [lhs_most_from, hl]
    | dense_array a => simp only [lhs_most_from, hl]
    | scalar v => simp only [lhs_most_from, hl]
    | infos r => simp only [lhs_most_from, hl]

/-- C11 (amended): the constructor from two expressions yields a tree of size
`|lhs| + |rhs| + 1` whose root is the last index; nodes `0..|lhs|-1` are the
nodes of `lhs`, node `|lhs| + i` is node `i` of `rhs` with the same operator and
with each operand of the composite family increased by `|lhs|` (as an
`unsigned int`: the sum itself whenever it fits) and every other operand
unchanged, and the root has operator `op`, left operand `lhs.root` and right
operand `|lhs| + rhs.root` (again as `unsigned int` values). -/
theorem concatenation_layout (lhs rhs : array_expression) (op : op_element)
    (dtype : numeric_type) (shape : size4) :
    (array_expression.expr_expr lhs rhs op dtype shape).tree_.length =
      lhs.tree_.length + rhs.tree_.length + 1 ∧
    (array_expression.expr_expr lhs rhs op dtype shape).root_ =
      lhs.tree_.length + rhs.tree_.length ∧
    (∀ i, i < lhs.tree_.length →
      (array_expression.expr_expr lhs rhs op dtype shape).tree_[i]? = lhs.tree_[i]?) ∧
    (∀ (i : Nat) (n : node), rhs.tree_[i]? = some n →
      ∃ n', (array_expression.expr_expr lhs rhs op dtype shape).tree_[lhs.tree_.length + i]?
          = some n' ∧
        n'.op = n.op ∧ operand_shifted lhs.tree_.length n.lhs n'.lhs ∧
        operand_shifted lhs.tree_.length n.rhs n'.rhs) ∧
    (∃ r, (array_expression.expr_expr lhs rhs op dtype shape).tree_[
          (array_expression.expr_expr lhs rhs op dtype shape).root_]? = some r ∧
        r.op = op ∧
        r.lhs = lhs_rhs_element.composite (lhs.root_ % UINT_RANGE) ∧
        r.rhs = lhs_rhs_element.composite ((lhs.tree_.length + rhs.root_) % UINT_RANGE) ∧
        (lhs.root_ < UINT_RANGE → r.lhs = lhs_rhs_element.composite lhs.root_) ∧
        (lhs.tree_.length + rhs.root_ < UINT_RANGE →
          r.rhs = lhs_rhs_element.composite (lhs.tree_.length + rhs.root_))) := by
  have hlen := expr_expr_length lhs rhs op dtype shape
  have hroot : (array_expression.expr_expr lhs rhs op dtype shape).root_ =
      lhs.tree_.length + rhs.tree_.length := by
    have h0 : (array_expression.expr_expr lhs rhs op dtype shape).root_ =
        (array_expression.expr_expr lhs rhs op dtype shape).tree_.length - 1 := rfl
    omega
  refine ⟨hlen, hroot, ?_, ?_, ?_⟩
  · intro i hi
    rw [expr_expr_getElem, if_pos hi]
  · intro i n hn
    have hi : i < rhs.tree_.length := (List.getElem?_eq_some.mp hn).1
    have h1 : ¬ lhs.tree_.length + i < lhs.tree_.length := by omega
    have h2 : lhs.tree_.length + i < lhs.tree_.length + rhs.tree_.length := by omega
    have h3 : lhs.tree_.length + i - lhs.tree_.length = i := by omega
    refine ⟨rebase_node lhs.tree_.length n, ?_, rfl, operand_shifted_rebase _ _,
      operand_shifted_rebase _ _⟩
    rw [expr_expr_getElem, if_neg h1, if_pos h2, h3, hn]
    rfl
  · have h1 : ¬ lhs.tree_.length + rhs.tree_.length < lhs.tree_.length := by omega
    have h2 : ¬ lhs.tree_.length + rhs.tree_.length < lhs.tree_.length + rhs.tree_.length := by
      omega
    refine ⟨{ lhs := fill_node_index lhs.root_, op := op,
              rhs := fill_node_index (lhs.tree_.length + rhs.root_) }, ?_, rfl, rfl, rfl, ?_, ?_⟩
    · rw [hroot, expr_expr_getElem, if_neg h1, if_neg h2, if_pos rfl]
    · intro h
      simp only [fill_node_index, Nat.mod_eq_of_lt h]
    · intro h
      simp only [fill_node_index, Nat.mod_eq_of_lt h]

/-- Witness for C11: concatenating the two-node sample tree with itself gives
five nodes; node 3 is node 1 of the right operand with its left index 0 moved to
2, and the root refers to the indices 1 and 3. -/
theorem concatenation_layout_witness :
    sample_concatenation.tree_.length = 5 ∧ sample_concatenation.root_ = 4 ∧
    sample_concatenation.tree_[1]? = sample_left_tree.tree_[1]? ∧
    (∃ n', sample_concatenation.tree_[2 + 1]? = some n' ∧
      n'.lhs = lhs_rhs_element.composite 2) ∧
    (∃ r, sample_concatenation.tree_[4]? = some r ∧
      r.lhs = lhs_rhs_element.composite 1 ∧ r.rhs = lhs_rhs_element.composite 3) := by
  have h := concatenation_layout sample_left_tree sample_left_tree (sample_op 3)
    (numeric_type.other 0) { dim1 := 4, dim2 := 4 }
  obtain ⟨h1, h2, h3, h4, r, hr, -, -, -, hr1, hr2⟩ := h
  refine ⟨h1, h2, h3 1 (by decide), ?_, ⟨r, hr, hr1 (by decide), hr2 (by decide)⟩⟩
  obtain ⟨n', hn', -, hs, -⟩ := h4 1 _ (by decide : sample_left_tree.tree_[1]? = some
    { lhs := lhs_rhs_element.composite 0, op := sample_op 2,
      rhs := lhs_rhs_element.dense_array (sample_array 2) })
  exact ⟨n', hn', hs.2 (by decide)⟩

/-- C12: well-formedness (`root = size - 1`, every operand index of node `i`
below `i`) is an invariant of tree building.  The constructor from two leaves
yields a well-formed tree; the constructors from an expression and a leaf, a
leaf and an expression, and two expressions, and the unary `operator-` and
`operator!`, yield a well-formed tree from well-formed arguments; and in a
well-formed tree the root reaches only indices below the root. -/
theorem well_formed_invariant :
    (∀ (lhs rhs : leaf) (op : op_element) (context : Nat) (dtype : numeric_type)
        (shape : size4),
      (array_expression.leaf_leaf lhs rhs op context dtype shape).well_formed) ∧
    (∀ (e : array_expression) (x : leaf) (op : op_element) (dtype : numeric_type)
        (shape : size4), e.well_formed →
      (array_expression.expr_leaf e x op dtype shape).well_formed ∧
      (array_expression.leaf_expr x e op dtype shape).well_formed) ∧
    (∀ (lhs rhs : array_expression) (op : op_element) (dtype : numeric_type)
        (shape : size4), lhs.well_formed → rhs.well_formed →
      (array_expression.expr_expr lhs rhs op dtype shape).well_formed) ∧
    (∀ e : array_expression, e.well_formed → e.neg.well_formed ∧ e.logical_not.well_formed) ∧
    (∀ (e : array_expression) (j : Nat), e.well_formed → reaches e.tree_ e.root_ j →
      j < e.root_) := by
  refine ⟨well_formed_leaf_leaf, ?_, ?_, ?_, ?_⟩
  · intro e x op dtype shape he
    exact ⟨well_formed_expr_leaf e he x op dtype shape,
      well_formed_leaf_expr x e he op dtype shape⟩
  · intro lhs rhs op dtype shape hl hr
    exact well_formed_expr_expr lhs rhs hl hr op dtype shape
  · intro e he
    exact ⟨well_formed_expr_leaf e he _ _ _ _, well_formed_expr_leaf e he _ _ _ _⟩
  · intro e j he hr
    exact reaches_lt e.tree_ he.2 _ _ hr

/-- Witness for C12: the sample trees built by the constructors are
well-formed, and the root of the five-node concatenation, which reaches index 3
through its right operand, reaches it below the root index 4. -/
theorem well_formed_invariant_witness :
    sample_leaf_tree.well_formed ∧ sample_left_tree.well_formed ∧
    sample_concatenation.well_formed ∧ sample_concatenation.neg.well_formed ∧
    reaches sample_concatenation.tree_ sample_concatenation.root_ 3 ∧
    3 < sample_concatenation.root_ := by
  have hleaf : sample_leaf_tree.well_formed := well_formed_invariant.1 _ _ _ _ _ _
  have hleft : sample_left_tree.well_formed := (well_formed_invariant.2.1 _ _ _ _ _ hleaf).1
  have hcat : sample_concatenation.well_formed :=
    well_formed_invariant.2.2.1 _ _ _ _ _ hleft hleft
  have hreach : reaches sample_concatenation.tree_ sample_concatenation.root_ 3 :=
    @reaches.step sample_concatenation.tree_ sample_concatenation.root_ 3
      { lhs := lhs_rhs_element.composite 1, op := sample_op 3,
        rhs := lhs_rhs_element.composite 3 } (by decide) (by decide)
  exact ⟨hleaf, hleft, hcat, (well_formed_invariant.2.2.2.1 _ hcat).1, hreach,
    well_formed_invariant.2.2.2.2 _ _ hcat hreach⟩

/-- C13: in a well-formed tree, for every index `i` of the tree, `lhs_most`
terminates: there is a position `k <= i` on the chain `i, lhs(i), lhs(lhs(i)),
...` such that every earlier node of the chain has a left operand of the
composite family, the node `m` at position `k` has not, and every run with more
than `k` tests of the loop condition returns `m`.  If the left operand of node
`i` is not of the composite family, `m` is node `i` itself; and `lhs_most`
applied to the node `m` returns `m` again. -/
theorem lhs_most_first_non_composite (e : array_expression) (he : e.well_formed) (i : Nat)
    (hi : i < e.tree_.length) :
    ∃ k j m, k ≤ i ∧ lhs_chain e.tree_ i k = some j ∧ e.tree_[j]? = some m ∧
      m.lhs.is_composite = false ∧
      (∀ k', k' < k → ∃ j' m', lhs_chain e.tree_ i k' = some j' ∧ e.tree_[j']? = some m' ∧
        m'.lhs.is_composite = true) ∧
      (∀ fuel, k < fuel → lhs_most e.tree_ fuel i = some m) ∧
      (∀ n, e.tree_[i]? = some n → n.lhs.is_composite = false → m = n) ∧
      (∀ fuel, 0 < fuel → lhs_most_from e.tree_ fuel m = some m) := by
  have hn : e.tree_[i]? = some (e.tree_[i]) := List.getElem?_eq_getElem hi
  obtain ⟨k, j, m, hk, hchain, hm, hmc, hall, hfuel, hself⟩ :=
    lhs_most_from_spec e.tree_ he.2 i _ hn
  refine ⟨k, j, m, hk, hchain, hm, hmc, hall, ?_, ?_, ?_⟩
  · intro fuel hf
    simp only [lhs_most, hn]
    exact hfuel fuel hf
  · intro n hn' hc
    rw [hn] at hn'
    simp only [Option.some.injEq] at hn'
    subst hn'
    exact hself hc
  · intro fuel hf
    exact lhs_most_from_fixed e.tree_ m hmc fuel hf

/-- Witness for C13: from the root (index 4) of the five-node concatenation
`lhs_most` has a result, reached on the chain 4, 1, 0. -/
theorem lhs_most_first_non_composite_witness :
    ∃ k j m, k ≤ 4 ∧ lhs_chain sample_concatenation.tree_ 4 k = some j ∧
      sample_concatenation.tree_[j]? = some m ∧ m.lhs.is_composite = false ∧
      lhs_most sample_concatenation.tree_ 5 4 = some m := by
  have hwf : sample_concatenation.well_formed :=
    well_formed_expr_expr _ _
      (well_formed_expr_leaf _ (well_formed_leaf_leaf _ _ _ _ _ _) _ _ _ _)
      (well_formed_expr_leaf _ (well_formed_leaf_leaf _ _ _ _ _ _) _ _ _ _) _ _ _
  obtain ⟨k, j, m, hk, hchain, hm, hmc, -, hfuel, -, -⟩ :=
    lhs_most_first_non_composite sample_concatenation hwf 4 (by decide)
  exact ⟨k, j, m, hk, hchain, hm, hmc, hfuel 5 (by omega)⟩

/-! ## Denotation and concatenation -/

theorem denote_from_succ (array : List node) (fuel i : Nat) (n : node)
    (hn : array[i]? = some n) :
    denote_from array (fuel + 1) i =
      match expand_operand (fun j => denote_from array fuel j) n.lhs,
            expand_operand (fun j => denote_from array fuel j) n.rhs with
      | some l, some r => some (term.apply n.op l r)
      | _, _ => none := by
  simp only [denote_from, hn]

theorem expand_operand_congr (f g : Nat → Option term) (x : lhs_rhs_element)
    (h : ∀ j, x = lhs_rhs_element.composite j → f j = g j) :
    expand_operand f x = expand_operand g x := by
  cases x with
  | composite j => exact h j rfl
  | invalid => rfl
  | dense_array a => rfl
  | scalar v => rfl
  | infos r => rfl

theorem mem_children_lhs (n : node) (j : Nat) (h : n.lhs = lhs_rhs_element.composite j) :
    j ∈ n.children := by
  unfold node.children
  rw [h]
  simp

theorem mem_children_rhs (n : node) (j : Nat) (h : n.rhs = lhs_rhs_element.composite j) :
    j ∈ n.children := by
  unfold node.children
  rw [h]
  simp

theorem denote_from_fuel (array : List node)
    (hwf : ∀ (i : Nat) (n : node), array[i]? = some n → ∀ j ∈ n.children, j < i) :
    ∀ (i fuel : Nat), i < fuel → denote_from array fuel i = denote_from array (i + 1) i := by
  intro i
  induction i using Nat.strong_induction_on with
  | _ i ih =>
    intro fuel hf
    obtain ⟨f, rfl⟩ : ∃ f, fuel = f + 1 := ⟨fuel - 1, by omega⟩
    cases hn : array[i]? with
    | none => simp only [denote_from, hn]
    | some n =>
      rw [denote_from_succ array f i n hn, denote_from_succ array i i n hn]
      have hl : expand_operand (fun j => denote_from array f j) n.lhs =
          expand_operand (fun j => denote_from array i j) n.lhs := by
        apply expand_operand_congr
        intro j hj
        have hlt := hwf i n hn j (mem_children_lhs n j hj)
        show denote_from array f j = denote_from array i j
        rw [ih j hlt f (by omega), ih j hlt i hlt]
      have hr : expand_operand (fun j => denote_from array f j) n.rhs =
          expand_operand (fun j => denote_from array i j) n.rhs := by
        apply expand_operand_congr
        intro j hj
        have hlt := hwf i n hn j (mem_children_rhs n j hj)
        show denote_from array f j = denote_from array i j
        rw [ih j hlt f (by omega), ih j hlt i hlt]
      rw [hl, hr]

theorem denote_from_total (array : List node)
    (hwf : ∀ (i : Nat) (n : node), array[i]? = some n → ∀ j ∈ n.children, j < i) :
    ∀ (i : Nat), i < array.length → ∃ t, denote_from array (i + 1) i = some t := by
  intro i
  induction i using Nat.strong_induction_on with
  | _ i ih =>
    intro hi
    obtain ⟨n, hn⟩ : ∃ n, array[i]? = some n := ⟨array[i], List.getElem?_eq_getElem hi⟩
    rw [denote_from_succ array i i n hn]
    have hop : ∀ x, (∀ j, x = lhs_rhs_element.composite j → j < i) →
        ∃ t, expand_operand (fun j => denote_from array i j) x = some t := by
      intro x hx
      cases x with
      | composite j =>
        have hlt := hx j rfl
        obtain ⟨t, ht⟩ := ih j hlt (by omega)
        exact ⟨t, by
          show denote_from array i j = some t
          rw [denote_from_fuel array hwf j i hlt, ht]⟩
      | invalid => exact ⟨_, rfl⟩
      | dense_array a => exact ⟨_, rfl⟩
      | scalar v => exact ⟨_, rfl⟩
      | infos r => exact ⟨_, rfl⟩
    obtain ⟨l, hl⟩ := hop n.lhs (fun j hj => hwf i n hn j (mem_children_lhs n j hj))
    obtain ⟨r, hr⟩ := hop n.rhs (fun j hj => hwf i n hn j (mem_children_rhs n j hj))
    rw [hl, hr]
    exact ⟨_, rfl⟩

theorem denote_from_prefix (a b : List node) (bound : Nat)
    (hwf : ∀ (i : Nat) (n : node), a[i]? = some n → ∀ j ∈ n.children, j < i)
    (hab : ∀ i, i < bound → b[i]? = a[i]?) :
    ∀ (i : Nat), i < bound → denote_from b (i + 1) i = denote_from a (i + 1) i := by
  have hfuel : ∀ (k fuel : Nat), k < bound → k < fuel →
      denote_from b fuel k = denote_from b (k + 1) k := by
    intro k
    induction k using Nat.strong_induction_on with
    | _ k ihk =>
      intro fuel hk hf
      obtain ⟨f, rfl⟩ : ∃ f, fuel = f + 1 := ⟨fuel - 1, by omega⟩
      cases hkn : a[k]? with
      | none =>
        have hkb : b[k]? = none := by rw [hab k hk, hkn]
        simp only [denote_from, hkb]
      | some m =>
        have hkb : b[k]? = some m := by rw [hab k hk, hkn]
        rw [denote_from_succ b f k m hkb, denote_from_succ b k k m hkb]
        have hc : ∀ y, (∀ j, y = lhs_rhs_element.composite j → j < k) →
            expand_operand (fun j => denote_from b f j) y =
              expand_operand (fun j => denote_from b k j) y := by
          intro y hy
          apply expand_operand_congr
          intro j hj
          have hlt := hy j hj
          show denote_from b f j = denote_from b k j
          rw [ihk j hlt f (by omega) (by omega), ihk j hlt k (by omega) hlt]
        rw [hc m.lhs (fun j hj => hwf k m hkn j (mem_children_lhs m j hj)),
          hc m.rhs (fun j hj => hwf k m hkn j (mem_children_rhs m j hj))]
  intro i
  induction i using Nat.strong_induction_on with
  | _ i ih =>
    intro hi
    cases hn : a[i]? with
    | none => simp only [denote_from, hab i hi, hn]
    | some n =>
      have hnb : b[i]? = some n := by rw [hab i hi, hn]
      rw [denote_from_succ b i i n hnb, denote_from_succ a i i n hn]
      have hop : ∀ x, (∀ j, x = lhs_rhs_element.composite j → j < i) →
          expand_operand (fun j => denote_from b i j) x =
            expand_operand (fun j => denote_from a i j) x := by
        intro x hx
        apply expand_operand_congr
        intro j hj
        have hlt := hx j hj
        show denote_from b i j = denote_from a i j
        rw [hfuel j i (by omega) hlt, denote_from_fuel a hwf j i hlt, ih j hlt (by omega)]
      rw [hop n.lhs (fun j hj => hwf i n hn j (mem_children_lhs n j hj)),
        hop n.rhs (fun j hj => hwf i n hn j (mem_children_rhs n j hj))]

theorem expand_operand_rebase (lsize : Nat) (f g : Nat → Option term) (x : lhs_rhs_element)
    (h : ∀ j, x = lhs_rhs_element.composite j → f ((j + lsize) % UINT_RANGE) = g j) :
    expand_operand f (rebase_element lsize x) = expand_operand g x := by
  cases x with
  | composite j => exact h j rfl
  | invalid => rfl
  | dense_array a => rfl
  | scalar v => rfl
  | infos r => rfl

theorem denote_from_shift (a cat : List node) (lsize : Nat)
    (hwf : ∀ (i : Nat) (n : node), a[i]? = some n → ∀ j ∈ n.children, j < i)
    (hwfc : ∀ (i : Nat) (n : node), cat[i]? = some n → ∀ j ∈ n.children, j < i)
    (hfit : lsize + a.length ≤ UINT_RANGE)
    (hac : ∀ i, i < a.length → cat[lsize + i]? = (a[i]?).map (rebase_node lsize)) :
    ∀ (i : Nat), i < a.length →
      denote_from cat (lsize + i + 1) (lsize + i) = denote_from a (i + 1) i := by
  intro i
  induction i using Nat.strong_induction_on with
  | _ i ih =>
    intro hi
    have hn : a[i]? = some a[i] := List.getElem?_eq_getElem hi
    have hnc : cat[lsize + i]? = some (rebase_node lsize a[i]) := by
      rw [hac i hi, hn]
      rfl
    rw [denote_from_succ cat (lsize + i) (lsize + i) _ hnc, denote_from_succ a i i _ hn]
    have hop : ∀ x, (∀ j, x = lhs_rhs_element.composite j → j < i) →
        expand_operand (fun j => denote_from cat (lsize + i) j) (rebase_element lsize x) =
          expand_operand (fun j => denote_from a i j) x := by
      intro x hx
      apply expand_operand_rebase
      intro j hj
      have hlt := hx j hj
      show denote_from cat (lsize + i) ((j + lsize) % UINT_RANGE) = denote_from a i j
      rw [Nat.mod_eq_of_lt (by omega), Nat.add_comm j lsize,
        denote_from_fuel cat hwfc (lsize + j) (lsize + i) (by omega),
        denote_from_fuel a hwf j i hlt, ih j hlt (by omega)]
    show (match expand_operand (fun j => denote_from cat (lsize + i) j)
              (rebase_element lsize a[i].lhs),
            expand_operand (fun j => denote_from cat (lsize + i) j)
              (rebase_element lsize a[i].rhs) with
      | some l, some r => some (term.apply a[i].op l r)
      | _, _ => none) = _
    rw [hop a[i].lhs (fun j hj => hwf i _ hn j (mem_children_lhs _ j hj)),
      hop a[i].rhs (fun j hj => hwf i _ hn j (mem_children_rhs _ j hj))]

theorem lhs_most_from_prefix (a b : List node) (bound : Nat)
    (hwf : ∀ (i : Nat) (n : node), a[i]? = some n → ∀ j ∈ n.children, j < i)
    (hab : ∀ i, i < bound → b[i]? = a[i]?) :
    ∀ (fuel i : Nat) (n : node), i < bound → a[i]? = some n →
      lhs_most_from b fuel n = lhs_most_from a fuel n := by
  intro fuel
  induction fuel with
  | zero => intro i n _ _; rfl
  | succ fuel ih =>
    intro i n hi hn
    cases hlhs : n.lhs with
    | composite j =>
      have hlt := hwf i n hn j (mem_children_lhs n j hlhs)
      simp only [lhs_most_from, hlhs, hab j (by omega)]
      cases hj : a[j]? with
      | none => rfl
      | some next => exact ih j next (by omega) hj
    | invalid => simp only [lhs_most_from, hlhs]
    | dense_array x => simp only [lhs_most_from, hlhs]
    | scalar v => simp only [lhs_most_from, hlhs]
    | infos r => simp only [lhs_most_from, hlhs]

/-- C30 (amended): for well-formed `lhs` and `rhs` whose node counts sum to at
most `2^32` (every index of the concatenation below the new root is an
`unsigned int`), the tree `cat` built by the two-expression constructor
satisfies `denote(cat, lhs.root) = denote(lhs, lhs.root)`,
`denote(cat, |lhs| + rhs.root) = denote(rhs, rhs.root)` and
`denote(cat, cat.root) = op(denote(lhs, lhs.root), denote(rhs, rhs.root))`, all
three terms being defined; and `lhs_most(cat, cat.root)` is the node
`lhs_most(lhs, lhs.root)`, reached with one more test of the loop condition. -/
theorem concatenation_preserves_meaning (lhs rhs : array_expression)
    (hl : lhs.well_formed) (hr : rhs.well_formed) (op : op_element)
    (dtype : numeric_type) (shape : size4)
    (hfit : lhs.tree_.length + rhs.tree_.length ≤ UINT_RANGE) :
    denote (array_expression.expr_expr lhs rhs op dtype shape) lhs.root_ =
      denote lhs lhs.root_ ∧
    denote (array_expression.expr_expr lhs rhs op dtype shape)
        (lhs.tree_.length + rhs.root_) = denote rhs rhs.root_ ∧
    (∃ tl tr, denote lhs lhs.root_ = some tl ∧ denote rhs rhs.root_ = some tr ∧
      denote (array_expression.expr_expr lhs rhs op dtype shape)
        (array_expression.expr_expr lhs rhs op dtype shape).root_ =
          some (term.apply op tl tr)) ∧
    (∀ fuel, lhs_most (array_expression.expr_expr lhs rhs op dtype shape).tree_ (fuel + 1)
        (array_expression.expr_expr lhs rhs op dtype shape).root_ =
      lhs_most lhs.tree_ fuel lhs.root_) ∧
    (∃ m, ∀ fuel, lhs.tree_.length < fuel → lhs_most lhs.tree_ fuel lhs.root_ = some m) := by
  have hcat := well_formed_expr_expr lhs rhs hl hr op dtype shape
  have hlen := expr_expr_length lhs rhs op dtype shape
  have hget := expr_expr_getElem lhs rhs op dtype shape
  have hroot : (array_expression.expr_expr lhs rhs op dtype shape).root_ =
      lhs.tree_.length + rhs.tree_.length := by
    have := hcat.1
    omega
  have hlroot : lhs.root_ < lhs.tree_.length := by have := hl.1; omega
  have hrroot : rhs.root_ < rhs.tree_.length := by have := hr.1; omega
  have hpre : ∀ i, i < lhs.tree_.length →
      (array_expression.expr_expr lhs rhs op dtype shape).tree_[i]? = lhs.tree_[i]? := by
    intro i hi
    rw [hget i, if_pos hi]
  have hsh : ∀ i, i < rhs.tree_.length →
      (array_expression.expr_expr lhs rhs op dtype shape).tree_[lhs.tree_.length + i]? =
        (rhs.tree_[i]?).map (rebase_node lhs.tree_.length) := by
    intro i hi
    rw [hget (lhs.tree_.length + i), if_neg (by omega), if_pos (by omega)]
    congr 2
    omega
  have h1 : denote (array_expression.expr_expr lhs rhs op dtype shape) lhs.root_ =
      denote lhs lhs.root_ :=
    denote_from_prefix lhs.tree_ _ lhs.tree_.length hl.2 hpre lhs.root_ hlroot
  have h2 : denote (array_expression.expr_expr lhs rhs op dtype shape)
      (lhs.tree_.length + rhs.root_) = denote rhs rhs.root_ :=
    denote_from_shift rhs.tree_ _ lhs.tree_.length hr.2 hcat.2 hfit hsh rhs.root_ hrroot
  obtain ⟨tl, htl⟩ := denote_from_total lhs.tree_ hl.2 lhs.root_ hlroot
  obtain ⟨tr, htr⟩ := denote_from_total rhs.tree_ hr.2 rhs.root_ hrroot
  have hrootnode : (array_expression.expr_expr lhs rhs op dtype shape).tree_[
      lhs.tree_.length + rhs.tree_.length]? =
      some { lhs := fill_node_index lhs.root_, op := op,
             rhs := fill_node_index (lhs.tree_.length + rhs.root_) } := by
    rw [hget, if_neg (by omega), if_neg (by omega), if_pos rfl]
  have hfl : fill_node_index lhs.root_ = lhs_rhs_element.composite lhs.root_ := by
    unfold fill_node_index
    rw [Nat.mod_eq_of_lt (by omega)]
  have hfr : fill_node_index (lhs.tree_.length + rhs.root_) =
      lhs_rhs_element.composite (lhs.tree_.length + rhs.root_) := by
    unfold fill_node_index
    rw [Nat.mod_eq_of_lt (by omega)]
  refine ⟨h1, h2, ⟨tl, tr, htl, htr, ?_⟩, ?_, ?_⟩
  · unfold denote
    rw [hroot, denote_from_succ _ _ _ _ hrootnode, hfl, hfr]
    show (match denote_from _ (lhs.tree_.length + rhs.tree_.length) lhs.root_,
        denote_from _ (lhs.tree_.length + rhs.tree_.length) (lhs.tree_.length + rhs.root_) with
      | some l, some r => some (term.apply op l r)
      | _, _ => none) = _
    rw [denote_from_fuel _ hcat.2 lhs.root_ _ (by omega),
      denote_from_fuel _ hcat.2 (lhs.tree_.length + rhs.root_) _ (by omega)]
    have h1' := h1
    have h2' := h2
    unfold denote at h1' h2'
    rw [h1', h2']
    have htl' := htl
    have htr' := htr
    rw [htl', htr']
  · intro fuel
    unfold lhs_most
    rw [hroot, hrootnode, hfl]
    have hn0 : lhs.tree_[lhs.root_]? = some lhs.tree_[lhs.root_] :=
      List.getElem?_eq_getElem hlroot
    rw [hn0]
    simp only [lhs_most_from, hpre lhs.root_ hlroot, hn0]
    exact lhs_most_from_prefix lhs.tree_ _ lhs.tree_.length hl.2 hpre fuel lhs.root_ _ hlroot hn0
  · have hn0 : lhs.tree_[lhs.root_]? = some lhs.tree_[lhs.root_] :=
      List.getElem?_eq_getElem hlroot
    obtain ⟨k, j, m, hk, -, -, -, -, hfuel, -⟩ :=
      lhs_most_from_spec lhs.tree_ hl.2 lhs.root_ _ hn0
    refine ⟨m, fun fuel hf => ?_⟩
    unfold lhs_most
    rw [hn0]
    exact hfuel fuel (by omega)

theorem chain_tree_getElem (n i : Nat) :
    (chain_tree n).tree_[i]? =
      if i = 0 then some first_node
      else if i ≤ n then some (chain_node (i - 1)) else none := by
  cases i with
  | zero =>
    rw [if_pos rfl]
    simp only [chain_tree, List.getElem?_cons_zero]
  | succ k =>
    simp only [chain_tree, List.getElem?_cons_succ, List.getElem?_map]
    rw [if_neg (by omega)]
    by_cases hk : k < n
    · rw [List.getElem?_range hk, if_pos (by omega)]
      rfl
    · rw [List.getElem?_eq_none (by rw [List.length_range]; omega), if_neg (by omega)]
      rfl

theorem chain_tree_length (n : Nat) : (chain_tree n).tree_.length = n + 1 := by
  simp only [chain_tree, List.length_cons, List.length_map, List.length_range]

theorem chain_tree_well_formed (n : Nat) : (chain_tree n).well_formed := by
  refine ⟨by rw [chain_tree_length]; rfl, ?_⟩
  intro i m hm j hj
  rw [chain_tree_getElem] at hm
  by_cases h0 : i = 0
  · rw [if_pos h0] at hm
    injection hm with hm
    subst hm
    simp [node.children, first_node] at hj
  · rw [if_neg h0] at hm
    by_cases h1 : i ≤ n
    · rw [if_pos h1] at hm
      injection hm with hm
      subst hm
      simp [node.children, chain_node] at hj
      omega
    · rw [if_neg h1] at hm
      cases hm

theorem chain_concatenation_wraps (n : Nat) (hn : n + 1 = UINT_RANGE) :
    ¬ (∃ tl tr, denote (chain_tree n) (chain_tree n).root_ = some tl ∧
        denote other_leaf_tree other_leaf_tree.root_ = some tr ∧
        denote (array_expression.expr_expr (chain_tree n) other_leaf_tree (sample_op 3)
            (numeric_type.other 0) { dim1 := 4, dim2 := 4 })
          (array_expression.expr_expr (chain_tree n) other_leaf_tree (sample_op 3)
            (numeric_type.other 0) { dim1 := 4, dim2 := 4 }).root_ =
          some (term.apply (sample_op 3) tl tr)) := by
  have hl := chain_tree_well_formed n
  have hr : other_leaf_tree.well_formed := well_formed_leaf_leaf _ _ _ _ _ _
  have hcat := well_formed_expr_expr (chain_tree n) other_leaf_tree hl hr (sample_op 3)
    (numeric_type.other 0) { dim1 := 4, dim2 := 4 }
  have hget := expr_expr_getElem (chain_tree n) other_leaf_tree (sample_op 3)
    (numeric_type.other 0) { dim1 := 4, dim2 := 4 }
  have hrlen : other_leaf_tree.tree_.length = 1 := rfl
  have hrroot : other_leaf_tree.root_ = 0 := rfl
  have hlroot : (chain_tree n).root_ = n := rfl
  have hroot : (array_expression.expr_expr (chain_tree n) other_leaf_tree (sample_op 3)
      (numeric_type.other 0) { dim1 := 4, dim2 := 4 }).root_ = n + 2 := by
    have h1 := hcat.1
    have h2 := expr_expr_length (chain_tree n) other_leaf_tree (sample_op 3)
      (numeric_type.other 0) { dim1 := 4, dim2 := 4 }
    rw [chain_tree_length, hrlen] at h2
    omega
  rintro ⟨tl, tr, htl, htr, hc⟩
  have htr' : tr = term.apply (sample_op 5)
      (term.operand (lhs_rhs_element.dense_array (sample_array 3)))
      (term.operand (lhs_rhs_element.dense_array (sample_array 4))) := by
    have : denote other_leaf_tree other_leaf_tree.root_ = some (term.apply (sample_op 5)
      (term.operand (lhs_rhs_element.dense_array (sample_array 3)))
      (term.operand (lhs_rhs_element.dense_array (sample_array 4)))) := rfl
    rw [this] at htr
    injection htr with htr
    exact htr.symm
  have hfr : fill_node_index ((chain_tree n).tree_.length + other_leaf_tree.root_) =
      lhs_rhs_element.composite 0 := by
    unfold fill_node_index
    rw [chain_tree_length, hrroot, Nat.add_zero, hn, Nat.mod_self]
  have hrootnode : (array_expression.expr_expr (chain_tree n) other_leaf_tree (sample_op 3)
      (numeric_type.other 0) { dim1 := 4, dim2 := 4 }).tree_[n + 2]? =
      some { lhs := fill_node_index n, op := sample_op 3,
             rhs := lhs_rhs_element.composite 0 } := by
    rw [hget, chain_tree_length, hrlen, if_neg (by omega), if_neg (by omega), if_pos rfl,
      ← hfr, hlroot, chain_tree_length]
  have hnode0 : (array_expression.expr_expr (chain_tree n) other_leaf_tree (sample_op 3)
      (numeric_type.other 0) { dim1 := 4, dim2 := 4 }).tree_[0]? = some first_node := by
    rw [hget, chain_tree_length, if_pos (by omega), chain_tree_getElem, if_pos rfl]
  have hd0 : denote_from (array_expression.expr_expr (chain_tree n) other_leaf_tree (sample_op 3)
      (numeric_type.other 0) { dim1 := 4, dim2 := 4 }).tree_ (n + 2) 0 =
      some (term.apply (sample_op 1)
        (term.operand (lhs_rhs_element.dense_array (sample_array 0)))
        (term.operand (lhs_rhs_element.dense_array (sample_array 1)))) := by
    rw [denote_from_fuel _ hcat.2 0 _ (by omega), denote_from_succ _ 0 0 _ hnode0]
    rfl
  unfold denote at hc
  rw [hroot, denote_from_succ _ _ _ _ hrootnode] at hc
  simp only [expand_operand, hd0] at hc
  split at hc
  · rename_i l r hl' hr'
    injection hr' with hr'
    injection hc with hc
    injection hc with _ _ hc3
    rw [htr', ← hr'] at hc3
    revert hc3
    decide
  · cases hc

/-- C30 (as stated) fails: `long_chain_tree` (a left-leaning chain of `2^32`
nodes) and `other_leaf_tree` (one node) are well-formed, but in their
concatenation the right operand of the root is the index `2^32 + 0` stored as
an `unsigned int`, that is 0: the root denotes
`op(denote(lhs, lhs.root), a0 op a1)`, with the first node of `lhs` in the place
of `denote(rhs, rhs.root) = a3 op a4`. -/
theorem concatenation_index_wraps :
    long_chain_tree.well_formed ∧ other_leaf_tree.well_formed ∧
    long_chain_tree.tree_.length = 4294967296 ∧
    ¬ (∃ tl tr, denote long_chain_tree long_chain_tree.root_ = some tl ∧
        denote other_leaf_tree other_leaf_tree.root_ = some tr ∧
        denote (array_expression.expr_expr long_chain_tree other_leaf_tree (sample_op 3)
            (numeric_type.other 0) { dim1 := 4, dim2 := 4 })
          (array_expression.expr_expr long_chain_tree other_leaf_tree (sample_op 3)
            (numeric_type.other 0) { dim1 := 4, dim2 := 4 }).root_ =
          some (term.apply (sample_op 3) tl tr)) :=
  ⟨chain_tree_well_formed 4294967295, well_formed_leaf_leaf _ _ _ _ _ _,
   chain_tree_length 4294967295, chain_concatenation_wraps 4294967295 rfl⟩

/-- Witness for C30 (amended): in the five-node sample concatenation the copy
of the left root denotes what it denoted in the left operand, and the root
denotes the operator applied to the two operand terms. -/
theorem concatenation_preserves_meaning_witness :
    denote sample_concatenation sample_left_tree.root_ =
      denote sample_left_tree sample_left_tree.root_ ∧
    (∃ tl tr, denote sample_left_tree sample_left_tree.root_ = some tl ∧
      denote sample_left_tree sample_left_tree.root_ = some tr ∧
      denote sample_concatenation sample_concatenation.root_ =
        some (term.apply (sample_op 3) tl tr)) :=
  ⟨(concatenation_preserves_meaning sample_left_tree sample_left_tree
      (well_formed_expr_leaf sample_leaf_tree (well_formed_leaf_leaf _ _ _ _ _ _) _ _ _ _)
      (well_formed_expr_leaf sample_leaf_tree (well_formed_leaf_leaf _ _ _ _ _ _) _ _ _ _)
      (sample_op 3) (numeric_type.other 0) { dim1 := 4, dim2 := 4 } (by decide)).1,
   (concatenation_preserves_meaning sample_left_tree sample_left_tree
      (well_formed_expr_leaf sample_leaf_tree (well_formed_leaf_leaf _ _ _ _ _ _) _ _ _ _)
      (well_formed_expr_leaf sample_leaf_tree (well_formed_leaf_leaf _ _ _ _ _ _) _ _ _ _)
      (sample_op 3) (numeric_type.other 0) { dim1 := 4, dim2 := 4 } (by decide)).2.2.1⟩


theorem chain_concatenation_root (n : Nat) (hn : n + 1 = UINT_RANGE) :
    ∃ r, (array_expression.expr_expr (chain_tree n) other_leaf_tree (sample_op 3)
          (numeric_type.other 0) { dim1 := 4, dim2 := 4 }).tree_[
        (array_expression.expr_expr (chain_tree n) other_leaf_tree (sample_op 3)
          (numeric_type.other 0) { dim1 := 4, dim2 := 4 }).root_]? = some r ∧
      r.rhs = lhs_rhs_element.composite 0 ∧
      r.rhs ≠ lhs_rhs_element.composite (n + 1 + 0) := by
  have hget := expr_expr_getElem (chain_tree n) other_leaf_tree (sample_op 3)
    (numeric_type.other 0) { dim1 := 4, dim2 := 4 }
  have hrlen : other_leaf_tree.tree_.length = 1 := rfl
  have hrroot : other_leaf_tree.root_ = 0 := rfl
  have hlroot : (chain_tree n).root_ = n := rfl
  have hroot : (array_expression.expr_expr (chain_tree n) other_leaf_tree (sample_op 3)
      (numeric_type.other 0) { dim1 := 4, dim2 := 4 }).root_ = n + 2 := by
    have h0 : (array_expression.expr_expr (chain_tree n) other_leaf_tree (sample_op 3)
        (numeric_type.other 0) { dim1 := 4, dim2 := 4 }).root_ =
        (array_expression.expr_expr (chain_tree n) other_leaf_tree (sample_op 3)
          (numeric_type.other 0) { dim1 := 4, dim2 := 4 }).tree_.length - 1 := rfl
    have h2 := expr_expr_length (chain_tree n) other_leaf_tree (sample_op 3)
      (numeric_type.other 0) { dim1 := 4, dim2 := 4 }
    rw [chain_tree_length, hrlen] at h2
    omega
  have hfr : fill_node_index ((chain_tree n).tree_.length + other_leaf_tree.root_) =
      lhs_rhs_element.composite 0 := by
    unfold fill_node_index
    rw [chain_tree_length, hrroot, Nat.add_zero, hn, Nat.mod_self]
  refine ⟨{ lhs := fill_node_index n, op := sample_op 3,
            rhs := lhs_rhs_element.composite 0 }, ?_, rfl, ?_⟩
  · rw [hroot, hget, chain_tree_length, hrlen, if_neg (by omega), if_neg (by omega),
      if_pos rfl, ← hfr, hlroot, chain_tree_length]
  · intro h
    injection h with h
    unfold UINT_RANGE at hn
    omega

/-- C11 (as stated) fails.  For the well-formed chain of `2^32` nodes and the
one-node tree `a3 op a4` (root 0), the right operand of the new root is the
index 0, the `unsigned int` value of `|lhs| + rhs.root = 2^32 + 0`, not the
index `2^32`.  For the two-node sample tree and a one-node tree whose left operand
names the index `2^32 - 1`, node `|lhs| + 0 = 2` of the result has the left
operand 1, the `unsigned int` value of `2^32 - 1 + 2`, not `2^32 + 1`. -/
theorem concatenation_layout_wraps :
    long_chain_tree.well_formed ∧ other_leaf_tree.well_formed ∧
    long_chain_tree.tree_.length = 4294967296 ∧ other_leaf_tree.root_ = 0 ∧
    (∃ r, (array_expression.expr_expr long_chain_tree other_leaf_tree (sample_op 3)
          (numeric_type.other 0) { dim1 := 4, dim2 := 4 }).tree_[
        (array_expression.expr_expr long_chain_tree other_leaf_tree (sample_op 3)
          (numeric_type.other 0) { dim1 := 4, dim2 := 4 }).root_]? = some r ∧
      r.rhs = lhs_rhs_element.composite 0 ∧
      r.rhs ≠ lhs_rhs_element.composite (4294967296 + 0)) ∧
    sample_left_tree.tree_.length = 2 ∧
    far_index_tree.tree_[0]? = some
      { lhs := lhs_rhs_element.composite 4294967295, op := sample_op 4,
        rhs := lhs_rhs_element.dense_array (sample_array 1) } ∧
    (array_expression.expr_expr sample_left_tree far_index_tree (sample_op 3)
        (numeric_type.other 0) { dim1 := 4, dim2 := 4 }).tree_[2 + 0]? = some
      { lhs := lhs_rhs_element.composite 1, op := sample_op 4,
        rhs := lhs_rhs_element.dense_array (sample_array 1) } ∧
    lhs_rhs_element.composite 1 ≠ lhs_rhs_element.composite (4294967295 + 2) := by
  exact ⟨chain_tree_well_formed 4294967295, well_formed_leaf_leaf _ _ _ _ _ _,
    chain_tree_length 4294967295, rfl, chain_concatenation_root 4294967295 rfl, rfl, rfl,
    by decide, by decide⟩

end atidlas
